import Mathlib

/-!
# luabass : the MIDI-out engine of expresseur  (src/luabass/luabass.cpp)

Shallow embedding of the message scheduling, channel-multiplexing,
volume-curve and chord-expansion engine.

Conventions of the embedding

* a C `int` / `long` is a mathematical integer (`Int`); on the MIDI ranges the
  engine works with no signed operation overflows.  C integer division
  truncates toward zero : `Int.tdiv`.
* a C `unsigned long` is a natural number below `2 ^ LONG_BITS`; every
  conversion of a signed value to `unsigned long` is written `toULong`
  (reduction modulo `2 ^ LONG_BITS`).
* a `BYTE` is a natural number below 256; a conversion to `BYTE` is `toBYTE`.
* a global array is a total function of its index (the cells inside the array
  bounds are the array, the other cells are whatever memory holds there).
* the global variables of the translation unit are the fields of `T_state`;
  every function takes the state and returns the new state.
* the operating-system transport and the LUA interpreter are collaborators :
  each call of `sendshortmsg` is recorded in the field `transport`, each call
  of `sendmsgdt` in the field `dispatched`, each message handed to `sendmsg`
  by the flush of the queue in the field `flushed`.
-/

namespace Luabass

/-! ## Constants -/

/-- Constant `#define MAXCURVE 10` -/
def MAXCURVE : Int := 10
/-- Constant `#define MAXPOINT 10` -/
def MAXPOINT : Int := 10
/-- Constant `#define MAXTRACK 32` -/
def MAXTRACK : Int := 32
/-- Constant `#define CHORDMAXPITCH 24` -/
def CHORDMAXPITCH : Int := 24
/-- Constant `#define CHORDMAX 40` -/
def CHORDMAX : Int := 40
/-- Constant `#define OUT_QUEUE_MAX_MSG 1024` -/
def OUT_QUEUE_MAX_MSG : Int := 1024
/-- Constant `#define timer_dt 20` : ms between two timer interrupts on output -/
def timer_dt : Int := 20
/-- Constant `#define OUT_QUEUE_FLUSH 0` -/
def OUT_QUEUE_FLUSH : Int := 0
/-- Constant `#define OUT_QUEUE_NOTEOFF 1` -/
def OUT_QUEUE_NOTEOFF : Int := 1
/-- Constant `#define MIDI_NOTEOFF 8` -/
def MIDI_NOTEOFF : Nat := 8
/-- Constant `#define MIDI_NOTEON 9` -/
def MIDI_NOTEON : Nat := 9
/-- Constant `#define MIDI_KEYPRESSURE 10` -/
def MIDI_KEYPRESSURE : Nat := 10
/-- Constant `#define MIDI_CONTROL 11` -/
def MIDI_CONTROL : Nat := 11
/-- Constant `#define MIDI_PROGRAM 12` -/
def MIDI_PROGRAM : Nat := 12
/-- Constant `#define MIDI_CHANNELPRESSURE 13` -/
def MIDI_CHANNELPRESSURE : Nat := 13
/-- Constant `#define MIDI_PITCHBEND 14` -/
def MIDI_PITCHBEND : Nat := 14
/-- Constant `#define MIDI_SYSTEMCOMMON 15` -/
def MIDI_SYSTEMCOMMON : Nat := 15

/-- Modelled from the spec: `MAXCHANNEL` is defined in the header `global.h`,
which is not part of the sources at hand.  The spec's glossary gives the
physical channels of a device as 0–15, and `channel_extended_set` scans
"starting from 16, 15, 14..." : sixteen channels. -/
def MAXCHANNEL : Int := 16

/-- Constants of the missing headers and of the platform, taken as parameters :
the width of a C `long`, the number of output devices, of MIDI-out devices,
the device number of the first virtual instrument, and `RAND_MAX`. -/
structure T_platform where
  LONG_BITS : Nat
  OUT_MAX_DEVICE : Int
  MIDIOUT_MAX : Int
  VI_ZERO : Int
  RAND_MAX : Int

/-- Conversion of a signed value to `unsigned long`. -/
def toULong (pf : T_platform) (x : Int) : Nat := (x % (2 : Int) ^ pf.LONG_BITS).toNat

/-- Conversion of an `int` to `BYTE`. -/
def toBYTE (x : Int) : Nat := (x % 256).toNat

/-! ## Data model -/

/-- Structure `T_midioutmsg` : a short MIDI message (`midimsg.bData[0..3]`) with the
information used to track its output. -/
structure T_midioutmsg where
  id : Int
  track : Int
  dt : Int
  nbbyte : Nat
  bData0 : Nat
  bData1 : Nat
  bData2 : Nat
  bData3 : Nat
deriving DecidableEq, Repr

/-- Structure `T_curve` : the points of a volume curve, `x[MAXPOINT]` and `y[MAXPOINT]`. -/
structure T_curve where
  x : Int → Int
  y : Int → Int

/-- Structure `T_track` : properties of a track. -/
structure T_track where
  device : Int
  channel : Int
  volume : Int
  mute : Bool
  nrCurve : Int

/-- Structure `T_chord` : information to play a chord. -/
structure T_chord where
  id : Int
  dt : Int
  dv : Int
  pitch : Int → Int
  nbPitch : Int
  nbOff : Int
  msg_off : Int → T_midioutmsg

/-- Structure `T_queue_msg` : a slot of the queue of pending MIDI-out messages. -/
structure T_queue_msg where
  midioutmsg : T_midioutmsg
  t : Int
  free : Bool
deriving DecidableEq, Repr

/-- One call of the transport (`sendshortmsg`) : the device and the three
bytes of the short message. -/
structure T_sent where
  device : Int
  bData0 : Nat
  bData1 : Nat
  bData2 : Nat
deriving DecidableEq, Repr

/-- The static variables of luabass.cpp, followed by the collaborators
(LUA hook, transport result, `rand()`) and the two call logs. -/
structure T_state where
  g_transposition : Int
  g_midiopened : Int → Bool
  g_vi_opened_nb : Int
  g_channels : Int → Int → Int
  g_midistatuspitch : Int → Int → Int → Nat
  g_midistatuscontrol : Int → Int → Int → Nat
  g_miditimepitch : Int → Int → Int → Nat
  g_miditimecontrol : Int → Int → Int → Nat
  g_chordCompensation : Int
  g_randomDelay : Int
  g_randomVelocity : Int
  g_unique_id : Int
  g_tracks : Int → T_track
  g_volume : Int
  g_curves : Int → T_curve
  g_chords : Int → T_chord
  g_current_t : Int
  g_queue_msg : Int → T_queue_msg
  g_end_queue_msg : Int
  g_max_queue_msg : Int
  /-- Flag `g_LUAoutState != 0` : a LUA state for the process of midiout messages is installed -/
  g_LUAoutState : Bool
  /-- the LUA part of `processPostMidiOut` : `none` when it returns false,
  `some l` when it returns true after sending the replacement messages `l` -/
  lua_post : T_midioutmsg → Option (List T_midioutmsg)
  /-- result of the operating-system send on a MIDI-out device -/
  midi_out_ok : Int → Bool
  /-- the values returned by the successive calls of `rand()` -/
  rand_values : Nat → Int
  rand_count : Nat
  /-- log of the calls of `sendshortmsg`, oldest first -/
  transport : List T_sent
  /-- log of the calls of `sendmsgdt`, oldest first -/
  dispatched : List T_midioutmsg
  /-- log of the messages which the flush of `unqueue` hands to `sendmsg`,
  oldest first -/
  flushed : List T_midioutmsg

/-- Update of one cell of a one-dimensional array. -/
def set1 {α : Type} (a : Int → α) (i : Int) (v : α) : Int → α :=
  fun j => if j = i then v else a j

/-- Update of one cell of a two-dimensional array. -/
def set2 {α : Type} (a : Int → Int → α) (i j : Int) (v : α) : Int → Int → α :=
  fun i1 => if i1 = i then set1 (a i) j v else a i1

/-- Update of one cell of a three-dimensional array. -/
def set3 {α : Type} (a : Int → Int → Int → α) (i j k : Int) (v : α) : Int → Int → Int → α :=
  fun i1 => if i1 = i then set2 (a i) j k v else a i1

/-! ## Volume / curve transform -/

/-- Function `cap(vin, min, max, offset)` : `-offset` is applied to `vin`; returns the
value inside the range `[min..max[`. -/
def cap (vin min max offset : Int) : Int :=
  let v := vin - offset
  if v < min then min
  else if v ≥ max then max - 1
  else v

/-- The loop `while ((n < MAXPOINT) && (curve->x[n] >= 0) && (vout > curve->x[n])) n++;`
of `apply_volume`.  The loop leaves after at most `MAXPOINT` increments, so
`curve_scan curve vout 10 0` is its exact result. -/
def curve_scan (curve : T_curve) (vout : Int) : Nat → Int → Int
  | 0, n => n
  | fuel + 1, n =>
    if n < MAXPOINT ∧ curve.x n ≥ 0 ∧ vout > curve.x n then curve_scan curve vout fuel (n + 1)
    else n

/-- The block `if (t->nrCurve > 0) { ... }` of `apply_volume` : interpolation
of `vout` on the segment of the curve which brackets it. -/
def apply_curve (curve : T_curve) (vout : Int) : Int :=
  let n := curve_scan curve vout 10 0
  let seg : Int × Int × Int × Int :=
    if n ≥ MAXPOINT ∨ curve.x n < 0 then
      (curve.x (n - 1), curve.y (n - 1), 127, 127)
    else if n = 0 then
      (1, 1, curve.x 0, curve.y 0)
    else
      (curve.x (n - 1), curve.y (n - 1), curve.x n, curve.y n)
  let x0 := seg.1
  let y0 := seg.2.1
  let x1 := if seg.2.2.1 = x0 then x0 + 1 else seg.2.2.1
  let y1 := seg.2.2.2
  y0 + ((vout - x0) * (y1 - y0)).tdiv (x1 - x0)

/-- The block `if (volume != 64) { ... }` of `apply_volume`, written twice in
the source : once with the volume of the track, once with the main volume. -/
def apply_warp (volume vout : Int) : Int :=
  if volume ≠ 64 then
    let seg : Int × Int × Int × Int :=
      if volume < 64 then (1, 1, 127, 2 * volume)
      else (1, (volume - 64) * 2, 127, 127)
    let x0 := seg.1
    let y0 := seg.2.1
    let x1 := seg.2.2.1
    let y1 := seg.2.2.2
    cap (y0 + ((vout - x0) * (y1 - y0)).tdiv (x1 - x0)) 1 128 0
  else vout

/-- Function `apply_volume(nrTrack, v)` -/
def apply_volume (s : T_state) (nrTrack v : Int) : Int :=
  if nrTrack < 0 ∨ nrTrack ≥ MAXTRACK then v
  else
    let t := s.g_tracks nrTrack
    let mainvolume := s.g_volume
    if t.volume = 64 ∧ mainvolume = 64 ∧ (t.nrCurve < 0 ∨ (s.g_curves t.nrCurve).x 0 = -1) then
      cap v 0 128 0
    else if t.mute then 0
    else
      let vout1 := if t.nrCurve > 0 then apply_curve (s.g_curves t.nrCurve) v else v
      let vout2 := apply_warp t.volume vout1
      let vout3 := apply_warp mainvolume vout2
      cap vout3 1 128 0

/-! ## Initialisation -/

/-- The curve written by `curve_init` : every point is `-1`. -/
def curve_empty : T_curve := { x := fun _ => -1, y := fun _ => -1 }

/-- The track written by `track_init` : neutral volume, not muted, no device
and no channel attached, no curve. -/
def track_unattached : T_track :=
  { device := -2, channel := -2, volume := 64, mute := false, nrCurve := 0 }

/-- A message with all its fields zero (static storage). -/
def midioutmsg_zero : T_midioutmsg :=
  { id := 0, track := 0, dt := 0, nbbyte := 0, bData0 := 0, bData1 := 0, bData2 := 0, bData3 := 0 }

/-- The chord written by `chord_init`. -/
def chord_free : T_chord :=
  { id := -1, dt := 0, dv := 0, pitch := fun _ => 0, nbPitch := 0, nbOff := 0,
    msg_off := fun _ => midioutmsg_zero }

/-- Function `channel_extended_init()` : all channels are unused. -/
def channel_extended_init (s : T_state) : T_state :=
  { s with g_channels := fun _ _ => -1 }

/-- The state after the initialisation functions `picth_init`, `chord_init`,
`channel_extended_init`, `track_init`, `curve_init`, `fifo_init`, `midi_init`
and the static initialisers (`g_volume = 64`, `g_unique_id = 128`,
`g_current_t = 0`, `g_transposition = 0`, no LUA state), with nothing sent. -/
def init_state (pf : T_platform) : T_state :=
  { g_transposition := 0
    g_midiopened := fun _ => false
    g_vi_opened_nb := 0
    g_channels := fun _ _ => -1
    g_midistatuspitch := fun _ _ _ => toULong pf (-1)
    g_midistatuscontrol := fun _ _ _ => toULong pf (-1)
    g_miditimepitch := fun _ _ _ => 0
    g_miditimecontrol := fun _ _ _ => 0
    g_chordCompensation := 0
    g_randomDelay := 0
    g_randomVelocity := 0
    g_unique_id := 128
    g_tracks := fun _ => track_unattached
    g_volume := 64
    g_curves := fun _ => curve_empty
    g_chords := fun _ => chord_free
    g_current_t := 0
    g_queue_msg := fun _ => { midioutmsg := midioutmsg_zero, t := 0, free := true }
    g_end_queue_msg := 0
    g_max_queue_msg := 0
    g_LUAoutState := false
    lua_post := fun _ => none
    midi_out_ok := fun _ => true
    rand_values := fun _ => 0
    rand_count := 0
    transport := []
    dispatched := []
    flushed := [] }

/-- Function `LoutTrackMute` : parameter #1 `mute` (mute = 0, unmute = 1, toggle = 2),
parameter #2 the track number as given by the script (1-based). -/
def LoutTrackMute (s : T_state) (mute nrTrackArg : Int) : T_state :=
  let nrTrack := cap nrTrackArg 0 MAXTRACK 1
  let t := s.g_tracks nrTrack
  if mute = 0 then { s with g_tracks := set1 s.g_tracks nrTrack { t with mute := true } }
  else if mute = 1 then { s with g_tracks := set1 s.g_tracks nrTrack { t with mute := false } }
  else if mute = 2 then { s with g_tracks := set1 s.g_tracks nrTrack { t with mute := !t.mute } }
  else s

/-! ## Channel multiplexer -/

/-- The loop `for (n = 0; n < MAXCHANNEL; n++) if (row[n].extended == nr_channel) nb++;`
of `channel_extended_set`, on the row of one device. -/
def count_extended (row : Int → Int) (nr_channel : Int) : Nat → Int → Int
  | 0, _ => 0
  | fuel + 1, n =>
    (if row n = nr_channel then 1 else 0) + count_extended row nr_channel fuel (n + 1)

/-- The loop `for (n = 0; n < MAXCHANNEL; n++) if (row[n].extended == nr_channel) row[n].extended = -1;`
of `channel_extended_set`, on the row of one device. -/
def free_extended (row : Int → Int) (nr_channel : Int) : Nat → Int → (Int → Int)
  | 0, _ => row
  | fuel + 1, n =>
    free_extended (if row n = nr_channel then set1 row n (-1) else row) nr_channel fuel (n + 1)

/-- The loop `while (row[m].extended != -1) { m--; if (except_channel10 && m == 9) m--;
if (m <= nr_channel) return -1; }` of `channel_extended_set`.  `none` is the
`return(-1)`, `some m` the value of `m` when the loop is left.  `m` decreases
at each turn and stays above `nr_channel`, so that from `m = MAXCHANNEL - 1`
and with `nr_channel ≥ 0` sixteen turns are never exhausted (see
`search_unused_fuel`). -/
def search_unused (row : Int → Int) (nr_channel : Int) (except_channel10 : Bool) :
    Nat → Int → Option Int
  | 0, _ => none
  | fuel + 1, m =>
    if row m ≠ -1 then
      let m1 := m - 1
      let m2 := if except_channel10 ∧ m1 = 9 then m1 - 1 else m1
      if m2 ≤ nr_channel then none
      else search_unused row nr_channel except_channel10 fuel m2
    else some m

/-- The loop `for (n = 0; n < nb_additional_channel; n++) { ... }` of
`channel_extended_set` : `todo` turns are left, `m` is the next candidate.
Returns the return code (`-1` from inside the loop, `0` after it) and the row. -/
def extend_loop (nr_channel : Int) (except_channel10 : Bool) :
    Nat → Int → (Int → Int) → Int × (Int → Int)
  | 0, _, row => (0, row)
  | todo + 1, m, row =>
    let m1 := if except_channel10 ∧ m = 9 then m - 1 else m
    if m1 ≤ nr_channel then (-1, row)
    else
      let row1 := if row m1 = -1 then set1 row m1 nr_channel else row
      extend_loop nr_channel except_channel10 todo (m1 - 1) row1

/-- The second half of `channel_extended_set`, from `int m = MAXCHANNEL - 1;`
to the end : search of a channel not yet used, then extension on the last
ones `m, m-1, m-2, ...`.  Return code and new row. -/
def channel_extended_alloc (row : Int → Int) (nr_channel nb_additional_channel : Int)
    (except_channel10 : Bool) : Int × (Int → Int) :=
  match search_unused row nr_channel except_channel10 16 (MAXCHANNEL - 1) with
  | none => (-1, row)
  | some m => extend_loop nr_channel except_channel10 nb_additional_channel.toNat m row

/-- Function `channel_extended_set` on the row `g_channels[nr_device]` : return code and
new row. -/
def channel_extended_row (row : Int → Int) (nr_channel nb_additional_channel : Int)
    (except_channel10 : Bool) : Int × (Int → Int) :=
  if row nr_channel = nr_channel ∧ count_extended row nr_channel 16 0 = nb_additional_channel then
    (1, row)
  else
    let row1 := if row nr_channel = nr_channel then free_extended row nr_channel 16 0 else row
    let row2 := set1 row1 nr_channel nr_channel
    channel_extended_alloc row2 nr_channel nb_additional_channel except_channel10

/-- Function `channel_extended_set(nr_device, nr_channel, nb_additional_channel, except_channel10)` :
return code and new state. -/
def channel_extended_set (s : T_state) (nr_device nr_channel nb_additional_channel : Int)
    (except_channel10 : Bool) : Int × T_state :=
  let r := channel_extended_row (s.g_channels nr_device) nr_channel nb_additional_channel
    except_channel10
  (r.1, { s with g_channels := set1 s.g_channels nr_device r.2 })

/-- The channel extension maps reachable from the reset map
(`channel_extended_init`) by calls of `channel_extended_set` on a logical
channel 0..15. -/
inductive ReachableChannels : (Int → Int → Int) → Prop
  | reset : ReachableChannels (fun _ _ => -1)
  | extend (s : T_state) (nr_device nr_channel nb_additional_channel : Int)
      (except_channel10 : Bool) :
      ReachableChannels s.g_channels → 0 ≤ nr_channel → nr_channel < MAXCHANNEL →
      ReachableChannels
        (channel_extended_set s nr_device nr_channel nb_additional_channel except_channel10).2.g_channels

/-- Invariant of the reachable maps : a logical channel which owns some
physical channel of a device owns its own channel on that device. -/
def OwnerOwnsItself (g : Int → Int → Int) : Prop :=
  ∀ d j c : Int, 0 ≤ j → j < 16 → 0 ≤ c → g d j = c → g d c = c

/-- Number of physical channels other than `nr_channel` itself which are owned
by the logical channel `nr_channel` on the row of a device. -/
def nb_owned_others (row : Int → Int) (nr_channel : Int) : Nat :=
  ((List.range 16).filter (fun n => decide ((n : Int) ≠ nr_channel ∧ row n = nr_channel))).length

/-! ## Delivery queue, dedup and dispatch -/

/-- The loop `while (p < 0) p += 12;`.  Each turn adds 12, so `p.natAbs` turns
are never exhausted. -/
def pitch_raise : Nat → Int → Int
  | 0, p => p
  | fuel + 1, p => if p < 0 then pitch_raise fuel (p + 12) else p

/-- The loop `while (p > 127) p -= 12;`.  Each turn subtracts 12, so `p.natAbs`
turns are never exhausted. -/
def pitch_lower : Nat → Int → Int
  | 0, p => p
  | fuel + 1, p => if p > 127 then pitch_lower fuel (p - 12) else p

/-- Loops `while (p < 0) p += 12; while (p > 127) p -= 12;` (order of `sendmidimsg`,
`LoutChordSet` and `LoutChordOn`). -/
def pitch_wrap (p : Int) : Int :=
  let p1 := pitch_raise p.natAbs p
  pitch_lower p1.natAbs p1

/-- Loops `while (p > 127) p -= 12; while (p < 0) p += 12;` (order of `LoutNoteOn`
and `LoutNoteOff`). -/
def pitch_wrap_note (p : Int) : Int :=
  let p1 := pitch_lower p.natAbs p
  pitch_raise p1.natAbs p1

/-- The first index in `c0, c0 + 1, ...` (`fuel` of them) which satisfies `P` :
the shape of the loops which leave at the first cell found, that is the two
loops `for (c = 0; c < MAXCHANNEL; c++) if (...) { ...; return(true); }` of
`sendmidimsg` and the loop `for (n = 0; n < OUT_QUEUE_MAX_MSG; n++, pt++) if (pt->free) { ...; break; }`
of `queue_insert`. -/
def first_index (P : Int → Bool) : Nat → Int → Option Int
  | 0, _ => none
  | fuel + 1, c => if P c then some c else first_index P fuel (c + 1)

/-- Function `sendshortmsg(midioutmsg, first)` : one call of the transport on the device
of the track.  A virtual instrument (`nr_device >= VI_ZERO`) always returns
true, a MIDI-out device returns the result of the operating system. -/
def sendshortmsg (pf : T_platform) (s : T_state) (midioutmsg : T_midioutmsg) : Bool × T_state :=
  let nr_device := (s.g_tracks midioutmsg.track).device
  let s1 := { s with transport := s.transport ++
    [{ device := nr_device, bData0 := midioutmsg.bData0, bData1 := midioutmsg.bData1,
       bData2 := midioutmsg.bData2 }] }
  if nr_device ≥ pf.VI_ZERO then (true, s1)
  else (s.midi_out_ok nr_device, s1)

/-- The body of the loop of the `default:` case of the switch of `sendmidimsg`,
for an extended channel `c` : the message goes to the channel `c`, is sent
unless the flood guard of the controls holds it back, and the time and the
value of the control are recorded.  `(bData[0] & 0xF0) + (BYTE)c` is written
`bData0 / 16 * 16 + c`.  Returns the message, `retCode` and the state. -/
def replicate_step (pf : T_platform) (type_msg : Nat) (nr_device c : Int)
    (midioutmsg : T_midioutmsg) (retCode : Bool) (s : T_state) :
    T_midioutmsg × Bool × T_state :=
  let m1 := { midioutmsg with bData0 := (midioutmsg.bData0 / 16 * 16 + toBYTE c) % 256 }
  let r : Bool × T_state :=
    if type_msg ≠ MIDI_CONTROL
        ∨ s.g_miditimecontrol nr_device c m1.bData1 < toULong pf (s.g_current_t - 200)
        ∨ s.g_midistatuscontrol nr_device c m1.bData1 ≠ m1.bData2 then
      let sent := sendshortmsg pf s m1
      (if sent.1 = false then false else retCode, sent.2)
    else (retCode, s)
  let s2 := { r.2 with
    g_miditimecontrol :=
      set3 r.2.g_miditimecontrol nr_device c m1.bData1 (toULong pf r.2.g_current_t)
    g_midistatuscontrol :=
      set3 r.2.g_midistatuscontrol nr_device c m1.bData1 m1.bData2 }
  (m1, r.1, s2)

/-- The `default:` case of the switch of `sendmidimsg` : replication of the
message on all the extended channels, `c` running over `fuel` channels. -/
def replicate_loop (pf : T_platform) (type_msg : Nat) (nr_device nr_channel : Int) :
    Nat → Int → T_midioutmsg → Bool → T_state → Bool × T_state
  | 0, _, _, retCode, s => (retCode, s)
  | fuel + 1, c, midioutmsg, retCode, s =>
    if s.g_channels nr_device c = nr_channel then
      let st := replicate_step pf type_msg nr_device c midioutmsg retCode s
      replicate_loop pf type_msg nr_device nr_channel fuel (c + 1) st.1 st.2.1 st.2.2
    else replicate_loop pf type_msg nr_device nr_channel fuel (c + 1) midioutmsg retCode s

/-- The `case MIDI_NOTEON:` of the switch of `sendmidimsg`. -/
def sendmidimsg_noteon (pf : T_platform) (s : T_state) (midioutmsg : T_midioutmsg) :
    Bool × T_state :=
  let nr_device := (s.g_tracks midioutmsg.track).device
  let nr_channel := (s.g_tracks midioutmsg.track).channel
  let pitch : Int := midioutmsg.bData1
  let m1 := if s.g_transposition ≠ 0 then
      { midioutmsg with bData1 := toBYTE (pitch_wrap (midioutmsg.bData1 + s.g_transposition)) }
    else midioutmsg
  let m2 := { m1 with bData2 := toBYTE (apply_volume s m1.track m1.bData2) }
  match first_index (fun c => decide (s.g_channels nr_device c = nr_channel
      ∧ s.g_midistatuspitch nr_device c pitch = toULong pf (-1))) 16 0 with
  | some c =>
    let m3 := { m2 with bData0 := toBYTE (MIDI_NOTEON * 16 + toBYTE c) }
    let sent := sendshortmsg pf s m3
    (true, { sent.2 with
      g_midistatuspitch := set3 sent.2.g_midistatuspitch nr_device c pitch (toULong pf m3.id)
      g_miditimepitch :=
        set3 sent.2.g_miditimepitch nr_device nr_channel pitch (toULong pf sent.2.g_current_t) })
  | none =>
    if s.g_midistatuspitch nr_device nr_channel pitch ≠ toULong pf m2.id
        ∧ s.g_miditimepitch nr_device nr_channel pitch < toULong pf (s.g_current_t - 200) then
      let m3 := { m2 with bData0 := toBYTE (MIDI_NOTEOFF * 16 + toBYTE nr_channel) }
      let sent := sendshortmsg pf s m3
      if sent.1 = false then (false, sent.2)
      else
        let m4 := { m3 with bData0 := toBYTE (MIDI_NOTEON * 16 + toBYTE nr_channel) }
        let sent2 := sendshortmsg pf sent.2 m4
        (true, { sent2.2 with
          g_midistatuspitch :=
            set3 sent2.2.g_midistatuspitch nr_device nr_channel pitch (toULong pf m4.id)
          g_miditimepitch :=
            set3 sent2.2.g_miditimepitch nr_device nr_channel pitch
              (toULong pf sent2.2.g_current_t) })
    else (true, s)

/-- The `case MIDI_NOTEOFF:` of the switch of `sendmidimsg`. -/
def sendmidimsg_noteoff (pf : T_platform) (s : T_state) (midioutmsg : T_midioutmsg) :
    Bool × T_state :=
  let nr_device := (s.g_tracks midioutmsg.track).device
  let nr_channel := (s.g_tracks midioutmsg.track).channel
  let pitch : Int := midioutmsg.bData1
  let m1 := if s.g_transposition ≠ 0 then
      { midioutmsg with bData1 := toBYTE (pitch_wrap (midioutmsg.bData1 + s.g_transposition)) }
    else midioutmsg
  match first_index (fun c => decide (s.g_channels nr_device c = nr_channel
      ∧ s.g_midistatuspitch nr_device c pitch = toULong pf m1.id)) 16 0 with
  | some c =>
    let s1 := { s with
      g_midistatuspitch := set3 s.g_midistatuspitch nr_device c pitch (toULong pf (-1)) }
    let m2 := { m1 with bData0 := toBYTE (MIDI_NOTEOFF * 16 + toBYTE c) }
    (true, (sendshortmsg pf s1 m2).2)
  | none => (false, s)

/-- Function `sendmidimsg` after the call of the LUA hook : the switch on the type of the
message.  `type_msg = (bData[0] & 0xF0) >> 4` is written `bData0 / 16 % 16`;
`nr_device`, `nr_channel` and `pitch` are read from the message before the
switch, that is before any transposition. -/
def sendmidimsg_switch (pf : T_platform) (s : T_state) (midioutmsg : T_midioutmsg) :
    Bool × T_state :=
  let type_msg := midioutmsg.bData0 / 16 % 16
  let nr_device := (s.g_tracks midioutmsg.track).device
  let nr_channel := (s.g_tracks midioutmsg.track).channel
  if type_msg = MIDI_NOTEON then sendmidimsg_noteon pf s midioutmsg
  else if type_msg = MIDI_NOTEOFF then sendmidimsg_noteoff pf s midioutmsg
  else if type_msg = MIDI_SYSTEMCOMMON then sendshortmsg pf s midioutmsg
  else replicate_loop pf type_msg nr_device nr_channel 16 0 midioutmsg true s

/-- Function `sendmidimsg(midioutmsg, first)` : a first-generation message is offered to
the LUA hook (`processPostMidiOut`), whose replacement messages are sent with
`first = false`; otherwise the switch. -/
def sendmidimsg (pf : T_platform) (s : T_state) (midioutmsg : T_midioutmsg) (first : Bool) :
    Bool × T_state :=
  if first = true ∧ s.g_LUAoutState = true then
    match s.lua_post midioutmsg with
    | some l => (true, l.foldl (fun st m => (sendmidimsg_switch pf st m).2) s)
    | none => sendmidimsg_switch pf s midioutmsg
  else sendmidimsg_switch pf s midioutmsg

/-- Function `sendmsg(midioutmsg)` : send immediately the message on the device of its
track, when this device is opened. -/
def sendmsg (pf : T_platform) (s : T_state) (midioutmsg : T_midioutmsg) : Bool × T_state :=
  let nr_device := (s.g_tracks midioutmsg.track).device
  if nr_device ≥ 0 ∧ nr_device < pf.OUT_MAX_DEVICE then
    if nr_device < pf.MIDIOUT_MAX then
      if s.g_midiopened nr_device = true then sendmidimsg pf s midioutmsg true
      else (false, s)
    else
      if nr_device < pf.VI_ZERO + s.g_vi_opened_nb then sendmidimsg pf s midioutmsg true
      else (false, s)
  else (false, s)

/-- Function `queue_insert(midioutmsg)` : the message is stored in the first free slot
with the time `g_current_t + dt`; nothing is done when no slot is free. -/
def queue_insert (s : T_state) (midioutmsg : T_midioutmsg) : T_state :=
  match first_index (fun n => (s.g_queue_msg n).free) 1024 0 with
  | none => s
  | some n =>
    let end1 := if n ≥ s.g_end_queue_msg then n + 1 else s.g_end_queue_msg
    { s with
      g_queue_msg := set1 s.g_queue_msg n
        { midioutmsg := midioutmsg, t := s.g_current_t + midioutmsg.dt, free := false }
      g_end_queue_msg := end1
      g_max_queue_msg := if end1 > s.g_max_queue_msg then end1 else s.g_max_queue_msg }

/-- The loop `for (n = 0; n < g_end_queue_msg; n++, pt++)` of `unqueue`; the
accumulator is `(nb_waiting, retCode, state)`.  `(bData[0] & 0xF0) == (MIDI_NOTEON << 4)`
is written `bData0 / 16 % 16 = MIDI_NOTEON` and `bData[0] & 0xF` is `bData0 % 16`. -/
def unqueue_loop (pf : T_platform) (critere : Int) (midioutmsg : T_midioutmsg) (tmsg : Int) :
    Nat → Int → Int × Int × T_state → Int × Int × T_state
  | 0, _, acc => acc
  | fuel + 1, n, (nb_waiting, retCode, s) =>
    let pt := s.g_queue_msg n
    if pt.free = false then
      if critere = OUT_QUEUE_FLUSH then
        if pt.t ≤ s.g_current_t then
          let s1 := { s with
            g_queue_msg := set1 s.g_queue_msg n { pt with free := true }
            flushed := s.flushed ++ [pt.midioutmsg] }
          unqueue_loop pf critere midioutmsg tmsg fuel (n + 1)
            (nb_waiting + 1, retCode, (sendmsg pf s1 pt.midioutmsg).2)
        else unqueue_loop pf critere midioutmsg tmsg fuel (n + 1) (nb_waiting + 1, retCode, s)
      else if critere = OUT_QUEUE_NOTEOFF then
        if pt.midioutmsg.bData0 / 16 % 16 = MIDI_NOTEON
            ∧ pt.midioutmsg.bData0 % 16 = midioutmsg.bData0 % 16
            ∧ (pt.midioutmsg.bData1 = midioutmsg.bData1 ∨ midioutmsg.bData1 = 0)
            ∧ pt.midioutmsg.track = midioutmsg.track
            ∧ pt.midioutmsg.id = midioutmsg.id
            ∧ pt.t ≥ tmsg then
          let s1 := { s with g_queue_msg := set1 s.g_queue_msg n { pt with free := true } }
          unqueue_loop pf critere midioutmsg tmsg fuel (n + 1) (nb_waiting + 1, 1, s1)
        else unqueue_loop pf critere midioutmsg tmsg fuel (n + 1) (nb_waiting + 1, retCode, s)
      else unqueue_loop pf critere midioutmsg tmsg fuel (n + 1) (nb_waiting + 1, retCode, s)
    else unqueue_loop pf critere midioutmsg tmsg fuel (n + 1) (nb_waiting, retCode, s)

/-- Function `unqueue(critere, midioutmsg)` : return code and new state. -/
def unqueue (pf : T_platform) (s : T_state) (critere : Int) (midioutmsg : T_midioutmsg) :
    Int × T_state :=
  let s0 := if critere = OUT_QUEUE_FLUSH then { s with g_current_t := s.g_current_t + timer_dt }
    else s
  let tmsg := s0.g_current_t + midioutmsg.dt
  let r := unqueue_loop pf critere midioutmsg tmsg s0.g_end_queue_msg.toNat 0 (0, 0, s0)
  if r.1 = 0 then (r.2.1, { r.2.2 with g_end_queue_msg := 0 })
  else (r.2.1, r.2.2)

/-- Function `sendmsgdt(midioutmsg)` : send the message immediately, or queue it for
later process. -/
def sendmsgdt (pf : T_platform) (s : T_state) (midioutmsg : T_midioutmsg) : Bool × T_state :=
  let s0 := { s with dispatched := s.dispatched ++ [midioutmsg] }
  if midioutmsg.dt = 0 then sendmsg pf s0 midioutmsg
  else (true, queue_insert s0 midioutmsg)

/-- Function `send_control(nrTrack, nrControl, v, dt)` -/
def send_control (pf : T_platform) (s : T_state) (nrTrack nrControl v dt : Int) : T_state :=
  (sendmsgdt pf s
    { id := 0, track := nrTrack, dt := dt, nbbyte := 3,
      bData0 := MIDI_CONTROL * 16, bData1 := toBYTE nrControl, bData2 := toBYTE v,
      bData3 := 0 }).2

/-- Function `LoutNoteOn` with its five parameters given (pitch, velocity, unique id,
delay, track number 1-based).  Returns the `unsigned long retCode` and the
new state. -/
def LoutNoteOn (pf : T_platform) (s : T_state) (pitch velocity id dt nrTrack : Int) :
    Nat × T_state :=
  let p := pitch_wrap_note pitch
  let uid := if id = -1 then s.g_unique_id else id
  let s1 := if id = -1 then { s with g_unique_id := s.g_unique_id + 1 } else s
  let u : T_midioutmsg :=
    { id := uid, track := cap nrTrack 0 MAXTRACK 1, dt := dt, nbbyte := 3,
      bData0 := MIDI_NOTEON * 16, bData1 := toBYTE p, bData2 := toBYTE (cap velocity 1 128 0),
      bData3 := 0 }
  if u.track ≥ 0 then
    let r := sendmsgdt pf s1 u
    if r.1 = false then (toULong pf (-1), r.2) else (toULong pf u.id, r.2)
  else (toULong pf (-1), s1)

/-- Function `LoutNoteOff` with its five parameters given (pitch, velocity, unique id,
delay, track number 1-based).  Returns `retCode` and the new state. -/
def LoutNoteOff (pf : T_platform) (s : T_state) (pitch velocity id dt nrTrack : Int) :
    Int × T_state :=
  let p := pitch_wrap_note pitch
  let u : T_midioutmsg :=
    { id := id, track := cap nrTrack 0 MAXTRACK 1, dt := dt, nbbyte := 3,
      bData0 := MIDI_NOTEOFF * 16, bData1 := toBYTE p, bData2 := toBYTE (cap velocity 0 128 0),
      bData3 := 0 }
  if u.track ≥ 0 then
    let q := unqueue pf s OUT_QUEUE_NOTEOFF u
    if q.1 = 0 then
      let r := sendmsgdt pf q.2 u
      (if r.1 = true then 1 else 0, r.2)
    else (0, q.2)
  else (-1, s)

/-! ## Chord engine -/

/-- Conversion of an `unsigned long` to `long` (two's complement). -/
def toLong (pf : T_platform) (x : Nat) : Int :=
  if (x : Int) < (2 : Int) ^ (pf.LONG_BITS - 1) then x else (x : Int) - (2 : Int) ^ pf.LONG_BITS

/-- Function `chord_new(id)` with `id` an `unsigned long` : the first slot which is free
or carries this id gets the id (its own index when `id == -1`); returns the
index of the slot (`none` for `NULL`) and the new state. -/
def chord_new (pf : T_platform) (s : T_state) (id : Nat) : Option Int × T_state :=
  match first_index (fun n => decide ((s.g_chords n).id = -1 ∨ toULong pf (s.g_chords n).id = id))
      40 0 with
  | none => (none, s)
  | some n =>
    let newid : Int := if id = toULong pf (-1) then n else toLong pf id
    (some n, { s with g_chords := set1 s.g_chords n { s.g_chords n with id := newid } })

/-- Function `chord_get(id)` : index of the first slot which carries the id (`none` for
`NULL`). -/
def chord_get (s : T_state) (id : Int) : Option Int :=
  if id = -1 then none
  else first_index (fun n => decide ((s.g_chords n).id = id)) 40 0

/-- Function `lua_tointeger(L, n)` on a stack which holds the integer arguments `args` :
a positive index counts from the bottom, a negative one from the top, and an
index outside the stack gives 0. -/
def lua_tointeger (args : List Int) (n : Int) : Int :=
  if 1 ≤ n ∧ n ≤ args.length then args.getD (n - 1).toNat 0
  else if n < 0 ∧ -n ≤ args.length then args.getD (args.length + n).toNat 0
  else 0

/-- The loop `for (nrArg = startArg; (startArg <= endArg) ? (nrArg <= endArg) : (nrArg >= endArg); nrArg += ...)`
of `LoutChordSet` on the chord slot `chord`; it leaves at the latest when
`CHORDMAXPITCH` pitches are stored, so that 24 turns are never exhausted. -/
def chordset_loop (args : List Int) (transpose startArg endArg : Int) :
    Nat → Int → T_chord → T_chord
  | 0, _, chord => chord
  | fuel + 1, nrArg, chord =>
    if (if startArg ≤ endArg then nrArg ≤ endArg else nrArg ≥ endArg) then
      let p := pitch_wrap (lua_tointeger args nrArg + transpose)
      let chord1 := { chord with
        pitch := set1 chord.pitch chord.nbPitch p, nbPitch := chord.nbPitch + 1 }
      if chord1.nbPitch ≥ CHORDMAXPITCH then chord1
      else chordset_loop args transpose startArg endArg fuel
        (nrArg + (if startArg ≤ endArg then 1 else -1)) chord1
    else chord

/-- Function `LoutChordSet` : `id` is the parameter #1 (`none` when it is not an
integer), then transpose, delay between notes, velocity ratio, start and end
of the pitches, and the list of the pitches (parameters #7..).  Returns the
value pushed to LUA and the new state. -/
def LoutChordSet (pf : T_platform) (s : T_state) (id : Option Int)
    (transpose dt dv start end_ : Int) (pitches : List Int) : Int × T_state :=
  match id with
  | none => (-3, s)
  | some idArg =>
    let args := [idArg, transpose, dt, dv, start, end_] ++ pitches
    let top : Int := args.length
    let uid : Nat := if toULong pf idArg = toULong pf (-1) then toULong pf s.g_unique_id
      else toULong pf idArg
    let s1 := if toULong pf idArg = toULong pf (-1) then
      { s with g_unique_id := s.g_unique_id + 1 } else s
    match chord_new pf s1 uid with
    | (none, s2) => (-1, s2)
    | (some n, s2) =>
      let startArg := if start < 0 then top - (start * (-1) - 1) else start - 1 + 7
      let endArg := if end_ < 0 then top - (end_ * (-1) - 1) else end_ - 1 + 7
      let chord0 := { s2.g_chords n with dt := dt, dv := dv, nbPitch := 0 }
      let chord1 := chordset_loop args transpose startArg endArg 24 startArg chord0
      (chord1.id, { s2 with g_chords := set1 s2.g_chords n chord1 })

/-- First half of the body of the loop of `LoutChordOn` on the chord slot `n`,
for the pitch of index `c` : pitch and velocity of the note, fresh id,
`sendmsgdt`, and record of the message in `msg_off` when it is sent.  Returns
the message, `retCode` and the state. -/
def chordon_emit (pf : T_platform) (n c : Int) (u : T_midioutmsg) (v retCode : Int)
    (s : T_state) : T_midioutmsg × Int × T_state :=
  let p := pitch_wrap ((s.g_chords n).pitch c)
  let rv := if s.g_randomVelocity ≠ 0 then
      v + (s.g_randomVelocity * s.rand_values s.rand_count).tdiv pf.RAND_MAX
        - s.g_randomVelocity.tdiv 2
    else v
  let s1 := if s.g_randomVelocity ≠ 0 then { s with rand_count := s.rand_count + 1 } else s
  let u1 := { u with bData1 := toBYTE p, bData2 := toBYTE (cap rv 1 128 0), id := s1.g_unique_id }
  let s2 := { s1 with g_unique_id := s1.g_unique_id + 1 }
  let sent := sendmsgdt pf s2 u1
  let chord := sent.2.g_chords n
  let chord1 := { chord with
    msg_off := set1 chord.msg_off chord.nbOff u1, nbOff := chord.nbOff + 1 }
  if sent.1 = false then (u1, -1, sent.2)
  else (u1, retCode, { sent.2 with g_chords := set1 sent.2.g_chords n chord1 })

/-- Second half of the body of the loop of `LoutChordOn`, after the test
`if (chord->dv == 0) break;` : delay of the next note (`u.dt = c * chord->dt`,
plus the random delay) and velocity of the next note.  Returns the message,
the velocity and the state. -/
def chordon_next (pf : T_platform) (n c : Int) (u : T_midioutmsg) (v : Int) (s : T_state) :
    T_midioutmsg × Int × T_state :=
  let dt0 := c * (s.g_chords n).dt
  let dt1 := if s.g_randomDelay ≠ 0 then
      dt0 + (s.g_randomDelay * s.rand_values s.rand_count).tdiv pf.RAND_MAX
    else dt0
  let s4 := if s.g_randomDelay ≠ 0 then { s with rand_count := s.rand_count + 1 } else s
  let v1 := if (s4.g_chords n).dv ≠ 64 then ((127 + ((s4.g_chords n).dv - 64)) * v).tdiv 127
    else v
  ({ u with dt := dt1 }, v1, s4)

/-- The loop `for (c = 0; c < chord->nbPitch; c++)` of `LoutChordOn` on the
chord slot `n` : `c` is the index of the next pitch, `u` the message under
construction, `v` the running velocity.  `fuel` is the number of pitches
left. -/
def chordon_loop (pf : T_platform) (n : Int) :
    Nat → Int → T_midioutmsg → Int → Int → T_state → Int × T_state
  | 0, _, _, _, retCode, s => (retCode, s)
  | fuel + 1, c, u, v, retCode, s =>
    if c < (s.g_chords n).nbPitch then
      let e := chordon_emit pf n c u v retCode s
      if (e.2.2.g_chords n).dv = 0 then (e.2.1, e.2.2)
      else
        let nx := chordon_next pf n c e.1 v e.2.2
        if nx.2.1 < 1 then (e.2.1, nx.2.2)
        else chordon_loop pf n fuel (c + 1) nx.1 nx.2.1 e.2.1 nx.2.2
    else (retCode, s)

/-- Function `LoutChordOn` : `id` is the parameter #1 (`none` when it is not an
integer), then velocity, delay and track number (1-based).  Returns the value
pushed to LUA and the new state. -/
def LoutChordOn (pf : T_platform) (s : T_state) (id : Option Int) (velocity dt nrTrack : Int) :
    Int × T_state :=
  match id with
  | none => (-3, s)
  | some idArg =>
    match chord_get s idArg with
    | none => (-2, s)
    | some n =>
      let chord := s.g_chords n
      let v := if s.g_chordCompensation ≠ 0 then
          ((200 - (s.g_chordCompensation * (chord.nbPitch - 1))) * velocity).tdiv 200
        else velocity
      let track := cap nrTrack 0 MAXTRACK 1
      if track ≥ 0 then
        chordon_loop pf n chord.nbPitch.toNat 0
          { id := 0, track := track, dt := dt, nbbyte := 3, bData0 := MIDI_NOTEON * 16,
            bData1 := 0, bData2 := 0, bData3 := 0 }
          v 0 s
      else (chord.id, s)

/-- Function `fifo_init()` : the loop `for (n = 0; n < OUT_QUEUE_MAX_MSG; n++) g_queue_msg[n].free = true;`
frees every slot of the queue, and the scan bound is reset. -/
def fifo_init (s : T_state) : T_state :=
  { s with
    g_queue_msg := fun n =>
      if 0 ≤ n ∧ n < OUT_QUEUE_MAX_MSG then { s.g_queue_msg n with free := true }
      else s.g_queue_msg n
    g_end_queue_msg := 0 }

/-- The body of the loop `for (c = 0; c < chord->nbOff; c++)` of `LoutChordOff`
on the chord slot `n`, for the pending message of index `c` : the note-off is
built from the recorded note-on, a note-on still queued is cancelled, and
otherwise the note-off is sent.  `(MIDI_NOTEOFF << 4) + (bData[0] & 0xF)` is
written `MIDI_NOTEOFF * 16 + bData0 % 16`.  Returns `retCode` and the state. -/
def chordoff_step (pf : T_platform) (n c velo dt retCode : Int) (s : T_state) : Int × T_state :=
  let u0 := (s.g_chords n).msg_off c
  let u : T_midioutmsg :=
    { u0 with
      bData2 := toBYTE velo
      dt := if dt ≠ -1000 then dt else u0.dt
      bData0 := toBYTE (MIDI_NOTEOFF * 16 + u0.bData0 % 16) }
  let q := unqueue pf s OUT_QUEUE_NOTEOFF u
  if q.1 = 0 then
    let r := sendmsgdt pf q.2 u
    (if r.1 = false then -1 else retCode, r.2)
  else (-1, q.2)

/-- The loop `for (c = 0; c < chord->nbOff; c++)` of `LoutChordOff` on the chord
slot `n`; `fuel` is the number of pending messages left. -/
def chordoff_loop (pf : T_platform) (n velo dt : Int) : Nat → Int → Int → T_state → Int × T_state
  | 0, _, retCode, s => (retCode, s)
  | fuel + 1, c, retCode, s =>
    if c < (s.g_chords n).nbOff then
      let r := chordoff_step pf n c velo dt retCode s
      chordoff_loop pf n velo dt fuel (c + 1) r.1 r.2
    else (retCode, s)

/-- Function `LoutChordOff` : `id` is the parameter #1 (`none` when it is not an
integer), then velocity and delay.  Returns the value pushed to LUA and the
new state. -/
def LoutChordOff (pf : T_platform) (s : T_state) (id : Option Int) (velocity dt : Int) :
    Int × T_state :=
  match id with
  | none => (-3, s)
  | some idArg =>
    match chord_get s idArg with
    | none => (-2, s)
    | some n =>
      let velo := cap velocity 0 128 0
      let r := chordoff_loop pf n velo dt (s.g_chords n).nbOff.toNat 0 0 s
      let chord := r.2.g_chords n
      (r.1, { r.2 with g_chords := set1 r.2.g_chords n { chord with id := -1, nbOff := 0 } })

/-- The part of the state which the dispatch of a message (`sendshortmsg`,
`sendmidimsg`, `sendmsg`) never writes : everything except the transport log
and the four status and time tables. -/
structure DispatchFrame (s s1 : T_state) : Prop where
  g_transposition : s1.g_transposition = s.g_transposition
  g_midiopened : s1.g_midiopened = s.g_midiopened
  g_vi_opened_nb : s1.g_vi_opened_nb = s.g_vi_opened_nb
  g_channels : s1.g_channels = s.g_channels
  g_chordCompensation : s1.g_chordCompensation = s.g_chordCompensation
  g_randomDelay : s1.g_randomDelay = s.g_randomDelay
  g_randomVelocity : s1.g_randomVelocity = s.g_randomVelocity
  g_unique_id : s1.g_unique_id = s.g_unique_id
  g_tracks : s1.g_tracks = s.g_tracks
  g_volume : s1.g_volume = s.g_volume
  g_curves : s1.g_curves = s.g_curves
  g_chords : s1.g_chords = s.g_chords
  g_current_t : s1.g_current_t = s.g_current_t
  g_queue_msg : s1.g_queue_msg = s.g_queue_msg
  g_end_queue_msg : s1.g_end_queue_msg = s.g_end_queue_msg
  g_max_queue_msg : s1.g_max_queue_msg = s.g_max_queue_msg
  g_LUAoutState : s1.g_LUAoutState = s.g_LUAoutState
  lua_post : s1.lua_post = s.lua_post
  midi_out_ok : s1.midi_out_ok = s.midi_out_ok
  rand_values : s1.rand_values = s.rand_values
  rand_count : s1.rand_count = s.rand_count
  dispatched : s1.dispatched = s.dispatched
  flushed : s1.flushed = s.flushed

/-- Invariant of the queue : the scan bound is within the array, and every
occupied slot of the array is below the scan bound. -/
def QueueInv (s : T_state) : Prop :=
  0 ≤ s.g_end_queue_msg ∧ s.g_end_queue_msg ≤ OUT_QUEUE_MAX_MSG ∧
    ∀ n : Int, 0 ≤ n → n < OUT_QUEUE_MAX_MSG → (s.g_queue_msg n).free = false →
      n < s.g_end_queue_msg

/-- The states reachable from the initialisation of the queue (`fifo_init`) by
enqueue (`queue_insert`), cancel (`unqueue(OUT_QUEUE_NOTEOFF, .)`) and flush
(`unqueue(OUT_QUEUE_FLUSH, .)`) operations. -/
inductive ReachableQueue (pf : T_platform) : T_state → Prop
  | init (s : T_state) : ReachableQueue pf (fifo_init s)
  | enqueue (s : T_state) (m : T_midioutmsg) :
      ReachableQueue pf s → ReachableQueue pf (queue_insert s m)
  | cancel (s : T_state) (m : T_midioutmsg) :
      ReachableQueue pf s → ReachableQueue pf (unqueue pf s OUT_QUEUE_NOTEOFF m).2
  | flush (s : T_state) (m : T_midioutmsg) :
      ReachableQueue pf s → ReachableQueue pf (unqueue pf s OUT_QUEUE_FLUSH m).2

/-- The messages of the occupied slots of the queue, in the order of the
slots : what is waiting to be handed to `sendmsg` by a flush. -/
def queue_pending (s : T_state) : List T_midioutmsg :=
  ((List.range 1024).filter (fun k : Nat => decide ((s.g_queue_msg k).free = false))).map
    (fun k : Nat => (s.g_queue_msg k).midioutmsg)

/-- The delay of the `j`-th note-on (`j` = 0, 1, ...) of `LoutChordOn` called with the
delay 0 on a chord of inter-note delay `d`, without random delay : the first
one has the delay of the call, and `u.dt = c * chord->dt` is computed after the
note `c` is sent, for the note `c + 1`. -/
def chord_delay (d j : Int) : Int := if j = 0 then 0 else (j - 1) * d

/-- The indexes among `j, j + 1, ...` (`fuel` of them) of the note-ons of a chord which
have the delay 0 : these are sent at once, the other ones are queued. -/
def chord_immediate (d : Int) : Nat → Int → List Int
  | 0, _ => []
  | fuel + 1, j =>
    if chord_delay d j = 0 then j :: chord_immediate d fuel (j + 1)
    else chord_immediate d fuel (j + 1)

/-- The byte of pitch which `sendmidimsg` sends for a note whose message carries
the pitch `p` : `if (g_transposition != 0) { p = bData[1] + g_transposition; while ...}` -/
def sent_pitch (s : T_state) (p : Nat) : Nat :=
  if s.g_transposition ≠ 0 then toBYTE (pitch_wrap (p + s.g_transposition)) else p

/-- The conditions on the state `s` in which a chord, stored in the slot `n` of
the pool, is played on the track `trk` : the track is attached to an open
device, on which `c0` is the lowest physical channel owned by the logical
channel of the track; no LUA hook and no random delay; the inter-note delay is
not negative; the pitches are at most 24, in 0..127 and distinct, and their
status on `c0` is off; the 24 next unique ids are not negative and differ from
-1 as `unsigned long`. -/
structure ChordStart (pf : T_platform) (s : T_state) (n trk c0 : Int) : Prop where
  dev0 : 0 ≤ (s.g_tracks trk).device
  dev1 : (s.g_tracks trk).device < pf.OUT_MAX_DEVICE
  midi : (s.g_tracks trk).device < pf.MIDIOUT_MAX → s.g_midiopened (s.g_tracks trk).device = true
  vi : pf.MIDIOUT_MAX ≤ (s.g_tracks trk).device →
    (s.g_tracks trk).device < pf.VI_ZERO + s.g_vi_opened_nb
  hook : s.g_LUAoutState = false
  rand : s.g_randomDelay = 0
  delay : 0 ≤ (s.g_chords n).dt
  nb : (s.g_chords n).nbPitch ≤ 24
  pitch0 : ∀ j : Int, 0 ≤ j → j < (s.g_chords n).nbPitch → 0 ≤ (s.g_chords n).pitch j
  pitch1 : ∀ j : Int, 0 ≤ j → j < (s.g_chords n).nbPitch → (s.g_chords n).pitch j ≤ 127
  distinct : ∀ j k : Int, 0 ≤ j → j < (s.g_chords n).nbPitch → 0 ≤ k →
    k < (s.g_chords n).nbPitch → (s.g_chords n).pitch j = (s.g_chords n).pitch k → j = k
  c00 : 0 ≤ c0
  c01 : c0 < 16
  owned : s.g_channels (s.g_tracks trk).device c0 = (s.g_tracks trk).channel
  lowest : ∀ j : Int, 0 ≤ j → j < c0 →
    s.g_channels (s.g_tracks trk).device j ≠ (s.g_tracks trk).channel
  off : ∀ j : Int, 0 ≤ j → j < (s.g_chords n).nbPitch →
    s.g_midistatuspitch (s.g_tracks trk).device c0 ((s.g_chords n).pitch j) = toULong pf (-1)
  id0 : 0 ≤ s.g_unique_id
  id1 : s.g_unique_id + 24 < (2 : Int) ^ pf.LONG_BITS - 1

/-- The state `st` in the course of a `LoutChordOn` followed by a `LoutChordOff`
started in the state `s` with an empty queue, as far as the dispatch is
concerned : the notes of index `a` to `b - 1` are pending (turned on and not
yet off).  A pending note of delay 0 owns the status of its pitch on `c0`; a
pending note of index `j` with a delay is queued in the slot `j - 2`; every
other slot is free and every other status is the one of `s`. -/
structure RoundCore (pf : T_platform) (s : T_state) (n trk c0 a b : Int) (st : T_state) :
    Prop where
  g_tracks : st.g_tracks = s.g_tracks
  g_channels : st.g_channels = s.g_channels
  g_midiopened : st.g_midiopened = s.g_midiopened
  g_vi_opened_nb : st.g_vi_opened_nb = s.g_vi_opened_nb
  g_LUAoutState : st.g_LUAoutState = s.g_LUAoutState
  g_current_t : st.g_current_t = s.g_current_t
  g_transposition : st.g_transposition = s.g_transposition
  g_randomDelay : st.g_randomDelay = s.g_randomDelay
  queue_inv : QueueInv st
  queue_occ : ∀ q : Int, 0 ≤ q → q < 1024 → (s.g_chords n).dt ≠ 0 → a ≤ q + 2 → q + 2 < b →
    (st.g_queue_msg q).free = false ∧
      (st.g_queue_msg q).midioutmsg.id = s.g_unique_id + (q + 2) ∧
      (st.g_queue_msg q).midioutmsg.track = trk ∧
      (st.g_queue_msg q).midioutmsg.bData0 = MIDI_NOTEON * 16 ∧
      (st.g_queue_msg q).midioutmsg.bData1 = toBYTE (pitch_wrap ((s.g_chords n).pitch (q + 2))) ∧
      (st.g_queue_msg q).t = s.g_current_t + chord_delay (s.g_chords n).dt (q + 2)
  queue_free : ∀ q : Int, 0 ≤ q → q < 1024 →
    ¬ ((s.g_chords n).dt ≠ 0 ∧ a ≤ q + 2 ∧ q + 2 < b) → (st.g_queue_msg q).free = true
  status_on : ∀ j : Int, 0 ≤ j → a ≤ j → j < b → chord_delay (s.g_chords n).dt j = 0 →
    st.g_midistatuspitch (s.g_tracks trk).device c0 ((s.g_chords n).pitch j) =
      toULong pf (s.g_unique_id + j)
  status_other : ∀ d c p : Int,
    (∀ j : Int, 0 ≤ j → a ≤ j → j < b → chord_delay (s.g_chords n).dt j = 0 →
      ¬ (d = (s.g_tracks trk).device ∧ c = c0 ∧ p = (s.g_chords n).pitch j)) →
    st.g_midistatuspitch d c p = s.g_midistatuspitch d c p

/-- The chord pool of the state `st` in the course of a `LoutChordOn` followed by
a `LoutChordOff` started in the state `s` : the slot `n` keeps its definition,
and its list of pending note-offs holds the `b` note-ons emitted, the `j`-th
one with the id `g_unique_id + j`, the pitch of index `j` and its delay. -/
structure RoundChord (s : T_state) (n trk b : Int) (st : T_state) : Prop where
  other : ∀ j : Int, j ≠ n → st.g_chords j = s.g_chords j
  id : (st.g_chords n).id = (s.g_chords n).id
  dt : (st.g_chords n).dt = (s.g_chords n).dt
  dv : (st.g_chords n).dv = (s.g_chords n).dv
  pitch : (st.g_chords n).pitch = (s.g_chords n).pitch
  nbPitch : (st.g_chords n).nbPitch = (s.g_chords n).nbPitch
  nbOff : (st.g_chords n).nbOff = b
  msg_id : ∀ j : Int, 0 ≤ j → j < b → ((st.g_chords n).msg_off j).id = s.g_unique_id + j
  msg_track : ∀ j : Int, 0 ≤ j → j < b → ((st.g_chords n).msg_off j).track = trk
  msg_dt : ∀ j : Int, 0 ≤ j → j < b →
    ((st.g_chords n).msg_off j).dt = chord_delay (s.g_chords n).dt j
  msg_b0 : ∀ j : Int, 0 ≤ j → j < b → ((st.g_chords n).msg_off j).bData0 = MIDI_NOTEON * 16
  msg_b1 : ∀ j : Int, 0 ≤ j → j < b →
    ((st.g_chords n).msg_off j).bData1 = toBYTE (pitch_wrap ((s.g_chords n).pitch j))

/-- The test of the `case OUT_QUEUE_NOTEOFF:` of `unqueue` on the slot `pt` : a
note-on, on the same channel, with the same pitch (or the note-off has the
pitch 0), on the same track, with the same id, not before the time `tmsg` of
the note-off. -/
def queue_matches (pt : T_queue_msg) (midioutmsg : T_midioutmsg) (tmsg : Int) : Prop :=
  pt.midioutmsg.bData0 / 16 % 16 = MIDI_NOTEON
    ∧ pt.midioutmsg.bData0 % 16 = midioutmsg.bData0 % 16
    ∧ (pt.midioutmsg.bData1 = midioutmsg.bData1 ∨ midioutmsg.bData1 = 0)
    ∧ pt.midioutmsg.track = midioutmsg.track
    ∧ pt.midioutmsg.id = midioutmsg.id
    ∧ pt.t ≥ tmsg

instance queue_matches_decidable (pt : T_queue_msg) (midioutmsg : T_midioutmsg) (tmsg : Int) :
    Decidable (queue_matches pt midioutmsg tmsg) := by
  unfold queue_matches
  infer_instance

/-! ## Controls, curves and volumes of a track -/

/-- Conversion of an `int` to `unsigned int` (32 bits). -/
def toUInt (x : Int) : Nat := (x % (2 : Int) ^ 32).toNat

/-- Function `send_bendrange(nrTrack, semitone)` : three calls of `send_control(nrTrack, nrControl, v, dt)`,
the last one being `send_control(nrTrack, 6, 0, semitone)`.  Its fourth
parameter is an `unsigned int`, which `send_control` stores in the field
`dt`, a `long`. -/
def send_bendrange (pf : T_platform) (s : T_state) (nrTrack semitone : Int) : T_state :=
  let s1 := send_control pf s nrTrack 101 0 0
  let s2 := send_control pf s1 nrTrack 100 0 0
  send_control pf s2 nrTrack 6 0 (toLong pf (toUInt semitone))

/-- Function `LoutBendRange` with its two parameters given (semitone, track number
1-based). -/
def LoutBendRange (pf : T_platform) (s : T_state) (semitone nrTrack : Int) : T_state :=
  send_bendrange pf s (cap nrTrack 0 MAXTRACK 1) semitone

/-- The loop `while (nrArg <= lua_gettop(L)) { ... }` of `LoutSetCurve` on the
stack `args`, with the index `nrArg` of the argument and the number `nbp` of
points stored; it leaves at the latest when `MAXPOINT` points are stored, so
that 10 turns are never exhausted. -/
def setcurve_loop (args : List Int) (nrCurve : Int) :
    Nat → Int → Int → (Int → T_curve) → (Int → T_curve)
  | 0, _, _, g => g
  | fuel + 1, nrArg, nbp, g =>
    if nrArg ≤ args.length then
      let x := cap (lua_tointeger args (nrArg - 1)) 0 128 0
      let y := cap (lua_tointeger args nrArg) 0 128 0
      let c1 : T_curve := { x := set1 (g nrCurve).x nbp x, y := set1 (g nrCurve).y nbp y }
      let c2 : T_curve := if nbp + 1 < MAXPOINT then { c1 with x := set1 c1.x (nbp + 1) (-1) }
        else c1
      if nbp + 1 ≥ MAXPOINT then set1 g nrCurve c2
      else setcurve_loop args nrCurve fuel (nrArg + 2) (nbp + 1) (set1 g nrCurve c2)
    else g

/-- Function `LoutSetCurve` on the stack `args` of its integer parameters (the
number of the curve, then the coordinates). -/
def LoutSetCurve (s : T_state) (args : List Int) : T_state :=
  { s with g_curves :=
      setcurve_loop args (cap (lua_tointeger args 1) 0 MAXCURVE 0) 10 2 0 s.g_curves }

/-- Function `LoutSetTrackVolume` with its two parameters given (volume, track number
1-based). -/
def LoutSetTrackVolume (s : T_state) (volume nrTrackArg : Int) : T_state :=
  let nrTrack := cap nrTrackArg 0 MAXTRACK 1
  let t : T_track := { s.g_tracks nrTrack with volume := volume }
  { s with g_tracks := set1 s.g_tracks nrTrack t }

/-- Function `LoutSetTrackCurve` with its two parameters given (curve, track number
1-based). -/
def LoutSetTrackCurve (s : T_state) (nrCurveArg nrTrackArg : Int) : T_state :=
  let nrCurve := cap nrCurveArg 0 MAXCURVE 0
  let nrTrack := cap nrTrackArg 0 MAXTRACK 1
  let t : T_track := { s.g_tracks nrTrack with nrCurve := nrCurve }
  { s with g_tracks := set1 s.g_tracks nrTrack t }

/-- The test of one turn of the loop of `LoutChordOff` on the chord slot `n`, for
the pending message of index `c` : `unqueue(OUT_QUEUE_NOTEOFF, u) == 0` (no queued note-on is
cancelled) and `sendmsgdt(u)` is not `false` (the note-off is sent or queued);
it is the case where the turn keeps `retCode`. -/
def chordoff_step_sent (pf : T_platform) (n c velo dt : Int) (s : T_state) : Bool :=
  let u0 := (s.g_chords n).msg_off c
  let u : T_midioutmsg :=
    { u0 with
      bData2 := toBYTE velo
      dt := if dt ≠ -1000 then dt else u0.dt
      bData0 := toBYTE (MIDI_NOTEOFF * 16 + u0.bData0 % 16) }
  let q := unqueue pf s OUT_QUEUE_NOTEOFF u
  decide (q.1 = 0) && (sendmsgdt pf q.2 u).1

/-- The test `chordoff_step_sent` on every turn of the loop of `LoutChordOff`, each
turn on the state left by the turns before it. -/
def chordoff_all_sent (pf : T_platform) (n velo dt : Int) : Nat → Int → T_state → Bool
  | 0, _, _ => true
  | fuel + 1, c, s =>
    if c < (s.g_chords n).nbOff then
      chordoff_step_sent pf n c velo dt s &&
        chordoff_all_sent pf n velo dt fuel (c + 1) (chordoff_step pf n c velo dt 0 s).2
    else true

/-- An example platform for the evaluation of concrete runs : the Windows
build (`long` of 32 bits, `RAND_MAX` 32767), with 16 MIDI-out devices followed
by 16 virtual instruments. -/
def platform_example : T_platform :=
  { LONG_BITS := 32, OUT_MAX_DEVICE := 32, MIDIOUT_MAX := 16, VI_ZERO := 16, RAND_MAX := 32767 }

/-- The state in which the track 0 is attached to the MIDI-out device 0, opened,
on the logical channel 0 without additional channel : what
`LoutTrackOpenMidi(1, 1, "", 1, 0)` builds from the initial state (device,
channel, `channel_extended_set(0, 0, 0, true)`) before it sends its controls. -/
def track_open_example (pf : T_platform) : T_state :=
  let s := init_state pf
  (channel_extended_set
    { s with
      g_midiopened := set1 s.g_midiopened 0 true
      g_tracks := set1 s.g_tracks 0 { track_unattached with device := 0, channel := 0 } }
    0 0 0 true).2

/-- The state after the run, from `track_open_example` : `chordSet(5, ...)` with the
pitches 60 and 64 (which takes the slot 0), `chordSet(6, ...)` with the
pitches 62 and 65 (slot 1), `chordOn(6, 100, 0, 1)`, `chordOff(5, 0, 0)` (which
frees the slot 0), and `chordSet(6, ...)` again with the pitches 62 and 65. -/
def chord_redefined_example (pf : T_platform) : T_state :=
  let s1 := (LoutChordSet pf (track_open_example pf) (some 5) 0 0 64 1 (-1) [60, 64]).2
  let s2 := (LoutChordSet pf s1 (some 6) 0 0 64 1 (-1) [62, 65]).2
  let s3 := (LoutChordOn pf s2 (some 6) 100 0 1).2
  let s4 := (LoutChordOff pf s3 (some 5) 0 0).2
  (LoutChordSet pf s4 (some 6) 0 0 64 1 (-1) [62, 65]).2

/-- A queue state reached from `fifo_init` by enqueue, cancel and flush
operations, on the state `track_open_example` : a control is queued for 10 ms
(slot 0), the note-on of the pitch 60 with the id 5 is queued for 50 ms
(slot 1, time 50); a flush (clock 20) sends the control and frees the slot 0;
the note-off of the pitch 60 with the id 5 for 35 ms later finds no note-on to
cancel (time 50 < 55) and is queued in the free slot 0 with the time 55; a
second flush (clock 40) sends nothing. -/
def queue_order_example (pf : T_platform) : T_state :=
  let s1 := queue_insert (fifo_init (track_open_example pf)) (T_midioutmsg.mk 0 0 10 3 176 7 100 0)
  let s2 := queue_insert s1 (T_midioutmsg.mk 5 0 50 3 144 60 100 0)
  let s3 := (unqueue pf s2 OUT_QUEUE_FLUSH midioutmsg_zero).2
  let s4 := (unqueue pf s3 OUT_QUEUE_NOTEOFF (T_midioutmsg.mk 5 0 35 3 128 60 0 0)).2
  let s5 := queue_insert s4 (T_midioutmsg.mk 5 0 35 3 128 60 0 0)
  (unqueue pf s5 OUT_QUEUE_FLUSH midioutmsg_zero).2

/-- The state in which the clock is at 1000 ms, the pitch 64 sounds on the only
channel of the track 0 since the time 900 (`LoutNoteOn(64, 100, 7, 0, 1)` at
the clock 900, then five timer ticks), and the chord 5 of the pitches 60, 64
and 67 with the inter-note delay 50 is set. -/
def chord_busy_example (pf : T_platform) : T_state :=
  let s1 := (LoutNoteOn pf { track_open_example pf with g_current_t := 900 } 64 100 7 0 1).2
  let s2 := Nat.iterate (fun st => (unqueue pf st OUT_QUEUE_FLUSH midioutmsg_zero).2) 5 s1
  (LoutChordSet pf s2 (some 5) 0 50 64 1 (-1) [60, 64, 67]).2

/-- The state `track_open_example` after `chordSet(5, 0, 50, 64, 1, -1, 60, 64, 67)` :
the chord 5 of the pitches 60, 64 and 67 with the inter-note delay 50 stands in
the slot 0 of the pool. -/
def chord_set_example (pf : T_platform) : T_state :=
  (LoutChordSet pf (track_open_example pf) (some 5) 0 50 64 1 (-1) [60, 64, 67]).2

/-- The state `track_open_example` after `chordSet(5, 0, 50, 64, 1, -1, ...)` with
thirteen pitches : the chord 5 stands in the slot 0 of the pool. -/
def chord_thirteen_example (pf : T_platform) : T_state :=
  (LoutChordSet pf (track_open_example pf) (some 5) 0 50 64 1 (-1)
    [48, 50, 52, 53, 55, 57, 59, 60, 62, 64, 65, 67, 69]).2

/-- The initial state after `LoutSetTrackCurve(1, 1)` and `LoutSetTrackVolume(100, 1)` :
the track 0 has the curve 1, which holds no point, and the volume 100. -/
def curve_unset_example (pf : T_platform) : T_state :=
  LoutSetTrackVolume (LoutSetTrackCurve (init_state pf) 1 1) 100 1

/-- The state `s` where the cells of index -1 of the arrays `x` and `y` of the
curve `nrCurve` hold `xv` and `yv`; the cells of the other indices are kept. -/
def curve_before_first (s : T_state) (nrCurve xv yv : Int) : T_state :=
  let c : T_curve :=
    { x := set1 (s.g_curves nrCurve).x (-1) xv, y := set1 (s.g_curves nrCurve).y (-1) yv }
  { s with g_curves := set1 s.g_curves nrCurve c }

/-- The initial state after `LoutSetTrackVolume(65, 1)` : the track 0 has the
volume 65, no curve, and the main volume is 64. -/
def track_volume_example (pf : T_platform) : T_state :=
  LoutSetTrackVolume (init_state pf) 65 1

/-- The initial state after `LoutSetCurve(1, 50, 127, 127)` and `LoutSetTrackCurve(1, 1)` :
the curve 1 holds the points (1, 50) and (127, 127), and the track 0 has the
curve 1 (volumes 64, not muted). -/
def curve_point_example (pf : T_platform) : T_state :=
  LoutSetTrackCurve (LoutSetCurve (init_state pf) [1, 50, 127, 127]) 1 1

/-- The initial state after `channel_extended_set(0, 1, 1, false)`, `channel_extended_set(0, 0, 1, false)` and
`channel_extended_set(0, 1, 0, false)` : on the device 0 the logical channel 0 owns the physical
channels 0 and 14, the logical channel 1 owns the physical channel 1, and the
physical channel 15 is unused again. -/
def channel_shared_example (pf : T_platform) : T_state :=
  let s1 := (channel_extended_set (init_state pf) 0 1 1 false).2
  let s2 := (channel_extended_set s1 0 0 1 false).2
  (channel_extended_set s2 0 1 0 false).2

/-- The state `chord_set_example` after `chordOn(5, 100, 0, 1)` : the note-ons of the
pitches 60 and 64 are sent, the note-on of the pitch 67 is queued, and the
three of them stand in the pending-off list of the chord 5. -/
def chord_on_example (pf : T_platform) : T_state :=
  (LoutChordOn pf (chord_set_example pf) (some 5) 100 0 1).2

/-- The state `track_open_example` after `chordSet(5, 0, 0, 64, 1, -1, 60, 64, 67)` and
`chordOn(5, 100, 0, 1)` : the chord has no delay between its notes, the three
note-ons are sent and stand in the pending-off list of the chord 5. -/
def chord_sounding_example (pf : T_platform) : T_state :=
  (LoutChordOn pf (LoutChordSet pf (track_open_example pf) (some 5) 0 0 64 1 (-1)
    [60, 64, 67]).2 (some 5) 100 0 1).2

/-! # Theorems -/

/-! ## Volume / curve transform -/

theorem cap_0_128 (v : Int) : cap v 0 128 0 = max 0 (min v 127) := by
  unfold cap
  simp only [sub_zero]
  split_ifs <;> omega

theorem cap_range (v lo hi : Int) (h : lo < hi) : lo ≤ cap v lo hi 0 ∧ cap v lo hi 0 < hi := by
  unfold cap
  simp only [sub_zero]
  split_ifs <;> omega

/-- C1 : for a valid track (0..31) which is unmuted, has track volume 64 and no
curve assigned (curve index negative, or the indexed curve empty), with master
volume 64, `apply_volume(track, v)` is `clamp(v, 0, 127)` for every integer
`v`, and is `v` itself for every `v` in [0,127]. -/
theorem C1_apply_volume_neutral (s : T_state) (nrTrack v : Int)
    (hlo : 0 ≤ nrTrack) (hhi : nrTrack < MAXTRACK)
    (_hmute : (s.g_tracks nrTrack).mute = false)
    (hvol : (s.g_tracks nrTrack).volume = 64) (hmain : s.g_volume = 64)
    (hcurve : (s.g_tracks nrTrack).nrCurve < 0 ∨
      (s.g_curves (s.g_tracks nrTrack).nrCurve).x 0 = -1) :
    apply_volume s nrTrack v = max 0 (min v 127) ∧
      (0 ≤ v → v ≤ 127 → apply_volume s nrTrack v = v) := by
  have h : apply_volume s nrTrack v = cap v 0 128 0 := by
    unfold apply_volume
    rw [if_neg (by omega)]
    simp only []
    rw [if_pos ⟨hvol, hmain, hcurve⟩]
  rw [h, cap_0_128]
  constructor
  · rfl
  · intro h0 h1
    omega

theorem C1_apply_volume_neutral_witness :
    apply_volume (init_state platform_example) 0 100 = max 0 (min 100 127) ∧
      ((0 : Int) ≤ 100 → (100 : Int) ≤ 127 →
        apply_volume (init_state platform_example) 0 100 = 100) :=
  C1_apply_volume_neutral (init_state platform_example) 0 100 (by decide) (by decide)
    rfl rfl rfl (Or.inr rfl)

/-- C2 : on the default state (track volume 64, master volume 64, no curve)
the track 0 is muted by `LoutTrackMute(0, 1)`; its mute flag is set, and
`apply_volume(0, 100)` still returns 100 (the neutral fast path returns before
the mute flag is looked at) where the claim says 0. -/
theorem C2_muted_default_track_not_silenced :
    ((LoutTrackMute (init_state platform_example) 0 1).g_tracks 0).mute = true ∧
      apply_volume (LoutTrackMute (init_state platform_example) 0 1) 0 100 = 100 := by
  constructor
  · rfl
  · decide

/-- C3 : for every valid track index (0..31), whatever the track volume, the
master volume, the mute state and the curve assignment, and for every integer
raw value, `apply_volume` returns a value in [0,127]. -/
theorem C3_apply_volume_range (s : T_state) (nrTrack v : Int)
    (hlo : 0 ≤ nrTrack) (hhi : nrTrack < MAXTRACK) :
    0 ≤ apply_volume s nrTrack v ∧ apply_volume s nrTrack v ≤ 127 := by
  unfold apply_volume
  rw [if_neg (by omega)]
  simp only []
  have hc : ∀ x lo : Int, 0 ≤ lo → lo < 128 → 0 ≤ cap x lo 128 0 ∧ cap x lo 128 0 ≤ 127 := by
    intro x lo h0 h1
    have := cap_range x lo 128 h1
    omega
  split_ifs
  · exact hc _ 0 (by decide) (by decide)
  · omega
  · exact hc _ 1 (by decide) (by decide)
  · exact hc _ 1 (by decide) (by decide)

theorem C3_apply_volume_range_witness :
    0 ≤ apply_volume (init_state platform_example) 0 300 ∧
      apply_volume (init_state platform_example) 0 300 ≤ 127 :=
  C3_apply_volume_range (init_state platform_example) 0 300 (by decide) (by decide)

/-! ## Arrays and loops -/

theorem set1_same {α : Type} (a : Int → α) (i : Int) (v : α) : set1 a i v i = v := by
  simp [set1]

theorem set1_other {α : Type} (a : Int → α) (i j : Int) (v : α) (h : j ≠ i) :
    set1 a i v j = a j := by
  simp [set1, h]

theorem set1_set1 {α : Type} (a : Int → α) (i : Int) (v w : α) :
    set1 (set1 a i v) i w = set1 a i w := by
  funext j
  by_cases h : j = i <;> simp [set1, h]

theorem curve_scan_succ (curve : T_curve) (vout : Int) (fuel : Nat) (n : Int) :
    curve_scan curve vout (fuel + 1) n =
      if n < MAXPOINT ∧ curve.x n ≥ 0 ∧ vout > curve.x n then curve_scan curve vout fuel (n + 1)
      else n := rfl

theorem curve_scan_fuel (curve : T_curve) (vout : Int) :
    ∀ (fuel : Nat) (n : Int), MAXPOINT ≤ n + fuel →
      curve_scan curve vout (fuel + 1) n = curve_scan curve vout fuel n := by
  intro fuel
  induction fuel with
  | zero =>
    intro n h
    have hn : ¬ n < MAXPOINT := by simp only [MAXPOINT] at h ⊢; omega
    rw [curve_scan_succ, if_neg (fun hc => hn hc.1)]
    rfl
  | succ k ih =>
    intro n h
    rw [curve_scan_succ curve vout (k + 1) n, curve_scan_succ curve vout k n]
    split_ifs with hc
    · exact ih (n + 1) (by push_cast at h ⊢; omega)
    · rfl

theorem free_extended_apply (c : Int) :
    ∀ (fuel : Nat) (n0 : Int) (row : Int → Int) (j : Int),
      free_extended row c fuel n0 j =
        if n0 ≤ j ∧ j < n0 + fuel ∧ row j = c then -1 else row j := by
  intro fuel
  induction fuel with
  | zero =>
    intro n0 row j
    have : ¬ (n0 ≤ j ∧ j < n0 + ((0 : Nat) : Int) ∧ row j = c) := by
      intro h
      have := h.1
      have := h.2.1
      omega
    rw [if_neg this]
    rfl
  | succ k ih =>
    intro n0 row j
    rw [free_extended, ih]
    by_cases hn : row n0 = c
    · rw [if_pos hn]
      by_cases hj : j = n0
      · subst hj
        simp only [set1_same]
        have h1 : ¬ (j + 1 ≤ j ∧ j < j + 1 + (k : Int) ∧ (-1 : Int) = c) := by
          intro h
          have := h.1
          omega
        rw [if_neg h1, if_pos ⟨le_refl _, by push_cast; omega, hn⟩]
      · rw [set1_other _ _ _ _ hj]
        by_cases hr : row j = c
        · by_cases hb : n0 + 1 ≤ j ∧ j < n0 + 1 + (k : Int)
          · rw [if_pos ⟨hb.1, hb.2, hr⟩, if_pos ⟨by omega, by push_cast; omega, hr⟩]
          · rw [if_neg (fun h => hb ⟨h.1, h.2.1⟩), if_neg]
            intro h
            apply hb
            have := h.1
            have := h.2.1
            push_cast at this
            constructor <;> omega
        · rw [if_neg (fun h => hr h.2.2), if_neg (fun h => hr h.2.2)]
    · rw [if_neg hn]
      by_cases hr : row j = c
      · have hj : j ≠ n0 := fun h => hn (h ▸ hr)
        by_cases hb : n0 + 1 ≤ j ∧ j < n0 + 1 + (k : Int)
        · rw [if_pos ⟨hb.1, hb.2, hr⟩, if_pos ⟨by omega, by push_cast; omega, hr⟩]
        · rw [if_neg (fun h => hb ⟨h.1, h.2.1⟩), if_neg]
          intro h
          apply hb
          have := h.1
          have := h.2.1
          push_cast at this
          constructor <;> omega
      · rw [if_neg (fun h => hr h.2.2), if_neg (fun h => hr h.2.2)]

/-! ## Channel multiplexer -/

theorem search_unused_succ (row : Int → Int) (c : Int) (a : Bool) (fuel : Nat) (m : Int) :
    search_unused row c a (fuel + 1) m =
      if row m ≠ -1 then
        if (if a = true ∧ m - 1 = 9 then m - 1 - 1 else m - 1) ≤ c then none
        else search_unused row c a fuel (if a = true ∧ m - 1 = 9 then m - 1 - 1 else m - 1)
      else some m := rfl

theorem search_next_le (a : Bool) (m : Int) :
    (if a = true ∧ m - 1 = 9 then m - 1 - 1 else m - 1) ≤ m - 1 := by
  split_ifs <;> omega

/-- More fuel than the distance from `m` down to `nr_channel` does not change
the result of the search : the loop has left before. -/
theorem search_unused_fuel (row : Int → Int) (c : Int) (a : Bool) :
    ∀ (fuel : Nat) (m : Int), m - c ≤ fuel →
      search_unused row c a (fuel + 2) m = search_unused row c a (fuel + 1) m := by
  intro fuel
  induction fuel with
  | zero =>
    intro m h
    simp only [Nat.cast_zero] at h
    rw [search_unused_succ row c a (0 + 1) m, search_unused_succ row c a 0 m]
    have hle := search_next_le a m
    generalize (if a = true ∧ m - 1 = 9 then m - 1 - 1 else m - 1) = m2 at hle ⊢
    have hstop : m2 ≤ c := by omega
    rw [if_pos hstop, if_pos hstop]
  | succ k ih =>
    intro m h
    rw [search_unused_succ row c a (k + 1 + 1) m, search_unused_succ row c a (k + 1) m]
    push_cast at h
    have hle := search_next_le a m
    generalize (if a = true ∧ m - 1 = 9 then m - 1 - 1 else m - 1) = m2 at hle ⊢
    by_cases h1 : row m ≠ -1
    · rw [if_pos h1, if_pos h1]
      by_cases hstop : m2 ≤ c
      · rw [if_pos hstop, if_pos hstop]
      · rw [if_neg hstop, if_neg hstop]
        exact ih m2 (by omega)
    · rw [if_neg h1, if_neg h1]

/-- With a logical channel `nr_channel ≥ 0`, sixteen turns from
`m = MAXCHANNEL - 1` are enough : any larger fuel gives the same result. -/
theorem search_unused_enough (row : Int → Int) (c : Int) (a : Bool) (hc : 0 ≤ c) (extra : Nat) :
    search_unused row c a (16 + extra) (MAXCHANNEL - 1) =
      search_unused row c a 16 (MAXCHANNEL - 1) := by
  induction extra with
  | zero => rfl
  | succ k ih =>
    rw [← ih]
    have h := search_unused_fuel row c a (15 + k) (MAXCHANNEL - 1)
      (by simp only [MAXCHANNEL]; push_cast; omega)
    have e1 : 16 + (k + 1) = 15 + k + 2 := by omega
    have e2 : 16 + k = 15 + k + 1 := by omega
    rw [e1, e2]
    exact h

theorem search_unused_le (row : Int → Int) (c : Int) (a : Bool) :
    ∀ (fuel : Nat) (m0 m : Int), search_unused row c a fuel m0 = some m → m ≤ m0 := by
  intro fuel
  induction fuel with
  | zero =>
    intro m0 m h
    simp [search_unused] at h
  | succ k ih =>
    intro m0 m h
    rw [search_unused_succ] at h
    have hle := search_next_le a m0
    generalize (if a = true ∧ m0 - 1 = 9 then m0 - 1 - 1 else m0 - 1) = m2 at hle h
    by_cases h1 : row m0 ≠ -1
    · rw [if_pos h1] at h
      by_cases hstop : m2 ≤ c
      · rw [if_pos hstop] at h
        exact absurd h (by simp)
      · rw [if_neg hstop] at h
        have := ih _ _ h
        omega
    · rw [if_neg h1] at h
      simp only [Option.some.injEq] at h
      omega

theorem extend_loop_succ (c : Int) (a : Bool) (todo : Nat) (m : Int) (row : Int → Int) :
    extend_loop c a (todo + 1) m row =
      if (if a = true ∧ m = 9 then m - 1 else m) ≤ c then (-1, row)
      else extend_loop c a todo ((if a = true ∧ m = 9 then m - 1 else m) - 1)
        (if row (if a = true ∧ m = 9 then m - 1 else m) = -1 then
          set1 row (if a = true ∧ m = 9 then m - 1 else m) c else row) := rfl

/-- The allocation loop only turns unused cells strictly above `nr_channel` and
not above `m` into cells owned by `nr_channel`. -/
theorem extend_loop_effect (c : Int) (a : Bool) :
    ∀ (todo : Nat) (m : Int) (row : Int → Int) (j : Int),
      (extend_loop c a todo m row).2 j = row j ∨
        (row j = -1 ∧ (extend_loop c a todo m row).2 j = c ∧ c < j ∧ j ≤ m) := by
  intro todo
  induction todo with
  | zero =>
    intro m row j
    left
    rfl
  | succ k ih =>
    intro m row j
    rw [extend_loop_succ]
    generalize hm1 : (if a = true ∧ m = 9 then m - 1 else m) = m1
    have hle : m1 ≤ m := by
      rw [← hm1]
      split_ifs <;> omega
    by_cases hstop : m1 ≤ c
    · rw [if_pos hstop]
      left
      rfl
    · rw [if_neg hstop]
      by_cases hfree : row m1 = -1
      · rw [if_pos hfree]
        rcases ih (m1 - 1) (set1 row m1 c) j with h | ⟨h1, h2, h3, h4⟩
        · by_cases hj : j = m1
          · right
            subst hj
            rw [h, set1_same]
            exact ⟨hfree, rfl, by omega, hle⟩
          · left
            rw [h, set1_other _ _ _ _ hj]
        · have hj : j ≠ m1 := by omega
          right
          rw [set1_other _ _ _ _ hj] at h1
          exact ⟨h1, h2, h3, by omega⟩
      · rw [if_neg hfree]
        rcases ih (m1 - 1) row j with h | ⟨h1, h2, h3, h4⟩
        · left
          exact h
        · right
          exact ⟨h1, h2, h3, by omega⟩

/-- The allocation only turns unused cells strictly above `nr_channel` (and at
most 15) into cells owned by `nr_channel`. -/
theorem channel_extended_alloc_effect (row : Int → Int) (c k : Int) (a : Bool) (j : Int) :
    (channel_extended_alloc row c k a).2 j = row j ∨
      (row j = -1 ∧ (channel_extended_alloc row c k a).2 j = c ∧ c < j ∧ j ≤ 15) := by
  unfold channel_extended_alloc
  cases hs : search_unused row c a 16 (MAXCHANNEL - 1) with
  | none =>
    left
    rfl
  | some m =>
    have hm := search_unused_le row c a 16 _ m hs
    simp only [MAXCHANNEL] at hm
    rcases extend_loop_effect c a k.toNat m row j with h | ⟨h1, h2, h3, h4⟩
    · left
      exact h
    · right
      exact ⟨h1, h2, h3, by omega⟩

/-- The row which `channel_extended_set` hands to its allocation part. -/
theorem channel_extended_row_prepared (row : Int → Int) (c : Int) (j : Int) :
    set1 (if row c = c then free_extended row c 16 0 else row) c c j =
      if j = c then c
      else if row c = c ∧ 0 ≤ j ∧ j < 16 ∧ row j = c then -1 else row j := by
  by_cases hj : j = c
  · rw [if_pos hj, hj, set1_same]
  · rw [if_neg hj, set1_other _ _ _ _ hj]
    by_cases hc : row c = c
    · rw [if_pos hc, free_extended_apply]
      by_cases h : 0 ≤ j ∧ j < 16 ∧ row j = c
      · rw [if_pos ⟨h.1, by push_cast; omega, h.2.2⟩, if_pos ⟨hc, h⟩]
      · rw [if_neg, if_neg (fun h2 => h h2.2)]
        intro h2
        apply h
        have := h2.2.1
        push_cast at this
        exact ⟨h2.1, by omega, h2.2.2⟩
    · rw [if_neg hc, if_neg (fun h => hc h.1)]

theorem channel_extended_row_eq (row : Int → Int) (c k : Int) (a : Bool) :
    channel_extended_row row c k a =
      if row c = c ∧ count_extended row c 16 0 = k then (1, row)
      else channel_extended_alloc
        (set1 (if row c = c then free_extended row c 16 0 else row) c c) c k a := rfl

/-- Effect of `channel_extended_set` on the row of its device : a cell keeps
its owner, or it is the cell of `nr_channel` itself and is now owned by
`nr_channel`, or it was unused, lies above `nr_channel` and is now owned by
`nr_channel`, or it was owned by `nr_channel` and is now unused. -/
theorem channel_extended_row_effect (row : Int → Int) (c k : Int) (a : Bool) (j : Int) :
    (channel_extended_row row c k a).2 j = row j ∨
      (j = c ∧ (channel_extended_row row c k a).2 j = c) ∨
      (row j = -1 ∧ (channel_extended_row row c k a).2 j = c ∧ c < j ∧ j ≤ 15) ∨
      (row j = c ∧ (channel_extended_row row c k a).2 j = -1 ∧ 0 ≤ j ∧ j < 16) := by
  rw [channel_extended_row_eq]
  by_cases h1 : row c = c ∧ count_extended row c 16 0 = k
  · rw [if_pos h1]
    left
    rfl
  · rw [if_neg h1]
    have hp := channel_extended_row_prepared row c j
    rcases channel_extended_alloc_effect
      (set1 (if row c = c then free_extended row c 16 0 else row) c c) c k a j with h | ⟨h2, h3, h4, h5⟩
    · rw [h, hp]
      by_cases hj : j = c
      · right
        left
        rw [if_pos hj]
        exact ⟨hj, rfl⟩
      · rw [if_neg hj]
        by_cases hf : row c = c ∧ 0 ≤ j ∧ j < 16 ∧ row j = c
        · rw [if_pos hf]
          right
          right
          right
          exact ⟨hf.2.2.2, rfl, hf.2.1, hf.2.2.1⟩
        · rw [if_neg hf]
          left
          rfl
    · have hj : j ≠ c := by omega
      rw [hp, if_neg hj] at h2
      by_cases hf : row c = c ∧ 0 ≤ j ∧ j < 16 ∧ row j = c
      · left
        rw [h3]
        exact hf.2.2.2.symm
      · rw [if_neg hf] at h2
        right
        right
        left
        exact ⟨h2, h3, h4, h5⟩

/-- After `channel_extended_set` the cell of the logical channel is owned by
the logical channel. -/
theorem channel_extended_row_self (row : Int → Int) (c k : Int) (a : Bool) (hc : 0 ≤ c) :
    (channel_extended_row row c k a).2 c = c := by
  rw [channel_extended_row_eq]
  by_cases h1 : row c = c ∧ count_extended row c 16 0 = k
  · rw [if_pos h1]
    exact h1.1
  · rw [if_neg h1]
    rcases channel_extended_alloc_effect
      (set1 (if row c = c then free_extended row c 16 0 else row) c c) c k a c with h | ⟨h2, _, _, _⟩
    · rw [h, set1_same]
    · rw [set1_same] at h2
      omega

theorem reachable_owner_owns_itself (g : Int → Int → Int) (h : ReachableChannels g) :
    OwnerOwnsItself g := by
  induction h with
  | reset =>
    intro d j c _ _ hc hg
    simp only [] at hg
    omega
  | extend s d0 c0 k a _ hc0 hc1 ih =>
    intro d j c hj0 hj1 hc hg
    simp only [channel_extended_set] at hg ⊢
    by_cases hd : d = d0
    · subst hd
      rw [set1_same] at hg ⊢
      by_cases hcc : c = c0
      · subst hcc
        exact channel_extended_row_self _ _ _ _ hc
      · have hgj : s.g_channels d j = c := by
          rcases channel_extended_row_effect (s.g_channels d) c0 k a j with h | ⟨_, h⟩ | ⟨_, h, _⟩ | ⟨_, h, _⟩
          · rw [← h]
            exact hg
          · omega
          · omega
          · omega
        have hgc : s.g_channels d c = c := ih d j c hj0 hj1 hc hgj
        rcases channel_extended_row_effect (s.g_channels d) c0 k a c with h | ⟨h, _⟩ | ⟨h, _⟩ | ⟨h, _⟩
        · rw [h]
          exact hgc
        · exact absurd h hcc
        · omega
        · omega
    · rw [set1_other _ _ _ _ hd] at hg ⊢
      exact ih d j c hj0 hj1 hc hg

/-- Row form of the idempotence : a second `channel_extended_set` with the same
arguments rebuilds the row which the first one built. -/
theorem channel_extended_row_twice (row : Int → Int) (c k : Int) (a : Bool) (hc : 0 ≤ c)
    (hinv : ∀ j : Int, 0 ≤ j → j < 16 → row j = c → row c = c) :
    (channel_extended_row (channel_extended_row row c k a).2 c k a).2 =
      (channel_extended_row row c k a).2 := by
  by_cases h1 : row c = c ∧ count_extended row c 16 0 = k
  · have e : channel_extended_row row c k a = (1, row) := by
      rw [channel_extended_row_eq, if_pos h1]
    rw [e]
    simp only []
    rw [e]
  · have e : channel_extended_row row c k a = channel_extended_alloc
        (set1 (if row c = c then free_extended row c 16 0 else row) c c) c k a := by
      rw [channel_extended_row_eq, if_neg h1]
    rw [e]
    generalize hrow2 : set1 (if row c = c then free_extended row c 16 0 else row) c c = row2
    have hp : ∀ j, row2 j = if j = c then c
        else if row c = c ∧ 0 ≤ j ∧ j < 16 ∧ row j = c then -1 else row j := by
      intro j
      rw [← hrow2]
      exact channel_extended_row_prepared row c j
    generalize hS : (channel_extended_alloc row2 c k a).2 = S1
    have heff : ∀ j, S1 j = row2 j ∨ (row2 j = -1 ∧ S1 j = c ∧ c < j ∧ j ≤ 15) := by
      intro j
      rw [← hS]
      exact channel_extended_alloc_effect row2 c k a j
    have hS1c : S1 c = c := by
      have h2 := hp c
      rw [if_pos rfl] at h2
      rcases heff c with h | ⟨h, _⟩
      · rw [h, h2]
      · omega
    rw [channel_extended_row_eq]
    by_cases h2 : S1 c = c ∧ count_extended S1 c 16 0 = k
    · rw [if_pos h2]
    · rw [if_neg h2]
      have hsame : set1 (if S1 c = c then free_extended S1 c 16 0 else S1) c c = row2 := by
        funext j
        rw [channel_extended_row_prepared S1 c j, hp j]
        by_cases hj : j = c
        · rw [if_pos hj, if_pos hj]
        · rw [if_neg hj, if_neg hj]
          have hpj := hp j
          rw [if_neg hj] at hpj
          rw [← hpj]
          have hne : 0 ≤ j → j < 16 → row2 j ≠ c := by
            intro hj0 hj1 hr
            rw [hpj] at hr
            by_cases hf : row c = c ∧ 0 ≤ j ∧ j < 16 ∧ row j = c
            · rw [if_pos hf] at hr
              omega
            · rw [if_neg hf] at hr
              exact hf ⟨hinv j hj0 hj1 hr, hj0, hj1, hr⟩
          rcases heff j with h | ⟨h3, h4, h5, h6⟩
          · rw [h]
            by_cases hin : 0 ≤ j ∧ j < 16
            · rw [if_neg]
              intro hcond
              exact hne hin.1 hin.2 hcond.2.2.2
            · rw [if_neg]
              intro hcond
              exact hin ⟨hcond.2.1, hcond.2.2.1⟩
          · rw [if_pos ⟨hS1c, by omega, by omega, h4⟩, h3]
      rw [hsame, hS]

/-- C5 : for every channel extension map reachable from the reset map by extend
calls, every device, logical channel `c` in 0..15, every count `k` (in
particular 0..9) and avoid-channel-10 flag : a second
`channel_extended_set(device, c, k, avoid)` immediately after the first one
leaves the map exactly as the first call left it. -/
theorem C5_extend_twice_same_map (s : T_state) (nr_device nr_channel nb_additional_channel : Int)
    (except_channel10 : Bool) (hreach : ReachableChannels s.g_channels)
    (hc0 : 0 ≤ nr_channel) (_hc1 : nr_channel ≤ 15) :
    (channel_extended_set
        (channel_extended_set s nr_device nr_channel nb_additional_channel except_channel10).2
        nr_device nr_channel nb_additional_channel except_channel10).2.g_channels =
      (channel_extended_set s nr_device nr_channel nb_additional_channel
        except_channel10).2.g_channels := by
  have hinv := reachable_owner_owns_itself s.g_channels hreach
  simp only [channel_extended_set, set1_same, set1_set1]
  rw [channel_extended_row_twice (s.g_channels nr_device) nr_channel nb_additional_channel
    except_channel10 hc0 (fun j hj0 hj1 hj => hinv nr_device j nr_channel hj0 hj1 hc0 hj)]

theorem C5_extend_twice_same_map_witness :
    (channel_extended_set (channel_extended_set (init_state platform_example) 0 0 2 true).2
        0 0 2 true).2.g_channels =
      (channel_extended_set (init_state platform_example) 0 0 2 true).2.g_channels :=
  C5_extend_twice_same_map (init_state platform_example) 0 0 2 true ReachableChannels.reset
    (by decide) (by decide)

/-- C6 : from the reset map, `channel_extended_set(0, 0, 2, true)` gives the
logical channel 0 the two physical channels 14 and 15; the following
`channel_extended_set(0, 0, 3, true)` counts three owned channels (its own one
included), returns 1 ("already done") and leaves two physical channels other
than 0 owned by 0, where the claim says three. -/
theorem C6_success_with_fewer_channels :
    (channel_extended_set (channel_extended_set (init_state platform_example) 0 0 2 true).2
        0 0 3 true).1 = 1 ∧
      nb_owned_others ((channel_extended_set
        (channel_extended_set (init_state platform_example) 0 0 2 true).2
        0 0 3 true).2.g_channels 0) 0 = 2 := by
  decide

/-- C7, as stated, fails : from the reset map `channel_extended_set(0, 15, 1, true)`
returns -1 and the physical channel 15, unused before the call, is owned by
the logical channel 15 after it. -/
theorem C7_failure_changes_map :
    (channel_extended_set (init_state platform_example) 0 15 1 true).1 = -1 ∧
      (channel_extended_set (init_state platform_example) 0 15 1 true).2.g_channels 0 15 ≠
        (init_state platform_example).g_channels 0 15 := by
  decide

/-- C7, amended : whenever `channel_extended_set(device, c, k, avoid)` fails
(negative return), the map of every other device is unchanged, and on the
device itself every physical channel keeps its owner, except that the channel
`c` itself is owned by `c`, that an unused channel above `c` may now be owned
by `c`, and that a channel which was owned by `c` may now be unused. -/
theorem C7_failure_frame (s : T_state) (nr_device nr_channel nb_additional_channel : Int)
    (except_channel10 : Bool)
    (_hfail : (channel_extended_set s nr_device nr_channel nb_additional_channel
      except_channel10).1 < 0) :
    (∀ d j : Int, d ≠ nr_device →
      (channel_extended_set s nr_device nr_channel nb_additional_channel
        except_channel10).2.g_channels d j = s.g_channels d j) ∧
    (∀ j : Int,
      (channel_extended_set s nr_device nr_channel nb_additional_channel
        except_channel10).2.g_channels nr_device j = s.g_channels nr_device j ∨
      (j = nr_channel ∧
        (channel_extended_set s nr_device nr_channel nb_additional_channel
          except_channel10).2.g_channels nr_device j = nr_channel) ∨
      (s.g_channels nr_device j = -1 ∧
        (channel_extended_set s nr_device nr_channel nb_additional_channel
          except_channel10).2.g_channels nr_device j = nr_channel ∧ nr_channel < j ∧ j ≤ 15) ∨
      (s.g_channels nr_device j = nr_channel ∧
        (channel_extended_set s nr_device nr_channel nb_additional_channel
          except_channel10).2.g_channels nr_device j = -1 ∧ 0 ≤ j ∧ j < 16)) := by
  constructor
  · intro d j hd
    simp only [channel_extended_set]
    rw [set1_other _ _ _ _ hd]
  · intro j
    simp only [channel_extended_set, set1_same]
    exact channel_extended_row_effect (s.g_channels nr_device) nr_channel
      nb_additional_channel except_channel10 j

theorem C7_failure_frame_witness :
    (channel_extended_set (init_state platform_example) 0 15 1 true).1 < 0 ∧
    (∀ d j : Int, d ≠ 0 →
      (channel_extended_set (init_state platform_example) 0 15 1 true).2.g_channels d j =
        (init_state platform_example).g_channels d j) :=
  ⟨by decide,
    (C7_failure_frame (init_state platform_example) 0 15 1 true (by decide)).1⟩

/-! ## Dispatch -/

theorem first_index_succ (P : Int → Bool) (fuel : Nat) (c : Int) :
    first_index P (fuel + 1) c = if P c = true then some c else first_index P fuel (c + 1) := rfl

theorem first_index_found (P : Int → Bool) (c : Int) (hP : P c = true) :
    ∀ (fuel : Nat) (c0 : Int), c0 ≤ c → c < c0 + fuel →
      (∀ j, c0 ≤ j → j < c → P j = false) → first_index P fuel c0 = some c := by
  intro fuel
  induction fuel with
  | zero =>
    intro c0 h0 h1 _
    simp only [Nat.cast_zero] at h1
    omega
  | succ k ih =>
    intro c0 h0 h1 hnot
    rw [first_index_succ]
    by_cases hc : c0 = c
    · subst hc
      rw [if_pos hP]
    · have hf : P c0 = false := hnot c0 (le_refl _) (by omega)
      rw [if_neg (by simp [hf])]
      exact ih (c0 + 1) (by omega) (by push_cast at h1; omega)
        (fun j hj0 hj1 => hnot j (by omega) hj1)

theorem first_index_none (P : Int → Bool) :
    ∀ (fuel : Nat) (c0 : Int), (∀ j, c0 ≤ j → j < c0 + fuel → P j = false) →
      first_index P fuel c0 = none := by
  intro fuel
  induction fuel with
  | zero =>
    intro c0 _
    rfl
  | succ k ih =>
    intro c0 hnot
    rw [first_index_succ]
    have hf : P c0 = false := hnot c0 (le_refl _) (by push_cast; omega)
    rw [if_neg (by simp [hf])]
    exact ih (c0 + 1) (fun j hj0 hj1 => hnot j (by omega) (by push_cast; omega))

theorem pitch_raise_nonneg (p : Int) (hp : 0 ≤ p) : ∀ fuel : Nat, pitch_raise fuel p = p := by
  intro fuel
  cases fuel with
  | zero => rfl
  | succ k =>
    show (if p < 0 then pitch_raise k (p + 12) else p) = p
    rw [if_neg (by omega)]

theorem pitch_lower_le (p : Int) (hp : p ≤ 127) : ∀ fuel : Nat, pitch_lower fuel p = p := by
  intro fuel
  cases fuel with
  | zero => rfl
  | succ k =>
    show (if p > 127 then pitch_lower k (p - 12) else p) = p
    rw [if_neg (by omega)]

theorem pitch_wrap_note_id (p : Int) (h0 : 0 ≤ p) (h1 : p ≤ 127) : pitch_wrap_note p = p := by
  unfold pitch_wrap_note
  simp only [pitch_lower_le p h1, pitch_raise_nonneg p h0]

theorem pitch_wrap_id (p : Int) (h0 : 0 ≤ p) (h1 : p ≤ 127) : pitch_wrap p = p := by
  unfold pitch_wrap
  simp only [pitch_lower_le p h1, pitch_raise_nonneg p h0]

theorem toBYTE_cast (x : Int) (h0 : 0 ≤ x) (h1 : x < 256) : ((toBYTE x : Nat) : Int) = x := by
  unfold toBYTE
  rw [Int.emod_eq_of_lt h0 h1]
  exact Int.toNat_of_nonneg h0

theorem toULong_of_range (pf : T_platform) (x : Int) (h0 : 0 ≤ x)
    (h1 : x < (2 : Int) ^ pf.LONG_BITS) : ((toULong pf x : Nat) : Int) = x := by
  unfold toULong
  rw [Int.emod_eq_of_lt h0 h1]
  exact Int.toNat_of_nonneg h0

theorem toULong_neg_one (pf : T_platform) :
    ((toULong pf (-1) : Nat) : Int) = (2 : Int) ^ pf.LONG_BITS - 1 := by
  unfold toULong
  have hpos : (0 : Int) < (2 : Int) ^ pf.LONG_BITS := by positivity
  have h : (-1 : Int) % (2 : Int) ^ pf.LONG_BITS = (2 : Int) ^ pf.LONG_BITS - 1 := by
    have e : (-1 : Int) % (2 : Int) ^ pf.LONG_BITS =
        (-1 + (2 : Int) ^ pf.LONG_BITS) % (2 : Int) ^ pf.LONG_BITS := by
      rw [Int.add_emod_self]
    rw [e, Int.emod_eq_of_lt (by omega) (by omega)]
    ring
  rw [h]
  exact Int.toNat_of_nonneg (by omega)

/-- A note-on for which the loop over the channels finds the physical channel
`c` (owned by the logical channel, status of the pitch off) : one note-on is
sent on `c`, the status of (device, `c`, pitch) becomes the id of the message
and the time of (device, logical channel, pitch) the clock. -/
theorem sendmidimsg_switch_noteon_found (pf : T_platform) (s : T_state) (u : T_midioutmsg)
    (c : Int) (htype : u.bData0 / 16 % 16 = MIDI_NOTEON) (htr : s.g_transposition = 0)
    (hfound : first_index (fun c => decide
      (s.g_channels (s.g_tracks u.track).device c = (s.g_tracks u.track).channel
        ∧ s.g_midistatuspitch (s.g_tracks u.track).device c u.bData1 = toULong pf (-1)))
      16 0 = some c) :
    sendmidimsg_switch pf s u = (true, { s with
      transport := s.transport ++
        [{ device := (s.g_tracks u.track).device, bData0 := toBYTE (MIDI_NOTEON * 16 + toBYTE c),
           bData1 := u.bData1, bData2 := toBYTE (apply_volume s u.track u.bData2) }]
      g_midistatuspitch := set3 s.g_midistatuspitch (s.g_tracks u.track).device c u.bData1
        (toULong pf u.id)
      g_miditimepitch := set3 s.g_miditimepitch (s.g_tracks u.track).device
        (s.g_tracks u.track).channel u.bData1 (toULong pf s.g_current_t) }) := by
  unfold sendmidimsg_switch sendmidimsg_noteon
  simp only [htype, htr, hfound, if_true, ne_eq, not_true_eq_false, if_false, sendshortmsg]
  split_ifs <;> rfl

/-- A note-off for which the loop over the channels finds the physical channel
`c` (owned by the logical channel, status of the pitch equal to the id of the
message) : the status of (device, `c`, pitch) is cleared and one note-off is
sent on `c`. -/
theorem sendmidimsg_switch_noteoff_found (pf : T_platform) (s : T_state) (u : T_midioutmsg)
    (c : Int) (htype : u.bData0 / 16 % 16 = MIDI_NOTEOFF) (htr : s.g_transposition = 0)
    (hfound : first_index (fun c => decide
      (s.g_channels (s.g_tracks u.track).device c = (s.g_tracks u.track).channel
        ∧ s.g_midistatuspitch (s.g_tracks u.track).device c u.bData1 = toULong pf u.id))
      16 0 = some c) :
    sendmidimsg_switch pf s u = (true, { s with
      transport := s.transport ++
        [{ device := (s.g_tracks u.track).device, bData0 := toBYTE (MIDI_NOTEOFF * 16 + toBYTE c),
           bData1 := u.bData1, bData2 := u.bData2 }]
      g_midistatuspitch := set3 s.g_midistatuspitch (s.g_tracks u.track).device c u.bData1
        (toULong pf (-1)) }) := by
  unfold sendmidimsg_switch sendmidimsg_noteoff
  have h89 : ¬ (MIDI_NOTEOFF = MIDI_NOTEON) := by decide
  simp only [htype, htr, hfound, h89, if_true, ne_eq, not_true_eq_false, if_false, sendshortmsg]
  split_ifs <;> rfl

theorem set2_same {α : Type} (a : Int → Int → α) (i j : Int) (v : α) : set2 a i j v i j = v := by
  simp [set2, set1]

theorem set3_same {α : Type} (a : Int → Int → Int → α) (i j k : Int) (v : α) :
    set3 a i j k v i j k = v := by
  simp [set3, set2, set1]

theorem toBYTE_eq (x : Int) (h0 : 0 ≤ x) (h1 : x < 256) : toBYTE x = x.toNat := by
  unfold toBYTE
  rw [Int.emod_eq_of_lt h0 h1]

/-- The neutral fast path of `apply_volume`. -/
theorem apply_volume_fast_path (s : T_state) (nrTrack v : Int)
    (hlo : 0 ≤ nrTrack) (hhi : nrTrack < MAXTRACK)
    (hvol : (s.g_tracks nrTrack).volume = 64) (hmain : s.g_volume = 64)
    (hcurve : (s.g_tracks nrTrack).nrCurve < 0 ∨
      (s.g_curves (s.g_tracks nrTrack).nrCurve).x 0 = -1) :
    apply_volume s nrTrack v = cap v 0 128 0 := by
  unfold apply_volume
  rw [if_neg (by omega)]
  simp only []
  rw [if_pos ⟨hvol, hmain, hcurve⟩]

theorem cap_track_range (nrTrack : Int) :
    0 ≤ cap nrTrack 0 MAXTRACK 1 ∧ cap nrTrack 0 MAXTRACK 1 < MAXTRACK := by
  unfold cap MAXTRACK
  simp only []
  split_ifs <;> omega

theorem cap_id (v lo hi : Int) (h0 : lo ≤ v) (h1 : v < hi) : cap v lo hi 0 = v := by
  unfold cap
  simp only [sub_zero]
  rw [if_neg (by omega), if_neg (by omega)]

/-- The scan of `unqueue` over free slots changes nothing. -/
theorem unqueue_loop_all_free (pf : T_platform) (critere : Int) (u : T_midioutmsg) (tmsg : Int) :
    ∀ (fuel : Nat) (n nb rc : Int) (s : T_state),
      (∀ j, n ≤ j → j < n + fuel → (s.g_queue_msg j).free = true) →
      unqueue_loop pf critere u tmsg fuel n (nb, rc, s) = (nb, rc, s) := by
  intro fuel
  induction fuel with
  | zero =>
    intro n nb rc s _
    rfl
  | succ k ih =>
    intro n nb rc s hfree
    have h0 : (s.g_queue_msg n).free = true := hfree n (le_refl _) (by push_cast; omega)
    show (if (s.g_queue_msg n).free = false then _ else
      unqueue_loop pf critere u tmsg k (n + 1) (nb, rc, s)) = _
    rw [if_neg (by simp [h0])]
    exact ih (n + 1) nb rc s (fun j hj0 hj1 => hfree j (by omega) (by push_cast; omega))

/-- Call `unqueue(OUT_QUEUE_NOTEOFF, u)` on an empty queue finds nothing and resets
the scan bound. -/
theorem unqueue_noteoff_empty (pf : T_platform) (s : T_state) (u : T_midioutmsg)
    (hempty : ∀ j, 0 ≤ j → j < s.g_end_queue_msg → (s.g_queue_msg j).free = true) :
    unqueue pf s OUT_QUEUE_NOTEOFF u = (0, { s with g_end_queue_msg := 0 }) := by
  unfold unqueue
  have h10 : ¬ (OUT_QUEUE_NOTEOFF = OUT_QUEUE_FLUSH) := by decide
  simp only [h10, if_false]
  rw [unqueue_loop_all_free pf OUT_QUEUE_NOTEOFF u _ _ 0 0 0 s
    (fun j hj0 hj1 => hempty j hj0 (by omega))]
  simp

/-- On a track attached to an open device and without LUA hook, `sendmsg` is
the switch of `sendmidimsg`. -/
theorem sendmsg_open (pf : T_platform) (s : T_state) (u : T_midioutmsg)
    (hdev0 : 0 ≤ (s.g_tracks u.track).device)
    (hdev1 : (s.g_tracks u.track).device < pf.OUT_MAX_DEVICE)
    (hmidi : (s.g_tracks u.track).device < pf.MIDIOUT_MAX →
      s.g_midiopened (s.g_tracks u.track).device = true)
    (hvi : pf.MIDIOUT_MAX ≤ (s.g_tracks u.track).device →
      (s.g_tracks u.track).device < pf.VI_ZERO + s.g_vi_opened_nb)
    (hhook : s.g_LUAoutState = false) :
    sendmsg pf s u = sendmidimsg_switch pf s u := by
  unfold sendmsg sendmidimsg
  simp only [hhook]
  rw [if_pos ⟨by omega, hdev1⟩]
  by_cases h : (s.g_tracks u.track).device < pf.MIDIOUT_MAX
  · rw [if_pos h, if_pos (hmidi h)]
    simp
  · rw [if_neg h, if_pos (hvi (by omega))]
    simp

/-- C4 : on a track attached to an open device `dev` whose logical channel `ch`
owns no extension channel (on `dev` the only physical channel owned by `ch` is
`ch` itself), with no post-processing hook, transposition 0, neutral volumes
(track volume 64, master volume 64, no curve), an empty queue and the status
of the pitch off : for every id ≥ 0, pitch `p` in [0,127] and velocity `v` in
[1,127], `LoutNoteOn(p, v, id, 0, track)` immediately followed by
`LoutNoteOff(p, velo, id, 0, track)` makes exactly two transport sends,
`(0x90 + ch, p, v)` then `(0x80 + ch, p, cap(velo))`, and leaves the status of
(`dev`, `ch`, `p`) off. -/
theorem C4_noteon_noteoff_roundtrip (pf : T_platform) (s : T_state)
    (p v id velo nrTrack dev ch : Int)
    (hdev : (s.g_tracks (cap nrTrack 0 MAXTRACK 1)).device = dev)
    (hch : (s.g_tracks (cap nrTrack 0 MAXTRACK 1)).channel = ch)
    (hdev0 : 0 ≤ dev) (hdev1 : dev < pf.OUT_MAX_DEVICE)
    (hmidi : dev < pf.MIDIOUT_MAX → s.g_midiopened dev = true)
    (hvi : pf.MIDIOUT_MAX ≤ dev → dev < pf.VI_ZERO + s.g_vi_opened_nb)
    (hch0 : 0 ≤ ch) (hch1 : ch < 16)
    (hown : ∀ j : Int, 0 ≤ j → j < 16 → (s.g_channels dev j = ch ↔ j = ch))
    (hhook : s.g_LUAoutState = false)
    (htr : s.g_transposition = 0)
    (hvol : (s.g_tracks (cap nrTrack 0 MAXTRACK 1)).volume = 64) (hmain : s.g_volume = 64)
    (hcurve : (s.g_tracks (cap nrTrack 0 MAXTRACK 1)).nrCurve < 0 ∨
      (s.g_curves (s.g_tracks (cap nrTrack 0 MAXTRACK 1)).nrCurve).x 0 = -1)
    (hempty : ∀ j, 0 ≤ j → j < s.g_end_queue_msg → (s.g_queue_msg j).free = true)
    (hoff : s.g_midistatuspitch dev ch p = toULong pf (-1))
    (hid : 0 ≤ id) (hp0 : 0 ≤ p) (hp1 : p ≤ 127) (hv0 : 1 ≤ v) (hv1 : v ≤ 127) :
    (LoutNoteOff pf (LoutNoteOn pf s p v id 0 nrTrack).2 p velo id 0 nrTrack).2.transport =
        s.transport ++
          [{ device := dev, bData0 := (144 + ch).toNat, bData1 := p.toNat, bData2 := v.toNat },
           { device := dev, bData0 := (128 + ch).toNat, bData1 := p.toNat,
             bData2 := (cap velo 0 128 0).toNat }] ∧
      (LoutNoteOff pf (LoutNoteOn pf s p v id 0 nrTrack).2 p velo id 0
        nrTrack).2.g_midistatuspitch dev ch p = toULong pf (-1) := by
  have htrk := cap_track_range nrTrack
  generalize htrkdef : cap nrTrack 0 MAXTRACK 1 = trk at hdev hch hvol hcurve htrk
  have hidne : ¬ (id = -1) := by omega
  have hpB : ((toBYTE p : Nat) : Int) = p := toBYTE_cast p hp0 (by omega)
  -- the note-on
  generalize huon : T_midioutmsg.mk id trk 0 3 (MIDI_NOTEON * 16) (toBYTE p)
    (toBYTE (cap v 1 128 0)) 0 = uon
  have huon_track : uon.track = trk := by rw [← huon]
  have huon_b0 : uon.bData0 = MIDI_NOTEON * 16 := by rw [← huon]
  have huon_b1 : uon.bData1 = toBYTE p := by rw [← huon]
  have huon_b2 : uon.bData2 = toBYTE (cap v 1 128 0) := by rw [← huon]
  have huon_id : uon.id = id := by rw [← huon]
  have huon_dt : uon.dt = 0 := by rw [← huon]
  generalize hs0 : ({ s with dispatched := s.dispatched ++ [uon] } : T_state) = s0
  have hs0_tracks : s0.g_tracks = s.g_tracks := by rw [← hs0]
  have hs0_ch : s0.g_channels = s.g_channels := by rw [← hs0]
  have hs0_st : s0.g_midistatuspitch = s.g_midistatuspitch := by rw [← hs0]
  have hon_found : first_index (fun c => decide
      (s0.g_channels (s0.g_tracks uon.track).device c = (s0.g_tracks uon.track).channel
        ∧ s0.g_midistatuspitch (s0.g_tracks uon.track).device c uon.bData1 = toULong pf (-1)))
      16 0 = some ch := by
    apply first_index_found _ ch _ 16 0 hch0 (by push_cast; omega)
    · intro j hj0 hj1
      simp only [hs0_tracks, hs0_ch, huon_track, hdev, hch, decide_eq_false_iff_not]
      intro hc
      have := (hown j hj0 (by omega)).1 hc.1
      omega
    · simp only [hs0_tracks, hs0_ch, hs0_st, huon_track, huon_b1, hpB, hdev, hch,
        decide_eq_true_eq]
      exact ⟨(hown ch hch0 hch1).2 rfl, hoff⟩
  have hon : (LoutNoteOn pf s p v id 0 nrTrack).2 = { s0 with
      transport := s0.transport ++
        [{ device := dev, bData0 := toBYTE (MIDI_NOTEON * 16 + toBYTE ch),
           bData1 := toBYTE p, bData2 := toBYTE (apply_volume s0 trk (toBYTE (cap v 1 128 0))) }]
      g_midistatuspitch := set3 s0.g_midistatuspitch dev ch p (toULong pf id)
      g_miditimepitch := set3 s0.g_miditimepitch dev ch p (toULong pf s0.g_current_t) } := by
    unfold LoutNoteOn
    simp only [hidne, if_false, htrkdef, pitch_wrap_note_id p hp0 hp1, huon]
    rw [if_pos (show trk ≥ 0 from htrk.1)]
    unfold sendmsgdt
    simp only [huon_dt, if_true, hs0]
    rw [sendmsg_open pf s0 uon (by rw [hs0_tracks, huon_track, hdev]; exact hdev0)
      (by rw [hs0_tracks, huon_track, hdev]; exact hdev1)
      (by rw [hs0_tracks, huon_track, hdev, ← hs0]; exact hmidi)
      (by rw [hs0_tracks, huon_track, hdev, ← hs0]; exact hvi)
      (by rw [← hs0]; exact hhook)]
    rw [sendmidimsg_switch_noteon_found pf s0 uon ch (by rw [huon_b0]; decide)
      (by rw [← hs0]; exact htr) hon_found]
    simp only [hs0_tracks, huon_track, huon_b1, huon_b2, huon_id, hpB, hdev, hch]
    simp
  rw [hon]
  have hvB : toBYTE (apply_volume s0 trk (toBYTE (cap v 1 128 0))) = v.toNat := by
    rw [cap_id v 1 128 hv0 (by omega), toBYTE_cast v (by omega) (by omega),
      apply_volume_fast_path s0 trk v htrk.1 htrk.2 (by rw [hs0_tracks]; exact hvol)
        (by rw [← hs0]; exact hmain) (by rw [hs0_tracks, ← hs0]; exact hcurve),
      cap_id v 0 128 (by omega) (by omega), toBYTE_eq v (by omega) (by omega)]
  have hchB : ((toBYTE ch : Nat) : Int) = ch := toBYTE_cast ch hch0 (by omega)
  have hb0on : toBYTE (MIDI_NOTEON * 16 + toBYTE ch) = (144 + ch).toNat := by
    have e : (((MIDI_NOTEON : Nat) : Int) * 16 + ((toBYTE ch : Nat) : Int)) = 144 + ch := by
      rw [hchB]
      rfl
    rw [e, toBYTE_eq (144 + ch) (by omega) (by omega)]
  have hb0off : toBYTE (MIDI_NOTEOFF * 16 + toBYTE ch) = (128 + ch).toNat := by
    have e : (((MIDI_NOTEOFF : Nat) : Int) * 16 + ((toBYTE ch : Nat) : Int)) = 128 + ch := by
      rw [hchB]
      rfl
    rw [e, toBYTE_eq (128 + ch) (by omega) (by omega)]
  have hcapvelo : 0 ≤ cap velo 0 128 0 ∧ cap velo 0 128 0 < 128 := cap_range velo 0 128 (by decide)
  rw [hvB, hb0on, toBYTE_eq p hp0 (by omega)]
  generalize hs1 : ({ s0 with
      transport := s0.transport ++
        [{ device := dev, bData0 := (144 + ch).toNat, bData1 := p.toNat, bData2 := v.toNat }]
      g_midistatuspitch := set3 s0.g_midistatuspitch dev ch p (toULong pf id)
      g_miditimepitch := set3 s0.g_miditimepitch dev ch p (toULong pf s0.g_current_t) } :
      T_state) = s1
  have hs1_tracks : s1.g_tracks = s.g_tracks := by rw [← hs1, ← hs0]
  have hs1_ch : s1.g_channels = s.g_channels := by rw [← hs1, ← hs0]
  have hs1_st : s1.g_midistatuspitch = set3 s.g_midistatuspitch dev ch p (toULong pf id) := by
    rw [← hs1, ← hs0]
  have hs1_tp : s1.transport = s.transport ++
      [{ device := dev, bData0 := (144 + ch).toNat, bData1 := p.toNat, bData2 := v.toNat }] := by
    rw [← hs1, ← hs0]
  generalize huoff : T_midioutmsg.mk id trk 0 3 (MIDI_NOTEOFF * 16) (toBYTE p)
    (toBYTE (cap velo 0 128 0)) 0 = uoff
  have huoff_track : uoff.track = trk := by rw [← huoff]
  have huoff_b0 : uoff.bData0 = MIDI_NOTEOFF * 16 := by rw [← huoff]
  have huoff_b1 : uoff.bData1 = toBYTE p := by rw [← huoff]
  have huoff_b2 : uoff.bData2 = toBYTE (cap velo 0 128 0) := by rw [← huoff]
  have huoff_id : uoff.id = id := by rw [← huoff]
  have huoff_dt : uoff.dt = 0 := by rw [← huoff]
  generalize hs3 : ({ ({ s1 with g_end_queue_msg := 0 } : T_state) with
    dispatched := s1.dispatched ++ [uoff] } : T_state) = s3
  have hs3_tracks : s3.g_tracks = s.g_tracks := by rw [← hs3, hs1_tracks]
  have hs3_ch : s3.g_channels = s.g_channels := by rw [← hs3, hs1_ch]
  have hs3_st : s3.g_midistatuspitch = set3 s.g_midistatuspitch dev ch p (toULong pf id) := by
    rw [← hs3, hs1_st]
  have hs3_tp : s3.transport = s.transport ++
      [{ device := dev, bData0 := (144 + ch).toNat, bData1 := p.toNat, bData2 := v.toNat }] := by
    rw [← hs3, hs1_tp]
  have hoff_found : first_index (fun c => decide
      (s3.g_channels (s3.g_tracks uoff.track).device c = (s3.g_tracks uoff.track).channel
        ∧ s3.g_midistatuspitch (s3.g_tracks uoff.track).device c uoff.bData1 = toULong pf uoff.id))
      16 0 = some ch := by
    apply first_index_found _ ch _ 16 0 hch0 (by push_cast; omega)
    · intro j hj0 hj1
      simp only [hs3_tracks, hs3_ch, huoff_track, hdev, hch, decide_eq_false_iff_not]
      intro hc
      have := (hown j hj0 (by omega)).1 hc.1
      omega
    · simp only [hs3_tracks, hs3_ch, hs3_st, huoff_track, huoff_b1, huoff_id, hpB, hdev, hch,
        decide_eq_true_eq, set3_same]
      exact ⟨(hown ch hch0 hch1).2 rfl, trivial⟩
  have hfin : (LoutNoteOff pf s1 p velo id 0 nrTrack).2 = { s3 with
      transport := s3.transport ++
        [{ device := dev, bData0 := toBYTE (MIDI_NOTEOFF * 16 + toBYTE ch),
           bData1 := toBYTE p, bData2 := toBYTE (cap velo 0 128 0) }]
      g_midistatuspitch := set3 s3.g_midistatuspitch dev ch p (toULong pf (-1)) } := by
    unfold LoutNoteOff
    simp only [htrkdef, pitch_wrap_note_id p hp0 hp1, huoff]
    rw [if_pos (show trk ≥ 0 from htrk.1)]
    rw [unqueue_noteoff_empty pf s1 uoff (by rw [← hs1, ← hs0]; exact hempty)]
    simp only [if_true]
    unfold sendmsgdt
    simp only [huoff_dt, if_true, hs3]
    rw [sendmsg_open pf s3 uoff (by rw [hs3_tracks, huoff_track, hdev]; exact hdev0)
      (by rw [hs3_tracks, huoff_track, hdev]; exact hdev1)
      (by rw [hs3_tracks, huoff_track, hdev, ← hs3, ← hs1, ← hs0]; exact hmidi)
      (by rw [hs3_tracks, huoff_track, hdev, ← hs3, ← hs1, ← hs0]; exact hvi)
      (by rw [← hs3, ← hs1, ← hs0]; exact hhook)]
    rw [sendmidimsg_switch_noteoff_found pf s3 uoff ch (by rw [huoff_b0]; decide)
      (by rw [← hs3, ← hs1, ← hs0]; exact htr) hoff_found]
    simp only [hs3_tracks, huoff_track, huoff_b1, huoff_b2, hpB, hdev]
  rw [hfin]
  constructor
  · simp only [hs3_tp, hb0off, toBYTE_eq p hp0 (by omega),
      toBYTE_eq (cap velo 0 128 0) hcapvelo.1 (by omega), List.append_assoc, List.singleton_append]
  · simp only [set3_same]

theorem C4_noteon_noteoff_roundtrip_witness :
    (LoutNoteOff platform_example
        (LoutNoteOn platform_example (track_open_example platform_example) 60 100 5 0 1).2
        60 0 5 0 1).2.transport =
        (track_open_example platform_example).transport ++
          [{ device := 0, bData0 := (144 + (0 : Int)).toNat, bData1 := (60 : Int).toNat,
             bData2 := (100 : Int).toNat },
           { device := 0, bData0 := (128 + (0 : Int)).toNat, bData1 := (60 : Int).toNat,
             bData2 := (cap 0 0 128 0).toNat }] ∧
      (LoutNoteOff platform_example
        (LoutNoteOn platform_example (track_open_example platform_example) 60 100 5 0 1).2
        60 0 5 0 1).2.g_midistatuspitch 0 0 60 = toULong platform_example (-1) :=
  C4_noteon_noteoff_roundtrip platform_example (track_open_example platform_example)
    60 100 5 0 1 0 0 rfl rfl (by decide) (by decide) (fun _ => rfl)
    (fun h => absurd h (by decide)) (by decide) (by decide)
    (by intro j h0 h1; interval_cases j <;> decide)
    rfl rfl rfl rfl (Or.inr rfl)
    (fun j h0 h1 => absurd (lt_of_le_of_lt h0 h1) (by decide))
    rfl (by decide) (by decide) (by decide) (by decide) (by decide)

/-- C8 : on the track 0 (device 0, channel 0) with the clock at 0 ms, two
identical `send_control(0, 7, 100, 0)` in a row (0 ms apart) are both sent :
the time 0 recorded by the first one is compared, as `unsigned long`, with
`g_current_t - 200 = -200` converted to `unsigned long`, which is huge, so the
flood guard lets the second one through, where the claim says it is
suppressed.  With the clock at 1000 ms the same two calls make one send. -/
theorem C8_flood_guard_open_below_200ms :
    (send_control platform_example
        (send_control platform_example (track_open_example platform_example) 0 7 100 0)
        0 7 100 0).transport =
      [{ device := 0, bData0 := 176, bData1 := 7, bData2 := 100 },
       { device := 0, bData0 := 176, bData1 := 7, bData2 := 100 }] ∧
    (send_control platform_example
        (send_control platform_example
          { track_open_example platform_example with g_current_t := 1000 } 0 7 100 0)
        0 7 100 0).transport =
      [{ device := 0, bData0 := 176, bData1 := 7, bData2 := 100 }] := by
  decide

theorem set3_other_mid {α : Type} (a : Int → Int → Int → α) (i j k j1 k1 : Int) (v : α)
    (h : j1 ≠ j) : set3 a i j k v i j1 k1 = a i j1 k1 := by
  simp [set3, set2, set1, h]

theorem replicate_loop_succ (pf : T_platform) (type_msg : Nat) (nr_device nr_channel : Int)
    (fuel : Nat) (c : Int) (m : T_midioutmsg) (retCode : Bool) (s : T_state) :
    replicate_loop pf type_msg nr_device nr_channel (fuel + 1) c m retCode s =
      if s.g_channels nr_device c = nr_channel then
        replicate_loop pf type_msg nr_device nr_channel fuel (c + 1)
          (replicate_step pf type_msg nr_device c m retCode s).1
          (replicate_step pf type_msg nr_device c m retCode s).2.1
          (replicate_step pf type_msg nr_device c m retCode s).2.2
      else replicate_loop pf type_msg nr_device nr_channel fuel (c + 1) m retCode s := rfl

/-- What one turn of the replication changes : the message keeps its track and
data bytes and gets the channel `c`; tracks, channels and clock are kept; the
control tables change at the channel `c` only; the transport log is kept, or
gets the message on the channel `c` when the guard lets it through. -/
theorem replicate_step_effect (pf : T_platform) (type_msg : Nat) (nr_device c : Int)
    (m : T_midioutmsg) (retCode : Bool) (s : T_state) :
    (replicate_step pf type_msg nr_device c m retCode s).1 =
        { m with bData0 := (m.bData0 / 16 * 16 + toBYTE c) % 256 } ∧
      (replicate_step pf type_msg nr_device c m retCode s).2.2.g_tracks = s.g_tracks ∧
      (replicate_step pf type_msg nr_device c m retCode s).2.2.g_channels = s.g_channels ∧
      (replicate_step pf type_msg nr_device c m retCode s).2.2.g_current_t = s.g_current_t ∧
      (∀ c1 k : Int, c1 ≠ c →
        (replicate_step pf type_msg nr_device c m retCode s).2.2.g_midistatuscontrol
          nr_device c1 k = s.g_midistatuscontrol nr_device c1 k) ∧
      (∀ c1 k : Int, c1 ≠ c →
        (replicate_step pf type_msg nr_device c m retCode s).2.2.g_miditimecontrol
          nr_device c1 k = s.g_miditimecontrol nr_device c1 k) ∧
      (replicate_step pf type_msg nr_device c m retCode s).2.2.transport =
        s.transport ++
          (if type_msg ≠ MIDI_CONTROL
              ∨ s.g_miditimecontrol nr_device c m.bData1 < toULong pf (s.g_current_t - 200)
              ∨ s.g_midistatuscontrol nr_device c m.bData1 ≠ m.bData2 then
            [{ device := (s.g_tracks m.track).device,
               bData0 := (m.bData0 / 16 * 16 + toBYTE c) % 256,
               bData1 := m.bData1, bData2 := m.bData2 }]
          else []) := by
  unfold replicate_step sendshortmsg
  by_cases hg : type_msg ≠ MIDI_CONTROL
      ∨ s.g_miditimecontrol nr_device c m.bData1 < toULong pf (s.g_current_t - 200)
      ∨ s.g_midistatuscontrol nr_device c m.bData1 ≠ m.bData2
  · simp only [if_pos hg]
    refine ⟨?_, ?_, ?_, ?_, ?_, ?_, ?_⟩
    · trivial
    · split_ifs <;> rfl
    · split_ifs <;> rfl
    · split_ifs <;> rfl
    · intro c1 k hc1
      rw [set3_other_mid _ _ _ _ _ _ _ hc1]
      split_ifs <;> rfl
    · intro c1 k hc1
      rw [set3_other_mid _ _ _ _ _ _ _ hc1]
      split_ifs <;> rfl
    · split_ifs <;> rfl
  · simp only [if_neg hg]
    refine ⟨?_, ?_, ?_, ?_, ?_, ?_, ?_⟩
    · trivial
    · trivial
    · trivial
    · trivial
    · intro c1 k hc1
      rw [set3_other_mid _ _ _ _ _ _ _ hc1]
    · intro c1 k hc1
      rw [set3_other_mid _ _ _ _ _ _ _ hc1]
    · simp

/-- The replication only appends to the transport log. -/
theorem replicate_loop_appends (pf : T_platform) (type_msg : Nat) (nr_device nr_channel : Int) :
    ∀ (fuel : Nat) (c0 : Int) (m : T_midioutmsg) (retCode : Bool) (s : T_state),
      ∃ post, (replicate_loop pf type_msg nr_device nr_channel fuel c0 m retCode s).2.transport =
        s.transport ++ post := by
  intro fuel
  induction fuel with
  | zero =>
    intro c0 m retCode s
    exact ⟨[], by simp [replicate_loop]⟩
  | succ k ih =>
    intro c0 m retCode s
    rw [replicate_loop_succ]
    by_cases hown : s.g_channels nr_device c0 = nr_channel
    · rw [if_pos hown]
      obtain ⟨post, hpost⟩ := ih (c0 + 1)
        (replicate_step pf type_msg nr_device c0 m retCode s).1
        (replicate_step pf type_msg nr_device c0 m retCode s).2.1
        (replicate_step pf type_msg nr_device c0 m retCode s).2.2
      have he := (replicate_step_effect pf type_msg nr_device c0 m retCode s).2.2.2.2.2.2
      rw [hpost, he, List.append_assoc]
      exact ⟨_, rfl⟩
    · rw [if_neg hown]
      exact ih (c0 + 1) m retCode s

theorem control_byte0 (b0 : Nat) (c : Int) (hb : b0 / 16 = 11) (hc0 : 0 ≤ c) (hc1 : c < 16) :
    (b0 / 16 * 16 + toBYTE c) % 256 = 176 + c.toNat ∧
      (b0 / 16 * 16 + toBYTE c) % 256 / 16 = 11 := by
  rw [hb, toBYTE_eq c hc0 (by omega)]
  have : c.toNat < 16 := by omega
  omega

/-- A message of the `default:` case whose data byte 2 differs from the value
recorded for its data byte 1 on the extended channel `c` is sent on `c`. -/
theorem replicate_loop_sends (pf : T_platform) (type_msg : Nat) (nr_device nr_channel : Int)
    (c trk : Int) (b1 b2 : Nat) :
    ∀ (fuel : Nat) (c0 : Int) (m : T_midioutmsg) (retCode : Bool) (s : T_state),
      0 ≤ c0 → c0 ≤ c → c < c0 + fuel → c0 + fuel ≤ 16 →
      m.bData0 / 16 = 11 → m.bData1 = b1 → m.bData2 = b2 → m.track = trk →
      s.g_channels nr_device c = nr_channel →
      s.g_midistatuscontrol nr_device c b1 ≠ b2 →
      ∃ pre post,
        (replicate_loop pf type_msg nr_device nr_channel fuel c0 m retCode s).2.transport =
          s.transport ++ pre ++
            ({ device := (s.g_tracks trk).device, bData0 := 176 + c.toNat, bData1 := b1,
               bData2 := b2 } : T_sent) :: post := by
  intro fuel
  induction fuel with
  | zero =>
    intro c0 m retCode s _ h1 h2
    simp only [Nat.cast_zero] at h2
    omega
  | succ k ih =>
    intro c0 m retCode s h0 h1 h2 h3 hb0 hb1 hb2 htrk hown hdiff
    push_cast at h2 h3
    rw [replicate_loop_succ]
    obtain ⟨hm, htracks, hchan, _, hstat, _, htrans⟩ :=
      replicate_step_effect pf type_msg nr_device c0 m retCode s
    have hbyte := control_byte0 m.bData0 c0 hb0 h0 (by omega)
    by_cases hcc : c0 = c
    · subst hcc
      rw [if_pos hown]
      obtain ⟨post, hpost⟩ := replicate_loop_appends pf type_msg nr_device nr_channel k (c0 + 1)
        (replicate_step pf type_msg nr_device c0 m retCode s).1
        (replicate_step pf type_msg nr_device c0 m retCode s).2.1
        (replicate_step pf type_msg nr_device c0 m retCode s).2.2
      refine ⟨[], post, ?_⟩
      rw [hpost, htrans, if_pos (Or.inr (Or.inr (by rw [hb1, hb2]; exact hdiff))),
        hbyte.1, hb1, hb2, htrk]
      simp
    · by_cases hown0 : s.g_channels nr_device c0 = nr_channel
      · rw [if_pos hown0]
        obtain ⟨pre, post, hpp⟩ := ih (c0 + 1)
          (replicate_step pf type_msg nr_device c0 m retCode s).1
          (replicate_step pf type_msg nr_device c0 m retCode s).2.1
          (replicate_step pf type_msg nr_device c0 m retCode s).2.2
          (by omega) (by omega) (by omega) (by omega)
          (by rw [hm]; exact hbyte.2) (by rw [hm]; exact hb1) (by rw [hm]; exact hb2)
          (by rw [hm]; exact htrk) (by rw [hchan]; exact hown)
          (by rw [hstat c b1 (fun h => hcc h.symm)]; exact hdiff)
        obtain ⟨l0, hl0⟩ : ∃ l0,
            (replicate_step pf type_msg nr_device c0 m retCode s).2.2.transport =
              s.transport ++ l0 := ⟨_, htrans⟩
        rw [hpp, hl0, htracks]
        exact ⟨l0 ++ pre, post, by simp only [List.append_assoc]⟩
      · rw [if_neg hown0]
        exact ih (c0 + 1) m retCode s (by omega) (by omega) (by omega) (by omega)
          hb0 hb1 hb2 htrk hown hdiff

/-- C9 : a control message (status byte 0xB0..0xBF) which the LUA hook does not
take, whose value differs from the value last recorded for its controller on a
physical channel `c` owned by the logical channel of its track, is sent on
`c` : among the transport sends made by `sendmidimsg` there is
`(0xB0 + c, controller, value)`, whatever the clock and the time recorded for
the previous control message are. -/
theorem C9_changed_control_value_is_sent (pf : T_platform) (s : T_state) (m : T_midioutmsg)
    (first : Bool) (c : Int)
    (hhook : first = false ∨ s.g_LUAoutState = false ∨ s.lua_post m = none)
    (htype : m.bData0 / 16 = MIDI_CONTROL)
    (hc0 : 0 ≤ c) (hc1 : c < 16)
    (hown : s.g_channels (s.g_tracks m.track).device c = (s.g_tracks m.track).channel)
    (hdiff : s.g_midistatuscontrol (s.g_tracks m.track).device c m.bData1 ≠ m.bData2) :
    ({ device := (s.g_tracks m.track).device, bData0 := 176 + c.toNat, bData1 := m.bData1,
       bData2 := m.bData2 } : T_sent) ∈
      (sendmidimsg pf s m first).2.transport.drop s.transport.length := by
  have hsw : sendmidimsg pf s m first = sendmidimsg_switch pf s m := by
    unfold sendmidimsg
    rcases hhook with h | h | h
    · simp [h]
    · simp [h]
    · rw [h]
      simp
  have h11 : m.bData0 / 16 = 11 := htype
  have hty : m.bData0 / 16 % 16 = 11 := by omega
  have hsw2 : sendmidimsg_switch pf s m = replicate_loop pf 11 (s.g_tracks m.track).device
      (s.g_tracks m.track).channel 16 0 m true s := by
    unfold sendmidimsg_switch
    simp only [hty]
    rw [if_neg (by decide), if_neg (by decide), if_neg (by decide)]
  obtain ⟨pre, post, hpp⟩ := replicate_loop_sends pf 11 (s.g_tracks m.track).device
    (s.g_tracks m.track).channel c m.track m.bData1 m.bData2 16 0 m true s
    (le_refl _) hc0 (by push_cast; omega) (by norm_num) h11 rfl rfl rfl hown hdiff
  rw [hsw, hsw2, hpp, List.append_assoc, List.drop_left]
  simp

theorem C9_changed_control_value_is_sent_witness :
    ({ device := ((track_open_example platform_example).g_tracks (0 : Int)).device,
       bData0 := 176 + (0 : Int).toNat, bData1 := 7, bData2 := 101 } : T_sent) ∈
      (sendmidimsg platform_example (track_open_example platform_example)
        { id := 0, track := 0, dt := 0, nbbyte := 3, bData0 := 176, bData1 := 7, bData2 := 101,
          bData3 := 0 } true).2.transport.drop
        (track_open_example platform_example).transport.length :=
  C9_changed_control_value_is_sent platform_example (track_open_example platform_example)
    { id := 0, track := 0, dt := 0, nbbyte := 3, bData0 := 176, bData1 := 7, bData2 := 101,
      bData3 := 0 } true 0 (Or.inr (Or.inl rfl)) (by decide) (by decide) (by decide)
    (by decide) (by decide)

/-! ## Chord engine -/

/-- The dispatch of a message leaves the chord pool and the log of `sendmsgdt`
as they are. -/
theorem sendshortmsg_frame (pf : T_platform) (s : T_state) (m : T_midioutmsg) :
    (sendshortmsg pf s m).2.g_chords = s.g_chords ∧
      (sendshortmsg pf s m).2.dispatched = s.dispatched := by
  unfold sendshortmsg
  simp only []
  split_ifs <;> exact ⟨rfl, rfl⟩

theorem replicate_step_frame (pf : T_platform) (type_msg : Nat) (nr_device c : Int)
    (m : T_midioutmsg) (retCode : Bool) (s : T_state) :
    (replicate_step pf type_msg nr_device c m retCode s).2.2.g_chords = s.g_chords ∧
      (replicate_step pf type_msg nr_device c m retCode s).2.2.dispatched = s.dispatched := by
  unfold replicate_step sendshortmsg
  simp only []
  split_ifs <;> exact ⟨rfl, rfl⟩

theorem replicate_loop_frame (pf : T_platform) (type_msg : Nat) (nr_device nr_channel : Int) :
    ∀ (fuel : Nat) (c0 : Int) (m : T_midioutmsg) (retCode : Bool) (s : T_state),
      (replicate_loop pf type_msg nr_device nr_channel fuel c0 m retCode s).2.g_chords =
          s.g_chords ∧
        (replicate_loop pf type_msg nr_device nr_channel fuel c0 m retCode s).2.dispatched =
          s.dispatched := by
  intro fuel
  induction fuel with
  | zero =>
    intro c0 m retCode s
    exact ⟨rfl, rfl⟩
  | succ k ih =>
    intro c0 m retCode s
    rw [replicate_loop_succ]
    split_ifs
    · have h1 := ih (c0 + 1) (replicate_step pf type_msg nr_device c0 m retCode s).1
        (replicate_step pf type_msg nr_device c0 m retCode s).2.1
        (replicate_step pf type_msg nr_device c0 m retCode s).2.2
      have h2 := replicate_step_frame pf type_msg nr_device c0 m retCode s
      exact ⟨h1.1.trans h2.1, h1.2.trans h2.2⟩
    · exact ih (c0 + 1) m retCode s

theorem sendshortmsg_snd (pf : T_platform) (s : T_state) (m : T_midioutmsg) :
    (sendshortmsg pf s m).2 = { s with transport := s.transport ++
      [{ device := (s.g_tracks m.track).device, bData0 := m.bData0, bData1 := m.bData1,
         bData2 := m.bData2 }] } := by
  unfold sendshortmsg
  simp only []
  split_ifs <;> rfl

theorem sendmidimsg_noteon_frame (pf : T_platform) (s : T_state) (m : T_midioutmsg) :
    (sendmidimsg_noteon pf s m).2.g_chords = s.g_chords ∧
      (sendmidimsg_noteon pf s m).2.dispatched = s.dispatched := by
  unfold sendmidimsg_noteon
  simp only []
  split
  · simp [sendshortmsg_snd]
  · split_ifs <;> simp [sendshortmsg_snd]

theorem sendmidimsg_noteoff_frame (pf : T_platform) (s : T_state) (m : T_midioutmsg) :
    (sendmidimsg_noteoff pf s m).2.g_chords = s.g_chords ∧
      (sendmidimsg_noteoff pf s m).2.dispatched = s.dispatched := by
  unfold sendmidimsg_noteoff
  simp only []
  split
  · simp [sendshortmsg_snd]
  · simp

theorem sendmidimsg_switch_frame (pf : T_platform) (s : T_state) (m : T_midioutmsg) :
    (sendmidimsg_switch pf s m).2.g_chords = s.g_chords ∧
      (sendmidimsg_switch pf s m).2.dispatched = s.dispatched := by
  unfold sendmidimsg_switch
  simp only []
  split_ifs
  · exact sendmidimsg_noteon_frame pf s m
  · exact sendmidimsg_noteoff_frame pf s m
  · exact sendshortmsg_frame pf s m
  · exact replicate_loop_frame pf _ _ _ 16 0 m true s

theorem sendmidimsg_frame (pf : T_platform) (s : T_state) (m : T_midioutmsg) (first : Bool) :
    (sendmidimsg pf s m first).2.g_chords = s.g_chords ∧
      (sendmidimsg pf s m first).2.dispatched = s.dispatched := by
  have hfold : ∀ (l : List T_midioutmsg) (st : T_state),
      (l.foldl (fun st m => (sendmidimsg_switch pf st m).2) st).g_chords = st.g_chords ∧
        (l.foldl (fun st m => (sendmidimsg_switch pf st m).2) st).dispatched = st.dispatched := by
    intro l
    induction l with
    | nil =>
      intro st
      exact ⟨rfl, rfl⟩
    | cons x xs ih =>
      intro st
      rw [List.foldl_cons]
      have h1 := ih (sendmidimsg_switch pf st x).2
      have h2 := sendmidimsg_switch_frame pf st x
      exact ⟨h1.1.trans h2.1, h1.2.trans h2.2⟩
  unfold sendmidimsg
  split_ifs
  · split
    · exact hfold _ s
    · exact sendmidimsg_switch_frame pf s m
  · exact sendmidimsg_switch_frame pf s m

theorem sendmsg_frame (pf : T_platform) (s : T_state) (m : T_midioutmsg) :
    (sendmsg pf s m).2.g_chords = s.g_chords ∧ (sendmsg pf s m).2.dispatched = s.dispatched := by
  unfold sendmsg
  simp only []
  split_ifs
  · exact sendmidimsg_frame pf s m true
  · exact ⟨rfl, rfl⟩
  · exact sendmidimsg_frame pf s m true
  · exact ⟨rfl, rfl⟩
  · exact ⟨rfl, rfl⟩

theorem queue_insert_frame (s : T_state) (m : T_midioutmsg) :
    (queue_insert s m).g_chords = s.g_chords ∧ (queue_insert s m).dispatched = s.dispatched := by
  unfold queue_insert
  split <;> exact ⟨rfl, rfl⟩

/-- Function `sendmsgdt` keeps the chord pool and adds its message to the log of the
dispatched messages. -/
theorem sendmsgdt_frame (pf : T_platform) (s : T_state) (m : T_midioutmsg) :
    (sendmsgdt pf s m).2.g_chords = s.g_chords ∧
      (sendmsgdt pf s m).2.dispatched = s.dispatched ++ [m] := by
  unfold sendmsgdt
  simp only []
  split_ifs
  · have h := sendmsg_frame pf { s with dispatched := s.dispatched ++ [m] } m
    exact ⟨h.1, h.2⟩
  · have h := queue_insert_frame { s with dispatched := s.dispatched ++ [m] } m
    exact ⟨h.1, h.2⟩

/-- What the first half of a turn of `LoutChordOn` does : it dispatches one
message, which has the status byte and the delay of `u` and the wrapped pitch
of index `c`; pitches, number of pitches, ratio and delay of the chord are
kept. -/
theorem chordon_emit_effect (pf : T_platform) (n c : Int) (u : T_midioutmsg) (v retCode : Int)
    (s : T_state) :
    (chordon_emit pf n c u v retCode s).1.bData0 = u.bData0 ∧
      (chordon_emit pf n c u v retCode s).1.bData1 = toBYTE (pitch_wrap ((s.g_chords n).pitch c)) ∧
      (chordon_emit pf n c u v retCode s).1.dt = u.dt ∧
      (chordon_emit pf n c u v retCode s).2.2.dispatched =
        s.dispatched ++ [(chordon_emit pf n c u v retCode s).1] ∧
      ((chordon_emit pf n c u v retCode s).2.2.g_chords n).pitch = (s.g_chords n).pitch ∧
      ((chordon_emit pf n c u v retCode s).2.2.g_chords n).nbPitch = (s.g_chords n).nbPitch ∧
      ((chordon_emit pf n c u v retCode s).2.2.g_chords n).dv = (s.g_chords n).dv ∧
      ((chordon_emit pf n c u v retCode s).2.2.g_chords n).dt = (s.g_chords n).dt := by
  unfold chordon_emit
  simp only []
  by_cases hr : s.g_randomVelocity ≠ 0
  · simp only [if_pos hr]
    split_ifs
    · simp only [sendmsgdt_frame]
      exact ⟨trivial, trivial, trivial, trivial, trivial, trivial, trivial, trivial⟩
    · simp only [sendmsgdt_frame, set1_same]
      exact ⟨trivial, trivial, trivial, trivial, trivial, trivial, trivial, trivial⟩
  · simp only [if_neg hr]
    split_ifs
    · simp only [sendmsgdt_frame]
      exact ⟨trivial, trivial, trivial, trivial, trivial, trivial, trivial, trivial⟩
    · simp only [sendmsgdt_frame, set1_same]
      exact ⟨trivial, trivial, trivial, trivial, trivial, trivial, trivial, trivial⟩

/-- What the second half of a turn of `LoutChordOn` does : the chord pool and
the log are kept, the message keeps its status byte, and with a velocity
ratio of at least 64 a velocity of at least 1 does not decrease. -/
theorem chordon_next_effect (pf : T_platform) (n c : Int) (u : T_midioutmsg) (v : Int)
    (s : T_state) :
    (chordon_next pf n c u v s).1.bData0 = u.bData0 ∧
      (chordon_next pf n c u v s).2.2.g_chords = s.g_chords ∧
      (chordon_next pf n c u v s).2.2.dispatched = s.dispatched ∧
      (64 ≤ (s.g_chords n).dv → 1 ≤ v → v ≤ (chordon_next pf n c u v s).2.1) := by
  unfold chordon_next
  simp only []
  have hg : (if s.g_randomDelay ≠ 0 then { s with rand_count := s.rand_count + 1 } else s).g_chords
      = s.g_chords := by
    split_ifs <;> rfl
  have hd : (if s.g_randomDelay ≠ 0 then { s with rand_count := s.rand_count + 1 }
      else s).dispatched = s.dispatched := by
    split_ifs <;> rfl
  refine ⟨trivial, hg, hd, ?_⟩
  intro hdv hv
  rw [hg]
  by_cases h64 : (s.g_chords n).dv ≠ 64
  · rw [if_pos h64]
    have ha : 127 ≤ 127 + ((s.g_chords n).dv - 64) := by omega
    generalize 127 + ((s.g_chords n).dv - 64) = a at ha
    have hnn : 0 ≤ a * v := by positivity
    rw [Int.tdiv_eq_ediv hnn (by decide)]
    apply Int.le_ediv_of_mul_le (by decide)
    nlinarith
  · rw [if_neg h64]

theorem chordon_loop_succ (pf : T_platform) (n : Int) (fuel : Nat) (c : Int) (u : T_midioutmsg)
    (v retCode : Int) (s : T_state) :
    chordon_loop pf n (fuel + 1) c u v retCode s =
      if c < (s.g_chords n).nbPitch then
        if ((chordon_emit pf n c u v retCode s).2.2.g_chords n).dv = 0 then
          ((chordon_emit pf n c u v retCode s).2.1, (chordon_emit pf n c u v retCode s).2.2)
        else
          if (chordon_next pf n c (chordon_emit pf n c u v retCode s).1 v
              (chordon_emit pf n c u v retCode s).2.2).2.1 < 1 then
            ((chordon_emit pf n c u v retCode s).2.1,
              (chordon_next pf n c (chordon_emit pf n c u v retCode s).1 v
                (chordon_emit pf n c u v retCode s).2.2).2.2)
          else chordon_loop pf n fuel (c + 1)
            (chordon_next pf n c (chordon_emit pf n c u v retCode s).1 v
              (chordon_emit pf n c u v retCode s).2.2).1
            (chordon_next pf n c (chordon_emit pf n c u v retCode s).1 v
              (chordon_emit pf n c u v retCode s).2.2).2.1
            (chordon_emit pf n c u v retCode s).2.1
            (chordon_next pf n c (chordon_emit pf n c u v retCode s).1 v
              (chordon_emit pf n c u v retCode s).2.2).2.2
      else (retCode, s) := rfl

/-- With a velocity ratio of at least 64 and a velocity of at least 1, the
loop of `LoutChordOn` dispatches one note per pitch left, in the order of the
pitches, the first one with the delay of `u`. -/
theorem chordon_loop_dispatched (pf : T_platform) (n : Int) (P : Int → Int) (N : Int) :
    ∀ (fuel : Nat) (c : Int) (u : T_midioutmsg) (v retCode : Int) (s : T_state),
      (s.g_chords n).pitch = P → (s.g_chords n).nbPitch = N → 64 ≤ (s.g_chords n).dv →
      c + fuel = N → 1 ≤ v →
      ∃ L : List T_midioutmsg,
        (chordon_loop pf n fuel c u v retCode s).2.dispatched = s.dispatched ++ L ∧
        L.map (fun m => (m.bData0, m.bData1)) =
          (List.range fuel).map (fun k : Nat => (u.bData0, toBYTE (pitch_wrap (P (c + (k : Int)))))) ∧
        (∀ m0, L.head? = some m0 → m0.dt = u.dt) := by
  intro fuel
  induction fuel with
  | zero =>
    intro c u v retCode s _ _ _ _ _
    exact ⟨[], by simp [chordon_loop], by simp, by simp⟩
  | succ k ih =>
    intro c u v retCode s hP hN hdv hc hv
    push_cast at hc
    obtain ⟨he0, he1, hedt, hedisp, hepitch, henb, hedv, _⟩ :=
      chordon_emit_effect pf n c u v retCode s
    obtain ⟨hn0, hnch, hndisp, hnv⟩ := chordon_next_effect pf n c
      (chordon_emit pf n c u v retCode s).1 v (chordon_emit pf n c u v retCode s).2.2
    rw [chordon_loop_succ, if_pos (by omega), if_neg (by rw [hedv]; omega),
      if_neg (by have := hnv (by rw [hedv]; exact hdv) hv; omega)]
    obtain ⟨L, hL1, hL2, _⟩ := ih (c + 1)
      (chordon_next pf n c (chordon_emit pf n c u v retCode s).1 v
        (chordon_emit pf n c u v retCode s).2.2).1
      (chordon_next pf n c (chordon_emit pf n c u v retCode s).1 v
        (chordon_emit pf n c u v retCode s).2.2).2.1
      (chordon_emit pf n c u v retCode s).2.1
      (chordon_next pf n c (chordon_emit pf n c u v retCode s).1 v
        (chordon_emit pf n c u v retCode s).2.2).2.2
      (by rw [hnch, hepitch, hP]) (by rw [hnch, henb, hN]) (by rw [hnch, hedv]; exact hdv)
      (by omega) (by have := hnv (by rw [hedv]; exact hdv) hv; omega)
    refine ⟨(chordon_emit pf n c u v retCode s).1 :: L, ?_, ?_, ?_⟩
    · rw [hL1, hndisp, hedisp]
      simp
    · rw [List.map_cons, hL2, hn0, he0, he1, hP, List.range_succ_eq_map, List.map_cons,
        List.map_map]
      congr 1
      · simp
      · apply List.map_congr_left
        intro k _
        simp only [Function.comp_apply, Nat.cast_succ]
        have e : c + 1 + (k : Int) = c + ((k : Int) + 1) := by omega
        rw [e]
    · intro m0 hm0
      simp only [List.head?_cons, Option.some.injEq] at hm0
      rw [← hm0]
      exact hedt

/-- C10, as stated, fails : a chord of 24 pitches (40..63) stored by
`LoutChordSet` with inter-note delay 0 and velocity ratio 1 (non-zero), played
by `LoutChordOn(7, 127, 0, 1)` with random delay disabled, emits 8 note-ons
and not 24 : the running velocity 127, 64, 32, 16, 8, 4, 2, 1 falls below 1
and the loop leaves (`if (v < 1) break;`). -/
theorem C10_velocity_decay_stops_chord :
    ((LoutChordSet platform_example (track_open_example platform_example) (some 7) 0 0 1 1 (-1)
        [40, 41, 42, 43, 44, 45, 46, 47, 48, 49, 50, 51, 52, 53, 54, 55, 56, 57, 58, 59, 60, 61,
          62, 63]).2.g_chords 0).nbPitch = 24 ∧
      (LoutChordOn platform_example
        (LoutChordSet platform_example (track_open_example platform_example) (some 7) 0 0 1 1 (-1)
          [40, 41, 42, 43, 44, 45, 46, 47, 48, 49, 50, 51, 52, 53, 54, 55, 56, 57, 58, 59, 60, 61,
            62, 63]).2
        (some 7) 127 0 1).2.dispatched.length = 8 := by
  decide

/-- The delays of the note-ons of a chord of 3 pitches stored with inter-note
delay 50 and the neutral velocity ratio 64, played with velocity 100 and delay
0 : the messages handed to `sendmsgdt` carry the delays 0, 0 and 50
(`u.dt = c * chord->dt` is computed after the note of index `c` is sent, for
the note of index `c + 1`). -/
theorem chordOn_three_pitches_delays :
    ((LoutChordOn platform_example
        (LoutChordSet platform_example (track_open_example platform_example) (some 7) 0 50 64 1
          (-1) [60, 64, 67]).2
        (some 7) 100 0 1).2.dispatched.map (fun m => (m.bData1, m.dt))) =
      [(60, 0), (64, 0), (67, 50)] := by
  decide

/-- C10, amended : for every chord of `N` pitches (1 ≤ N ≤ 24) found by its id,
with a velocity ratio of at least 64 and a velocity which is at least 1 after
the chord compensation, `LoutChordOn(id, velocity, dt, track)` emits exactly
`N` note-ons, the k-th (k = 0..N-1) with the k-th stored pitch, and the first
one carries the requested delay `dt` (0 in the claim). -/
theorem C10_chordOn_emits_every_pitch (pf : T_platform) (s : T_state)
    (id velocity dt nrTrack n N : Int)
    (hget : chord_get s id = some n)
    (hN : (s.g_chords n).nbPitch = N) (hN1 : 1 ≤ N) (_hN24 : N ≤ 24)
    (hdv : 64 ≤ (s.g_chords n).dv)
    (hv : 1 ≤ (if s.g_chordCompensation ≠ 0 then
      ((200 - (s.g_chordCompensation * (N - 1))) * velocity).tdiv 200 else velocity)) :
    ((LoutChordOn pf s (some id) velocity dt nrTrack).2.dispatched.drop
        s.dispatched.length).map (fun m => (m.bData0, m.bData1)) =
      (List.range N.toNat).map
        (fun k : Nat => (144, toBYTE (pitch_wrap ((s.g_chords n).pitch (k : Int))))) ∧
    (∀ m0, ((LoutChordOn pf s (some id) velocity dt nrTrack).2.dispatched.drop
        s.dispatched.length).head? = some m0 → m0.dt = dt) := by
  have htrk := cap_track_range nrTrack
  have hrun : (LoutChordOn pf s (some id) velocity dt nrTrack) =
      chordon_loop pf n N.toNat 0
        { id := 0, track := cap nrTrack 0 MAXTRACK 1, dt := dt, nbbyte := 3,
          bData0 := MIDI_NOTEON * 16, bData1 := 0, bData2 := 0, bData3 := 0 }
        (if s.g_chordCompensation ≠ 0 then
          ((200 - (s.g_chordCompensation * (N - 1))) * velocity).tdiv 200 else velocity) 0 s := by
    unfold LoutChordOn
    simp only [hget, hN]
    rw [if_pos htrk.1]
  obtain ⟨L, hL1, hL2, hL3⟩ := chordon_loop_dispatched pf n (s.g_chords n).pitch N N.toNat 0
    { id := 0, track := cap nrTrack 0 MAXTRACK 1, dt := dt, nbbyte := 3,
      bData0 := MIDI_NOTEON * 16, bData1 := 0, bData2 := 0, bData3 := 0 }
    (if s.g_chordCompensation ≠ 0 then
      ((200 - (s.g_chordCompensation * (N - 1))) * velocity).tdiv 200 else velocity) 0 s
    rfl hN hdv (by omega) hv
  rw [hrun, hL1, List.drop_left]
  constructor
  · rw [hL2]
    apply List.map_congr_left
    intro k _
    simp only [zero_add]
    rfl
  · exact hL3

theorem C10_chordOn_emits_every_pitch_witness :
    ((LoutChordOn platform_example
        (LoutChordSet platform_example (track_open_example platform_example) (some 7) 0 50 64 1
          (-1) [60, 64, 67]).2
        (some 7) 100 0 1).2.dispatched.drop
        (LoutChordSet platform_example (track_open_example platform_example) (some 7) 0 50 64 1
          (-1) [60, 64, 67]).2.dispatched.length).map (fun m => (m.bData0, m.bData1)) =
      (List.range (3 : Int).toNat).map
        (fun k : Nat => (144, toBYTE (pitch_wrap
          (((LoutChordSet platform_example (track_open_example platform_example) (some 7) 0 50 64
            1 (-1) [60, 64, 67]).2.g_chords 0).pitch (k : Int))))) :=
  (C10_chordOn_emits_every_pitch platform_example
    (LoutChordSet platform_example (track_open_example platform_example) (some 7) 0 50 64 1
      (-1) [60, 64, 67]).2
    7 100 0 1 0 3 (by decide) (by decide) (by decide) (by decide) (by decide) (by decide)).1

/-- The loop `while (p < 0) p += 12;` has left when its fuel is used up : the
result is not negative. -/
theorem pitch_raise_done : ∀ (fuel : Nat) (p : Int), -(12 * (fuel : Int)) ≤ p →
    0 ≤ pitch_raise fuel p := by
  intro fuel
  induction fuel with
  | zero =>
    intro p h
    simp only [Nat.cast_zero] at h
    show 0 ≤ p
    omega
  | succ k ih =>
    intro p h
    push_cast at h
    show 0 ≤ (if p < 0 then pitch_raise k (p + 12) else p)
    split_ifs with hp
    · exact ih (p + 12) (by omega)
    · omega

/-- The loop `while (p > 127) p -= 12;` has left when its fuel is used up : the
result is at most 127. -/
theorem pitch_lower_done : ∀ (fuel : Nat) (p : Int), p ≤ 127 + 12 * (fuel : Int) →
    pitch_lower fuel p ≤ 127 := by
  intro fuel
  induction fuel with
  | zero =>
    intro p h
    simp only [Nat.cast_zero] at h
    show p ≤ 127
    omega
  | succ k ih =>
    intro p h
    push_cast at h
    show (if p > 127 then pitch_lower k (p - 12) else p) ≤ 127
    split_ifs with hp
    · exact ih (p - 12) (by omega)
    · omega

/-! ## Frame of the dispatch -/

theorem DispatchFrame.refl (s : T_state) : DispatchFrame s s :=
  ⟨rfl, rfl, rfl, rfl, rfl, rfl, rfl, rfl, rfl, rfl, rfl, rfl, rfl, rfl, rfl, rfl, rfl, rfl,
    rfl, rfl, rfl, rfl, rfl⟩

theorem DispatchFrame.trans {s s1 s2 : T_state} (h1 : DispatchFrame s s1)
    (h2 : DispatchFrame s1 s2) : DispatchFrame s s2 :=
  ⟨h2.g_transposition.trans h1.g_transposition, h2.g_midiopened.trans h1.g_midiopened,
    h2.g_vi_opened_nb.trans h1.g_vi_opened_nb, h2.g_channels.trans h1.g_channels,
    h2.g_chordCompensation.trans h1.g_chordCompensation,
    h2.g_randomDelay.trans h1.g_randomDelay, h2.g_randomVelocity.trans h1.g_randomVelocity,
    h2.g_unique_id.trans h1.g_unique_id, h2.g_tracks.trans h1.g_tracks,
    h2.g_volume.trans h1.g_volume, h2.g_curves.trans h1.g_curves,
    h2.g_chords.trans h1.g_chords, h2.g_current_t.trans h1.g_current_t,
    h2.g_queue_msg.trans h1.g_queue_msg, h2.g_end_queue_msg.trans h1.g_end_queue_msg,
    h2.g_max_queue_msg.trans h1.g_max_queue_msg, h2.g_LUAoutState.trans h1.g_LUAoutState,
    h2.lua_post.trans h1.lua_post, h2.midi_out_ok.trans h1.midi_out_ok,
    h2.rand_values.trans h1.rand_values, h2.rand_count.trans h1.rand_count,
    h2.dispatched.trans h1.dispatched, h2.flushed.trans h1.flushed⟩

theorem sendshortmsg_dispatch_frame (pf : T_platform) (s : T_state) (m : T_midioutmsg) :
    DispatchFrame s (sendshortmsg pf s m).2 := by
  rw [sendshortmsg_snd]
  exact ⟨rfl, rfl, rfl, rfl, rfl, rfl, rfl, rfl, rfl, rfl, rfl, rfl, rfl, rfl, rfl, rfl, rfl,
    rfl, rfl, rfl, rfl, rfl, rfl⟩

theorem replicate_step_dispatch_frame (pf : T_platform) (type_msg : Nat) (nr_device c : Int)
    (m : T_midioutmsg) (retCode : Bool) (s : T_state) :
    DispatchFrame s (replicate_step pf type_msg nr_device c m retCode s).2.2 := by
  unfold replicate_step
  simp only [sendshortmsg_snd]
  split_ifs <;>
  exact ⟨rfl, rfl, rfl, rfl, rfl, rfl, rfl, rfl, rfl, rfl, rfl, rfl, rfl, rfl, rfl, rfl, rfl,
    rfl, rfl, rfl, rfl, rfl, rfl⟩

theorem replicate_loop_dispatch_frame (pf : T_platform) (type_msg : Nat)
    (nr_device nr_channel : Int) :
    ∀ (fuel : Nat) (c0 : Int) (m : T_midioutmsg) (retCode : Bool) (s : T_state),
      DispatchFrame s (replicate_loop pf type_msg nr_device nr_channel fuel c0 m retCode s).2 := by
  intro fuel
  induction fuel with
  | zero =>
    intro c0 m retCode s
    exact DispatchFrame.refl s
  | succ k ih =>
    intro c0 m retCode s
    rw [replicate_loop_succ]
    split_ifs
    · exact (replicate_step_dispatch_frame pf type_msg nr_device c0 m retCode s).trans
        (ih (c0 + 1) _ _ _)
    · exact ih (c0 + 1) m retCode s

theorem sendmidimsg_noteon_dispatch_frame (pf : T_platform) (s : T_state) (m : T_midioutmsg) :
    DispatchFrame s (sendmidimsg_noteon pf s m).2 := by
  unfold sendmidimsg_noteon
  simp only [sendshortmsg_snd]
  split
  · exact ⟨rfl, rfl, rfl, rfl, rfl, rfl, rfl, rfl, rfl, rfl, rfl, rfl, rfl, rfl, rfl, rfl, rfl,
      rfl, rfl, rfl, rfl, rfl, rfl⟩
  · split_ifs <;>
    exact ⟨rfl, rfl, rfl, rfl, rfl, rfl, rfl, rfl, rfl, rfl, rfl, rfl, rfl, rfl, rfl, rfl, rfl,
      rfl, rfl, rfl, rfl, rfl, rfl⟩

theorem sendmidimsg_noteoff_dispatch_frame (pf : T_platform) (s : T_state) (m : T_midioutmsg) :
    DispatchFrame s (sendmidimsg_noteoff pf s m).2 := by
  unfold sendmidimsg_noteoff
  simp only [sendshortmsg_snd]
  split <;>
  exact ⟨rfl, rfl, rfl, rfl, rfl, rfl, rfl, rfl, rfl, rfl, rfl, rfl, rfl, rfl, rfl, rfl, rfl,
    rfl, rfl, rfl, rfl, rfl, rfl⟩

theorem sendmidimsg_switch_dispatch_frame (pf : T_platform) (s : T_state) (m : T_midioutmsg) :
    DispatchFrame s (sendmidimsg_switch pf s m).2 := by
  unfold sendmidimsg_switch
  simp only []
  split_ifs
  · exact sendmidimsg_noteon_dispatch_frame pf s m
  · exact sendmidimsg_noteoff_dispatch_frame pf s m
  · exact sendshortmsg_dispatch_frame pf s m
  · exact replicate_loop_dispatch_frame pf _ _ _ 16 0 m true s

theorem sendmidimsg_dispatch_frame (pf : T_platform) (s : T_state) (m : T_midioutmsg)
    (first : Bool) : DispatchFrame s (sendmidimsg pf s m first).2 := by
  have hfold : ∀ (l : List T_midioutmsg) (st : T_state),
      DispatchFrame st (l.foldl (fun st m => (sendmidimsg_switch pf st m).2) st) := by
    intro l
    induction l with
    | nil =>
      intro st
      exact DispatchFrame.refl st
    | cons x xs ih =>
      intro st
      rw [List.foldl_cons]
      exact (sendmidimsg_switch_dispatch_frame pf st x).trans (ih _)
  unfold sendmidimsg
  split_ifs
  · split
    · exact hfold _ s
    · exact sendmidimsg_switch_dispatch_frame pf s m
  · exact sendmidimsg_switch_dispatch_frame pf s m

/-- The dispatch of a message writes only the transport log and the status and
time tables. -/
theorem sendmsg_dispatch_frame (pf : T_platform) (s : T_state) (m : T_midioutmsg) :
    DispatchFrame s (sendmsg pf s m).2 := by
  unfold sendmsg
  simp only []
  split_ifs
  · exact sendmidimsg_dispatch_frame pf s m true
  · exact DispatchFrame.refl s
  · exact sendmidimsg_dispatch_frame pf s m true
  · exact DispatchFrame.refl s
  · exact DispatchFrame.refl s

/-! ## Dispatch : note-off without owner, replication on the owned channels -/

theorem sendmidimsg_not_taken (pf : T_platform) (s : T_state) (m : T_midioutmsg) (first : Bool)
    (hhook : first = false ∨ s.g_LUAoutState = false ∨ s.lua_post m = none) :
    sendmidimsg pf s m first = sendmidimsg_switch pf s m := by
  unfold sendmidimsg
  rcases hhook with h | h | h
  · simp [h]
  · simp [h]
  · rw [h]
    simp

/-- C15 : a note-off which the LUA hook does not take and whose id is not the
recorded status of its pitch on any physical channel (0..15) owned by the
logical channel of its track fails : `sendmidimsg` returns false and the state
is unchanged (nothing is sent to the transport, the status and time tables are
as before). -/
theorem C15_noteoff_without_owner_fails (pf : T_platform) (s : T_state) (m : T_midioutmsg)
    (first : Bool)
    (hhook : first = false ∨ s.g_LUAoutState = false ∨ s.lua_post m = none)
    (htype : m.bData0 / 16 % 16 = MIDI_NOTEOFF)
    (hnone : ∀ c : Int, 0 ≤ c → c < 16 →
      s.g_channels (s.g_tracks m.track).device c = (s.g_tracks m.track).channel →
      s.g_midistatuspitch (s.g_tracks m.track).device c m.bData1 ≠ toULong pf m.id) :
    sendmidimsg pf s m first = (false, s) := by
  rw [sendmidimsg_not_taken pf s m first hhook]
  unfold sendmidimsg_switch
  have h89 : ¬ (MIDI_NOTEOFF = MIDI_NOTEON) := by decide
  simp only [htype, h89, if_false, if_true]
  unfold sendmidimsg_noteoff
  simp only []
  have hid : (if s.g_transposition ≠ 0 then
      { m with bData1 := toBYTE (pitch_wrap (↑m.bData1 + s.g_transposition)) } else m).id = m.id := by
    split_ifs <;> rfl
  rw [hid, first_index_none _ 16 0]
  intro j hj0 hj1
  simp only [decide_eq_false_iff_not]
  intro hc
  exact hnone j hj0 (by push_cast at hj1; omega) hc.1 hc.2

theorem C15_noteoff_without_owner_fails_witness :
    sendmidimsg platform_example (track_open_example platform_example)
      { id := 5, track := 0, dt := 0, nbbyte := 3, bData0 := 128, bData1 := 60, bData2 := 0,
        bData3 := 0 } true = (false, track_open_example platform_example) :=
  C15_noteoff_without_owner_fails platform_example (track_open_example platform_example)
    { id := 5, track := 0, dt := 0, nbbyte := 3, bData0 := 128, bData1 := 60, bData2 := 0,
      bData3 := 0 } true (Or.inr (Or.inl rfl)) (by decide)
    (by intro c h0 h1 _; interval_cases c <;> decide)

theorem status_byte0 (b0 T c : Nat) (hb : b0 / 16 = T) (hT : T < 16) (hc : c < 16) :
    (b0 / 16 * 16 + toBYTE (c : Int)) % 256 = T * 16 + c ∧
      (b0 / 16 * 16 + toBYTE (c : Int)) % 256 / 16 = T := by
  rw [hb, toBYTE_eq (c : Int) (by omega) (by omega), Int.toNat_ofNat]
  omega

/-- A message of the `default:` case which is not a control is sent once on
every extended channel, in increasing order of the channels, with its data
bytes. -/
theorem replicate_loop_all (pf : T_platform) (type_msg T : Nat) (nr_device nr_channel : Int)
    (trk : Int) (b1 b2 : Nat) (hty : type_msg ≠ MIDI_CONTROL) (hT : T < 16) :
    ∀ (fuel c0 : Nat) (m : T_midioutmsg) (retCode : Bool) (s : T_state),
      c0 + fuel ≤ 16 → m.bData0 / 16 = T → m.bData1 = b1 → m.bData2 = b2 → m.track = trk →
      (replicate_loop pf type_msg nr_device nr_channel fuel c0 m retCode s).2.transport =
        s.transport ++
          ((List.range' c0 fuel).filter
            (fun c : Nat => decide (s.g_channels nr_device (c : Int) = nr_channel))).map
            (fun c : Nat => T_sent.mk (s.g_tracks trk).device (T * 16 + c) b1 b2) := by
  intro fuel
  induction fuel with
  | zero =>
    intro c0 m retCode s _ _ _ _ _
    simp [replicate_loop]
  | succ k ih =>
    intro c0 m retCode s h hb0 hb1 hb2 htrk
    rw [replicate_loop_succ, List.range'_succ, List.filter_cons]
    obtain ⟨hm, htracks, hchan, _, _, _, htrans⟩ :=
      replicate_step_effect pf type_msg nr_device (c0 : Int) m retCode s
    have hbyte := status_byte0 m.bData0 T c0 hb0 hT (by omega)
    by_cases hown : s.g_channels nr_device (c0 : Int) = nr_channel
    · rw [if_pos hown, if_pos (by simpa using hown)]
      have hih := ih (c0 + 1) (replicate_step pf type_msg nr_device (c0 : Int) m retCode s).1
        (replicate_step pf type_msg nr_device (c0 : Int) m retCode s).2.1
        (replicate_step pf type_msg nr_device (c0 : Int) m retCode s).2.2
        (by omega) (by rw [hm]; exact hbyte.2) (by rw [hm]; exact hb1) (by rw [hm]; exact hb2)
        (by rw [hm]; exact htrk)
      have hcast : ((c0 : Int) + 1) = ((c0 + 1 : Nat) : Int) := by push_cast; rfl
      rw [hcast, hih, htrans, if_pos (Or.inl hty), hbyte.1, hb1, hb2, htrk, hchan, htracks]
      simp
    · rw [if_neg hown, if_neg (by simpa using hown)]
      have hcast : ((c0 : Int) + 1) = ((c0 + 1 : Nat) : Int) := by push_cast; rfl
      rw [hcast]
      exact ih (c0 + 1) m retCode s (by omega) hb0 hb1 hb2 htrk

/-- C17 : a program-change, pitch-bend, channel-pressure or key-pressure message
which the LUA hook does not take makes exactly one transport send for each
physical channel (0..15) owned by the logical channel of its track, in
increasing channel order, each with the status type of the message, the
physical channel in the low nibble and the data bytes of the message; no
other send is made. -/
theorem C17_replication_on_owned_channels (pf : T_platform) (s : T_state) (m : T_midioutmsg)
    (first : Bool)
    (hhook : first = false ∨ s.g_LUAoutState = false ∨ s.lua_post m = none)
    (htype : m.bData0 / 16 = MIDI_PROGRAM ∨ m.bData0 / 16 = MIDI_PITCHBEND ∨
      m.bData0 / 16 = MIDI_CHANNELPRESSURE ∨ m.bData0 / 16 = MIDI_KEYPRESSURE) :
    (sendmidimsg pf s m first).2.transport =
      s.transport ++
        ((List.range 16).filter (fun c : Nat => decide
          (s.g_channels (s.g_tracks m.track).device (c : Int) = (s.g_tracks m.track).channel))).map
          (fun c : Nat =>
            T_sent.mk (s.g_tracks m.track).device (m.bData0 / 16 * 16 + c) m.bData1 m.bData2) := by
  rw [sendmidimsg_not_taken pf s m first hhook]
  have hT : m.bData0 / 16 < 16 := by
    rcases htype with h | h | h | h <;> rw [h] <;> decide
  have hmod : m.bData0 / 16 % 16 = m.bData0 / 16 := Nat.mod_eq_of_lt hT
  have hsw : sendmidimsg_switch pf s m = replicate_loop pf (m.bData0 / 16)
      (s.g_tracks m.track).device (s.g_tracks m.track).channel 16 0 m true s := by
    unfold sendmidimsg_switch
    simp only [hmod]
    rw [if_neg (by rcases htype with h | h | h | h <;> rw [h] <;> decide),
      if_neg (by rcases htype with h | h | h | h <;> rw [h] <;> decide),
      if_neg (by rcases htype with h | h | h | h <;> rw [h] <;> decide)]
  rw [hsw, List.range_eq_range']
  exact replicate_loop_all pf (m.bData0 / 16) (m.bData0 / 16) _ _ m.track m.bData1 m.bData2
    (by rcases htype with h | h | h | h <;> rw [h] <;> decide) hT 16 0 m true s
    (by omega) rfl rfl rfl rfl

theorem C17_replication_on_owned_channels_witness :
    (sendmidimsg platform_example (channel_extended_set (track_open_example platform_example) 0 0 2 true).2
      { id := 0, track := 0, dt := 0, nbbyte := 2, bData0 := 192, bData1 := 5, bData2 := 0,
        bData3 := 0 } true).2.transport =
      [{ device := 0, bData0 := 192, bData1 := 5, bData2 := 0 },
       { device := 0, bData0 := 206, bData1 := 5, bData2 := 0 },
       { device := 0, bData0 := 207, bData1 := 5, bData2 := 0 }] :=
  C17_replication_on_owned_channels platform_example
    (channel_extended_set (track_open_example platform_example) 0 0 2 true).2
    { id := 0, track := 0, dt := 0, nbbyte := 2, bData0 := 192, bData1 := 5, bData2 := 0,
      bData3 := 0 } true (Or.inr (Or.inl rfl)) (Or.inl (by decide))

/-! ## Delivery queue : cancel of a queued note-on -/

theorem unqueue_loop_noteoff_succ (pf : T_platform) (u : T_midioutmsg) (tmsg : Int)
    (fuel : Nat) (n nb rc : Int) (s : T_state) :
    unqueue_loop pf OUT_QUEUE_NOTEOFF u tmsg (fuel + 1) n (nb, rc, s) =
      if (s.g_queue_msg n).free = false then
        if (s.g_queue_msg n).midioutmsg.bData0 / 16 % 16 = MIDI_NOTEON
            ∧ (s.g_queue_msg n).midioutmsg.bData0 % 16 = u.bData0 % 16
            ∧ ((s.g_queue_msg n).midioutmsg.bData1 = u.bData1 ∨ u.bData1 = 0)
            ∧ (s.g_queue_msg n).midioutmsg.track = u.track
            ∧ (s.g_queue_msg n).midioutmsg.id = u.id
            ∧ (s.g_queue_msg n).t ≥ tmsg then
          unqueue_loop pf OUT_QUEUE_NOTEOFF u tmsg fuel (n + 1) (nb + 1, 1,
            { s with g_queue_msg := set1 s.g_queue_msg n { s.g_queue_msg n with free := true } })
        else unqueue_loop pf OUT_QUEUE_NOTEOFF u tmsg fuel (n + 1) (nb + 1, rc, s)
      else unqueue_loop pf OUT_QUEUE_NOTEOFF u tmsg fuel (n + 1) (nb, rc, s) := by
  have h10 : ¬ (OUT_QUEUE_NOTEOFF = OUT_QUEUE_FLUSH) := by decide
  simp only [unqueue_loop, h10, if_false, if_true]

/-- The cancel scan of `unqueue` writes the free flags of the queue only : a
slot keeps its content, and is freed when it is occupied and matches; the
count of waiting slots and the return code follow. -/
theorem unqueue_loop_noteoff_effect (pf : T_platform) (u : T_midioutmsg) (tmsg : Int) :
    ∀ (fuel : Nat) (n nb rc : Int) (s : T_state),
      (unqueue_loop pf OUT_QUEUE_NOTEOFF u tmsg fuel n (nb, rc, s)).2.2 =
          { s with g_queue_msg :=
            (unqueue_loop pf OUT_QUEUE_NOTEOFF u tmsg fuel n (nb, rc, s)).2.2.g_queue_msg } ∧
        (∀ j : Int,
          (unqueue_loop pf OUT_QUEUE_NOTEOFF u tmsg fuel n (nb, rc, s)).2.2.g_queue_msg j =
              s.g_queue_msg j ∨
            (n ≤ j ∧ j < n + fuel ∧ (s.g_queue_msg j).free = false ∧
              (unqueue_loop pf OUT_QUEUE_NOTEOFF u tmsg fuel n (nb, rc, s)).2.2.g_queue_msg j =
                { s.g_queue_msg j with free := true })) ∧
        (∀ j : Int, n ≤ j → j < n + fuel → (s.g_queue_msg j).free = false →
          nb < (unqueue_loop pf OUT_QUEUE_NOTEOFF u tmsg fuel n (nb, rc, s)).1) ∧
        nb ≤ (unqueue_loop pf OUT_QUEUE_NOTEOFF u tmsg fuel n (nb, rc, s)).1 ∧
        (rc = 1 → (unqueue_loop pf OUT_QUEUE_NOTEOFF u tmsg fuel n (nb, rc, s)).2.1 = 1) ∧
        ((unqueue_loop pf OUT_QUEUE_NOTEOFF u tmsg fuel n (nb, rc, s)).2.1 = rc ∨
          (unqueue_loop pf OUT_QUEUE_NOTEOFF u tmsg fuel n (nb, rc, s)).2.1 = 1) ∧
        (∀ j : Int, n ≤ j → j < n + fuel → (s.g_queue_msg j).free = false →
          (s.g_queue_msg j).midioutmsg.bData0 / 16 % 16 = MIDI_NOTEON
            ∧ (s.g_queue_msg j).midioutmsg.bData0 % 16 = u.bData0 % 16
            ∧ ((s.g_queue_msg j).midioutmsg.bData1 = u.bData1 ∨ u.bData1 = 0)
            ∧ (s.g_queue_msg j).midioutmsg.track = u.track
            ∧ (s.g_queue_msg j).midioutmsg.id = u.id
            ∧ (s.g_queue_msg j).t ≥ tmsg →
          (unqueue_loop pf OUT_QUEUE_NOTEOFF u tmsg fuel n (nb, rc, s)).2.1 = 1 ∧
            ((unqueue_loop pf OUT_QUEUE_NOTEOFF u tmsg fuel n (nb, rc, s)).2.2.g_queue_msg j).free
              = true) := by
  intro fuel
  induction fuel with
  | zero =>
    intro n nb rc s
    refine ⟨rfl, fun j => Or.inl rfl, ?_, le_refl _, fun h => h, Or.inl rfl, ?_⟩
    · intro j h0 h1
      simp only [Nat.cast_zero] at h1
      omega
    · intro j h0 h1
      simp only [Nat.cast_zero] at h1
      omega
  | succ k ih =>
    intro n nb rc s
    rw [unqueue_loop_noteoff_succ]
    by_cases hfree : (s.g_queue_msg n).free = false
    · rw [if_pos hfree]
      by_cases hm : (s.g_queue_msg n).midioutmsg.bData0 / 16 % 16 = MIDI_NOTEON
            ∧ (s.g_queue_msg n).midioutmsg.bData0 % 16 = u.bData0 % 16
            ∧ ((s.g_queue_msg n).midioutmsg.bData1 = u.bData1 ∨ u.bData1 = 0)
            ∧ (s.g_queue_msg n).midioutmsg.track = u.track
            ∧ (s.g_queue_msg n).midioutmsg.id = u.id
            ∧ (s.g_queue_msg n).t ≥ tmsg
      · rw [if_pos hm]
        obtain ⟨h1, h2, h3, h4, h5, _, h7⟩ := ih (n + 1) (nb + 1) 1
          { s with g_queue_msg := set1 s.g_queue_msg n { s.g_queue_msg n with free := true } }
        refine ⟨?_, ?_, ?_, by omega, fun _ => h5 rfl, Or.inr (h5 rfl), ?_⟩
        · rw [h1]
        · intro j
          rcases h2 j with h | ⟨ha, hb, hc, hd⟩
          · by_cases hj : j = n
            · right
              subst hj
              rw [h]
              simp only [set1_same]
              exact ⟨le_refl _, by push_cast; omega, hfree, trivial⟩
            · left
              rw [h]
              simp only [set1_other _ _ _ _ hj]
          · have hj : j ≠ n := by omega
            simp only [set1_other _ _ _ _ hj] at hc hd
            right
            exact ⟨by omega, by push_cast at hb ⊢; omega, hc, hd⟩
        · intro j _ _ _
          omega
        · intro j hj0 hj1 hocc hmj
          refine ⟨h5 rfl, ?_⟩
          by_cases hj : j = n
          · subst hj
            rcases h2 j with h | ⟨_, _, _, hd⟩
            · rw [h]
              simp only [set1_same]
            · rw [hd]
          · have := h7 j (by omega) (by push_cast at hj1 ⊢; omega)
              (by simp only [set1_other _ _ _ _ hj]; exact hocc)
              (by simp only [set1_other _ _ _ _ hj]; exact hmj)
            exact this.2
      · rw [if_neg hm]
        obtain ⟨h1, h2, h3, h4, h5, h6, h7⟩ := ih (n + 1) (nb + 1) rc s
        refine ⟨h1, ?_, ?_, by omega, h5, h6, ?_⟩
        · intro j
          rcases h2 j with h | ⟨ha, hb, hc, hd⟩
          · left
            exact h
          · right
            exact ⟨by omega, by push_cast at hb ⊢; omega, hc, hd⟩
        · intro j _ _ _
          omega
        · intro j hj0 hj1 hocc hmj
          have hj : j ≠ n := fun h => hm (h ▸ hmj)
          exact h7 j (by omega) (by push_cast at hj1 ⊢; omega) hocc hmj
    · rw [if_neg hfree]
      obtain ⟨h1, h2, h3, h4, h5, h6, h7⟩ := ih (n + 1) nb rc s
      refine ⟨h1, ?_, ?_, h4, h5, h6, ?_⟩
      · intro j
        rcases h2 j with h | ⟨ha, hb, hc, hd⟩
        · left
          exact h
        · right
          exact ⟨by omega, by push_cast at hb ⊢; omega, hc, hd⟩
      · intro j hj0 hj1 hocc
        have hj : j ≠ n := fun h => hfree (h ▸ hocc)
        exact h3 j (by omega) (by push_cast at hj1 ⊢; omega) hocc
      · intro j hj0 hj1 hocc hmj
        have hj : j ≠ n := fun h => hfree (h ▸ hocc)
        exact h7 j (by omega) (by push_cast at hj1 ⊢; omega) hocc hmj

/-- C13 : when a slot `q` of the queue (below the scan bound) holds a note-on
with the track, the channel nibble, the pitch and the id of the note-off which
`LoutNoteOff(pitch, velocity, id, dt, track)` issues, scheduled no earlier
than the delivery time `g_current_t + dt` of the note-off, then `LoutNoteOff`
frees the slot `q`, returns 0, sends nothing to the transport, hands nothing
to `sendmsgdt` (nothing is sent or queued), and leaves the status and time
tables and the clock unchanged; a slot of the queue is either untouched or an
occupied slot which is freed with its content kept. -/
theorem C13_noteoff_cancels_queued_noteon (pf : T_platform) (s : T_state)
    (pitch velocity id dt nrTrack q : Int)
    (hq0 : 0 ≤ q) (hq1 : q < s.g_end_queue_msg)
    (hocc : (s.g_queue_msg q).free = false)
    (hon : (s.g_queue_msg q).midioutmsg.bData0 / 16 % 16 = MIDI_NOTEON)
    (hchan : (s.g_queue_msg q).midioutmsg.bData0 % 16 = MIDI_NOTEOFF * 16 % 16)
    (hpitch : (s.g_queue_msg q).midioutmsg.bData1 = toBYTE (pitch_wrap_note pitch))
    (htrack : (s.g_queue_msg q).midioutmsg.track = cap nrTrack 0 MAXTRACK 1)
    (hid : (s.g_queue_msg q).midioutmsg.id = id)
    (ht : (s.g_queue_msg q).t ≥ s.g_current_t + dt) :
    (LoutNoteOff pf s pitch velocity id dt nrTrack).1 = 0 ∧
      ((LoutNoteOff pf s pitch velocity id dt nrTrack).2.g_queue_msg q).free = true ∧
      (LoutNoteOff pf s pitch velocity id dt nrTrack).2.transport = s.transport ∧
      (LoutNoteOff pf s pitch velocity id dt nrTrack).2.dispatched = s.dispatched ∧
      (LoutNoteOff pf s pitch velocity id dt nrTrack).2.g_midistatuspitch = s.g_midistatuspitch ∧
      (LoutNoteOff pf s pitch velocity id dt nrTrack).2.g_miditimepitch = s.g_miditimepitch ∧
      (LoutNoteOff pf s pitch velocity id dt nrTrack).2.g_midistatuscontrol =
        s.g_midistatuscontrol ∧
      (LoutNoteOff pf s pitch velocity id dt nrTrack).2.g_miditimecontrol =
        s.g_miditimecontrol ∧
      (LoutNoteOff pf s pitch velocity id dt nrTrack).2.g_current_t = s.g_current_t ∧
      (LoutNoteOff pf s pitch velocity id dt nrTrack).2.g_end_queue_msg = s.g_end_queue_msg ∧
      (∀ j : Int,
        (LoutNoteOff pf s pitch velocity id dt nrTrack).2.g_queue_msg j = s.g_queue_msg j ∨
          ((s.g_queue_msg j).free = false ∧
            (LoutNoteOff pf s pitch velocity id dt nrTrack).2.g_queue_msg j =
              { s.g_queue_msg j with free := true })) := by
  have htrk := cap_track_range nrTrack
  generalize hu : T_midioutmsg.mk id (cap nrTrack 0 MAXTRACK 1) dt 3 (MIDI_NOTEOFF * 16)
    (toBYTE (pitch_wrap_note pitch)) (toBYTE (cap velocity 0 128 0)) 0 = u
  have hu_b0 : u.bData0 = MIDI_NOTEOFF * 16 := by rw [← hu]
  have hu_b1 : u.bData1 = toBYTE (pitch_wrap_note pitch) := by rw [← hu]
  have hu_trk : u.track = cap nrTrack 0 MAXTRACK 1 := by rw [← hu]
  have hu_id : u.id = id := by rw [← hu]
  have hu_dt : u.dt = dt := by rw [← hu]
  obtain ⟨h1, h2, h3, _, _, _, h7⟩ := unqueue_loop_noteoff_effect pf u (s.g_current_t + u.dt)
    s.g_end_queue_msg.toNat 0 0 0 s
  have hq1' : q < 0 + (s.g_end_queue_msg.toNat : Int) := by omega
  have hnb := h3 q hq0 hq1' hocc
  have hrc := h7 q hq0 hq1' hocc
    ⟨hon, by rw [hu_b0]; exact hchan, Or.inl (by rw [hu_b1]; exact hpitch),
      by rw [hu_trk]; exact htrack, by rw [hu_id]; exact hid, by rw [hu_dt]; exact ht⟩
  have hun : unqueue pf s OUT_QUEUE_NOTEOFF u =
      (1, (unqueue_loop pf OUT_QUEUE_NOTEOFF u (s.g_current_t + u.dt)
        s.g_end_queue_msg.toNat 0 (0, 0, s)).2.2) := by
    unfold unqueue
    have h10 : ¬ (OUT_QUEUE_NOTEOFF = OUT_QUEUE_FLUSH) := by decide
    simp only [h10, if_false]
    rw [if_neg (by omega), hrc.1]
  have hfin : LoutNoteOff pf s pitch velocity id dt nrTrack =
      (0, (unqueue_loop pf OUT_QUEUE_NOTEOFF u (s.g_current_t + u.dt)
        s.g_end_queue_msg.toNat 0 (0, 0, s)).2.2) := by
    unfold LoutNoteOff
    simp only [hu]
    rw [if_pos htrk.1, hun]
    simp
  rw [hfin]
  generalize (unqueue_loop pf OUT_QUEUE_NOTEOFF u (s.g_current_t + u.dt)
    s.g_end_queue_msg.toNat 0 (0, 0, s)).2.2 = s1 at h1 h2 hrc
  refine ⟨rfl, hrc.2, ?_, ?_, ?_, ?_, ?_, ?_, ?_, ?_, ?_⟩
  · rw [h1]
  · rw [h1]
  · rw [h1]
  · rw [h1]
  · rw [h1]
  · rw [h1]
  · rw [h1]
  · rw [h1]
  · intro j
    rcases h2 j with h | ⟨_, _, hc, hd⟩
    · left
      exact h
    · right
      exact ⟨hc, hd⟩

theorem C13_noteoff_cancels_queued_noteon_witness :
    (LoutNoteOff platform_example
        (LoutNoteOn platform_example (track_open_example platform_example) 60 100 5 30 1).2
        60 0 5 0 1).1 = 0 ∧
      ((LoutNoteOff platform_example
        (LoutNoteOn platform_example (track_open_example platform_example) 60 100 5 30 1).2
        60 0 5 0 1).2.g_queue_msg 0).free = true ∧
      (LoutNoteOff platform_example
        (LoutNoteOn platform_example (track_open_example platform_example) 60 100 5 30 1).2
        60 0 5 0 1).2.transport =
        (LoutNoteOn platform_example (track_open_example platform_example) 60 100 5 30
          1).2.transport :=
  have h := C13_noteoff_cancels_queued_noteon platform_example
    (LoutNoteOn platform_example (track_open_example platform_example) 60 100 5 30 1).2
    60 0 5 0 1 0 (by decide) (by decide) (by decide) (by decide) (by decide) (by decide)
    (by decide) (by decide) (by decide)
  ⟨h.1, h.2.1, h.2.2.1⟩

/-! ## Dispatch : flood guard of the note-on -/

theorem sendshortmsg_fst (pf : T_platform) (s : T_state) (m : T_midioutmsg) :
    (sendshortmsg pf s m).1 =
      (if (s.g_tracks m.track).device ≥ pf.VI_ZERO then true
       else s.midi_out_ok (s.g_tracks m.track).device) := by
  unfold sendshortmsg
  simp only []
  split_ifs <;> rfl

/-- The `case MIDI_NOTEON:` when no extended channel has the status of the
pitch off : the message after transposition and volume, then the flood
guard. -/
theorem sendmidimsg_noteon_busy (pf : T_platform) (s : T_state) (m : T_midioutmsg)
    (hnone : ∀ c : Int, 0 ≤ c → c < 16 →
      s.g_channels (s.g_tracks m.track).device c = (s.g_tracks m.track).channel →
      s.g_midistatuspitch (s.g_tracks m.track).device c m.bData1 ≠ toULong pf (-1)) :
    sendmidimsg_noteon pf s m =
      if s.g_midistatuspitch (s.g_tracks m.track).device (s.g_tracks m.track).channel m.bData1
            ≠ toULong pf m.id
          ∧ s.g_miditimepitch (s.g_tracks m.track).device (s.g_tracks m.track).channel m.bData1
            < toULong pf (s.g_current_t - 200) then
        if (if (s.g_tracks m.track).device ≥ pf.VI_ZERO then true
            else s.midi_out_ok (s.g_tracks m.track).device) = false then
          (false, { s with transport := s.transport ++
            [T_sent.mk (s.g_tracks m.track).device
              (toBYTE (MIDI_NOTEOFF * 16 + toBYTE (s.g_tracks m.track).channel))
              (if s.g_transposition ≠ 0 then
                toBYTE (pitch_wrap (m.bData1 + s.g_transposition)) else m.bData1)
              (toBYTE (apply_volume s m.track m.bData2))] })
        else
          (true, { s with
            transport := s.transport ++
              [T_sent.mk (s.g_tracks m.track).device
                (toBYTE (MIDI_NOTEOFF * 16 + toBYTE (s.g_tracks m.track).channel))
                (if s.g_transposition ≠ 0 then
                  toBYTE (pitch_wrap (m.bData1 + s.g_transposition)) else m.bData1)
                (toBYTE (apply_volume s m.track m.bData2)),
               T_sent.mk (s.g_tracks m.track).device
                (toBYTE (MIDI_NOTEON * 16 + toBYTE (s.g_tracks m.track).channel))
                (if s.g_transposition ≠ 0 then
                  toBYTE (pitch_wrap (m.bData1 + s.g_transposition)) else m.bData1)
                (toBYTE (apply_volume s m.track m.bData2))]
            g_midistatuspitch := set3 s.g_midistatuspitch (s.g_tracks m.track).device
              (s.g_tracks m.track).channel m.bData1 (toULong pf m.id)
            g_miditimepitch := set3 s.g_miditimepitch (s.g_tracks m.track).device
              (s.g_tracks m.track).channel m.bData1 (toULong pf s.g_current_t) })
      else (true, s) := by
  have hfi : first_index (fun c => decide
      (s.g_channels (s.g_tracks m.track).device c = (s.g_tracks m.track).channel
        ∧ s.g_midistatuspitch (s.g_tracks m.track).device c m.bData1 = toULong pf (-1)))
      16 0 = none := by
    apply first_index_none
    intro j hj0 hj1
    simp only [decide_eq_false_iff_not]
    intro hc
    exact hnone j hj0 (by push_cast at hj1; omega) hc.1 hc.2
  unfold sendmidimsg_noteon
  simp only [hfi, sendshortmsg_fst, sendshortmsg_snd]
  by_cases htr : s.g_transposition ≠ 0
  · simp only [if_pos htr]
    split_ifs <;> simp
  · simp only [if_neg htr]
    split_ifs <;> simp

/-- The slip of the flood guard of the note-on below 200 ms : with the clock at
0 ms, the pitch 60 is put on by the id 7, so that the only channel of the track
is busy; a note-on of the same pitch by the id 5, 0 ms later, is let through
(forced note-off, then note-on), because the recorded time 0 is compared, as
`unsigned long`, with `g_current_t - 200 = -200` converted to
`unsigned long`.  With the clock at 1000 ms the same second note-on is
dropped. -/
theorem noteon_flood_guard_open_below_200ms :
    (sendmidimsg platform_example
        (sendmidimsg platform_example (track_open_example platform_example)
          (T_midioutmsg.mk 7 0 0 3 144 60 100 0) true).2
        (T_midioutmsg.mk 5 0 0 3 144 60 100 0) true).2.transport =
      [T_sent.mk 0 144 60 100, T_sent.mk 0 128 60 100, T_sent.mk 0 144 60 100] ∧
    (sendmidimsg platform_example
        (sendmidimsg platform_example
          { track_open_example platform_example with g_current_t := 1000 }
          (T_midioutmsg.mk 7 0 0 3 144 60 100 0) true).2
        (T_midioutmsg.mk 5 0 0 3 144 60 100 0) true).2.transport =
      [T_sent.mk 0 144 60 100] := by
  decide

/-- C19, counterexample : the clock is at 1000 ms, the pitch 60 of the only
channel of the track 0 is owned by the id 7 since the time 0 (more than 200 ms
ago), and the MIDI-out device rejects what it is given.  The note-on of the id
5 meets every condition of the claim for the forced note-off followed by the
note-on; the code sends the note-off only, returns false on its rejection
(`if (sendshortmsg(midioutmsg, first) == false) return(false);`), sends no
note-on, and records neither the id nor the clock. -/
theorem C19_rejected_noteoff_stops_noteon :
    (∀ c : Int, 0 ≤ c → c < 16 →
      (track_open_example platform_example).g_channels 0 c = 0 →
      set3 (track_open_example platform_example).g_midistatuspitch 0 0 60 7 0 c 60
        ≠ toULong platform_example (-1)) ∧
    (sendmidimsg platform_example
        { track_open_example platform_example with
          g_current_t := 1000
          midi_out_ok := fun _ => false
          g_midistatuspitch :=
            set3 (track_open_example platform_example).g_midistatuspitch 0 0 60 7 }
        (T_midioutmsg.mk 5 0 0 3 144 60 100 0) true).1 = false ∧
    (sendmidimsg platform_example
        { track_open_example platform_example with
          g_current_t := 1000
          midi_out_ok := fun _ => false
          g_midistatuspitch :=
            set3 (track_open_example platform_example).g_midistatuspitch 0 0 60 7 }
        (T_midioutmsg.mk 5 0 0 3 144 60 100 0) true).2.transport =
      [T_sent.mk 0 128 60 100] ∧
    (sendmidimsg platform_example
        { track_open_example platform_example with
          g_current_t := 1000
          midi_out_ok := fun _ => false
          g_midistatuspitch :=
            set3 (track_open_example platform_example).g_midistatuspitch 0 0 60 7 }
        (T_midioutmsg.mk 5 0 0 3 144 60 100 0) true).2.g_midistatuspitch 0 0 60 = 7 ∧
    (sendmidimsg platform_example
        { track_open_example platform_example with
          g_current_t := 1000
          midi_out_ok := fun _ => false
          g_midistatuspitch :=
            set3 (track_open_example platform_example).g_midistatuspitch 0 0 60 7 }
        (T_midioutmsg.mk 5 0 0 3 144 60 100 0) true).2.g_miditimepitch 0 0 60 = 0 := by
  refine ⟨?_, by decide, by decide, by decide, by decide⟩
  intro c h0 h1
  interval_cases c <;> decide

/-- C19, amended : a note-on which the LUA hook does not take, when no physical
channel (0..15) owned by the logical channel of its track has the status off
for its pitch, and the clock is at least 200 ms (and fits an
`unsigned long`).  When the recorded owner of the pitch on the primary channel
differs from the id of the message and its recorded time is more than 200 ms
before the clock, the forced note-off is sent on the primary channel; if the
transport accepts it, the note-on follows, true is returned, and the id and the
clock are recorded for this (channel, pitch), nothing else of the two tables
changes; if the transport rejects it, false is returned, no note-on is sent and
the tables are unchanged.  In every other case true is returned and the state
is unchanged : nothing is sent. -/
theorem C19_flood_guard_noteon_from_200ms (pf : T_platform) (s : T_state) (m : T_midioutmsg)
    (first : Bool)
    (hhook : first = false ∨ s.g_LUAoutState = false ∨ s.lua_post m = none)
    (htype : m.bData0 / 16 % 16 = MIDI_NOTEON)
    (hnone : ∀ c : Int, 0 ≤ c → c < 16 →
      s.g_channels (s.g_tracks m.track).device c = (s.g_tracks m.track).channel →
      s.g_midistatuspitch (s.g_tracks m.track).device c m.bData1 ≠ toULong pf (-1))
    (ht0 : 200 ≤ s.g_current_t) (ht1 : s.g_current_t < 2 ^ pf.LONG_BITS) :
    (s.g_midistatuspitch (s.g_tracks m.track).device (s.g_tracks m.track).channel m.bData1
          ≠ toULong pf m.id →
      (s.g_miditimepitch (s.g_tracks m.track).device (s.g_tracks m.track).channel m.bData1 : Int)
          < s.g_current_t - 200 →
      ((s.g_tracks m.track).device ≥ pf.VI_ZERO
          ∨ s.midi_out_ok (s.g_tracks m.track).device = true →
        sendmidimsg pf s m first = (true, { s with
          transport := s.transport ++
            [T_sent.mk (s.g_tracks m.track).device
              (toBYTE (MIDI_NOTEOFF * 16 + toBYTE (s.g_tracks m.track).channel))
              (if s.g_transposition ≠ 0 then
                toBYTE (pitch_wrap (m.bData1 + s.g_transposition)) else m.bData1)
              (toBYTE (apply_volume s m.track m.bData2)),
             T_sent.mk (s.g_tracks m.track).device
              (toBYTE (MIDI_NOTEON * 16 + toBYTE (s.g_tracks m.track).channel))
              (if s.g_transposition ≠ 0 then
                toBYTE (pitch_wrap (m.bData1 + s.g_transposition)) else m.bData1)
              (toBYTE (apply_volume s m.track m.bData2))]
          g_midistatuspitch := set3 s.g_midistatuspitch (s.g_tracks m.track).device
            (s.g_tracks m.track).channel m.bData1 (toULong pf m.id)
          g_miditimepitch := set3 s.g_miditimepitch (s.g_tracks m.track).device
            (s.g_tracks m.track).channel m.bData1 s.g_current_t.toNat })) ∧
      (¬ ((s.g_tracks m.track).device ≥ pf.VI_ZERO
          ∨ s.midi_out_ok (s.g_tracks m.track).device = true) →
        sendmidimsg pf s m first = (false, { s with
          transport := s.transport ++
            [T_sent.mk (s.g_tracks m.track).device
              (toBYTE (MIDI_NOTEOFF * 16 + toBYTE (s.g_tracks m.track).channel))
              (if s.g_transposition ≠ 0 then
                toBYTE (pitch_wrap (m.bData1 + s.g_transposition)) else m.bData1)
              (toBYTE (apply_volume s m.track m.bData2))] }))) ∧
    (¬ (s.g_midistatuspitch (s.g_tracks m.track).device (s.g_tracks m.track).channel m.bData1
          ≠ toULong pf m.id ∧
        (s.g_miditimepitch (s.g_tracks m.track).device (s.g_tracks m.track).channel m.bData1
          : Int) < s.g_current_t - 200) →
      sendmidimsg pf s m first = (true, s)) := by
  have hsw : sendmidimsg pf s m first = sendmidimsg_noteon pf s m := by
    rw [sendmidimsg_not_taken pf s m first hhook]
    unfold sendmidimsg_switch
    simp only [htype, if_true]
  have hclk : toULong pf (s.g_current_t - 200) = (s.g_current_t - 200).toNat := by
    unfold toULong
    rw [Int.emod_eq_of_lt (by omega) (by omega)]
  have hclk0 : toULong pf s.g_current_t = s.g_current_t.toNat := by
    unfold toULong
    rw [Int.emod_eq_of_lt (by omega) (by omega)]
  have hlt : ∀ n : Nat, (n < toULong pf (s.g_current_t - 200)) ↔ ((n : Int) < s.g_current_t - 200) := by
    intro n
    rw [hclk]
    omega
  rw [hsw, sendmidimsg_noteon_busy pf s m hnone, hclk0]
  refine ⟨fun hown htime => ⟨fun hacc => ?_, fun hrej => ?_⟩, fun hno => ?_⟩
  · rw [if_pos ⟨hown, (hlt _).2 htime⟩]
    have : ¬ ((if (s.g_tracks m.track).device ≥ pf.VI_ZERO then true
        else s.midi_out_ok (s.g_tracks m.track).device) = false) := by
      rcases hacc with h | h
      · simp [h]
      · split_ifs <;> simp [h]
    rw [if_neg this]
  · rw [if_pos ⟨hown, (hlt _).2 htime⟩]
    have : (if (s.g_tracks m.track).device ≥ pf.VI_ZERO then true
        else s.midi_out_ok (s.g_tracks m.track).device) = false := by
      push_neg at hrej
      rw [if_neg (by omega)]
      simpa using hrej.2
    rw [if_pos this]
  · rw [if_neg]
    intro h
    exact hno ⟨h.1, (hlt _).1 h.2⟩

theorem C19_flood_guard_noteon_from_200ms_witness :
    sendmidimsg platform_example
        { track_open_example platform_example with
          g_current_t := 1000
          g_midistatuspitch :=
            set3 (track_open_example platform_example).g_midistatuspitch 0 0 60 7 }
        (T_midioutmsg.mk 5 0 0 3 144 60 100 0) true =
      (true,
        { track_open_example platform_example with
          g_current_t := 1000
          transport := [T_sent.mk 0 128 60 100, T_sent.mk 0 144 60 100]
          g_midistatuspitch :=
            set3 (set3 (track_open_example platform_example).g_midistatuspitch 0 0 60 7)
              0 0 60 5
          g_miditimepitch :=
            set3 (track_open_example platform_example).g_miditimepitch 0 0 60 1000 }) :=
  ((C19_flood_guard_noteon_from_200ms platform_example
      { track_open_example platform_example with
        g_current_t := 1000
        g_midistatuspitch :=
          set3 (track_open_example platform_example).g_midistatuspitch 0 0 60 7 }
      (T_midioutmsg.mk 5 0 0 3 144 60 100 0) true
      (Or.inr (Or.inl rfl)) (by decide)
      (by intro c h0 h1; interval_cases c <;> decide)
      (by decide) (by decide)).1 (by decide) (by decide)).1 (Or.inr (by decide))

/-! ## Chords : the slot of a redefined chord -/

/-- C16 : `chord_new` takes the first slot which is free or carries the id.  In
`chord_redefined_example` the chord 6 is on (note-ons of 62 and 65 sent, with
the ids 128 and 129 recorded in the slot 1), the slot 0 has been freed by the
`chordOff` of the chord 5, and the `chordSet(6, ...)` which redefines the chord
takes the free slot 0 : the slots 0 and 1 both carry the id 6.  The next
`chordOff(6, 0, 0)` finds the slot 0, whose list of note-offs is empty : it
returns 0, sends nothing and cancels nothing, and the pitches 62 and 65 keep
the status of their note-ons; only a second `chordOff(6, 0, 0)` releases
them. -/
theorem C16_redefined_chord_takes_second_slot :
    ((chord_redefined_example platform_example).g_chords 0).id = 6 ∧
    ((chord_redefined_example platform_example).g_chords 1).id = 6 ∧
    ((chord_redefined_example platform_example).g_chords 0).nbOff = 0 ∧
    ((chord_redefined_example platform_example).g_chords 1).nbOff = 2 ∧
    (chord_redefined_example platform_example).transport =
      [T_sent.mk 0 144 62 100, T_sent.mk 0 144 65 100] ∧
    (chord_redefined_example platform_example).g_midistatuspitch 0 0 62 = 128 ∧
    (chord_redefined_example platform_example).g_midistatuspitch 0 0 65 = 129 ∧
    (LoutChordOff platform_example (chord_redefined_example platform_example) (some 6) 0 0).1
      = 0 ∧
    (LoutChordOff platform_example (chord_redefined_example platform_example)
        (some 6) 0 0).2.transport =
      [T_sent.mk 0 144 62 100, T_sent.mk 0 144 65 100] ∧
    (LoutChordOff platform_example (chord_redefined_example platform_example)
        (some 6) 0 0).2.dispatched =
      (chord_redefined_example platform_example).dispatched ∧
    (LoutChordOff platform_example (chord_redefined_example platform_example)
        (some 6) 0 0).2.g_midistatuspitch 0 0 62 = 128 ∧
    (LoutChordOff platform_example (chord_redefined_example platform_example)
        (some 6) 0 0).2.g_midistatuspitch 0 0 65 = 129 ∧
    (LoutChordOff platform_example
        (LoutChordOff platform_example (chord_redefined_example platform_example)
          (some 6) 0 0).2 (some 6) 0 0).2.transport =
      [T_sent.mk 0 144 62 100, T_sent.mk 0 144 65 100,
       T_sent.mk 0 128 62 0, T_sent.mk 0 128 65 0] := by
  decide

/-! ## Delivery queue : flush -/

theorem unqueue_loop_flush_succ (pf : T_platform) (u : T_midioutmsg) (tmsg : Int)
    (fuel : Nat) (n nb rc : Int) (s : T_state) :
    unqueue_loop pf OUT_QUEUE_FLUSH u tmsg (fuel + 1) n (nb, rc, s) =
      if (s.g_queue_msg n).free = false then
        if (s.g_queue_msg n).t ≤ s.g_current_t then
          unqueue_loop pf OUT_QUEUE_FLUSH u tmsg fuel (n + 1) (nb + 1, rc,
            (sendmsg pf { s with
              g_queue_msg := set1 s.g_queue_msg n { s.g_queue_msg n with free := true }
              flushed := s.flushed ++ [(s.g_queue_msg n).midioutmsg] }
              (s.g_queue_msg n).midioutmsg).2)
        else unqueue_loop pf OUT_QUEUE_FLUSH u tmsg fuel (n + 1) (nb + 1, rc, s)
      else unqueue_loop pf OUT_QUEUE_FLUSH u tmsg fuel (n + 1) (nb, rc, s) := by
  simp only [unqueue_loop, if_true]

theorem range_filter_map_succ {α : Type} (p : Nat → Bool) (g : Nat → α) (k : Nat) :
    ((List.range (k + 1)).filter p).map g =
      (if p 0 = true then [g 0] else []) ++
        ((List.range k).filter (fun i => p (i + 1))).map (fun i => g (i + 1)) := by
  cases hp : p 0 <;>
    simp [List.range_succ_eq_map, List.filter_cons, hp, List.filter_map, Function.comp_def]

/-- The flush scan of `unqueue` from the slot `n` on `fuel` slots : an occupied
slot whose time is not after the clock is freed, and its message is handed to
`sendmsg`, in the order of the slots; nothing else of the queue changes. -/
theorem unqueue_loop_flush_effect (pf : T_platform) (u : T_midioutmsg) (tmsg : Int) :
    ∀ (fuel : Nat) (n nb rc : Int) (s : T_state),
      (∀ j : Int,
        (unqueue_loop pf OUT_QUEUE_FLUSH u tmsg fuel n (nb, rc, s)).2.2.g_queue_msg j =
          if n ≤ j ∧ j < n + fuel ∧ (s.g_queue_msg j).free = false
              ∧ (s.g_queue_msg j).t ≤ s.g_current_t then
            { s.g_queue_msg j with free := true }
          else s.g_queue_msg j) ∧
      (unqueue_loop pf OUT_QUEUE_FLUSH u tmsg fuel n (nb, rc, s)).2.2.flushed =
        s.flushed ++
          ((List.range fuel).filter (fun k : Nat => decide
            ((s.g_queue_msg (n + k)).free = false
              ∧ (s.g_queue_msg (n + k)).t ≤ s.g_current_t))).map
            (fun k : Nat => (s.g_queue_msg (n + k)).midioutmsg) ∧
      (unqueue_loop pf OUT_QUEUE_FLUSH u tmsg fuel n (nb, rc, s)).2.2.g_current_t
        = s.g_current_t ∧
      (unqueue_loop pf OUT_QUEUE_FLUSH u tmsg fuel n (nb, rc, s)).2.2.g_end_queue_msg
        = s.g_end_queue_msg ∧
      nb ≤ (unqueue_loop pf OUT_QUEUE_FLUSH u tmsg fuel n (nb, rc, s)).1 ∧
      (∀ j : Int, n ≤ j → j < n + fuel → (s.g_queue_msg j).free = false →
        nb < (unqueue_loop pf OUT_QUEUE_FLUSH u tmsg fuel n (nb, rc, s)).1) ∧
      (unqueue_loop pf OUT_QUEUE_FLUSH u tmsg fuel n (nb, rc, s)).2.1 = rc := by
  intro fuel
  induction fuel with
  | zero =>
    intro n nb rc s
    refine ⟨fun j => ?_, by simp [unqueue_loop], rfl, rfl, le_refl _, ?_, rfl⟩
    · rw [if_neg]
      · rfl
      · simp only [Nat.cast_zero]
        omega
    · intro j h0 h1
      simp only [Nat.cast_zero] at h1
      omega
  | succ k ih =>
    intro n nb rc s
    rw [unqueue_loop_flush_succ, range_filter_map_succ]
    have hcast : ∀ i : Nat, n + ((i + 1 : Nat) : Int) = n + 1 + (i : Int) := by
      intro i
      push_cast
      omega
    by_cases hfree : (s.g_queue_msg n).free = false
    · rw [if_pos hfree]
      by_cases hdue : (s.g_queue_msg n).t ≤ s.g_current_t
      · rw [if_pos hdue]
        have hfr := sendmsg_dispatch_frame pf
          { s with
            g_queue_msg := set1 s.g_queue_msg n { s.g_queue_msg n with free := true }
            flushed := s.flushed ++ [(s.g_queue_msg n).midioutmsg] }
          (s.g_queue_msg n).midioutmsg
        have hfq := hfr.g_queue_msg
        have hfc := hfr.g_current_t
        have hff := hfr.flushed
        have hfe := hfr.g_end_queue_msg
        simp only [] at hfq hfc hff hfe
        generalize (sendmsg pf { s with
            g_queue_msg := set1 s.g_queue_msg n { s.g_queue_msg n with free := true }
            flushed := s.flushed ++ [(s.g_queue_msg n).midioutmsg] }
            (s.g_queue_msg n).midioutmsg).2 = s1 at hfq hfc hff hfe ⊢
        clear hfr
        obtain ⟨h1, h2, h3, h4, h5, h6, h7⟩ := ih (n + 1) (nb + 1) rc s1
        simp only [hfq, hfc, hff, hfe] at h1 h2 h3 h4 h6
        have hq : ∀ i : Nat, set1 s.g_queue_msg n { s.g_queue_msg n with free := true }
            (n + 1 + (i : Int)) = s.g_queue_msg (n + 1 + (i : Int)) := by
          intro i
          exact set1_other _ _ _ _ (by omega)
        refine ⟨fun j => ?_, ?_, h3, h4, by omega, ?_, h7⟩
        · rw [h1 j]
          by_cases hj : j = n
          · subst hj
            rw [if_neg (by omega), if_pos ⟨le_refl _, by push_cast; omega, hfree, hdue⟩,
              set1_same]
          · rw [set1_other _ _ _ _ hj]
            by_cases hc : n + 1 ≤ j ∧ j < n + 1 + (k : Int) ∧ (s.g_queue_msg j).free = false
                ∧ (s.g_queue_msg j).t ≤ s.g_current_t
            · rw [if_pos hc, if_pos ⟨by omega, by push_cast; omega, hc.2.2.1, hc.2.2.2⟩]
            · rw [if_neg hc, if_neg]
              intro hc2
              exact hc ⟨by omega, by have := hc2.2.1; push_cast at this; omega,
                hc2.2.2.1, hc2.2.2.2⟩
        · rw [h2]
          simp only [hq, hcast, Nat.cast_zero, add_zero, hfree, hdue, and_self, decide_True,
            if_true, List.append_assoc, List.singleton_append]
        · intro j h0 h1 hf
          by_cases hj : j = n
          · omega
          · have := h6 j (by omega) (by push_cast at h1; omega)
              (by rw [set1_other _ _ _ _ hj]; exact hf)
            omega
      · rw [if_neg hdue]
        obtain ⟨h1, h2, h3, h4, h5, h6, h7⟩ := ih (n + 1) (nb + 1) rc s
        refine ⟨fun j => ?_, ?_, h3, h4, by omega, ?_, h7⟩
        · rw [h1 j]
          by_cases hj : j = n
          · subst hj
            rw [if_neg (by omega), if_neg (fun h => hdue h.2.2.2)]
          · by_cases hc : n + 1 ≤ j ∧ j < n + 1 + (k : Int) ∧ (s.g_queue_msg j).free = false
                ∧ (s.g_queue_msg j).t ≤ s.g_current_t
            · rw [if_pos hc, if_pos ⟨by omega, by push_cast; omega, hc.2.2.1, hc.2.2.2⟩]
            · rw [if_neg hc, if_neg]
              intro hc2
              exact hc ⟨by omega, by have := hc2.2.1; push_cast at this; omega,
                hc2.2.2.1, hc2.2.2.2⟩
        · rw [h2]
          simp only [hcast, Nat.cast_zero, add_zero, hdue, and_false, decide_False,
            List.nil_append]
          simp
        · intro j h0 h1 hf
          by_cases hj : j = n
          · omega
          · have := h6 j (by omega) (by push_cast at h1; omega) hf
            omega
    · rw [if_neg hfree]
      obtain ⟨h1, h2, h3, h4, h5, h6, h7⟩ := ih (n + 1) nb rc s
      refine ⟨fun j => ?_, ?_, h3, h4, h5, ?_, h7⟩
      · rw [h1 j]
        by_cases hj : j = n
        · subst hj
          rw [if_neg (by omega), if_neg (fun h => hfree h.2.2.1)]
        · by_cases hc : n + 1 ≤ j ∧ j < n + 1 + (k : Int) ∧ (s.g_queue_msg j).free = false
              ∧ (s.g_queue_msg j).t ≤ s.g_current_t
          · rw [if_pos hc, if_pos ⟨by omega, by push_cast; omega, hc.2.2.1, hc.2.2.2⟩]
          · rw [if_neg hc, if_neg]
            intro hc2
            exact hc ⟨by omega, by have := hc2.2.1; push_cast at this; omega,
              hc2.2.2.1, hc2.2.2.2⟩
      · rw [h2]
        simp only [hcast, Nat.cast_zero, add_zero, hfree, false_and, decide_False,
          List.nil_append]
        simp
      · intro j h0 h1 hf
        by_cases hj : j = n
        · subst hj
          exact absurd hf hfree
        · exact h6 j (by omega) (by push_cast at h1; omega) hf

theorem first_index_some (P : Int → Bool) :
    ∀ (fuel : Nat) (c0 c : Int), first_index P fuel c0 = some c →
      c0 ≤ c ∧ c < c0 + fuel ∧ P c = true ∧ ∀ j, c0 ≤ j → j < c → P j = false := by
  intro fuel
  induction fuel with
  | zero =>
    intro c0 c h
    simp [first_index] at h
  | succ k ih =>
    intro c0 c h
    rw [first_index_succ] at h
    by_cases hP : P c0 = true
    · rw [if_pos hP] at h
      have hc : c0 = c := Option.some.inj h
      subst hc
      exact ⟨le_refl _, by push_cast; omega, hP, fun j h0 h1 => by omega⟩
    · rw [if_neg hP] at h
      obtain ⟨h1, h2, h3, h4⟩ := ih (c0 + 1) c h
      refine ⟨by omega, by push_cast; omega, h3, fun j hj0 hj1 => ?_⟩
      by_cases hj : j = c0
      · subst hj
        simpa using hP
      · exact h4 j (by omega) hj1

theorem first_index_none_all (P : Int → Bool) :
    ∀ (fuel : Nat) (c0 : Int), first_index P fuel c0 = none →
      ∀ j, c0 ≤ j → j < c0 + fuel → P j = false := by
  intro fuel
  induction fuel with
  | zero =>
    intro c0 _ j h0 h1
    simp only [Nat.cast_zero] at h1
    omega
  | succ k ih =>
    intro c0 h j h0 h1
    rw [first_index_succ] at h
    by_cases hP : P c0 = true
    · rw [if_pos hP] at h
      exact absurd h (by simp)
    · rw [if_neg hP] at h
      by_cases hj : j = c0
      · subst hj
        simpa using hP
      · exact ih (c0 + 1) h j (by omega) (by push_cast at h1; omega)

/-- One flush (`unqueue(OUT_QUEUE_FLUSH, .)`) : the clock advances by `timer_dt`;
the occupied slots below the scan bound whose time is not after the new clock
are freed and their messages handed to `sendmsg` in the order of the slots;
the scan bound is kept, or reset when no slot below it was occupied. -/
theorem unqueue_flush_effect (pf : T_platform) (s : T_state) (m : T_midioutmsg) :
    (unqueue pf s OUT_QUEUE_FLUSH m).1 = 0 ∧
    (unqueue pf s OUT_QUEUE_FLUSH m).2.g_current_t = s.g_current_t + timer_dt ∧
    (∀ j : Int, (unqueue pf s OUT_QUEUE_FLUSH m).2.g_queue_msg j =
      if 0 ≤ j ∧ j < 0 + (s.g_end_queue_msg.toNat : Int) ∧ (s.g_queue_msg j).free = false
          ∧ (s.g_queue_msg j).t ≤ s.g_current_t + timer_dt then
        { s.g_queue_msg j with free := true }
      else s.g_queue_msg j) ∧
    (unqueue pf s OUT_QUEUE_FLUSH m).2.flushed =
      s.flushed ++
        ((List.range s.g_end_queue_msg.toNat).filter (fun k : Nat => decide
          ((s.g_queue_msg (0 + k)).free = false
            ∧ (s.g_queue_msg (0 + k)).t ≤ s.g_current_t + timer_dt))).map
          (fun k : Nat => (s.g_queue_msg (0 + k)).midioutmsg) ∧
    ((unqueue pf s OUT_QUEUE_FLUSH m).2.g_end_queue_msg = s.g_end_queue_msg ∨
      ((unqueue pf s OUT_QUEUE_FLUSH m).2.g_end_queue_msg = 0 ∧
        ∀ j : Int, 0 ≤ j → j < s.g_end_queue_msg → (s.g_queue_msg j).free = true)) := by
  obtain ⟨h1, h2, h3, h4, h5, h6, h7⟩ := unqueue_loop_flush_effect pf m
    (s.g_current_t + timer_dt + m.dt) s.g_end_queue_msg.toNat 0 0 0
    { s with g_current_t := s.g_current_t + timer_dt }
  simp only [] at h1 h2 h3 h4 h6
  unfold unqueue
  simp only [if_true]
  by_cases hz : (unqueue_loop pf OUT_QUEUE_FLUSH m (s.g_current_t + timer_dt + m.dt)
      s.g_end_queue_msg.toNat 0 (0, 0, { s with g_current_t := s.g_current_t + timer_dt })).1 = 0
  · rw [if_pos hz]
    refine ⟨h7, h3, h1, h2, Or.inr ⟨rfl, fun j hj0 hj1 => ?_⟩⟩
    by_contra hocc
    have := h6 j hj0 (by omega) (by simpa using hocc)
    omega
  · rw [if_neg hz]
    exact ⟨h7, h3, h1, h2, Or.inl h4⟩

/-! ## Delivery queue : invariant of the reachable states -/

theorem queueInv_fifo_init (s : T_state) : QueueInv (fifo_init s) := by
  have hle : (0 : Int) ≤ OUT_QUEUE_MAX_MSG := by decide
  refine ⟨le_refl _, hle, fun n h0 h1 hocc => ?_⟩
  simp only [fifo_init, h0, h1, and_self, if_true] at hocc
  exact absurd hocc (by simp)

theorem queueInv_queue_insert (s : T_state) (m : T_midioutmsg) (h : QueueInv s) :
    QueueInv (queue_insert s m) := by
  obtain ⟨h0, h1, h2⟩ := h
  unfold queue_insert
  cases hfi : first_index (fun n => (s.g_queue_msg n).free) 1024 0 with
  | none => exact ⟨h0, h1, h2⟩
  | some n =>
    obtain ⟨hn0, hn1, _, _⟩ := first_index_some _ _ _ _ hfi
    have hmax : OUT_QUEUE_MAX_MSG = 1024 := rfl
    unfold QueueInv
    dsimp only
    refine ⟨by split_ifs <;> omega, by split_ifs <;> omega, fun j hj0 hj1 hocc => ?_⟩
    by_cases hj : j = n
    · subst hj
      split_ifs <;> omega
    · rw [set1_other _ _ _ _ hj] at hocc
      have := h2 j hj0 hj1 hocc
      split_ifs <;> omega

theorem queueInv_unqueue_flush (pf : T_platform) (s : T_state) (m : T_midioutmsg)
    (h : QueueInv s) : QueueInv (unqueue pf s OUT_QUEUE_FLUSH m).2 := by
  have hle : (0 : Int) ≤ OUT_QUEUE_MAX_MSG := by decide
  obtain ⟨h0, h1, h2⟩ := h
  obtain ⟨_, _, hq, _, he⟩ := unqueue_flush_effect pf s m
  have hocc : ∀ j : Int, ((unqueue pf s OUT_QUEUE_FLUSH m).2.g_queue_msg j).free = false →
      (s.g_queue_msg j).free = false := by
    intro j hj
    rw [hq j] at hj
    by_cases hc : 0 ≤ j ∧ j < 0 + (s.g_end_queue_msg.toNat : Int) ∧ (s.g_queue_msg j).free = false
        ∧ (s.g_queue_msg j).t ≤ s.g_current_t + timer_dt
    · exact hc.2.2.1
    · rw [if_neg hc] at hj
      exact hj
  rcases he with he | ⟨he, hall⟩
  · exact ⟨by rw [he]; exact h0, by rw [he]; exact h1,
      fun j hj0 hj1 hj => by rw [he]; exact h2 j hj0 hj1 (hocc j hj)⟩
  · refine ⟨by rw [he], by rw [he]; exact hle, fun j hj0 hj1 hj => ?_⟩
    have h3 := hocc j hj
    have h4 := hall j hj0 (h2 j hj0 hj1 h3)
    rw [h3] at h4
    exact absurd h4 (by simp)

theorem queueInv_unqueue_noteoff (pf : T_platform) (s : T_state) (m : T_midioutmsg)
    (h : QueueInv s) : QueueInv (unqueue pf s OUT_QUEUE_NOTEOFF m).2 := by
  have hle : (0 : Int) ≤ OUT_QUEUE_MAX_MSG := by decide
  obtain ⟨h0, h1, h2⟩ := h
  obtain ⟨e1, e2, e3, _, _, _, _⟩ := unqueue_loop_noteoff_effect pf m (s.g_current_t + m.dt)
    s.g_end_queue_msg.toNat 0 0 0 s
  have hocc : ∀ j : Int, ((unqueue_loop pf OUT_QUEUE_NOTEOFF m (s.g_current_t + m.dt)
      s.g_end_queue_msg.toNat 0 (0, 0, s)).2.2.g_queue_msg j).free = false →
      (s.g_queue_msg j).free = false := by
    intro j hj
    rcases e2 j with e | ⟨_, _, e, _⟩
    · rw [e] at hj
      exact hj
    · exact e
  have hend : (unqueue_loop pf OUT_QUEUE_NOTEOFF m (s.g_current_t + m.dt)
      s.g_end_queue_msg.toNat 0 (0, 0, s)).2.2.g_end_queue_msg = s.g_end_queue_msg := by
    rw [e1]
  unfold unqueue
  have h10 : ¬ (OUT_QUEUE_NOTEOFF = OUT_QUEUE_FLUSH) := by decide
  simp only [h10, if_false]
  split_ifs with hz
  · refine ⟨le_refl _, hle, fun j hj0 hj1 hj => ?_⟩
    have h3 := hocc j hj
    have := e3 j hj0 (by have := h2 j hj0 hj1 h3; omega) h3
    omega
  · exact ⟨by rw [hend]; exact h0, by rw [hend]; exact h1,
      fun j hj0 hj1 hj => by rw [hend]; exact h2 j hj0 hj1 (hocc j hj)⟩

theorem reachableQueue_queueInv (pf : T_platform) (s : T_state) (h : ReachableQueue pf s) :
    QueueInv s := by
  induction h with
  | init s => exact queueInv_fifo_init s
  | enqueue s m _ ih => exact queueInv_queue_insert s m ih
  | cancel s m _ ih => exact queueInv_unqueue_noteoff pf s m ih
  | flush s m _ ih => exact queueInv_unqueue_flush pf s m ih

theorem filter_range_bound (p : Nat → Bool) (e : Nat) :
    ∀ N : Nat, e ≤ N → (∀ k, e ≤ k → k < N → p k = false) →
      (List.range N).filter p = (List.range e).filter p := by
  intro N hN
  induction N, hN using Nat.le_induction with
  | base => intro _; rfl
  | succ n hn ih =>
    intro hp
    rw [List.range_succ, List.filter_append, ih (fun k h0 h1 => hp k h0 (by omega))]
    simp [hp n hn (by omega)]

/-- One flush on a state which satisfies the invariant of the queue, with the
slots taken over the whole array. -/
theorem unqueue_flush_inv (pf : T_platform) (s : T_state) (m : T_midioutmsg)
    (h : QueueInv s) :
    (unqueue pf s OUT_QUEUE_FLUSH m).2.g_current_t = s.g_current_t + 20 ∧
    (∀ j : Int, 0 ≤ j → j < OUT_QUEUE_MAX_MSG →
      (unqueue pf s OUT_QUEUE_FLUSH m).2.g_queue_msg j =
        if (s.g_queue_msg j).free = false ∧ (s.g_queue_msg j).t ≤ s.g_current_t + 20 then
          { s.g_queue_msg j with free := true }
        else s.g_queue_msg j) ∧
    (unqueue pf s OUT_QUEUE_FLUSH m).2.flushed =
      s.flushed ++
        ((List.range 1024).filter (fun k : Nat => decide
          ((s.g_queue_msg k).free = false ∧ (s.g_queue_msg k).t ≤ s.g_current_t + 20))).map
          (fun k : Nat => (s.g_queue_msg k).midioutmsg) := by
  obtain ⟨h0, h1, h2⟩ := h
  obtain ⟨_, hc, hq, hf, _⟩ := unqueue_flush_effect pf s m
  have hmax : OUT_QUEUE_MAX_MSG = 1024 := rfl
  have htd : timer_dt = 20 := rfl
  rw [htd] at hc hq hf
  refine ⟨hc, fun j hj0 hj1 => ?_, ?_⟩
  · rw [hq j]
    by_cases hc : (s.g_queue_msg j).free = false ∧ (s.g_queue_msg j).t ≤ s.g_current_t + 20
    · rw [if_pos hc, if_pos ⟨hj0, by have := h2 j hj0 hj1 hc.1; omega, hc.1, hc.2⟩]
    · rw [if_neg hc, if_neg (fun h => hc ⟨h.2.2.1, h.2.2.2⟩)]
  · rw [hf, filter_range_bound _ s.g_end_queue_msg.toNat 1024 (by omega)]
    · simp only [zero_add]
    · intro k hk0 hk1
      simp only [decide_eq_false_iff_not, not_and]
      intro hocc
      have := h2 k (by omega) (by omega) hocc
      omega

/-! ## Delivery queue : one flush -/

/-- C14 : for every queue state reachable from `fifo_init` by `queue_insert`,
cancel and flush operations, one flush (`unqueue(OUT_QUEUE_FLUSH, .)`) advances
the clock by exactly 20 ms; it hands to `sendmsg`, once each and in the order
of the slots, the messages of the occupied slots whose time is not after the
new clock, and frees these slots; an occupied slot whose time is after the new
clock, and a free slot, are unchanged. -/
theorem C14_flush_sends_due_slots (pf : T_platform) (s : T_state) (m : T_midioutmsg)
    (hr : ReachableQueue pf s) :
    (unqueue pf s OUT_QUEUE_FLUSH m).2.g_current_t = s.g_current_t + 20 ∧
    (unqueue pf s OUT_QUEUE_FLUSH m).2.flushed =
      s.flushed ++
        ((List.range 1024).filter (fun k : Nat => decide
          ((s.g_queue_msg k).free = false ∧ (s.g_queue_msg k).t ≤ s.g_current_t + 20))).map
          (fun k : Nat => (s.g_queue_msg k).midioutmsg) ∧
    (∀ n : Int, 0 ≤ n → n < OUT_QUEUE_MAX_MSG → (s.g_queue_msg n).free = false →
      (s.g_queue_msg n).t ≤ s.g_current_t + 20 →
      ((unqueue pf s OUT_QUEUE_FLUSH m).2.g_queue_msg n).free = true) ∧
    (∀ n : Int, 0 ≤ n → n < OUT_QUEUE_MAX_MSG → (s.g_queue_msg n).free = false →
      (s.g_queue_msg n).t > s.g_current_t + 20 →
      (unqueue pf s OUT_QUEUE_FLUSH m).2.g_queue_msg n = s.g_queue_msg n) ∧
    (∀ n : Int, 0 ≤ n → n < OUT_QUEUE_MAX_MSG → (s.g_queue_msg n).free = true →
      (unqueue pf s OUT_QUEUE_FLUSH m).2.g_queue_msg n = s.g_queue_msg n) := by
  obtain ⟨hc, hq, hf⟩ := unqueue_flush_inv pf s m (reachableQueue_queueInv pf s hr)
  refine ⟨hc, hf, fun n h0 h1 hocc hdue => ?_, fun n h0 h1 hocc hlate => ?_,
    fun n h0 h1 hfree => ?_⟩
  · rw [hq n h0 h1, if_pos ⟨hocc, hdue⟩]
  · rw [hq n h0 h1, if_neg (fun h => by omega)]
  · rw [hq n h0 h1, if_neg (fun h => by rw [hfree] at h; exact absurd h.1 (by simp))]

theorem C14_flush_sends_due_slots_witness :
    ReachableQueue platform_example (queue_order_example platform_example) ∧
    (unqueue platform_example (queue_order_example platform_example) OUT_QUEUE_FLUSH
        midioutmsg_zero).2.g_current_t = 60 ∧
    ((unqueue platform_example (queue_order_example platform_example) OUT_QUEUE_FLUSH
        midioutmsg_zero).2.g_queue_msg 1).free = true :=
  have hr : ReachableQueue platform_example (queue_order_example platform_example) :=
    ReachableQueue.flush _ _ (ReachableQueue.enqueue _ _ (ReachableQueue.cancel _ _
      (ReachableQueue.flush _ _ (ReachableQueue.enqueue _ _ (ReachableQueue.enqueue _ _
        (ReachableQueue.init _))))))
  ⟨hr,
   (C14_flush_sends_due_slots platform_example (queue_order_example platform_example)
      midioutmsg_zero hr).1.trans (by decide),
   (C14_flush_sends_due_slots platform_example (queue_order_example platform_example)
      midioutmsg_zero hr).2.2.1 1 (by decide) (by decide) (by decide) (by decide)⟩

/-! ## Delivery queue : order of the messages of one flush -/

/-- C20, counterexample : in the reachable queue state `queue_order_example`
(clock 40) the slot 0 holds the note-off of the pitch 60, id 5, with the time
55, and the slot 1 holds the note-on of the same pitch and id with the time 50,
scheduled before it.  The next flush (clock 60) hands the note-off to `sendmsg`
before the note-on : the times of the messages sent are 55 then 50.  The
note-off finds no channel which sounds the id 5 and sends nothing, then the
note-on is sent, and the pitch 60 keeps the status 5 with an empty queue. -/
theorem C20_noteoff_flushed_before_earlier_noteon :
    ReachableQueue platform_example (queue_order_example platform_example) ∧
    (queue_order_example platform_example).g_current_t = 40 ∧
    (queue_order_example platform_example).g_queue_msg 0 =
      T_queue_msg.mk (T_midioutmsg.mk 5 0 35 3 128 60 0 0) 55 false ∧
    (queue_order_example platform_example).g_queue_msg 1 =
      T_queue_msg.mk (T_midioutmsg.mk 5 0 50 3 144 60 100 0) 50 false ∧
    (queue_order_example platform_example).flushed = [T_midioutmsg.mk 0 0 10 3 176 7 100 0] ∧
    (unqueue platform_example (queue_order_example platform_example) OUT_QUEUE_FLUSH
        midioutmsg_zero).2.flushed =
      [T_midioutmsg.mk 0 0 10 3 176 7 100 0, T_midioutmsg.mk 5 0 35 3 128 60 0 0,
       T_midioutmsg.mk 5 0 50 3 144 60 100 0] ∧
    (unqueue platform_example (queue_order_example platform_example) OUT_QUEUE_FLUSH
        midioutmsg_zero).2.transport =
      [T_sent.mk 0 176 7 100, T_sent.mk 0 144 60 100] ∧
    (unqueue platform_example (queue_order_example platform_example) OUT_QUEUE_FLUSH
        midioutmsg_zero).2.g_midistatuspitch 0 0 60 = 5 ∧
    ((unqueue platform_example (queue_order_example platform_example) OUT_QUEUE_FLUSH
        midioutmsg_zero).2.g_queue_msg 0).free = true ∧
    ((unqueue platform_example (queue_order_example platform_example) OUT_QUEUE_FLUSH
        midioutmsg_zero).2.g_queue_msg 1).free = true :=
  ⟨ReachableQueue.flush _ _ (ReachableQueue.enqueue _ _ (ReachableQueue.cancel _ _
      (ReachableQueue.flush _ _ (ReachableQueue.enqueue _ _ (ReachableQueue.enqueue _ _
        (ReachableQueue.init _)))))),
    by decide, by decide, by decide, by decide, by decide, by decide, by decide, by decide,
    by decide⟩

/-- C20, amended : for every queue state reachable from `fifo_init` by
`queue_insert`, cancel and flush operations, the messages which one flush hands
to `sendmsg` are those of the occupied slots whose time is not after the new
clock, in the increasing order of the slot indexes, whatever their times.  The
order of the times holds from one flush to the next only : every message sent
by the flush has a time not after the new clock, and every slot which the
flush leaves occupied has a time after the new clock. -/
theorem C20_flush_in_slot_order (pf : T_platform) (s : T_state) (m : T_midioutmsg)
    (hr : ReachableQueue pf s) :
    List.Pairwise (fun a b : Nat => a < b)
      ((List.range 1024).filter (fun k : Nat => decide
        ((s.g_queue_msg k).free = false ∧ (s.g_queue_msg k).t ≤ s.g_current_t + 20))) ∧
    (unqueue pf s OUT_QUEUE_FLUSH m).2.flushed =
      s.flushed ++
        ((List.range 1024).filter (fun k : Nat => decide
          ((s.g_queue_msg k).free = false ∧ (s.g_queue_msg k).t ≤ s.g_current_t + 20))).map
          (fun k : Nat => (s.g_queue_msg k).midioutmsg) ∧
    (∀ k : Nat, k ∈ (List.range 1024).filter (fun k : Nat => decide
        ((s.g_queue_msg k).free = false ∧ (s.g_queue_msg k).t ≤ s.g_current_t + 20)) →
      (s.g_queue_msg k).t ≤ (unqueue pf s OUT_QUEUE_FLUSH m).2.g_current_t) ∧
    (∀ n : Int, 0 ≤ n → n < OUT_QUEUE_MAX_MSG →
      ((unqueue pf s OUT_QUEUE_FLUSH m).2.g_queue_msg n).free = false →
      (unqueue pf s OUT_QUEUE_FLUSH m).2.g_queue_msg n = s.g_queue_msg n ∧
        (s.g_queue_msg n).t > (unqueue pf s OUT_QUEUE_FLUSH m).2.g_current_t) := by
  obtain ⟨hc, hq, hf⟩ := unqueue_flush_inv pf s m (reachableQueue_queueInv pf s hr)
  refine ⟨(List.pairwise_lt_range 1024).filter _, hf, fun k hk => ?_, fun n h0 h1 hocc => ?_⟩
  · rw [hc]
    have := (List.mem_filter.1 hk).2
    simp only [decide_eq_true_eq] at this
    exact this.2
  · rw [hq n h0 h1] at hocc ⊢
    rw [hc]
    by_cases hd : (s.g_queue_msg n).free = false ∧ (s.g_queue_msg n).t ≤ s.g_current_t + 20
    · rw [if_pos hd] at hocc
      exact absurd hocc (by simp)
    · rw [if_neg hd] at hocc ⊢
      exact ⟨rfl, lt_of_not_ge (fun h => hd ⟨hocc, h⟩)⟩

set_option maxRecDepth 100000 in
theorem C20_flush_in_slot_order_witness :
    ReachableQueue platform_example (queue_order_example platform_example) ∧
    (unqueue platform_example (queue_order_example platform_example) OUT_QUEUE_FLUSH
        midioutmsg_zero).2.flushed =
      [T_midioutmsg.mk 0 0 10 3 176 7 100 0, T_midioutmsg.mk 5 0 35 3 128 60 0 0,
       T_midioutmsg.mk 5 0 50 3 144 60 100 0] :=
  have hr : ReachableQueue platform_example (queue_order_example platform_example) :=
    ReachableQueue.flush _ _ (ReachableQueue.enqueue _ _ (ReachableQueue.cancel _ _
      (ReachableQueue.flush _ _ (ReachableQueue.enqueue _ _ (ReachableQueue.enqueue _ _
        (ReachableQueue.init _))))))
  ⟨hr, (C20_flush_in_slot_order platform_example (queue_order_example platform_example)
      midioutmsg_zero hr).2.1.trans (by decide)⟩

/-! ## Dispatch : note-on on the lowest channel whose pitch is off -/

/-- The `case MIDI_NOTEON:` when the loop over the channels finds the physical
channel `c` (owned by the logical channel, status of the pitch off) : one
note-on, after transposition and volume, is sent on `c`, the status of
(device, `c`, pitch) becomes the id of the message and the time of (device,
logical channel, pitch) the clock. -/
theorem sendmidimsg_noteon_free (pf : T_platform) (s : T_state) (m : T_midioutmsg) (c : Int)
    (hfound : first_index (fun c => decide
      (s.g_channels (s.g_tracks m.track).device c = (s.g_tracks m.track).channel
        ∧ s.g_midistatuspitch (s.g_tracks m.track).device c m.bData1 = toULong pf (-1)))
      16 0 = some c) :
    sendmidimsg_noteon pf s m = (true, { s with
      transport := s.transport ++
        [T_sent.mk (s.g_tracks m.track).device (toBYTE (MIDI_NOTEON * 16 + toBYTE c))
          (if s.g_transposition ≠ 0 then
            toBYTE (pitch_wrap (m.bData1 + s.g_transposition)) else m.bData1)
          (toBYTE (apply_volume s m.track m.bData2))]
      g_midistatuspitch := set3 s.g_midistatuspitch (s.g_tracks m.track).device c m.bData1
        (toULong pf m.id)
      g_miditimepitch := set3 s.g_miditimepitch (s.g_tracks m.track).device
        (s.g_tracks m.track).channel m.bData1 (toULong pf s.g_current_t) }) := by
  unfold sendmidimsg_noteon
  simp only [hfound, sendshortmsg_snd]
  by_cases htr : s.g_transposition ≠ 0
  · simp only [if_pos htr]
  · simp only [if_neg htr]

theorem first_index_of_filter (P : Int → Bool) (c0 : Nat) (tail : List Nat) (N : Nat)
    (h : (List.range N).filter (fun k : Nat => P k) = c0 :: tail) :
    first_index P N 0 = some (c0 : Int) := by
  have hmem : c0 ∈ (List.range N).filter (fun k : Nat => P k) := by
    rw [h]
    exact List.mem_cons_self _ _
  obtain ⟨hr, hP⟩ := List.mem_filter.1 hmem
  have hlt : c0 < N := List.mem_range.1 hr
  have hsorted : List.Pairwise (fun a b : Nat => a < b) (c0 :: tail) := by
    rw [← h]
    exact (List.pairwise_lt_range N).filter _
  apply first_index_found P c0 hP N 0 (by omega) (by omega)
  intro j hj0 hj1
  by_contra hne
  have hPj : P j = true := by simpa using hne
  have hjn : ((j.toNat : Nat) : Int) = j := Int.toNat_of_nonneg hj0
  have hmemj : j.toNat ∈ (List.range N).filter (fun k : Nat => P k) := by
    refine List.mem_filter.2 ⟨List.mem_range.2 (by omega), ?_⟩
    simp only [hjn, hPj]
  rw [h] at hmemj
  rcases List.mem_cons.1 hmemj with he | ht
  · omega
  · have := List.rel_of_pairwise_cons hsorted ht
    omega

theorem filter_without_head (P P1 : Nat → Bool) (c0 : Nat) (tail : List Nat) (N : Nat)
    (h : (List.range N).filter P = c0 :: tail)
    (h1 : ∀ k, P1 k = (decide (k ≠ c0) && P k)) :
    (List.range N).filter P1 = tail := by
  have hsorted : List.Pairwise (fun a b : Nat => a < b) (c0 :: tail) := by
    rw [← h]
    exact (List.pairwise_lt_range N).filter _
  have hP1 : P1 = fun k => (decide (k ≠ c0) && P k) := funext h1
  rw [hP1, ← List.filter_filter, h, List.filter_cons]
  simp only [ne_eq, not_true_eq_false, decide_False, Bool.false_eq_true, if_false]
  apply List.filter_eq_self.2
  intro a ha
  have := List.rel_of_pairwise_cons hsorted ha
  simp only [decide_eq_true_eq]
  omega

/-- Note-ons of the same pitch on the same track, with the ids `ids` (none of
them -1), as many at most as there are owned physical channels with the status
of the pitch off : the note-ons are sent on these channels in increasing order,
one each, and the status of each of these channels becomes the id of its
note-on. -/
theorem noteon_fill_free_channels (pf : T_platform) (m : T_midioutmsg) (first : Bool)
    (htype : m.bData0 / 16 % 16 = MIDI_NOTEON) :
    ∀ (ids : List Int) (s : T_state),
      (first = false ∨ s.g_LUAoutState = false) →
      (∀ id ∈ ids, toULong pf id ≠ toULong pf (-1)) →
      ids.length ≤ ((List.range 16).filter (fun k : Nat => decide
        (s.g_channels (s.g_tracks m.track).device k = (s.g_tracks m.track).channel
          ∧ s.g_midistatuspitch (s.g_tracks m.track).device k m.bData1
            = toULong pf (-1)))).length →
      (ids.foldl (fun st id => (sendmidimsg pf st { m with id := id } first).2) s).transport =
        s.transport ++ List.zipWith
          (fun (c : Nat) (_ : Int) =>
            T_sent.mk (s.g_tracks m.track).device (toBYTE (MIDI_NOTEON * 16 + toBYTE c))
              (if s.g_transposition ≠ 0 then
                toBYTE (pitch_wrap (m.bData1 + s.g_transposition)) else m.bData1)
              (toBYTE (apply_volume s m.track m.bData2)))
          ((List.range 16).filter (fun k : Nat => decide
            (s.g_channels (s.g_tracks m.track).device k = (s.g_tracks m.track).channel
              ∧ s.g_midistatuspitch (s.g_tracks m.track).device k m.bData1
                = toULong pf (-1))))
          ids ∧
      (ids.foldl (fun st id => (sendmidimsg pf st { m with id := id } first).2)
          s).g_midistatuspitch =
        (List.zip
          ((List.range 16).filter (fun k : Nat => decide
            (s.g_channels (s.g_tracks m.track).device k = (s.g_tracks m.track).channel
              ∧ s.g_midistatuspitch (s.g_tracks m.track).device k m.bData1
                = toULong pf (-1))))
          ids).foldl
          (fun tbl (p : Nat × Int) =>
            set3 tbl (s.g_tracks m.track).device p.1 m.bData1 (toULong pf p.2))
          s.g_midistatuspitch := by
  intro ids
  induction ids with
  | nil =>
    intro s _ _ _
    simp
  | cons id rest ih =>
    intro s hhook hids hlen
    cases hF : (List.range 16).filter (fun k : Nat => decide
        (s.g_channels (s.g_tracks m.track).device k = (s.g_tracks m.track).channel
          ∧ s.g_midistatuspitch (s.g_tracks m.track).device k m.bData1
            = toULong pf (-1))) with
    | nil =>
      rw [hF] at hlen
      simp at hlen
    | cons c0 tail =>
      rw [hF] at hlen
      have hfi := first_index_of_filter (fun c => decide
        (s.g_channels (s.g_tracks m.track).device c = (s.g_tracks m.track).channel
          ∧ s.g_midistatuspitch (s.g_tracks m.track).device c m.bData1 = toULong pf (-1)))
        c0 tail 16 hF
      have hstep : sendmidimsg pf s { m with id := id } first = (true, { s with
          transport := s.transport ++
            [T_sent.mk (s.g_tracks m.track).device (toBYTE (MIDI_NOTEON * 16 + toBYTE c0))
              (if s.g_transposition ≠ 0 then
                toBYTE (pitch_wrap (m.bData1 + s.g_transposition)) else m.bData1)
              (toBYTE (apply_volume s m.track m.bData2))]
          g_midistatuspitch := set3 s.g_midistatuspitch (s.g_tracks m.track).device c0 m.bData1
            (toULong pf id)
          g_miditimepitch := set3 s.g_miditimepitch (s.g_tracks m.track).device
            (s.g_tracks m.track).channel m.bData1 (toULong pf s.g_current_t) }) := by
        rw [sendmidimsg_not_taken pf s _ first (by
          rcases hhook with h | h
          · exact Or.inl h
          · exact Or.inr (Or.inl h))]
        unfold sendmidimsg_switch
        simp only [htype, if_true]
        exact sendmidimsg_noteon_free pf s { m with id := id } c0 hfi
      have hid : toULong pf id ≠ toULong pf (-1) := hids id (List.mem_cons_self _ _)
      have htail := filter_without_head
        (fun k : Nat => decide
          (s.g_channels (s.g_tracks m.track).device k = (s.g_tracks m.track).channel
            ∧ s.g_midistatuspitch (s.g_tracks m.track).device k m.bData1 = toULong pf (-1)))
        (fun k : Nat => decide
          (s.g_channels (s.g_tracks m.track).device k = (s.g_tracks m.track).channel
            ∧ set3 s.g_midistatuspitch (s.g_tracks m.track).device c0 m.bData1 (toULong pf id)
                (s.g_tracks m.track).device k m.bData1 = toULong pf (-1)))
        c0 tail 16 hF (by
          intro k
          by_cases hk : k = c0
          · subst hk
            simp [set3_same, hid]
          · have hk2 : (k : Int) ≠ (c0 : Int) := by omega
            simp [set3_other_mid _ _ _ _ _ _ _ hk2, hk])
      rw [List.foldl_cons, hstep]
      obtain ⟨ih1, ih2⟩ := ih
        { s with
          transport := s.transport ++
            [T_sent.mk (s.g_tracks m.track).device (toBYTE (MIDI_NOTEON * 16 + toBYTE c0))
              (if s.g_transposition ≠ 0 then
                toBYTE (pitch_wrap (m.bData1 + s.g_transposition)) else m.bData1)
              (toBYTE (apply_volume s m.track m.bData2))]
          g_midistatuspitch := set3 s.g_midistatuspitch (s.g_tracks m.track).device c0 m.bData1
            (toULong pf id)
          g_miditimepitch := set3 s.g_miditimepitch (s.g_tracks m.track).device
            (s.g_tracks m.track).channel m.bData1 (toULong pf s.g_current_t) }
        (by
          rcases hhook with h | h
          · exact Or.inl h
          · exact Or.inr h)
        (fun i hi => hids i (List.mem_cons_of_mem _ hi))
        (by
          dsimp only
          rw [htail]
          simpa using hlen)
      dsimp only at ih1 ih2
      rw [htail] at ih1 ih2
      refine ⟨?_, ?_⟩
      · rw [ih1]
        simp [List.zipWith, apply_volume]
      · rw [ih2]
        simp [List.zip, List.zipWith]

/-- C18 : a note-on which the LUA hook does not take, when at least one
physical channel (0..15) owned by the logical channel of its track has the
status off for its pitch, and `c0` is the lowest such channel : exactly one
note-on is sent, on `c0`; true is returned; the status of (device, `c0`, pitch)
becomes the id of the message and every other entry of the status table is
unchanged (the time of the pitch on the logical channel is recorded).
Consequently note-ons of the same pitch with the ids `ids` (none of them -1),
as many at most as there are owned channels with the status off (k+1 for a
logical channel with k extension channels, all off), are sent one each on
these channels, in increasing order, each channel recording the id of its
note-on; these channels are distinct. -/
theorem C18_noteon_on_lowest_free_channel (pf : T_platform) :
    (∀ (s : T_state) (m : T_midioutmsg) (first : Bool) (c0 : Int),
      (first = false ∨ s.g_LUAoutState = false ∨ s.lua_post m = none) →
      m.bData0 / 16 % 16 = MIDI_NOTEON →
      0 ≤ c0 → c0 < 16 →
      s.g_channels (s.g_tracks m.track).device c0 = (s.g_tracks m.track).channel →
      s.g_midistatuspitch (s.g_tracks m.track).device c0 m.bData1 = toULong pf (-1) →
      (∀ j : Int, 0 ≤ j → j < c0 →
        ¬ (s.g_channels (s.g_tracks m.track).device j = (s.g_tracks m.track).channel
          ∧ s.g_midistatuspitch (s.g_tracks m.track).device j m.bData1 = toULong pf (-1))) →
      sendmidimsg pf s m first = (true, { s with
        transport := s.transport ++
          [T_sent.mk (s.g_tracks m.track).device (toBYTE (MIDI_NOTEON * 16 + toBYTE c0))
            (if s.g_transposition ≠ 0 then
              toBYTE (pitch_wrap (m.bData1 + s.g_transposition)) else m.bData1)
            (toBYTE (apply_volume s m.track m.bData2))]
        g_midistatuspitch := set3 s.g_midistatuspitch (s.g_tracks m.track).device c0 m.bData1
          (toULong pf m.id)
        g_miditimepitch := set3 s.g_miditimepitch (s.g_tracks m.track).device
          (s.g_tracks m.track).channel m.bData1 (toULong pf s.g_current_t) })) ∧
    (∀ (s : T_state) (m : T_midioutmsg) (first : Bool) (ids : List Int),
      (first = false ∨ s.g_LUAoutState = false) →
      m.bData0 / 16 % 16 = MIDI_NOTEON →
      (∀ id ∈ ids, toULong pf id ≠ toULong pf (-1)) →
      ids.length ≤ ((List.range 16).filter (fun k : Nat => decide
        (s.g_channels (s.g_tracks m.track).device k = (s.g_tracks m.track).channel
          ∧ s.g_midistatuspitch (s.g_tracks m.track).device k m.bData1
            = toULong pf (-1)))).length →
      (ids.foldl (fun st id => (sendmidimsg pf st { m with id := id } first).2) s).transport =
        s.transport ++ List.zipWith
          (fun (c : Nat) (_ : Int) =>
            T_sent.mk (s.g_tracks m.track).device (toBYTE (MIDI_NOTEON * 16 + toBYTE c))
              (if s.g_transposition ≠ 0 then
                toBYTE (pitch_wrap (m.bData1 + s.g_transposition)) else m.bData1)
              (toBYTE (apply_volume s m.track m.bData2)))
          ((List.range 16).filter (fun k : Nat => decide
            (s.g_channels (s.g_tracks m.track).device k = (s.g_tracks m.track).channel
              ∧ s.g_midistatuspitch (s.g_tracks m.track).device k m.bData1
                = toULong pf (-1))))
          ids ∧
      (ids.foldl (fun st id => (sendmidimsg pf st { m with id := id } first).2)
          s).g_midistatuspitch =
        (List.zip
          ((List.range 16).filter (fun k : Nat => decide
            (s.g_channels (s.g_tracks m.track).device k = (s.g_tracks m.track).channel
              ∧ s.g_midistatuspitch (s.g_tracks m.track).device k m.bData1
                = toULong pf (-1))))
          ids).foldl
          (fun tbl (p : Nat × Int) =>
            set3 tbl (s.g_tracks m.track).device p.1 m.bData1 (toULong pf p.2))
          s.g_midistatuspitch ∧
      List.Pairwise (fun a b : Nat => a < b)
        ((List.range 16).filter (fun k : Nat => decide
          (s.g_channels (s.g_tracks m.track).device k = (s.g_tracks m.track).channel
            ∧ s.g_midistatuspitch (s.g_tracks m.track).device k m.bData1
              = toULong pf (-1))))) := by
  refine ⟨fun s m first c0 hhook htype h0 h1 hown hoff hlow => ?_,
    fun s m first ids hhook htype hids hlen => ?_⟩
  · rw [sendmidimsg_not_taken pf s m first hhook]
    unfold sendmidimsg_switch
    simp only [htype, if_true]
    apply sendmidimsg_noteon_free
    apply first_index_found _ c0 (by simp [hown, hoff]) 16 0 h0 (by push_cast; omega)
    intro j hj0 hj1
    simpa using hlow j hj0 hj1
  · obtain ⟨h1, h2⟩ := noteon_fill_free_channels pf m first htype ids s hhook hids hlen
    exact ⟨h1, h2, (List.pairwise_lt_range 16).filter _⟩

theorem C18_noteon_on_lowest_free_channel_witness :
    (sendmidimsg platform_example
        (sendmidimsg platform_example
          (channel_extended_set (track_open_example platform_example) 0 0 2 true).2
          (T_midioutmsg.mk 5 0 0 3 144 60 100 0) true).2
        (T_midioutmsg.mk 6 0 0 3 144 60 100 0) true).2.transport =
      [T_sent.mk 0 144 60 100, T_sent.mk 0 158 60 100] ∧
    ([5, 6, 7].foldl
        (fun st id => (sendmidimsg platform_example st
          { T_midioutmsg.mk 0 0 0 3 144 60 100 0 with id := id } true).2)
        (channel_extended_set (track_open_example platform_example) 0 0 2 true).2).transport =
      [T_sent.mk 0 144 60 100, T_sent.mk 0 158 60 100, T_sent.mk 0 159 60 100] :=
  ⟨(congrArg (fun r : Bool × T_state => r.2.transport)
      ((C18_noteon_on_lowest_free_channel platform_example).1
        (sendmidimsg platform_example
          (channel_extended_set (track_open_example platform_example) 0 0 2 true).2
          (T_midioutmsg.mk 5 0 0 3 144 60 100 0) true).2
        (T_midioutmsg.mk 6 0 0 3 144 60 100 0) true 14
        (Or.inr (Or.inl (by decide))) (by decide) (by decide) (by decide) (by decide)
        (by decide) (by intro j h0 h1; interval_cases j <;> decide))).trans (by decide),
   ((C18_noteon_on_lowest_free_channel platform_example).2
      (channel_extended_set (track_open_example platform_example) 0 0 2 true).2
      (T_midioutmsg.mk 0 0 0 3 144 60 100 0) true [5, 6, 7]
      (Or.inr (by decide)) (by decide) (by decide) (by decide)).1.trans (by decide)⟩

/-! ## Delivery queue : overflow and drain -/

/-- `queue_insert` when the first free slot is `a`. -/
theorem queue_insert_at (s : T_state) (m : T_midioutmsg) (a : Int)
    (h0 : 0 ≤ a) (h1 : a < 1024)
    (hocc : ∀ j : Int, 0 ≤ j → j < a → (s.g_queue_msg j).free = false)
    (hfree : (s.g_queue_msg a).free = true) :
    (queue_insert s m).g_queue_msg =
        set1 s.g_queue_msg a (T_queue_msg.mk m (s.g_current_t + m.dt) false) ∧
      (queue_insert s m).g_current_t = s.g_current_t ∧
      (queue_insert s m).flushed = s.flushed := by
  have hfi : first_index (fun n => (s.g_queue_msg n).free) 1024 0 = some a :=
    first_index_found _ a hfree 1024 0 h0 (by push_cast; omega) (fun j hj0 hj1 => hocc j hj0 hj1)
  unfold queue_insert
  rw [hfi]
  exact ⟨rfl, rfl, rfl⟩

/-- `queue_insert` on a full queue changes nothing. -/
theorem queue_insert_full (s : T_state) (m : T_midioutmsg)
    (hocc : ∀ j : Int, 0 ≤ j → j < 1024 → (s.g_queue_msg j).free = false) :
    queue_insert s m = s := by
  have hfi : first_index (fun n => (s.g_queue_msg n).free) 1024 0 = none :=
    first_index_none _ 1024 0 (fun j hj0 hj1 => hocc j hj0 (by push_cast at hj1; omega))
  unfold queue_insert
  rw [hfi]

/-- Successive `queue_insert` of the messages `ms` in a queue whose slots below
`a` are occupied and whose slots from `a` on are free, when the array has room
for them : the messages take the slots `a`, `a + 1`, ... in order. -/
theorem queue_insert_fill :
    ∀ (ms : List T_midioutmsg) (s : T_state) (a : Nat),
      (∀ j : Int, 0 ≤ j → j < a → (s.g_queue_msg j).free = false) →
      (∀ j : Int, a ≤ j → j < 1024 → (s.g_queue_msg j).free = true) →
      a + ms.length ≤ 1024 →
      (∀ j : Int, j < a ∨ (a : Int) + ms.length ≤ j →
        (ms.foldl queue_insert s).g_queue_msg j = s.g_queue_msg j) ∧
      (∀ (i : Nat) (hi : i < ms.length),
        (ms.foldl queue_insert s).g_queue_msg ((a : Int) + i) =
          T_queue_msg.mk ms[i] (s.g_current_t + ms[i].dt) false) ∧
      (ms.foldl queue_insert s).g_current_t = s.g_current_t ∧
      (ms.foldl queue_insert s).flushed = s.flushed := by
  intro ms
  induction ms with
  | nil =>
    intro s a _ _ _
    exact ⟨fun _ _ => rfl, fun i hi => absurd hi (by simp), rfl, rfl⟩
  | cons m rest ih =>
    intro s a hocc hfree hlen
    simp only [List.length_cons] at hlen
    obtain ⟨hq, hc, hf⟩ := queue_insert_at s m a (by omega) (by omega) hocc
      (hfree a (le_refl _) (by omega))
    obtain ⟨i1, i2, i3, i4⟩ := ih (queue_insert s m) (a + 1)
      (by
        intro j hj0 hj1
        rw [hq]
        by_cases hj : j = a
        · rw [hj, set1_same]
        · rw [set1_other _ _ _ _ hj]
          exact hocc j hj0 (by push_cast at hj1; omega))
      (by
        intro j hj0 hj1
        rw [hq, set1_other _ _ _ _ (by push_cast at hj0; omega)]
        exact hfree j (by push_cast at hj0; omega) hj1)
      (by omega)
    rw [List.foldl_cons]
    refine ⟨fun j hj => ?_, fun i hi => ?_, by rw [i3, hc], by rw [i4, hf]⟩
    · rw [i1 j (by simp only [List.length_cons] at hj; push_cast at hj ⊢; omega), hq,
        set1_other _ _ _ _ (by simp only [List.length_cons] at hj; push_cast at hj; omega)]
    · cases i with
      | zero =>
        rw [i1 _ (Or.inl (by push_cast; omega)), hq]
        simp only [Nat.cast_zero, add_zero, set1_same, List.getElem_cons_zero]
      | succ i =>
        have hi2 : i < rest.length := by simpa using hi
        have := i2 i hi2
        rw [hc] at this
        have hidx : ((a + 1 : Nat) : Int) + (i : Int) = (a : Int) + ((i + 1 : Nat) : Int) := by
          push_cast
          omega
        rw [hidx] at this
        rw [this]
        simp only [List.getElem_cons_succ]

/-- One flush conserves the messages : what it hands to `sendmsg`, followed by
what it leaves in the queue, is a permutation of what was in the queue. -/
theorem unqueue_flush_conserves (pf : T_platform) (s : T_state) (m : T_midioutmsg)
    (h : QueueInv s) :
    ∃ D : List T_midioutmsg,
      (unqueue pf s OUT_QUEUE_FLUSH m).2.flushed = s.flushed ++ D ∧
      List.Perm (D ++ queue_pending (unqueue pf s OUT_QUEUE_FLUSH m).2) (queue_pending s) := by
  obtain ⟨_, hq, hf⟩ := unqueue_flush_inv pf s m h
  refine ⟨_, hf, ?_⟩
  have hq2 : ∀ k : Nat, k ∈ List.range 1024 →
      (unqueue pf s OUT_QUEUE_FLUSH m).2.g_queue_msg k =
        if (s.g_queue_msg k).free = false ∧ (s.g_queue_msg k).t ≤ s.g_current_t + 20 then
          { s.g_queue_msg k with free := true }
        else s.g_queue_msg k := by
    intro k hk
    have hk2 := List.mem_range.1 hk
    exact hq k (by omega) (by show (k : Int) < 1024; omega)
  have hpend : queue_pending (unqueue pf s OUT_QUEUE_FLUSH m).2 =
      ((List.range 1024).filter (fun k : Nat =>
        (!decide ((s.g_queue_msg k).t ≤ s.g_current_t + 20))
          && decide ((s.g_queue_msg k).free = false))).map
        (fun k : Nat => (s.g_queue_msg k).midioutmsg) := by
    unfold queue_pending
    rw [List.filter_congr (q := fun k : Nat =>
        (!decide ((s.g_queue_msg k).t ≤ s.g_current_t + 20))
          && decide ((s.g_queue_msg k).free = false))]
    · apply List.map_congr_left
      intro k hk
      rw [hq2 k (List.mem_filter.1 hk).1]
      split_ifs <;> rfl
    · intro k hk
      rw [hq2 k hk]
      by_cases hocc : (s.g_queue_msg k).free = false
      · by_cases hdue : (s.g_queue_msg k).t ≤ s.g_current_t + 20
        · simp [hocc, hdue]
        · simp [hocc, hdue]
      · simp [hocc]
  have hdue : (List.range 1024).filter (fun k : Nat => decide
      ((s.g_queue_msg k).free = false ∧ (s.g_queue_msg k).t ≤ s.g_current_t + 20)) =
      (List.range 1024).filter (fun k : Nat =>
        decide ((s.g_queue_msg k).t ≤ s.g_current_t + 20)
          && decide ((s.g_queue_msg k).free = false)) := by
    apply List.filter_congr
    intro k _
    simp [Bool.and_comm]
  rw [hpend, hdue, ← List.map_append, ← List.filter_filter, ← List.filter_filter]
  unfold queue_pending
  apply List.Perm.map
  exact List.filter_append_perm _ _

/-- Invariant of `j` successive flushes from a state `s0` which satisfies the
invariant of the queue. -/
theorem flush_iterate_inv (pf : T_platform) (s0 : T_state) (d : T_midioutmsg)
    (h : QueueInv s0) :
    ∀ j : Nat,
      QueueInv (Nat.iterate (fun st => (unqueue pf st OUT_QUEUE_FLUSH d).2) j s0) ∧
      (Nat.iterate (fun st => (unqueue pf st OUT_QUEUE_FLUSH d).2) j s0).g_current_t =
        s0.g_current_t + 20 * j ∧
      (∃ L : List T_midioutmsg,
        (Nat.iterate (fun st => (unqueue pf st OUT_QUEUE_FLUSH d).2) j s0).flushed =
          s0.flushed ++ L ∧
        List.Perm
          (L ++ queue_pending (Nat.iterate (fun st => (unqueue pf st OUT_QUEUE_FLUSH d).2) j s0))
          (queue_pending s0)) ∧
      (∀ n : Int, 0 ≤ n → n < OUT_QUEUE_MAX_MSG →
        ((Nat.iterate (fun st => (unqueue pf st OUT_QUEUE_FLUSH d).2) j s0).g_queue_msg n).free
          = false →
        (Nat.iterate (fun st => (unqueue pf st OUT_QUEUE_FLUSH d).2) j s0).g_queue_msg n
          = s0.g_queue_msg n) ∧
      (0 < j → ∀ n : Int, 0 ≤ n → n < OUT_QUEUE_MAX_MSG →
        ((Nat.iterate (fun st => (unqueue pf st OUT_QUEUE_FLUSH d).2) j s0).g_queue_msg n).free
          = false →
        ((Nat.iterate (fun st => (unqueue pf st OUT_QUEUE_FLUSH d).2) j s0).g_queue_msg n).t >
          (Nat.iterate (fun st => (unqueue pf st OUT_QUEUE_FLUSH d).2) j s0).g_current_t) := by
  intro j
  induction j with
  | zero =>
    refine ⟨h, by simp, ⟨[], by simp, by simp⟩, fun n _ _ _ => rfl, fun h0 => absurd h0 (by simp)⟩
  | succ j ih =>
    rw [Function.iterate_succ_apply']
    generalize Nat.iterate (fun st => (unqueue pf st OUT_QUEUE_FLUSH d).2) j s0 = st at ih ⊢
    obtain ⟨hinv, hclk, ⟨L, hL1, hL2⟩, hkeep, _⟩ := ih
    obtain ⟨hc, hq, _⟩ := unqueue_flush_inv pf st d hinv
    obtain ⟨D, hD1, hD2⟩ := unqueue_flush_conserves pf st d hinv
    have hocc : ∀ n : Int, 0 ≤ n → n < OUT_QUEUE_MAX_MSG →
        ((unqueue pf st OUT_QUEUE_FLUSH d).2.g_queue_msg n).free = false →
        (unqueue pf st OUT_QUEUE_FLUSH d).2.g_queue_msg n = st.g_queue_msg n ∧
          (st.g_queue_msg n).free = false ∧ (st.g_queue_msg n).t > st.g_current_t + 20 := by
      intro n h0 h1 hf
      rw [hq n h0 h1] at hf ⊢
      by_cases hd : (st.g_queue_msg n).free = false ∧ (st.g_queue_msg n).t ≤ st.g_current_t + 20
      · rw [if_pos hd] at hf
        exact absurd hf (by simp)
      · rw [if_neg hd] at hf ⊢
        exact ⟨rfl, hf, lt_of_not_ge (fun hle => hd ⟨hf, hle⟩)⟩
    refine ⟨queueInv_unqueue_flush pf st d hinv, by rw [hc, hclk]; push_cast; ring,
      ⟨L ++ D, by rw [hD1, hL1, List.append_assoc], ?_⟩, fun n h0 h1 hf => ?_,
      fun _ n h0 h1 hf => ?_⟩
    · rw [List.append_assoc]
      exact (List.Perm.append_left L hD2).trans hL2
    · obtain ⟨e1, e2, _⟩ := hocc n h0 h1 hf
      rw [e1]
      exact hkeep n h0 h1 e2
    · obtain ⟨e1, _, e3⟩ := hocc n h0 h1 hf
      rw [e1, hc]
      exact e3

/-- After `F` flushes (at least one) which bring the clock to the time of every
occupied slot or later, every message of the queue has been handed to
`sendmsg` exactly once, and the queue is empty. -/
theorem flush_iterate_drains (pf : T_platform) (s0 : T_state) (d : T_midioutmsg) (F : Nat)
    (h : QueueInv s0) (hF : 0 < F)
    (htime : ∀ n : Int, 0 ≤ n → n < OUT_QUEUE_MAX_MSG → (s0.g_queue_msg n).free = false →
      (s0.g_queue_msg n).t ≤ s0.g_current_t + 20 * F) :
    (∃ L : List T_midioutmsg,
      (Nat.iterate (fun st => (unqueue pf st OUT_QUEUE_FLUSH d).2) F s0).flushed =
        s0.flushed ++ L ∧
      List.Perm L (queue_pending s0)) ∧
    (∀ n : Int, 0 ≤ n → n < OUT_QUEUE_MAX_MSG →
      ((Nat.iterate (fun st => (unqueue pf st OUT_QUEUE_FLUSH d).2) F s0).g_queue_msg n).free
        = true) := by
  obtain ⟨_, hclk, ⟨L, hL1, hL2⟩, hkeep, hlate⟩ := flush_iterate_inv pf s0 d h F
  have hfree : ∀ n : Int, 0 ≤ n → n < OUT_QUEUE_MAX_MSG →
      ((Nat.iterate (fun st => (unqueue pf st OUT_QUEUE_FLUSH d).2) F s0).g_queue_msg n).free
        = true := by
    intro n h0 h1
    by_contra hne
    have hocc : ((Nat.iterate (fun st => (unqueue pf st OUT_QUEUE_FLUSH d).2) F
        s0).g_queue_msg n).free = false := by simpa using hne
    have h2 := hlate hF n h0 h1 hocc
    have h3 := hkeep n h0 h1 hocc
    rw [h3] at h2 hocc
    have h4 := htime n h0 h1 hocc
    rw [hclk] at h2
    omega
  refine ⟨⟨L, hL1, ?_⟩, hfree⟩
  have hnil : queue_pending (Nat.iterate (fun st => (unqueue pf st OUT_QUEUE_FLUSH d).2) F s0)
      = [] := by
    unfold queue_pending
    rw [List.map_eq_nil_iff, List.filter_eq_nil_iff]
    intro k hk
    have hk2 := List.mem_range.1 hk
    have := hfree k (by omega) (by show (k : Int) < 1024; omega)
    simp [this]
  rw [hnil, List.append_nil] at hL2
  exact hL2

theorem queueInv_foldl_queue_insert :
    ∀ (ms : List T_midioutmsg) (s : T_state), QueueInv s → QueueInv (ms.foldl queue_insert s) := by
  intro ms
  induction ms with
  | nil => exact fun s h => h
  | cons m rest ih => exact fun s h => ih (queue_insert s m) (queueInv_queue_insert s m h)

/-- C12 : from an empty queue, 1025 consecutive `queue_insert` (the 1024
messages `ms`, then `x`) : the k-th message of `ms` occupies the slot `k` with
the time `g_current_t + dt`, and the 1025th call leaves the whole state
unchanged (nothing is overwritten).  After `F` flushes (at least one) such
that every delay is at most `20 * F` ms, the messages handed to `sendmsg`
by the flushes are a permutation of `ms` (each of the 1024 messages exactly
once) and every slot is free. -/
theorem C12_queue_overflow_drops_last (pf : T_platform) (s : T_state)
    (ms : List T_midioutmsg) (x d : T_midioutmsg) (F : Nat)
    (hinv : QueueInv s)
    (hempty : ∀ n : Int, 0 ≤ n → n < OUT_QUEUE_MAX_MSG → (s.g_queue_msg n).free = true)
    (hlen : ms.length = 1024) (hF : 0 < F)
    (htime : ∀ m ∈ ms, m.dt ≤ 20 * F) :
    (∀ (k : Nat) (hk : k < ms.length),
      (ms.foldl queue_insert s).g_queue_msg k =
        T_queue_msg.mk ms[k] (s.g_current_t + ms[k].dt) false) ∧
    queue_insert (ms.foldl queue_insert s) x = ms.foldl queue_insert s ∧
    (∃ L : List T_midioutmsg, List.Perm L ms ∧
      (Nat.iterate (fun st => (unqueue pf st OUT_QUEUE_FLUSH d).2) F
        (queue_insert (ms.foldl queue_insert s) x)).flushed = s.flushed ++ L) ∧
    (∀ n : Int, 0 ≤ n → n < OUT_QUEUE_MAX_MSG →
      ((Nat.iterate (fun st => (unqueue pf st OUT_QUEUE_FLUSH d).2) F
        (queue_insert (ms.foldl queue_insert s) x)).g_queue_msg n).free = true) := by
  have hmax : OUT_QUEUE_MAX_MSG = 1024 := rfl
  obtain ⟨_, hslot, hclk, hfl⟩ := queue_insert_fill ms s 0
    (fun j h0 h1 => absurd h1 (by simp only [Nat.cast_zero]; omega))
    (fun j h0 h1 => hempty j (by simpa using h0) (by omega))
    (by omega)
  have hslot2 : ∀ (k : Nat) (hk : k < ms.length),
      (ms.foldl queue_insert s).g_queue_msg k =
        T_queue_msg.mk ms[k] (s.g_current_t + ms[k].dt) false := by
    intro k hk
    have := hslot k hk
    simpa using this
  have hslotInt : ∀ n : Int, 0 ≤ n → n < 1024 →
      ∃ (k : Nat) (hk : k < ms.length), (k : Int) = n ∧
        (ms.foldl queue_insert s).g_queue_msg n =
          T_queue_msg.mk ms[k] (s.g_current_t + ms[k].dt) false := by
    intro n h0 h1
    have hk : n.toNat < ms.length := by omega
    refine ⟨n.toNat, hk, Int.toNat_of_nonneg h0, ?_⟩
    have := hslot2 n.toNat hk
    rw [Int.toNat_of_nonneg h0] at this
    exact this
  have hfull : queue_insert (ms.foldl queue_insert s) x = ms.foldl queue_insert s := by
    apply queue_insert_full
    intro j h0 h1
    obtain ⟨k, hk, _, e⟩ := hslotInt j h0 h1
    rw [e]
  have hinv1 := queueInv_foldl_queue_insert ms s hinv
  have hpend : queue_pending (ms.foldl queue_insert s) = ms := by
    unfold queue_pending
    rw [List.filter_eq_self.2]
    · apply List.ext_getElem
      · simp [hlen]
      · intro i h1 h2
        simp only [List.getElem_map, List.getElem_range]
        rw [hslot2 i h2]
    · intro k hk
      have hk2 := List.mem_range.1 hk
      rw [hslot2 k (by omega)]
      simp
  obtain ⟨⟨L, hL1, hL2⟩, hfree⟩ := flush_iterate_drains pf (ms.foldl queue_insert s) d F hinv1 hF
    (by
      intro n h0 h1 _
      obtain ⟨k, hk, _, e⟩ := hslotInt n h0 (by omega)
      rw [e, hclk]
      have := htime ms[k] (List.getElem_mem hk)
      show s.g_current_t + ms[k].dt ≤ s.g_current_t + 20 * F
      omega)
  rw [hfull]
  refine ⟨hslot2, rfl, ⟨L, ?_, ?_⟩, hfree⟩
  · rw [hpend] at hL2
    exact hL2
  · rw [hL1, hfl]

theorem C12_queue_overflow_drops_last_witness :
    queue_insert
        ((List.replicate 1024 (T_midioutmsg.mk 5 0 30 3 176 7 100 0)).foldl queue_insert
          (fifo_init (track_open_example platform_example)))
        (T_midioutmsg.mk 6 0 30 3 176 7 101 0) =
      (List.replicate 1024 (T_midioutmsg.mk 5 0 30 3 176 7 100 0)).foldl queue_insert
        (fifo_init (track_open_example platform_example)) :=
  (C12_queue_overflow_drops_last platform_example
    (fifo_init (track_open_example platform_example))
    (List.replicate 1024 (T_midioutmsg.mk 5 0 30 3 176 7 100 0))
    (T_midioutmsg.mk 6 0 30 3 176 7 101 0) midioutmsg_zero 2
    (queueInv_fifo_init _)
    (fun n h0 h1 => by simp [fifo_init, h0, h1])
    (List.length_replicate _ _) (by decide)
    (fun m hm => by rw [List.eq_of_mem_replicate hm]; decide)).2.1

/-! ## Chords : chord-on followed by chord-off -/

/-- The cancel scan of `unqueue` from the slot `n` on `fuel` slots, slot by
slot : an occupied slot which matches the note-off is freed, every other slot
is unchanged; the return code is kept when no slot matches. -/
theorem unqueue_loop_noteoff_exact (pf : T_platform) (u : T_midioutmsg) (tmsg : Int) :
    ∀ (fuel : Nat) (n nb rc : Int) (s : T_state),
      (∀ j : Int,
        (unqueue_loop pf OUT_QUEUE_NOTEOFF u tmsg fuel n (nb, rc, s)).2.2.g_queue_msg j =
          if n ≤ j ∧ j < n + fuel ∧ (s.g_queue_msg j).free = false
              ∧ ((s.g_queue_msg j).midioutmsg.bData0 / 16 % 16 = MIDI_NOTEON
                ∧ (s.g_queue_msg j).midioutmsg.bData0 % 16 = u.bData0 % 16
                ∧ ((s.g_queue_msg j).midioutmsg.bData1 = u.bData1 ∨ u.bData1 = 0)
                ∧ (s.g_queue_msg j).midioutmsg.track = u.track
                ∧ (s.g_queue_msg j).midioutmsg.id = u.id
                ∧ (s.g_queue_msg j).t ≥ tmsg) then
            { s.g_queue_msg j with free := true }
          else s.g_queue_msg j) ∧
      ((∀ j : Int, n ≤ j → j < n + fuel → (s.g_queue_msg j).free = false →
          ¬ ((s.g_queue_msg j).midioutmsg.bData0 / 16 % 16 = MIDI_NOTEON
            ∧ (s.g_queue_msg j).midioutmsg.bData0 % 16 = u.bData0 % 16
            ∧ ((s.g_queue_msg j).midioutmsg.bData1 = u.bData1 ∨ u.bData1 = 0)
            ∧ (s.g_queue_msg j).midioutmsg.track = u.track
            ∧ (s.g_queue_msg j).midioutmsg.id = u.id
            ∧ (s.g_queue_msg j).t ≥ tmsg)) →
        (unqueue_loop pf OUT_QUEUE_NOTEOFF u tmsg fuel n (nb, rc, s)).2.1 = rc) := by
  intro fuel
  induction fuel with
  | zero =>
    intro n nb rc s
    refine ⟨fun j => ?_, fun _ => rfl⟩
    rw [if_neg]
    · rfl
    · simp only [Nat.cast_zero]
      omega
  | succ k ih =>
    intro n nb rc s
    rw [unqueue_loop_noteoff_succ]
    by_cases hfree : (s.g_queue_msg n).free = false
    · rw [if_pos hfree]
      by_cases hm : (s.g_queue_msg n).midioutmsg.bData0 / 16 % 16 = MIDI_NOTEON
            ∧ (s.g_queue_msg n).midioutmsg.bData0 % 16 = u.bData0 % 16
            ∧ ((s.g_queue_msg n).midioutmsg.bData1 = u.bData1 ∨ u.bData1 = 0)
            ∧ (s.g_queue_msg n).midioutmsg.track = u.track
            ∧ (s.g_queue_msg n).midioutmsg.id = u.id
            ∧ (s.g_queue_msg n).t ≥ tmsg
      · rw [if_pos hm]
        obtain ⟨h1, _⟩ := ih (n + 1) (nb + 1) 1
          { s with g_queue_msg := set1 s.g_queue_msg n { s.g_queue_msg n with free := true } }
        dsimp only at h1
        refine ⟨fun j => ?_, fun hno => absurd hm (hno n (le_refl _) (by push_cast; omega) hfree)⟩
        rw [h1 j]
        by_cases hj : j = n
        · subst hj
          rw [if_neg (by omega), if_pos ⟨le_refl _, by push_cast; omega, hfree, hm⟩, set1_same]
        · rw [set1_other _ _ _ _ hj]
          by_cases hc : n + 1 ≤ j ∧ j < n + 1 + (k : Int) ∧ (s.g_queue_msg j).free = false
              ∧ ((s.g_queue_msg j).midioutmsg.bData0 / 16 % 16 = MIDI_NOTEON
                ∧ (s.g_queue_msg j).midioutmsg.bData0 % 16 = u.bData0 % 16
                ∧ ((s.g_queue_msg j).midioutmsg.bData1 = u.bData1 ∨ u.bData1 = 0)
                ∧ (s.g_queue_msg j).midioutmsg.track = u.track
                ∧ (s.g_queue_msg j).midioutmsg.id = u.id
                ∧ (s.g_queue_msg j).t ≥ tmsg)
          · rw [if_pos hc, if_pos ⟨by omega, by push_cast; omega, hc.2.2.1, hc.2.2.2⟩]
          · rw [if_neg hc, if_neg]
            intro hc2
            exact hc ⟨by omega, by have := hc2.2.1; push_cast at this; omega,
              hc2.2.2.1, hc2.2.2.2⟩
      · rw [if_neg hm]
        obtain ⟨h1, h2⟩ := ih (n + 1) (nb + 1) rc s
        refine ⟨fun j => ?_, fun hno => h2 (fun j hj0 hj1 =>
          hno j (by omega) (by push_cast; omega))⟩
        rw [h1 j]
        by_cases hj : j = n
        · subst hj
          rw [if_neg (by omega), if_neg (fun h => hm h.2.2.2)]
        · by_cases hc : n + 1 ≤ j ∧ j < n + 1 + (k : Int) ∧ (s.g_queue_msg j).free = false
              ∧ ((s.g_queue_msg j).midioutmsg.bData0 / 16 % 16 = MIDI_NOTEON
                ∧ (s.g_queue_msg j).midioutmsg.bData0 % 16 = u.bData0 % 16
                ∧ ((s.g_queue_msg j).midioutmsg.bData1 = u.bData1 ∨ u.bData1 = 0)
                ∧ (s.g_queue_msg j).midioutmsg.track = u.track
                ∧ (s.g_queue_msg j).midioutmsg.id = u.id
                ∧ (s.g_queue_msg j).t ≥ tmsg)
          · rw [if_pos hc, if_pos ⟨by omega, by push_cast; omega, hc.2.2.1, hc.2.2.2⟩]
          · rw [if_neg hc, if_neg]
            intro hc2
            exact hc ⟨by omega, by have := hc2.2.1; push_cast at this; omega,
              hc2.2.2.1, hc2.2.2.2⟩
    · rw [if_neg hfree]
      obtain ⟨h1, h2⟩ := ih (n + 1) nb rc s
      refine ⟨fun j => ?_, fun hno => h2 (fun j hj0 hj1 =>
        hno j (by omega) (by push_cast; omega))⟩
      rw [h1 j]
      by_cases hj : j = n
      · subst hj
        rw [if_neg (by omega), if_neg (fun h => hfree h.2.2.1)]
      · by_cases hc : n + 1 ≤ j ∧ j < n + 1 + (k : Int) ∧ (s.g_queue_msg j).free = false
            ∧ ((s.g_queue_msg j).midioutmsg.bData0 / 16 % 16 = MIDI_NOTEON
              ∧ (s.g_queue_msg j).midioutmsg.bData0 % 16 = u.bData0 % 16
              ∧ ((s.g_queue_msg j).midioutmsg.bData1 = u.bData1 ∨ u.bData1 = 0)
              ∧ (s.g_queue_msg j).midioutmsg.track = u.track
              ∧ (s.g_queue_msg j).midioutmsg.id = u.id
              ∧ (s.g_queue_msg j).t ≥ tmsg)
        · rw [if_pos hc, if_pos ⟨by omega, by push_cast; omega, hc.2.2.1, hc.2.2.2⟩]
        · rw [if_neg hc, if_neg]
          intro hc2
          exact hc ⟨by omega, by have := hc2.2.1; push_cast at this; omega,
            hc2.2.2.1, hc2.2.2.2⟩

/-- The cancel of `unqueue` on a state which satisfies the invariant of the
queue : only the queue changes; an occupied slot which matches the note-off is
freed and every other slot is unchanged; the return is 1 when a slot matches
and 0 otherwise. -/
theorem unqueue_noteoff_inv (pf : T_platform) (s : T_state) (u : T_midioutmsg)
    (h : QueueInv s) :
    (unqueue pf s OUT_QUEUE_NOTEOFF u).2 =
      { s with
        g_queue_msg := (unqueue pf s OUT_QUEUE_NOTEOFF u).2.g_queue_msg
        g_end_queue_msg := (unqueue pf s OUT_QUEUE_NOTEOFF u).2.g_end_queue_msg } ∧
    (∀ j : Int, 0 ≤ j → j < 1024 →
      (unqueue pf s OUT_QUEUE_NOTEOFF u).2.g_queue_msg j =
        if (s.g_queue_msg j).free = false
            ∧ queue_matches (s.g_queue_msg j) u (s.g_current_t + u.dt) then
          { s.g_queue_msg j with free := true }
        else s.g_queue_msg j) ∧
    ((∀ j : Int, 0 ≤ j → j < 1024 → (s.g_queue_msg j).free = false →
        ¬ queue_matches (s.g_queue_msg j) u (s.g_current_t + u.dt)) →
      (unqueue pf s OUT_QUEUE_NOTEOFF u).1 = 0) ∧
    (∀ j : Int, 0 ≤ j → j < 1024 → (s.g_queue_msg j).free = false →
        queue_matches (s.g_queue_msg j) u (s.g_current_t + u.dt) →
      (unqueue pf s OUT_QUEUE_NOTEOFF u).1 = 1) := by
  obtain ⟨h0, h1, h2⟩ := h
  have hmax : OUT_QUEUE_MAX_MSG = 1024 := rfl
  obtain ⟨e1, _, _, _, _, _, e7⟩ := unqueue_loop_noteoff_effect pf u (s.g_current_t + u.dt)
    s.g_end_queue_msg.toNat 0 0 0 s
  obtain ⟨x1, x2⟩ := unqueue_loop_noteoff_exact pf u (s.g_current_t + u.dt)
    s.g_end_queue_msg.toNat 0 0 0 s
  have h10 : ¬ (OUT_QUEUE_NOTEOFF = OUT_QUEUE_FLUSH) := by decide
  have hq : ∀ j : Int, 0 ≤ j → j < 1024 →
      (unqueue_loop pf OUT_QUEUE_NOTEOFF u (s.g_current_t + u.dt) s.g_end_queue_msg.toNat 0
        (0, 0, s)).2.2.g_queue_msg j =
        if (s.g_queue_msg j).free = false
            ∧ queue_matches (s.g_queue_msg j) u (s.g_current_t + u.dt) then
          { s.g_queue_msg j with free := true }
        else s.g_queue_msg j := by
    intro j hj0 hj1
    rw [x1 j]
    unfold queue_matches
    by_cases hc : (s.g_queue_msg j).free = false
        ∧ ((s.g_queue_msg j).midioutmsg.bData0 / 16 % 16 = MIDI_NOTEON
          ∧ (s.g_queue_msg j).midioutmsg.bData0 % 16 = u.bData0 % 16
          ∧ ((s.g_queue_msg j).midioutmsg.bData1 = u.bData1 ∨ u.bData1 = 0)
          ∧ (s.g_queue_msg j).midioutmsg.track = u.track
          ∧ (s.g_queue_msg j).midioutmsg.id = u.id
          ∧ (s.g_queue_msg j).t ≥ s.g_current_t + u.dt)
    · rw [if_pos hc, if_pos ⟨hj0, by have := h2 j hj0 (by omega) hc.1; omega, hc.1, hc.2⟩]
    · rw [if_neg hc, if_neg (fun hx => hc ⟨hx.2.2.1, hx.2.2.2⟩)]
  unfold unqueue
  simp only [h10, if_false]
  have hx2 : (∀ j : Int, 0 ≤ j → j < 1024 → (s.g_queue_msg j).free = false →
        ¬ queue_matches (s.g_queue_msg j) u (s.g_current_t + u.dt)) →
      (unqueue_loop pf OUT_QUEUE_NOTEOFF u (s.g_current_t + u.dt) s.g_end_queue_msg.toNat 0
        (0, 0, s)).2.1 = 0 := by
    intro hno
    exact x2 (fun j hj0 hj1 hocc => by
      have := hno j hj0 (by have := h2 j hj0 (by omega) hocc; omega) hocc
      unfold queue_matches at this
      exact this)
  have hx1 : ∀ j : Int, 0 ≤ j → j < 1024 → (s.g_queue_msg j).free = false →
        queue_matches (s.g_queue_msg j) u (s.g_current_t + u.dt) →
      (unqueue_loop pf OUT_QUEUE_NOTEOFF u (s.g_current_t + u.dt) s.g_end_queue_msg.toNat 0
        (0, 0, s)).2.1 = 1 := by
    intro j hj0 hj1 hocc hm
    unfold queue_matches at hm
    exact (e7 j hj0 (by have := h2 j hj0 (by omega) hocc; omega) hocc hm).1
  by_cases hz : (unqueue_loop pf OUT_QUEUE_NOTEOFF u (s.g_current_t + u.dt)
      s.g_end_queue_msg.toNat 0 (0, 0, s)).1 = 0
  · rw [if_pos hz]
    refine ⟨?_, hq, hx2, hx1⟩
    rw [e1]
  · rw [if_neg hz]
    refine ⟨?_, hq, hx2, hx1⟩
    rw [e1]

theorem set3_other {α : Type} (a : Int → Int → Int → α) (i j k i1 j1 k1 : Int) (v : α)
    (h : ¬ (i1 = i ∧ j1 = j ∧ k1 = k)) : set3 a i j k v i1 j1 k1 = a i1 j1 k1 := by
  unfold set3 set2 set1
  by_cases hi : i1 = i
  · by_cases hj : j1 = j
    · by_cases hk : k1 = k
      · exact absurd ⟨hi, hj, hk⟩ h
      · simp [hi, hj, hk]
    · simp [hi, hj]
  · simp [hi]

/-- The `case MIDI_NOTEOFF:` when the loop over the channels finds the physical
channel `c` (owned by the logical channel, status of the pitch equal to the id
of the message) : the status of (device, `c`, pitch) is cleared and one
note-off, after transposition, is sent on `c`. -/
theorem sendmidimsg_noteoff_found (pf : T_platform) (s : T_state) (m : T_midioutmsg) (c : Int)
    (hfound : first_index (fun c => decide
      (s.g_channels (s.g_tracks m.track).device c = (s.g_tracks m.track).channel
        ∧ s.g_midistatuspitch (s.g_tracks m.track).device c m.bData1 = toULong pf m.id))
      16 0 = some c) :
    sendmidimsg_noteoff pf s m = (true, { s with
      transport := s.transport ++
        [T_sent.mk (s.g_tracks m.track).device (toBYTE (MIDI_NOTEOFF * 16 + toBYTE c))
          (sent_pitch s m.bData1) m.bData2]
      g_midistatuspitch := set3 s.g_midistatuspitch (s.g_tracks m.track).device c m.bData1
        (toULong pf (-1)) }) := by
  unfold sendmidimsg_noteoff sent_pitch
  by_cases htr : s.g_transposition ≠ 0
  · simp only [if_pos htr, hfound, sendshortmsg_snd]
  · simp only [if_neg htr, hfound, sendshortmsg_snd]

/-- A note-on with the delay 0 given to `sendmsgdt`, on a track attached to an
open device, without LUA hook, when `c0` is the lowest physical channel owned
by the logical channel of the track and the status of the pitch on `c0` is
off : one note-on is sent on `c0`, which records the id. -/
theorem sendmsgdt_noteon_now (pf : T_platform) (s : T_state) (u : T_midioutmsg) (c0 : Int)
    (hdt : u.dt = 0) (hb0 : u.bData0 = MIDI_NOTEON * 16)
    (hdev0 : 0 ≤ (s.g_tracks u.track).device)
    (hdev1 : (s.g_tracks u.track).device < pf.OUT_MAX_DEVICE)
    (hmidi : (s.g_tracks u.track).device < pf.MIDIOUT_MAX →
      s.g_midiopened (s.g_tracks u.track).device = true)
    (hvi : pf.MIDIOUT_MAX ≤ (s.g_tracks u.track).device →
      (s.g_tracks u.track).device < pf.VI_ZERO + s.g_vi_opened_nb)
    (hhook : s.g_LUAoutState = false)
    (hc0 : 0 ≤ c0) (hc1 : c0 < 16)
    (hown : s.g_channels (s.g_tracks u.track).device c0 = (s.g_tracks u.track).channel)
    (hlow : ∀ j : Int, 0 ≤ j → j < c0 →
      s.g_channels (s.g_tracks u.track).device j ≠ (s.g_tracks u.track).channel)
    (hoff : s.g_midistatuspitch (s.g_tracks u.track).device c0 u.bData1 = toULong pf (-1)) :
    sendmsgdt pf s u = (true, { s with
      dispatched := s.dispatched ++ [u]
      transport := s.transport ++
        [T_sent.mk (s.g_tracks u.track).device (toBYTE (MIDI_NOTEON * 16 + toBYTE c0))
          (sent_pitch s u.bData1) (toBYTE (apply_volume s u.track u.bData2))]
      g_midistatuspitch := set3 s.g_midistatuspitch (s.g_tracks u.track).device c0 u.bData1
        (toULong pf u.id)
      g_miditimepitch := set3 s.g_miditimepitch (s.g_tracks u.track).device
        (s.g_tracks u.track).channel u.bData1 (toULong pf s.g_current_t) }) := by
  unfold sendmsgdt
  simp only [hdt, if_true]
  rw [sendmsg_open pf { s with dispatched := s.dispatched ++ [u] } u hdev0 hdev1 hmidi hvi hhook]
  unfold sendmidimsg_switch
  have ht : u.bData0 / 16 % 16 = MIDI_NOTEON := by rw [hb0]; decide
  simp only [ht, if_true]
  rw [sendmidimsg_noteon_free pf { s with dispatched := s.dispatched ++ [u] } u c0
    (first_index_found _ c0 (by simp [hown, hoff]) 16 0 hc0 (by push_cast; omega)
      (fun j hj0 hj1 => by simp [hlow j hj0 hj1]))]
  unfold sent_pitch
  simp [apply_volume]

/-- A note-off with the delay 0 given to `sendmsgdt`, on a track attached to an
open device, without LUA hook, when `c0` is the lowest physical channel owned
by the logical channel of the track and the status of the pitch on `c0` is the
id of the note-off : one note-off is sent on `c0`, whose status is cleared. -/
theorem sendmsgdt_noteoff_now (pf : T_platform) (s : T_state) (u : T_midioutmsg) (c0 : Int)
    (hdt : u.dt = 0) (hb0 : u.bData0 = MIDI_NOTEOFF * 16)
    (hdev0 : 0 ≤ (s.g_tracks u.track).device)
    (hdev1 : (s.g_tracks u.track).device < pf.OUT_MAX_DEVICE)
    (hmidi : (s.g_tracks u.track).device < pf.MIDIOUT_MAX →
      s.g_midiopened (s.g_tracks u.track).device = true)
    (hvi : pf.MIDIOUT_MAX ≤ (s.g_tracks u.track).device →
      (s.g_tracks u.track).device < pf.VI_ZERO + s.g_vi_opened_nb)
    (hhook : s.g_LUAoutState = false)
    (hc0 : 0 ≤ c0) (hc1 : c0 < 16)
    (hown : s.g_channels (s.g_tracks u.track).device c0 = (s.g_tracks u.track).channel)
    (hlow : ∀ j : Int, 0 ≤ j → j < c0 →
      s.g_channels (s.g_tracks u.track).device j ≠ (s.g_tracks u.track).channel)
    (hon : s.g_midistatuspitch (s.g_tracks u.track).device c0 u.bData1 = toULong pf u.id) :
    sendmsgdt pf s u = (true, { s with
      dispatched := s.dispatched ++ [u]
      transport := s.transport ++
        [T_sent.mk (s.g_tracks u.track).device (toBYTE (MIDI_NOTEOFF * 16 + toBYTE c0))
          (sent_pitch s u.bData1) u.bData2]
      g_midistatuspitch := set3 s.g_midistatuspitch (s.g_tracks u.track).device c0 u.bData1
        (toULong pf (-1)) }) := by
  unfold sendmsgdt
  simp only [hdt, if_true]
  rw [sendmsg_open pf { s with dispatched := s.dispatched ++ [u] } u hdev0 hdev1 hmidi hvi hhook]
  unfold sendmidimsg_switch
  have ht : u.bData0 / 16 % 16 = MIDI_NOTEOFF := by rw [hb0]; decide
  have h89 : ¬ (MIDI_NOTEOFF = MIDI_NOTEON) := by decide
  simp only [ht, h89, if_true, if_false]
  rw [sendmidimsg_noteoff_found pf { s with dispatched := s.dispatched ++ [u] } u c0
    (first_index_found _ c0 (by simp [hown, hon]) 16 0 hc0 (by push_cast; omega)
      (fun j hj0 hj1 => by simp [hlow j hj0 hj1]))]
  unfold sent_pitch
  simp

/-- The state after `queue_insert` when the first free slot is `a`. -/
theorem queue_insert_at_eq (s : T_state) (m : T_midioutmsg) (a : Int)
    (h0 : 0 ≤ a) (h1 : a < 1024)
    (hocc : ∀ j : Int, 0 ≤ j → j < a → (s.g_queue_msg j).free = false)
    (hfree : (s.g_queue_msg a).free = true) :
    queue_insert s m = { s with
      g_queue_msg := set1 s.g_queue_msg a (T_queue_msg.mk m (s.g_current_t + m.dt) false)
      g_end_queue_msg := (queue_insert s m).g_end_queue_msg
      g_max_queue_msg := (queue_insert s m).g_max_queue_msg } := by
  have hfi : first_index (fun n => (s.g_queue_msg n).free) 1024 0 = some a :=
    first_index_found _ a hfree 1024 0 h0 (by push_cast; omega) (fun j hj0 hj1 => hocc j hj0 hj1)
  unfold queue_insert
  rw [hfi]

theorem chord_delay_pos (d j : Int) (hj : 0 ≤ j) (h : chord_delay d j ≠ 0) :
    d ≠ 0 ∧ 2 ≤ j := by
  unfold chord_delay at h
  by_cases hj0 : j = 0
  · rw [if_pos hj0] at h
    exact absurd rfl h
  · rw [if_neg hj0] at h
    refine ⟨fun hd0 => h (by rw [hd0, mul_zero]), ?_⟩
    by_contra hlt
    have : j = 1 := by omega
    rw [this] at h
    exact h (by simp)

theorem chord_delay_zero (d j : Int) (hd : d ≠ 0) (hj : 2 ≤ j) : chord_delay d j ≠ 0 := by
  unfold chord_delay
  rw [if_neg (by omega)]
  exact mul_ne_zero (by omega) hd

theorem chord_delay_nonneg (d j : Int) (hd : 0 ≤ d) (hj : 0 ≤ j) : 0 ≤ chord_delay d j := by
  unfold chord_delay
  split_ifs
  · exact le_refl _
  · exact mul_nonneg (by omega) hd

/-- The pitch byte of a stored pitch of the chord is the pitch itself. -/
theorem chord_pitch_byte (pf : T_platform) (s : T_state) (n trk c0 : Int)
    (HS : ChordStart pf s n trk c0) (j : Int) (h0 : 0 ≤ j) (h1 : j < (s.g_chords n).nbPitch) :
    ((toBYTE (pitch_wrap ((s.g_chords n).pitch j)) : Nat) : Int) = (s.g_chords n).pitch j := by
  rw [pitch_wrap_id _ (HS.pitch0 j h0 h1) (HS.pitch1 j h0 h1)]
  exact toBYTE_cast _ (HS.pitch0 j h0 h1) (by have := HS.pitch1 j h0 h1; omega)

/-- The note-on of index `b` of the chord, given to `sendmsgdt` in the course of
`LoutChordOn` : with the delay 0 it is sent on `c0`, which records its id;
with a delay it is queued in the slot `b - 2`.  The note is pending
afterwards. -/
theorem round_noteon (pf : T_platform) (s : T_state) (n trk c0 : Int)
    (HS : ChordStart pf s n trk c0) (b : Int) (st : T_state)
    (HR : RoundCore pf s n trk c0 0 b st) (hb0 : 0 ≤ b) (hb1 : b < (s.g_chords n).nbPitch)
    (u : T_midioutmsg) (hid : u.id = s.g_unique_id + b) (htrk : u.track = trk)
    (hdt : u.dt = chord_delay (s.g_chords n).dt b) (hb : u.bData0 = MIDI_NOTEON * 16)
    (hp : u.bData1 = toBYTE (pitch_wrap ((s.g_chords n).pitch b))) :
    (sendmsgdt pf st u).1 = true ∧
    RoundCore pf s n trk c0 0 (b + 1) (sendmsgdt pf st u).2 ∧
    (sendmsgdt pf st u).2.g_unique_id = st.g_unique_id ∧
    (chord_delay (s.g_chords n).dt b = 0 →
      ∃ vol : Nat, (sendmsgdt pf st u).2.transport = st.transport ++
        [T_sent.mk (s.g_tracks trk).device (toBYTE (MIDI_NOTEON * 16 + toBYTE c0))
          (sent_pitch s (toBYTE (pitch_wrap ((s.g_chords n).pitch b)))) vol]) ∧
    (chord_delay (s.g_chords n).dt b ≠ 0 → (sendmsgdt pf st u).2.transport = st.transport) := by
  have hpb := chord_pitch_byte pf s n trk c0 HS
  have hnb := HS.nb
  by_cases himm : chord_delay (s.g_chords n).dt b = 0
  · -- sent at once
    have hoff : st.g_midistatuspitch (st.g_tracks u.track).device c0 u.bData1
        = toULong pf (-1) := by
      rw [HR.g_tracks, htrk, hp, hpb b hb0 hb1, HR.status_other _ _ _ (fun j hj0 _ hj1 _ hx => by
        have := HS.distinct b j hb0 hb1 hj0 (by omega) hx.2.2
        omega)]
      exact HS.off b hb0 hb1
    have hsend := sendmsgdt_noteon_now pf st u c0 (by rw [hdt, himm]) hb
      (by rw [HR.g_tracks, htrk]; exact HS.dev0)
      (by rw [HR.g_tracks, htrk]; exact HS.dev1)
      (by rw [HR.g_tracks, htrk, HR.g_midiopened]; exact HS.midi)
      (by rw [HR.g_tracks, htrk, HR.g_vi_opened_nb]; exact HS.vi)
      (by rw [HR.g_LUAoutState]; exact HS.hook)
      HS.c00 HS.c01
      (by rw [HR.g_tracks, htrk, HR.g_channels]; exact HS.owned)
      (by rw [HR.g_tracks, htrk, HR.g_channels]; exact HS.lowest)
      hoff
    have hdevEq : (st.g_tracks u.track).device = (s.g_tracks trk).device := by
      rw [HR.g_tracks, htrk]
    rw [hdevEq, hp, hpb b hb0 hb1, hid] at hsend
    rw [hsend]
    dsimp only
    refine ⟨rfl, ⟨HR.g_tracks, HR.g_channels, HR.g_midiopened, HR.g_vi_opened_nb,
      HR.g_LUAoutState, HR.g_current_t, HR.g_transposition, HR.g_randomDelay, HR.queue_inv,
      ?_, ?_, ?_, ?_⟩, rfl,
      fun _ => ⟨toBYTE (apply_volume st u.track u.bData2), ?_⟩, fun h => absurd himm h⟩
    · intro q hq0 hq1 hd ha hlt
      have hne : q + 2 ≠ b := by
        intro he
        rw [← he] at himm
        exact chord_delay_zero _ _ hd (by omega) himm
      exact HR.queue_occ q hq0 hq1 hd ha (by omega)
    · intro q hq0 hq1 hno
      exact HR.queue_free q hq0 hq1 (fun hx => hno ⟨hx.1, hx.2.1, by omega⟩)
    · intro j hj0 _ hj1 hj
      dsimp only
      by_cases he : j = b
      · rw [he, set3_same]
      · rw [set3_other _ _ _ _ _ _ _ _ (fun hx => he
          (HS.distinct j b hj0 (by omega) hb0 hb1 hx.2.2))]
        exact HR.status_on j hj0 (by omega) (by omega) hj
    · intro d c p hno
      dsimp only
      rw [set3_other _ _ _ _ _ _ _ _ (hno b hb0 hb0 (by omega) himm)]
      exact HR.status_other d c p (fun j hj0 ha hj1 hj => hno j hj0 ha (by omega) hj)
    · unfold sent_pitch
      rw [HR.g_transposition]
  · -- queued
    obtain ⟨hd, hb2⟩ := chord_delay_pos _ _ hb0 himm
    have hins := queue_insert_at_eq { st with dispatched := st.dispatched ++ [u] } u (b - 2)
      (by omega) (by omega)
      (fun j hj0 hj1 => (HR.queue_occ j hj0 (by omega) hd (by omega) (by omega)).1)
      (HR.queue_free (b - 2) (by omega) (by omega) (fun hx => by omega))
    have hinv : QueueInv (queue_insert { st with dispatched := st.dispatched ++ [u] } u) :=
      queueInv_queue_insert _ u HR.queue_inv
    have hsend : sendmsgdt pf st u =
        (true, queue_insert { st with dispatched := st.dispatched ++ [u] } u) := by
      unfold sendmsgdt
      rw [if_neg (by rw [hdt]; exact himm)]
    rw [hsend]
    refine ⟨rfl, ?_, by rw [hins], fun h => absurd h himm, fun _ => by rw [hins]⟩
    refine ⟨by rw [hins]; exact HR.g_tracks, by rw [hins]; exact HR.g_channels,
      by rw [hins]; exact HR.g_midiopened, by rw [hins]; exact HR.g_vi_opened_nb,
      by rw [hins]; exact HR.g_LUAoutState, by rw [hins]; exact HR.g_current_t,
      by rw [hins]; exact HR.g_transposition, by rw [hins]; exact HR.g_randomDelay, hinv,
      ?_, ?_, ?_, ?_⟩
    · intro q hq0 hq1 _ ha hlt
      rw [hins]
      dsimp only
      by_cases he : q = b - 2
      · rw [he, set1_same]
        have e2 : b - 2 + 2 = b := by omega
        rw [e2]
        refine ⟨rfl, hid, htrk, hb, hp, ?_⟩
        rw [HR.g_current_t, hdt]
      · rw [set1_other _ _ _ _ he]
        exact HR.queue_occ q hq0 hq1 hd ha (by omega)
    · intro q hq0 hq1 hno
      rw [hins]
      dsimp only
      have he : q ≠ b - 2 := by
        intro he
        exact hno ⟨hd, by omega, by omega⟩
      rw [set1_other _ _ _ _ he]
      exact HR.queue_free q hq0 hq1 (fun hx => hno ⟨hx.1, hx.2.1, by omega⟩)
    · intro j hj0 _ hj1 hj
      rw [hins]
      have he : j ≠ b := by
        intro he
        rw [he] at hj
        exact himm hj
      exact HR.status_on j hj0 (by omega) (by omega) hj
    · intro d c p hno
      rw [hins]
      exact HR.status_other d c p (fun j hj0 ha hj1 hj => hno j hj0 ha (by omega) hj)

/-- The end of a turn of the loop of `LoutChordOn` for the note of index `b` :
the message is given to `sendmsgdt`, which accepts it, and is recorded in the
list of the pending note-offs of the chord. -/
theorem round_emit_core (pf : T_platform) (s : T_state) (n trk c0 : Int)
    (HS : ChordStart pf s n trk c0) (b : Int) (s2 : T_state)
    (HR : RoundCore pf s n trk c0 0 b s2) (HC : RoundChord s n trk b s2)
    (hb0 : 0 ≤ b) (hb1 : b < (s.g_chords n).nbPitch)
    (u1 : T_midioutmsg) (rc : Int) (hid : u1.id = s.g_unique_id + b) (htrk : u1.track = trk)
    (hdt : u1.dt = chord_delay (s.g_chords n).dt b) (hb : u1.bData0 = MIDI_NOTEON * 16)
    (hp : u1.bData1 = toBYTE (pitch_wrap ((s.g_chords n).pitch b))) :
    (if (sendmsgdt pf s2 u1).1 = false then (u1, (-1 : Int), (sendmsgdt pf s2 u1).2)
      else (u1, rc, { (sendmsgdt pf s2 u1).2 with
        g_chords := set1 (sendmsgdt pf s2 u1).2.g_chords n
          { (sendmsgdt pf s2 u1).2.g_chords n with
            msg_off := set1 ((sendmsgdt pf s2 u1).2.g_chords n).msg_off
              ((sendmsgdt pf s2 u1).2.g_chords n).nbOff u1
            nbOff := ((sendmsgdt pf s2 u1).2.g_chords n).nbOff + 1 } })) =
      (u1, rc, { (sendmsgdt pf s2 u1).2 with
        g_chords := set1 s2.g_chords n
          { s2.g_chords n with
            msg_off := set1 (s2.g_chords n).msg_off b u1
            nbOff := b + 1 } }) ∧
    RoundCore pf s n trk c0 0 (b + 1) { (sendmsgdt pf s2 u1).2 with
        g_chords := set1 s2.g_chords n
          { s2.g_chords n with
            msg_off := set1 (s2.g_chords n).msg_off b u1
            nbOff := b + 1 } } ∧
    RoundChord s n trk (b + 1) { (sendmsgdt pf s2 u1).2 with
        g_chords := set1 s2.g_chords n
          { s2.g_chords n with
            msg_off := set1 (s2.g_chords n).msg_off b u1
            nbOff := b + 1 } } := by
  obtain ⟨h1, h2, _, _, _⟩ := round_noteon pf s n trk c0 HS b s2 HR hb0 hb1 u1 hid htrk hdt hb hp
  have hch := (sendmsgdt_frame pf s2 u1).1
  refine ⟨?_, ?_, ?_⟩
  · rw [if_neg (by rw [h1]; simp), hch, HC.nbOff]
  · exact ⟨h2.g_tracks, h2.g_channels, h2.g_midiopened, h2.g_vi_opened_nb, h2.g_LUAoutState,
      h2.g_current_t, h2.g_transposition, h2.g_randomDelay, h2.queue_inv, h2.queue_occ,
      h2.queue_free, h2.status_on, h2.status_other⟩
  · refine ⟨fun j hj => ?_, ?_, ?_, ?_, ?_, ?_, ?_, ?_, ?_, ?_, ?_, ?_⟩
    · dsimp only
      rw [set1_other _ _ _ _ hj]
      exact HC.other j hj
    · dsimp only
      rw [set1_same]
      exact HC.id
    · dsimp only
      rw [set1_same]
      exact HC.dt
    · dsimp only
      rw [set1_same]
      exact HC.dv
    · dsimp only
      rw [set1_same]
      exact HC.pitch
    · dsimp only
      rw [set1_same]
      exact HC.nbPitch
    · dsimp only
      rw [set1_same]
    · intro j hj0 hj1
      dsimp only
      rw [set1_same]
      dsimp only
      by_cases he : j = b
      · rw [he, set1_same, hid]
      · rw [set1_other _ _ _ _ he]
        exact HC.msg_id j hj0 (by omega)
    · intro j hj0 hj1
      dsimp only
      rw [set1_same]
      dsimp only
      by_cases he : j = b
      · rw [he, set1_same, htrk]
      · rw [set1_other _ _ _ _ he]
        exact HC.msg_track j hj0 (by omega)
    · intro j hj0 hj1
      dsimp only
      rw [set1_same]
      dsimp only
      by_cases he : j = b
      · rw [he, set1_same, hdt]
      · rw [set1_other _ _ _ _ he]
        exact HC.msg_dt j hj0 (by omega)
    · intro j hj0 hj1
      dsimp only
      rw [set1_same]
      dsimp only
      by_cases he : j = b
      · rw [he, set1_same, hb]
      · rw [set1_other _ _ _ _ he]
        exact HC.msg_b0 j hj0 (by omega)
    · intro j hj0 hj1
      dsimp only
      rw [set1_same]
      dsimp only
      by_cases he : j = b
      · rw [he, set1_same, hp]
      · rw [set1_other _ _ _ _ he]
        exact HC.msg_b1 j hj0 (by omega)

/-- A turn of the loop of `LoutChordOn` in terms of the value `E` of its first
half, for the message `u1` given to `sendmsgdt` in the state `s2`. -/
theorem round_emit_wrap (pf : T_platform) (s : T_state) (n trk c0 : Int)
    (HS : ChordStart pf s n trk c0) (b : Int) (s2 : T_state)
    (HR : RoundCore pf s n trk c0 0 b s2) (HC : RoundChord s n trk b s2)
    (hb0 : 0 ≤ b) (hb1 : b < (s.g_chords n).nbPitch)
    (u1 : T_midioutmsg) (rc : Int) (hid : u1.id = s.g_unique_id + b) (htrk : u1.track = trk)
    (hdt : u1.dt = chord_delay (s.g_chords n).dt b) (hb : u1.bData0 = MIDI_NOTEON * 16)
    (hp : u1.bData1 = toBYTE (pitch_wrap ((s.g_chords n).pitch b)))
    (E : T_midioutmsg × Int × T_state)
    (hE : E = if (sendmsgdt pf s2 u1).1 = false then (u1, (-1 : Int), (sendmsgdt pf s2 u1).2)
      else (u1, rc, { (sendmsgdt pf s2 u1).2 with
        g_chords := set1 (sendmsgdt pf s2 u1).2.g_chords n
          { (sendmsgdt pf s2 u1).2.g_chords n with
            msg_off := set1 ((sendmsgdt pf s2 u1).2.g_chords n).msg_off
              ((sendmsgdt pf s2 u1).2.g_chords n).nbOff u1
            nbOff := ((sendmsgdt pf s2 u1).2.g_chords n).nbOff + 1 } })) :
    RoundCore pf s n trk c0 0 (b + 1) E.2.2 ∧
    RoundChord s n trk (b + 1) E.2.2 ∧
    E.2.2.g_unique_id = s2.g_unique_id ∧
    E.1 = u1 ∧
    (chord_delay (s.g_chords n).dt b = 0 →
      ∃ vol : Nat, E.2.2.transport = s2.transport ++
        [T_sent.mk (s.g_tracks trk).device (toBYTE (MIDI_NOTEON * 16 + toBYTE c0))
          (sent_pitch s (toBYTE (pitch_wrap ((s.g_chords n).pitch b)))) vol]) ∧
    (chord_delay (s.g_chords n).dt b ≠ 0 → E.2.2.transport = s2.transport) := by
  obtain ⟨_, _, h3, h4, h5⟩ :=
    round_noteon pf s n trk c0 HS b s2 HR hb0 hb1 u1 hid htrk hdt hb hp
  obtain ⟨k1, k2, k3⟩ :=
    round_emit_core pf s n trk c0 HS b s2 HR HC hb0 hb1 u1 rc hid htrk hdt hb hp
  rw [hE, k1]
  exact ⟨k2, k3, h3, rfl, h4, h5⟩

/-- The first half of a turn of the loop of `LoutChordOn` for the note of index
`b` : the note is pending afterwards, recorded with the id `g_unique_id + b`,
and it has been sent at once if its delay is 0. -/
theorem round_emit (pf : T_platform) (s : T_state) (n trk c0 : Int)
    (HS : ChordStart pf s n trk c0) (b : Int) (st : T_state)
    (HR : RoundCore pf s n trk c0 0 b st) (HC : RoundChord s n trk b st)
    (hu : st.g_unique_id = s.g_unique_id + b)
    (hb0 : 0 ≤ b) (hb1 : b < (s.g_chords n).nbPitch)
    (u : T_midioutmsg) (v rc : Int) (htrk : u.track = trk)
    (hdt : u.dt = chord_delay (s.g_chords n).dt b) (hb : u.bData0 = MIDI_NOTEON * 16) :
    RoundCore pf s n trk c0 0 (b + 1) (chordon_emit pf n b u v rc st).2.2 ∧
    RoundChord s n trk (b + 1) (chordon_emit pf n b u v rc st).2.2 ∧
    (chordon_emit pf n b u v rc st).2.2.g_unique_id = s.g_unique_id + (b + 1) ∧
    (chordon_emit pf n b u v rc st).1.track = trk ∧
    (chordon_emit pf n b u v rc st).1.bData0 = MIDI_NOTEON * 16 ∧
    (chord_delay (s.g_chords n).dt b = 0 →
      ∃ vol : Nat, (chordon_emit pf n b u v rc st).2.2.transport = st.transport ++
        [T_sent.mk (s.g_tracks trk).device (toBYTE (MIDI_NOTEON * 16 + toBYTE c0))
          (sent_pitch s (toBYTE (pitch_wrap ((s.g_chords n).pitch b)))) vol]) ∧
    (chord_delay (s.g_chords n).dt b ≠ 0 →
      (chordon_emit pf n b u v rc st).2.2.transport = st.transport) := by
  by_cases hr : st.g_randomVelocity ≠ 0
  · obtain ⟨k1, k2, k3, k4, k5, k6⟩ := round_emit_wrap pf s n trk c0 HS b
      { st with rand_count := st.rand_count + 1, g_unique_id := st.g_unique_id + 1 }
      ⟨HR.g_tracks, HR.g_channels, HR.g_midiopened, HR.g_vi_opened_nb, HR.g_LUAoutState,
        HR.g_current_t, HR.g_transposition, HR.g_randomDelay, HR.queue_inv, HR.queue_occ,
        HR.queue_free, HR.status_on, HR.status_other⟩
      ⟨HC.other, HC.id, HC.dt, HC.dv, HC.pitch, HC.nbPitch, HC.nbOff, HC.msg_id, HC.msg_track,
        HC.msg_dt, HC.msg_b0, HC.msg_b1⟩
      hb0 hb1
      { u with
        bData1 := toBYTE (pitch_wrap ((st.g_chords n).pitch b))
        bData2 := toBYTE (cap (v + (st.g_randomVelocity * st.rand_values st.rand_count).tdiv
          pf.RAND_MAX - st.g_randomVelocity.tdiv 2) 1 128 0)
        id := st.g_unique_id }
      rc hu htrk hdt hb (by rw [HC.pitch])
      (chordon_emit pf n b u v rc st)
      (by
        unfold chordon_emit
        simp only [if_pos hr])
    rw [k4]
    exact ⟨k1, k2, by rw [k3]; show st.g_unique_id + 1 = _; rw [hu]; ring, htrk, hb, k5, k6⟩
  · obtain ⟨k1, k2, k3, k4, k5, k6⟩ := round_emit_wrap pf s n trk c0 HS b
      { st with g_unique_id := st.g_unique_id + 1 }
      ⟨HR.g_tracks, HR.g_channels, HR.g_midiopened, HR.g_vi_opened_nb, HR.g_LUAoutState,
        HR.g_current_t, HR.g_transposition, HR.g_randomDelay, HR.queue_inv, HR.queue_occ,
        HR.queue_free, HR.status_on, HR.status_other⟩
      ⟨HC.other, HC.id, HC.dt, HC.dv, HC.pitch, HC.nbPitch, HC.nbOff, HC.msg_id, HC.msg_track,
        HC.msg_dt, HC.msg_b0, HC.msg_b1⟩
      hb0 hb1
      { u with
        bData1 := toBYTE (pitch_wrap ((st.g_chords n).pitch b))
        bData2 := toBYTE (cap v 1 128 0)
        id := st.g_unique_id }
      rc hu htrk hdt hb (by rw [HC.pitch])
      (chordon_emit pf n b u v rc st)
      (by
        unfold chordon_emit
        simp only [if_neg hr])
    rw [k4]
    exact ⟨k1, k2, by rw [k3]; show st.g_unique_id + 1 = _; rw [hu]; ring, htrk, hb, k5, k6⟩

/-- The second half of a turn of the loop of `LoutChordOn` without random
delay : the state is kept and the next delay is `c * chord->dt`. -/
theorem chordon_next_norand (pf : T_platform) (n c : Int) (u : T_midioutmsg) (v : Int)
    (s : T_state) (h : s.g_randomDelay = 0) :
    (chordon_next pf n c u v s).1 = { u with dt := c * (s.g_chords n).dt } ∧
      (chordon_next pf n c u v s).2.2 = s := by
  unfold chordon_next
  simp only [h, ne_eq, not_true_eq_false, if_false]
  exact ⟨trivial, trivial⟩

theorem chord_immediate_succ (d : Int) (fuel : Nat) (j : Int) :
    chord_immediate d (fuel + 1) j =
      if chord_delay d j = 0 then j :: chord_immediate d fuel (j + 1)
      else chord_immediate d fuel (j + 1) := rfl

/-- The loop of `LoutChordOn` from the note of index `c` : `m - c` notes are
emitted (`m` at most the number of pitches); all of them are pending
afterwards, and the ones with the delay 0 have been sent on `c0`, in order. -/
theorem round_chordon_loop (pf : T_platform) (s : T_state) (n trk c0 : Int)
    (HS : ChordStart pf s n trk c0) :
    ∀ (fuel : Nat) (c : Int) (u : T_midioutmsg) (v rc : Int) (st : T_state),
      RoundCore pf s n trk c0 0 c st → RoundChord s n trk c st →
      st.g_unique_id = s.g_unique_id + c → 0 ≤ c → c + fuel = (s.g_chords n).nbPitch →
      u.track = trk → u.dt = chord_delay (s.g_chords n).dt c → u.bData0 = MIDI_NOTEON * 16 →
      ∃ (m : Int) (A : List T_sent), c ≤ m ∧ m ≤ (s.g_chords n).nbPitch ∧
        RoundCore pf s n trk c0 0 m (chordon_loop pf n fuel c u v rc st).2 ∧
        RoundChord s n trk m (chordon_loop pf n fuel c u v rc st).2 ∧
        (chordon_loop pf n fuel c u v rc st).2.transport = st.transport ++ A ∧
        A.map (fun e => e.bData1) = (chord_immediate (s.g_chords n).dt (m - c).toNat c).map
          (fun j => sent_pitch s (toBYTE (pitch_wrap ((s.g_chords n).pitch j)))) ∧
        (∀ e ∈ A, e.device = (s.g_tracks trk).device
          ∧ e.bData0 = toBYTE (MIDI_NOTEON * 16 + toBYTE c0)) := by
  intro fuel
  induction fuel with
  | zero =>
    intro c u v rc st HR HC _ _ hc _ _ _
    refine ⟨c, [], le_refl _, by simp only [Nat.cast_zero] at hc; omega, HR, HC, by simp [chordon_loop],
      by simp [chord_immediate], fun e he => absurd he (by simp)⟩
  | succ k ih =>
    intro c u v rc st HR HC hu hc0 hc htrk hdt hb
    have hlt : c < (s.g_chords n).nbPitch := by push_cast at hc; omega
    obtain ⟨e1, e2, e3, e4, e5, e6, e7⟩ :=
      round_emit pf s n trk c0 HS c st HR HC hu hc0 hlt u v rc htrk hdt hb
    have hone : ∃ A : List T_sent,
        (chordon_emit pf n c u v rc st).2.2.transport = st.transport ++ A ∧
        A.map (fun e => e.bData1) =
          (if chord_delay (s.g_chords n).dt c = 0 then [c] else []).map
            (fun j => sent_pitch s (toBYTE (pitch_wrap ((s.g_chords n).pitch j)))) ∧
        (∀ e ∈ A, e.device = (s.g_tracks trk).device
          ∧ e.bData0 = toBYTE (MIDI_NOTEON * 16 + toBYTE c0)) := by
      by_cases himm : chord_delay (s.g_chords n).dt c = 0
      · obtain ⟨vol, hv⟩ := e6 himm
        refine ⟨_, hv, by rw [if_pos himm]; rfl, fun e he => ?_⟩
        rw [List.mem_singleton.1 he]
        exact ⟨rfl, rfl⟩
      · refine ⟨[], by rw [e7 himm, List.append_nil], by rw [if_neg himm]; rfl,
          fun e he => absurd he (by simp)⟩
    obtain ⟨A1, a1, a2, a3⟩ := hone
    have hstop : ∃ (m : Int) (A : List T_sent), c ≤ m ∧ m ≤ (s.g_chords n).nbPitch ∧
        RoundCore pf s n trk c0 0 m (chordon_emit pf n c u v rc st).2.2 ∧
        RoundChord s n trk m (chordon_emit pf n c u v rc st).2.2 ∧
        (chordon_emit pf n c u v rc st).2.2.transport = st.transport ++ A ∧
        A.map (fun e => e.bData1) = (chord_immediate (s.g_chords n).dt (m - c).toNat c).map
          (fun j => sent_pitch s (toBYTE (pitch_wrap ((s.g_chords n).pitch j)))) ∧
        (∀ e ∈ A, e.device = (s.g_tracks trk).device
          ∧ e.bData0 = toBYTE (MIDI_NOTEON * 16 + toBYTE c0)) := by
      refine ⟨c + 1, A1, by omega, by omega, e1, e2, a1, ?_, a3⟩
      have h1 : (c + 1 - c).toNat = 0 + 1 := by
        have : c + 1 - c = 1 := by omega
        rw [this]
        rfl
      rw [a2, h1, chord_immediate_succ]
      split_ifs <;> rfl
    obtain ⟨n1, n2⟩ := chordon_next_norand pf n c (chordon_emit pf n c u v rc st).1 v
      (chordon_emit pf n c u v rc st).2.2 (by rw [e1.g_randomDelay]; exact HS.rand)
    rw [chordon_loop_succ, if_pos (by rw [HC.nbPitch]; exact hlt)]
    by_cases hdv : ((chordon_emit pf n c u v rc st).2.2.g_chords n).dv = 0
    · rw [if_pos hdv]
      exact hstop
    · rw [if_neg hdv]
      by_cases hv : (chordon_next pf n c (chordon_emit pf n c u v rc st).1 v
          (chordon_emit pf n c u v rc st).2.2).2.1 < 1
      · rw [if_pos hv]
        dsimp only
        rw [n2]
        exact hstop
      · rw [if_neg hv, n2]
        obtain ⟨m, A, m1, m2, m3, m4, m5, m6, m7⟩ := ih (c + 1)
          (chordon_next pf n c (chordon_emit pf n c u v rc st).1 v
            (chordon_emit pf n c u v rc st).2.2).1
          (chordon_next pf n c (chordon_emit pf n c u v rc st).1 v
            (chordon_emit pf n c u v rc st).2.2).2.1
          (chordon_emit pf n c u v rc st).2.1
          (chordon_emit pf n c u v rc st).2.2
          e1 e2 e3 (by omega) (by push_cast at hc ⊢; omega)
          (by rw [n1]; exact e4)
          (by
            rw [n1]
            show c * ((chordon_emit pf n c u v rc st).2.2.g_chords n).dt = _
            rw [e2.dt]
            unfold chord_delay
            rw [if_neg (by omega)]
            ring)
          (by rw [n1]; exact e5)
        refine ⟨m, A1 ++ A, by omega, m2, m3, m4, by rw [m5, a1, List.append_assoc], ?_, ?_⟩
        · have h1 : (m - c).toNat = (m - (c + 1)).toNat + 1 := by omega
          rw [List.map_append, a2, m6, h1, chord_immediate_succ]
          split_ifs <;> rfl
        · intro e he
          rcases List.mem_append.1 he with h | h
          · exact a3 e h
          · exact m7 e h

/-- The turn of the loop of `LoutChordOff` for the pending note of index `a`, in
terms of its value `E`, for the note-off `u` : a note sent at once gets its
note-off on `c0`, whose status is cleared; a queued note is removed from the
queue.  The note is no longer pending afterwards. -/
theorem round_noteoff (pf : T_platform) (s : T_state) (n trk c0 : Int)
    (HS : ChordStart pf s n trk c0) (a m : Int) (st : T_state)
    (HR : RoundCore pf s n trk c0 a m st) (ha0 : 0 ≤ a) (ha1 : a < m)
    (hm : m ≤ (s.g_chords n).nbPitch)
    (u : T_midioutmsg) (rc : Int) (hid : u.id = s.g_unique_id + a) (htrk : u.track = trk)
    (hdt : u.dt = 0) (hb : u.bData0 = MIDI_NOTEOFF * 16)
    (hp : u.bData1 = toBYTE (pitch_wrap ((s.g_chords n).pitch a)))
    (E : Int × T_state)
    (hE : E = if (unqueue pf st OUT_QUEUE_NOTEOFF u).1 = 0 then
        (if (sendmsgdt pf (unqueue pf st OUT_QUEUE_NOTEOFF u).2 u).1 = false then -1 else rc,
          (sendmsgdt pf (unqueue pf st OUT_QUEUE_NOTEOFF u).2 u).2)
      else (-1, (unqueue pf st OUT_QUEUE_NOTEOFF u).2)) :
    RoundCore pf s n trk c0 (a + 1) m E.2 ∧
    E.2.g_chords = st.g_chords ∧
    (chord_delay (s.g_chords n).dt a = 0 →
      E.2.transport = st.transport ++
        [T_sent.mk (s.g_tracks trk).device (toBYTE (MIDI_NOTEOFF * 16 + toBYTE c0))
          (sent_pitch s (toBYTE (pitch_wrap ((s.g_chords n).pitch a)))) u.bData2]) ∧
    (chord_delay (s.g_chords n).dt a ≠ 0 → E.2.transport = st.transport) := by
  have hpb := chord_pitch_byte pf s n trk c0 HS
  have hnb := HS.nb
  obtain ⟨q1, q2, q3, q4⟩ := unqueue_noteoff_inv pf st u HR.queue_inv
  have hqinv := queueInv_unqueue_noteoff pf st u HR.queue_inv
  -- an occupied slot matches only if it holds the note `a`
  have hmatch : ∀ j : Int, 0 ≤ j → j < 1024 → (st.g_queue_msg j).free = false →
      queue_matches (st.g_queue_msg j) u (st.g_current_t + u.dt) → j + 2 = a := by
    intro j hj0 hj1 hocc hmt
    by_contra hne
    by_cases hc : (s.g_chords n).dt ≠ 0 ∧ a ≤ j + 2 ∧ j + 2 < m
    · have := (HR.queue_occ j hj0 hj1 hc.1 hc.2.1 hc.2.2).2.1
      unfold queue_matches at hmt
      rw [this, hid] at hmt
      omega
    · have := HR.queue_free j hj0 hj1 hc
      rw [this] at hocc
      exact absurd hocc (by simp)
  by_cases himm : chord_delay (s.g_chords n).dt a = 0
  · -- the note sounds : no slot matches
    have hz : (unqueue pf st OUT_QUEUE_NOTEOFF u).1 = 0 := by
      apply q3
      intro j hj0 hj1 hocc hmt
      have he := hmatch j hj0 hj1 hocc hmt
      by_cases hc : (s.g_chords n).dt ≠ 0 ∧ a ≤ j + 2 ∧ j + 2 < m
      · rw [← he] at himm
        exact chord_delay_zero _ _ hc.1 (by omega) himm
      · have := HR.queue_free j hj0 hj1 hc
        rw [this] at hocc
        exact absurd hocc (by simp)
    have hsame : ∀ j : Int, 0 ≤ j → j < 1024 →
        (unqueue pf st OUT_QUEUE_NOTEOFF u).2.g_queue_msg j = st.g_queue_msg j := by
      intro j hj0 hj1
      rw [q2 j hj0 hj1, if_neg]
      intro hx
      have he := hmatch j hj0 hj1 hx.1 hx.2
      by_cases hc : (s.g_chords n).dt ≠ 0 ∧ a ≤ j + 2 ∧ j + 2 < m
      · rw [← he] at himm
        exact chord_delay_zero _ _ hc.1 (by omega) himm
      · have := HR.queue_free j hj0 hj1 hc
        rw [this] at hx
        exact absurd hx.1 (by simp)
    generalize hQ : (unqueue pf st OUT_QUEUE_NOTEOFF u).2 = Q at q1 hqinv hz hsame hE
    have hQt : Q.g_tracks = st.g_tracks := by rw [q1]
    have hQs : Q.g_midistatuspitch = st.g_midistatuspitch := by rw [q1]
    have hon : Q.g_midistatuspitch (Q.g_tracks u.track).device c0 u.bData1 = toULong pf u.id := by
      rw [hQs, hQt, HR.g_tracks, htrk, hp, hpb a ha0 (by omega), hid]
      exact HR.status_on a ha0 (le_refl _) ha1 himm
    have hsend := sendmsgdt_noteoff_now pf Q u c0 hdt hb
      (by rw [hQt, HR.g_tracks, htrk]; exact HS.dev0)
      (by rw [hQt, HR.g_tracks, htrk]; exact HS.dev1)
      (by
        have : Q.g_midiopened = st.g_midiopened := by rw [q1]
        rw [hQt, HR.g_tracks, htrk, this, HR.g_midiopened]
        exact HS.midi)
      (by
        have : Q.g_vi_opened_nb = st.g_vi_opened_nb := by rw [q1]
        rw [hQt, HR.g_tracks, htrk, this, HR.g_vi_opened_nb]
        exact HS.vi)
      (by
        have : Q.g_LUAoutState = st.g_LUAoutState := by rw [q1]
        rw [this, HR.g_LUAoutState]
        exact HS.hook)
      HS.c00 HS.c01
      (by
        have : Q.g_channels = st.g_channels := by rw [q1]
        rw [hQt, HR.g_tracks, htrk, this, HR.g_channels]
        exact HS.owned)
      (by
        have : Q.g_channels = st.g_channels := by rw [q1]
        rw [hQt, HR.g_tracks, htrk, this, HR.g_channels]
        exact HS.lowest)
      hon
    have hdevEq : (Q.g_tracks u.track).device = (s.g_tracks trk).device := by
      rw [hQt, HR.g_tracks, htrk]
    rw [hdevEq, hp, hpb a ha0 (by omega)] at hsend
    rw [hE, if_pos hz, hsend]
    dsimp only
    refine ⟨⟨by rw [hQt]; exact HR.g_tracks, by rw [q1]; exact HR.g_channels,
      by rw [q1]; exact HR.g_midiopened, by rw [q1]; exact HR.g_vi_opened_nb,
      by rw [q1]; exact HR.g_LUAoutState, by rw [q1]; exact HR.g_current_t,
      by rw [q1]; exact HR.g_transposition, by rw [q1]; exact HR.g_randomDelay, hqinv,
      ?_, ?_, ?_, ?_⟩, by rw [q1], fun _ => ?_, fun h => absurd himm h⟩
    · intro j hj0 hj1 hd hja hjm
      rw [hsame j hj0 hj1]
      exact HR.queue_occ j hj0 hj1 hd (by omega) hjm
    · intro j hj0 hj1 hno
      rw [hsame j hj0 hj1]
      apply HR.queue_free j hj0 hj1
      intro hx
      by_cases he : j + 2 = a
      · rw [← he] at himm
        exact chord_delay_zero _ _ hx.1 (by omega) himm
      · exact hno ⟨hx.1, by omega, hx.2.2⟩
    · intro j hj0 hja hjm hj
      dsimp only
      rw [hQs, set3_other _ _ _ _ _ _ _ _ (fun hx => by
        have := HS.distinct j a hj0 (by omega) ha0 (by omega) hx.2.2
        omega)]
      exact HR.status_on j hj0 (by omega) hjm hj
    · intro d c p hno
      dsimp only
      rw [hQs]
      by_cases he : d = (s.g_tracks trk).device ∧ c = c0 ∧ p = (s.g_chords n).pitch a
      · rw [he.1, he.2.1, he.2.2, set3_same]
        exact (HS.off a ha0 (by omega)).symm
      · rw [set3_other _ _ _ _ _ _ _ _ he]
        apply HR.status_other d c p
        intro j hj0 hja hjm hj
        by_cases hja2 : j = a
        · rw [hja2]
          exact he
        · exact hno j hj0 (by omega) hjm hj
    · unfold sent_pitch
      have h1 : Q.g_transposition = st.g_transposition := by rw [q1]
      have h2 : Q.transport = st.transport := by rw [q1]
      rw [h1, h2, HR.g_transposition]
  · -- the note is queued in the slot a - 2
    obtain ⟨hd, ha2⟩ := chord_delay_pos _ _ ha0 himm
    obtain ⟨o1, o2, o3, o4, o5, o6⟩ :=
      HR.queue_occ (a - 2) (by omega) (by omega) hd (by omega) (by omega)
    have e2 : a - 2 + 2 = a := by omega
    rw [e2] at o2 o5 o6
    have hone : (unqueue pf st OUT_QUEUE_NOTEOFF u).1 = 1 := by
      apply q4 (a - 2) (by omega) (by omega) o1
      unfold queue_matches
      rw [o4, o5, o3, o2, o6, hb, hp, htrk, hid, hdt, HR.g_current_t]
      refine ⟨by decide, by decide, Or.inl rfl, rfl, rfl, ?_⟩
      have := chord_delay_nonneg (s.g_chords n).dt a HS.delay ha0
      omega
    rw [hE, if_neg (by rw [hone]; decide)]
    dsimp only
    refine ⟨⟨by rw [q1]; exact HR.g_tracks, by rw [q1]; exact HR.g_channels,
      by rw [q1]; exact HR.g_midiopened, by rw [q1]; exact HR.g_vi_opened_nb,
      by rw [q1]; exact HR.g_LUAoutState, by rw [q1]; exact HR.g_current_t,
      by rw [q1]; exact HR.g_transposition, by rw [q1]; exact HR.g_randomDelay, hqinv,
      ?_, ?_, ?_, ?_⟩, by rw [q1], fun h => absurd h himm, fun _ => by rw [q1]⟩
    · intro j hj0 hj1 hd2 hja hjm
      rw [q2 j hj0 hj1, if_neg]
      · exact HR.queue_occ j hj0 hj1 hd2 (by omega) hjm
      · intro hx
        have := hmatch j hj0 hj1 hx.1 hx.2
        omega
    · intro j hj0 hj1 hno
      rw [q2 j hj0 hj1]
      by_cases hx : (st.g_queue_msg j).free = false
          ∧ queue_matches (st.g_queue_msg j) u (st.g_current_t + u.dt)
      · rw [if_pos hx]
      · rw [if_neg hx]
        apply HR.queue_free j hj0 hj1
        intro hy
        by_cases he : j + 2 = a
        · have hj2 : j = a - 2 := by omega
          apply hx
          rw [hj2]
          refine ⟨o1, ?_⟩
          unfold queue_matches
          rw [o4, o5, o3, o2, o6, hb, hp, htrk, hid, hdt, HR.g_current_t]
          refine ⟨by decide, by decide, Or.inl rfl, rfl, rfl, ?_⟩
          have := chord_delay_nonneg (s.g_chords n).dt a HS.delay ha0
          omega
        · exact hno ⟨hy.1, by omega, hy.2.2⟩
    · intro j hj0 hja hjm hj
      rw [q1]
      exact HR.status_on j hj0 (by omega) hjm hj
    · intro d c p hno
      rw [q1]
      apply HR.status_other d c p
      intro j hj0 hja hjm hj
      by_cases hja2 : j = a
      · rw [hja2] at hj
        exact absurd hj himm
      · exact hno j hj0 (by omega) hjm hj

theorem roundChord_of_chords (s : T_state) (n trk b : Int) (st st1 : T_state)
    (h : st1.g_chords = st.g_chords) (HC : RoundChord s n trk b st) :
    RoundChord s n trk b st1 := by
  refine ⟨?_, ?_, ?_, ?_, ?_, ?_, ?_, ?_, ?_, ?_, ?_, ?_⟩ <;> rw [h]
  · exact HC.other
  · exact HC.id
  · exact HC.dt
  · exact HC.dv
  · exact HC.pitch
  · exact HC.nbPitch
  · exact HC.nbOff
  · exact HC.msg_id
  · exact HC.msg_track
  · exact HC.msg_dt
  · exact HC.msg_b0
  · exact HC.msg_b1

/-- The turn of the loop of `LoutChordOff`, called with the delay 0, for the
pending note of index `a`. -/
theorem round_chordoff_step (pf : T_platform) (s : T_state) (n trk c0 : Int)
    (HS : ChordStart pf s n trk c0) (a m : Int) (st : T_state)
    (HR : RoundCore pf s n trk c0 a m st) (HC : RoundChord s n trk m st)
    (ha0 : 0 ≤ a) (ha1 : a < m) (hm : m ≤ (s.g_chords n).nbPitch) (velo rc : Int) :
    RoundCore pf s n trk c0 (a + 1) m (chordoff_step pf n a velo 0 rc st).2 ∧
    RoundChord s n trk m (chordoff_step pf n a velo 0 rc st).2 ∧
    (chord_delay (s.g_chords n).dt a = 0 →
      (chordoff_step pf n a velo 0 rc st).2.transport = st.transport ++
        [T_sent.mk (s.g_tracks trk).device (toBYTE (MIDI_NOTEOFF * 16 + toBYTE c0))
          (sent_pitch s (toBYTE (pitch_wrap ((s.g_chords n).pitch a)))) (toBYTE velo)]) ∧
    (chord_delay (s.g_chords n).dt a ≠ 0 →
      (chordoff_step pf n a velo 0 rc st).2.transport = st.transport) := by
  obtain ⟨k1, k2, k3, k4⟩ := round_noteoff pf s n trk c0 HS a m st HR ha0 ha1 hm
    { (st.g_chords n).msg_off a with
      bData2 := toBYTE velo
      dt := if (0 : Int) ≠ -1000 then 0 else ((st.g_chords n).msg_off a).dt
      bData0 := toBYTE (MIDI_NOTEOFF * 16 + ((st.g_chords n).msg_off a).bData0 % 16) }
    rc (HC.msg_id a ha0 ha1) (HC.msg_track a ha0 ha1) (by simp)
    (by
      show toBYTE (MIDI_NOTEOFF * 16 + ((st.g_chords n).msg_off a).bData0 % 16) = _
      rw [HC.msg_b0 a ha0 ha1]
      decide)
    (HC.msg_b1 a ha0 ha1)
    (chordoff_step pf n a velo 0 rc st) rfl
  exact ⟨k1, roundChord_of_chords s n trk m st _ k2 HC, k3, k4⟩

theorem chordoff_loop_succ (pf : T_platform) (n velo dt : Int) (fuel : Nat) (c retCode : Int)
    (s : T_state) :
    chordoff_loop pf n velo dt (fuel + 1) c retCode s =
      if c < (s.g_chords n).nbOff then
        chordoff_loop pf n velo dt fuel (c + 1) (chordoff_step pf n c velo dt retCode s).1
          (chordoff_step pf n c velo dt retCode s).2
      else (retCode, s) := rfl

/-- The loop of `LoutChordOff`, called with the delay 0, from the pending note
of index `a` : no note is pending afterwards, and the ones which had been sent
at once have got their note-off on `c0`, in order. -/
theorem round_chordoff_loop (pf : T_platform) (s : T_state) (n trk c0 : Int)
    (HS : ChordStart pf s n trk c0) (m velo : Int) (hm : m ≤ (s.g_chords n).nbPitch) :
    ∀ (fuel : Nat) (a rc : Int) (st : T_state),
      RoundCore pf s n trk c0 a m st → RoundChord s n trk m st → 0 ≤ a → a + fuel = m →
      RoundCore pf s n trk c0 m m (chordoff_loop pf n velo 0 fuel a rc st).2 ∧
      RoundChord s n trk m (chordoff_loop pf n velo 0 fuel a rc st).2 ∧
      (chordoff_loop pf n velo 0 fuel a rc st).2.transport = st.transport ++
        (chord_immediate (s.g_chords n).dt fuel a).map (fun j =>
          T_sent.mk (s.g_tracks trk).device (toBYTE (MIDI_NOTEOFF * 16 + toBYTE c0))
            (sent_pitch s (toBYTE (pitch_wrap ((s.g_chords n).pitch j)))) (toBYTE velo)) := by
  intro fuel
  induction fuel with
  | zero =>
    intro a rc st HR HC _ ha
    have : a = m := by simpa using ha
    subst this
    exact ⟨HR, HC, by simp [chordoff_loop, chord_immediate]⟩
  | succ k ih =>
    intro a rc st HR HC ha0 ha
    have ha1 : a < m := by push_cast at ha; omega
    obtain ⟨k1, k2, k3, k4⟩ := round_chordoff_step pf s n trk c0 HS a m st HR HC ha0 ha1 hm velo rc
    obtain ⟨i1, i2, i3⟩ := ih (a + 1) (chordoff_step pf n a velo 0 rc st).1
      (chordoff_step pf n a velo 0 rc st).2 k1 k2 (by omega) (by push_cast at ha ⊢; omega)
    rw [chordoff_loop_succ, if_pos (by rw [HC.nbOff]; exact ha1)]
    refine ⟨i1, i2, ?_⟩
    rw [i3, chord_immediate_succ]
    by_cases himm : chord_delay (s.g_chords n).dt a = 0
    · rw [if_pos himm, k3 himm, List.map_cons, List.append_assoc, List.singleton_append]
    · rw [if_neg himm, k4 himm]

theorem chord_get_some (s : T_state) (id n : Int) (h : chord_get s id = some n) :
    id ≠ -1 ∧ 0 ≤ n ∧ n < 40 ∧ (s.g_chords n).id = id := by
  unfold chord_get at h
  by_cases hid : id = -1
  · rw [if_pos hid] at h
    exact absurd h (by simp)
  · rw [if_neg hid] at h
    obtain ⟨h0, h1, h2, _⟩ := first_index_some _ _ _ _ h
    exact ⟨hid, h0, by push_cast at h1; omega, by simpa using h2⟩

/-- The search of `chord_get` depends on the ids of the slots only. -/
theorem chord_get_congr (s s1 : T_state) (id : Int)
    (h : ∀ j : Int, (s1.g_chords j).id = (s.g_chords j).id) :
    chord_get s1 id = chord_get s id := by
  unfold chord_get
  have : (fun n => decide ((s1.g_chords n).id = id)) = (fun n => decide ((s.g_chords n).id = id)) := by
    funext j
    rw [h j]
  rw [this]

/-- C11, counterexample : the clock is at 1000 ms and the pitch 64 sounds on
the only channel of the track 0 since the time 900, turned on with the id 7.
The chord 5, of the pitches 60, 64 and 67 with the inter-note delay 50, is set,
then `chordOn(5, 100, 0, 1)` emits three note-ons with the ids 128, 129 and
130 : the one of 60 is sent, the one of 64 is dropped by the flood guard of
the dispatch (its pitch is busy since less than 200 ms), the one of 67 is
queued.  The `chordOff(5, 0, 0)` which follows sends the note-off of 60 and
removes the queued note-on of 67, and for the emitted note-on of 64 it neither
removes a queued note-on nor sends a note-off; it returns -1. -/
theorem C11_busy_pitch_gets_no_noteoff :
    (LoutChordOn platform_example (chord_busy_example platform_example) (some 5) 100 0
        1).2.dispatched =
      (chord_busy_example platform_example).dispatched ++
        [T_midioutmsg.mk 128 0 0 3 144 60 100 0, T_midioutmsg.mk 129 0 0 3 144 64 100 0,
         T_midioutmsg.mk 130 0 50 3 144 67 100 0] ∧
    (LoutChordOn platform_example (chord_busy_example platform_example) (some 5) 100 0
        1).2.transport =
      (chord_busy_example platform_example).transport ++ [T_sent.mk 0 144 60 100] ∧
    (LoutChordOn platform_example (chord_busy_example platform_example) (some 5) 100 0
        1).2.g_queue_msg 0 =
      T_queue_msg.mk (T_midioutmsg.mk 130 0 50 3 144 67 100 0) 1050 false ∧
    ((LoutChordOn platform_example (chord_busy_example platform_example) (some 5) 100 0
        1).2.g_queue_msg 1).free = true ∧
    (LoutChordOn platform_example (chord_busy_example platform_example) (some 5) 100 0
        1).2.g_midistatuspitch 0 0 64 = 7 ∧
    (LoutChordOff platform_example
        (LoutChordOn platform_example (chord_busy_example platform_example) (some 5) 100 0 1).2
        (some 5) 0 0).1 = -1 ∧
    (LoutChordOff platform_example
        (LoutChordOn platform_example (chord_busy_example platform_example) (some 5) 100 0 1).2
        (some 5) 0 0).2.transport =
      (chord_busy_example platform_example).transport ++
        [T_sent.mk 0 144 60 100, T_sent.mk 0 128 60 0] ∧
    ((LoutChordOff platform_example
        (LoutChordOn platform_example (chord_busy_example platform_example) (some 5) 100 0 1).2
        (some 5) 0 0).2.g_queue_msg 0).free = true := by
  decide

/-- C11, amended : a chord stored once in the slot `n` (the only slot which
carries its id, with an empty list of pending note-offs), played on a track
whose state satisfies `ChordStart` (open device, `c0` the lowest physical
channel of the track, no LUA hook, no random delay, inter-note delay not
negative, at most 24 distinct pitches in 0..127 whose status on `c0` is off,
fresh unique ids), with an empty queue.  `chordOn(id, v, 0, track)` records the
note-ons it emits, with the ids `g_unique_id + j`; each of them is sent at once
on `c0`, which records its id, or is queued (`A` is the list of the note-ons
sent).  The `chordOff(id, velo, 0)` which follows sends one note-off on `c0`
for each note-on of `A`, with the same pitch, in the same order, and nothing
else; afterwards every slot of the queue is free, the status table is the one
before the `chordOn`, the chord slot is free with an empty list of pending
note-offs, and a second `chordOff(id)` returns -2. -/
theorem C11_chordOn_chordOff_roundtrip (pf : T_platform) (s : T_state)
    (id velocity nrTrack velocityOff v2 dt2 n c0 : Int)
    (hget : chord_get s id = some n)
    (honly : ∀ j : Int, 0 ≤ j → j < 40 → j ≠ n → (s.g_chords j).id ≠ id)
    (hnbOff : (s.g_chords n).nbOff = 0)
    (hnb0 : 0 ≤ (s.g_chords n).nbPitch)
    (HS : ChordStart pf s n (cap nrTrack 0 MAXTRACK 1) c0)
    (hinv : QueueInv s)
    (hempty : ∀ q : Int, 0 ≤ q → q < 1024 → (s.g_queue_msg q).free = true) :
    ∃ A : List T_sent,
      (LoutChordOn pf s (some id) velocity 0 nrTrack).2.transport = s.transport ++ A ∧
      (∀ e ∈ A, e.device = (s.g_tracks (cap nrTrack 0 MAXTRACK 1)).device
        ∧ e.bData0 = toBYTE (MIDI_NOTEON * 16 + toBYTE c0)) ∧
      A.map (fun e => e.bData1) =
        (chord_immediate (s.g_chords n).dt
          ((LoutChordOn pf s (some id) velocity 0 nrTrack).2.g_chords n).nbOff.toNat 0).map
          (fun j => sent_pitch s (toBYTE (pitch_wrap ((s.g_chords n).pitch j)))) ∧
      (∀ j : Int, 0 ≤ j →
        j < ((LoutChordOn pf s (some id) velocity 0 nrTrack).2.g_chords n).nbOff →
        (((LoutChordOn pf s (some id) velocity 0 nrTrack).2.g_chords n).msg_off j).id
            = s.g_unique_id + j ∧
          ((chord_delay (s.g_chords n).dt j = 0 ∧
              (LoutChordOn pf s (some id) velocity 0 nrTrack).2.g_midistatuspitch
                (s.g_tracks (cap nrTrack 0 MAXTRACK 1)).device c0 ((s.g_chords n).pitch j)
                = toULong pf (s.g_unique_id + j)) ∨
            (chord_delay (s.g_chords n).dt j ≠ 0 ∧
              ((LoutChordOn pf s (some id) velocity 0 nrTrack).2.g_queue_msg (j - 2)).free
                = false ∧
              ((LoutChordOn pf s (some id) velocity 0 nrTrack).2.g_queue_msg
                (j - 2)).midioutmsg.id = s.g_unique_id + j))) ∧
      (LoutChordOff pf (LoutChordOn pf s (some id) velocity 0 nrTrack).2 (some id)
          velocityOff 0).2.transport =
        (LoutChordOn pf s (some id) velocity 0 nrTrack).2.transport ++
          A.map (fun e =>
            T_sent.mk (s.g_tracks (cap nrTrack 0 MAXTRACK 1)).device
              (toBYTE (MIDI_NOTEOFF * 16 + toBYTE c0)) e.bData1
              (toBYTE (cap velocityOff 0 128 0))) ∧
      (∀ q : Int, 0 ≤ q → q < 1024 →
        ((LoutChordOff pf (LoutChordOn pf s (some id) velocity 0 nrTrack).2 (some id)
          velocityOff 0).2.g_queue_msg q).free = true) ∧
      (LoutChordOff pf (LoutChordOn pf s (some id) velocity 0 nrTrack).2 (some id)
          velocityOff 0).2.g_midistatuspitch = s.g_midistatuspitch ∧
      ((LoutChordOff pf (LoutChordOn pf s (some id) velocity 0 nrTrack).2 (some id)
          velocityOff 0).2.g_chords n).id = -1 ∧
      ((LoutChordOff pf (LoutChordOn pf s (some id) velocity 0 nrTrack).2 (some id)
          velocityOff 0).2.g_chords n).nbOff = 0 ∧
      (LoutChordOff pf
        (LoutChordOff pf (LoutChordOn pf s (some id) velocity 0 nrTrack).2 (some id)
          velocityOff 0).2 (some id) v2 dt2).1 = -2 := by
  obtain ⟨hidne, hn0, hn1, hnid⟩ := chord_get_some s id n hget
  have htrk := cap_track_range nrTrack
  generalize htrkdef : cap nrTrack 0 MAXTRACK 1 = trk at HS htrk
  -- the state before the chord-on
  have HR0 : RoundCore pf s n trk c0 0 0 s :=
    ⟨rfl, rfl, rfl, rfl, rfl, rfl, rfl, rfl, hinv,
      fun q hq0 _ _ _ hlt => absurd hlt (by omega),
      fun q hq0 hq1 _ => hempty q hq0 hq1,
      fun j hj0 _ hlt _ => absurd hlt (by omega),
      fun d c p _ => rfl⟩
  have HC0 : RoundChord s n trk 0 s :=
    ⟨fun j _ => rfl, rfl, rfl, rfl, rfl, rfl, hnbOff,
      fun j hj0 hlt => absurd hlt (by omega), fun j hj0 hlt => absurd hlt (by omega),
      fun j hj0 hlt => absurd hlt (by omega), fun j hj0 hlt => absurd hlt (by omega),
      fun j hj0 hlt => absurd hlt (by omega)⟩
  -- the chord-on
  have hon : LoutChordOn pf s (some id) velocity 0 nrTrack =
      chordon_loop pf n (s.g_chords n).nbPitch.toNat 0
        { id := 0, track := trk, dt := 0, nbbyte := 3, bData0 := MIDI_NOTEON * 16,
          bData1 := 0, bData2 := 0, bData3 := 0 }
        (if s.g_chordCompensation ≠ 0 then
          ((200 - (s.g_chordCompensation * ((s.g_chords n).nbPitch - 1))) * velocity).tdiv 200
        else velocity) 0 s := by
    unfold LoutChordOn
    simp only [hget, htrkdef]
    rw [if_pos htrk.1]
  obtain ⟨m, A, m1, m2, HR1, HC1, t1, t2, t3⟩ := round_chordon_loop pf s n trk c0 HS
    (s.g_chords n).nbPitch.toNat 0
    { id := 0, track := trk, dt := 0, nbbyte := 3, bData0 := MIDI_NOTEON * 16,
      bData1 := 0, bData2 := 0, bData3 := 0 }
    (if s.g_chordCompensation ≠ 0 then
      ((200 - (s.g_chordCompensation * ((s.g_chords n).nbPitch - 1))) * velocity).tdiv 200
    else velocity) 0 s HR0 HC0 (by ring) (le_refl _) (by omega) rfl rfl rfl
  rw [← hon] at HR1 HC1 t1
  generalize (LoutChordOn pf s (some id) velocity 0 nrTrack).2 = S1 at HR1 HC1 t1 ⊢
  -- the chord-off
  have hget1 : chord_get S1 id = some n := by
    rw [chord_get_congr s S1 id (fun j => by
      by_cases hj : j = n
      · rw [hj, HC1.id]
      · rw [HC1.other j hj])]
    exact hget
  have hoff : LoutChordOff pf S1 (some id) velocityOff 0 =
      ((chordoff_loop pf n (cap velocityOff 0 128 0) 0 m.toNat 0 0 S1).1,
        { (chordoff_loop pf n (cap velocityOff 0 128 0) 0 m.toNat 0 0 S1).2 with
          g_chords := set1 (chordoff_loop pf n (cap velocityOff 0 128 0) 0 m.toNat 0 0 S1).2.g_chords
            n { (chordoff_loop pf n (cap velocityOff 0 128 0) 0 m.toNat 0 0 S1).2.g_chords n with
              id := -1, nbOff := 0 } }) := by
    unfold LoutChordOff
    simp only [hget1, HC1.nbOff]
  obtain ⟨HR2, HC2, t4⟩ := round_chordoff_loop pf s n trk c0 HS m (cap velocityOff 0 128 0) m2
    m.toNat 0 0 S1 HR1 HC1 (le_refl _) (by omega)
  rw [hoff]
  generalize (chordoff_loop pf n (cap velocityOff 0 128 0) 0 m.toNat 0 0 S1).2 = F at HR2 HC2 t4 ⊢
  dsimp only
  refine ⟨A, t1, t3, ?_, ?_, ?_, ?_, ?_, ?_, ?_, ?_⟩
  · rw [t2, HC1.nbOff]
    simp
  · intro j hj0 hj1
    rw [HC1.nbOff] at hj1
    refine ⟨HC1.msg_id j hj0 hj1, ?_⟩
    by_cases himm : chord_delay (s.g_chords n).dt j = 0
    · exact Or.inl ⟨himm, HR1.status_on j hj0 hj0 hj1 himm⟩
    · obtain ⟨hd, hj2⟩ := chord_delay_pos _ _ hj0 himm
      have hnb := HS.nb
      obtain ⟨o1, o2, _⟩ := HR1.queue_occ (j - 2) (by omega) (by omega) hd (by omega) (by omega)
      have e2 : j - 2 + 2 = j := by omega
      rw [e2] at o2
      exact Or.inr ⟨himm, o1, o2⟩
  · rw [t4]
    have hmap := congrArg (List.map (fun b1 : Nat =>
      T_sent.mk (s.g_tracks trk).device (toBYTE (MIDI_NOTEOFF * 16 + toBYTE c0)) b1
        (toBYTE (cap velocityOff 0 128 0)))) t2
    simp only [List.map_map, sub_zero, Function.comp_def] at hmap
    rw [hmap]
  · intro q hq0 hq1
    exact HR2.queue_free q hq0 hq1 (fun hx => by omega)
  · funext d c p
    exact HR2.status_other d c p (fun j _ hj0 hj1 _ => absurd hj1 (by omega))
  · rw [set1_same]
  · rw [set1_same]
  · unfold LoutChordOff
    have hnone : chord_get
        { F with g_chords := set1 F.g_chords n { F.g_chords n with id := -1, nbOff := 0 } } id
        = none := by
      unfold chord_get
      rw [if_neg hidne]
      apply first_index_none
      intro j hj0 hj1
      simp only [decide_eq_false_iff_not]
      by_cases hj : j = n
      · rw [hj, set1_same]
        exact fun h => hidne h.symm
      · rw [set1_other _ _ _ _ hj, HC2.other j hj]
        exact honly j hj0 (by push_cast at hj1; omega) hj
    simp only [hnone]

theorem C11_chordOn_chordOff_roundtrip_witness :
    (LoutChordOff platform_example
        (LoutChordOn platform_example (chord_set_example platform_example) (some 5) 100 0 1).2
        (some 5) 0 0).2.g_midistatuspitch =
      (chord_set_example platform_example).g_midistatuspitch ∧
    (LoutChordOff platform_example
      (LoutChordOff platform_example
        (LoutChordOn platform_example (chord_set_example platform_example) (some 5) 100 0 1).2
        (some 5) 0 0).2 (some 5) 0 0).1 = -2 := by
  have hnb : ((chord_set_example platform_example).g_chords 0).nbPitch = 3 := by decide
  have HS : ChordStart platform_example (chord_set_example platform_example) 0
      (cap 1 0 MAXTRACK 1) 0 := by
    refine ⟨by decide, by decide, fun _ => by decide, fun h => absurd h (by decide), by decide,
      by decide, by decide, by decide, ?_, ?_, ?_, by decide, by decide, by decide,
      fun j h0 h1 => absurd h1 (by omega), ?_, by decide, by decide⟩
    · intro j h0 h1
      rw [hnb] at h1
      interval_cases j <;> decide
    · intro j h0 h1
      rw [hnb] at h1
      interval_cases j <;> decide
    · intro j k h0 h1 k0 k1
      rw [hnb] at h1 k1
      interval_cases j <;> interval_cases k <;> decide
    · intro j h0 h1
      rw [hnb] at h1
      interval_cases j <;> decide
  obtain ⟨A, h⟩ := C11_chordOn_chordOff_roundtrip platform_example
    (chord_set_example platform_example) 5 100 1 0 0 0 0 0
    (by decide)
    (fun j h0 h1 hj => by interval_cases j <;> first | exact absurd rfl hj | decide)
    (by decide) (by decide) HS
    ⟨by decide, by decide, fun n _ _ hocc => Bool.noConfusion (show true = false from hocc)⟩
    (fun q _ _ => rfl)
  exact ⟨h.2.2.2.2.2.2.1, h.2.2.2.2.2.2.2.2.2⟩

/-! ## Bend range -/

/-- The messages which `send_bendrange` gives to `sendmsgdt`, for a number of
semitones in 0..127 on a platform whose `long` has at least 32 bits : the
controller 101 with the value 0, the controller 100 with the value 0, then the
controller 6 with the value 0 and the delay `semitone`. -/
theorem send_bendrange_dispatched (pf : T_platform) (s : T_state) (nrTrack semitone : Int)
    (hL : 32 ≤ pf.LONG_BITS) (h0 : 0 ≤ semitone) (h1 : semitone ≤ 127) :
    (send_bendrange pf s nrTrack semitone).dispatched = s.dispatched ++
      [T_midioutmsg.mk 0 nrTrack 0 3 (MIDI_CONTROL * 16) 101 0 0,
       T_midioutmsg.mk 0 nrTrack 0 3 (MIDI_CONTROL * 16) 100 0 0,
       T_midioutmsg.mk 0 nrTrack semitone 3 (MIDI_CONTROL * 16) 6 0 0] := by
  have hdt : toLong pf (toUInt semitone) = semitone := by
    have hu : ((toUInt semitone : Nat) : Int) = semitone := by
      unfold toUInt
      rw [Int.emod_eq_of_lt h0 (by omega)]
      exact Int.toNat_of_nonneg h0
    unfold toLong
    rw [hu]
    have hpow : (2 : Int) ^ 31 ≤ (2 : Int) ^ (pf.LONG_BITS - 1) :=
      pow_le_pow_right₀ (by decide) (by omega)
    rw [if_pos (by omega)]
  unfold send_bendrange send_control
  simp only [hdt, (sendmsgdt_frame _ _ _).2, List.append_assoc]
  rfl

/-- C21 : on the track 0 (device 0, channel 0), `LoutBendRange(2, 1)` : the third
message given to `sendmsgdt` is the controller 6 with the value 0 and the
delay 2, where the claim says the value 2 and the delay 0
(`send_control(nrTrack, 6, 0, semitone)` gives the semitones as the delay).  The
controllers 101 and 100 are sent at once, the controller 6 is queued for the
time 2, and the flush which sends it sends the value 0 : the number of
semitones never reaches the device. -/
theorem C21_bendrange_semitones_sent_as_delay :
    (LoutBendRange platform_example (track_open_example platform_example) 2 1).dispatched =
      [T_midioutmsg.mk 0 0 0 3 176 101 0 0, T_midioutmsg.mk 0 0 0 3 176 100 0 0,
       T_midioutmsg.mk 0 0 2 3 176 6 0 0] ∧
    (LoutBendRange platform_example (track_open_example platform_example) 2 1).transport =
      [T_sent.mk 0 176 101 0, T_sent.mk 0 176 100 0] ∧
    (LoutBendRange platform_example (track_open_example platform_example) 2 1).g_queue_msg 0 =
      T_queue_msg.mk (T_midioutmsg.mk 0 0 2 3 176 6 0 0) 2 false ∧
    (unqueue platform_example
        (LoutBendRange platform_example (track_open_example platform_example) 2 1)
        OUT_QUEUE_FLUSH midioutmsg_zero).2.transport =
      [T_sent.mk 0 176 101 0, T_sent.mk 0 176 100 0, T_sent.mk 0 176 6 0] := by
  decide

/-! ## Curves -/

/-- C22 : `LoutSetCurve` on the parameters (2, 10, 20, 100, 120), that is the
curve 2 with the points (10, 20) and (100, 120) : the first abscissa is read
from the parameter 1, the number of the curve, so that the curve 2 holds the
points (2, 10) and (20, 100) and the end mark at the position 2; the last
ordinate 120 is never read. -/
theorem C22_curve_number_stored_as_coordinate :
    ((LoutSetCurve (init_state platform_example) [2, 10, 20, 100, 120]).g_curves 2).x 0 = 2 ∧
    ((LoutSetCurve (init_state platform_example) [2, 10, 20, 100, 120]).g_curves 2).y 0 = 10 ∧
    ((LoutSetCurve (init_state platform_example) [2, 10, 20, 100, 120]).g_curves 2).x 1 = 20 ∧
    ((LoutSetCurve (init_state platform_example) [2, 10, 20, 100, 120]).g_curves 2).y 1 = 100 ∧
    ((LoutSetCurve (init_state platform_example) [2, 10, 20, 100, 120]).g_curves 2).x 2 = -1 := by
  decide

/-! ## Capacity of the pending-off list -/

/-- C27 : the chord 5 of thirteen pitches, `chordOn(5, 100, 10, 1)` twice without
`chordOff` : both calls return 0; after the first one the pending-off list
holds 13 entries, after the second one it holds 26 entries, more than the
capacity `CHORDMAXPITCH` = 24 of the array `msg_off`, and the second call
has written the note-ons of the pitches 67 and 69 at the indices 24 and 25,
outside of the array (`chord->msg_off[chord->nbOff] = u` has no bound test
and `LoutChordOn` does not reset `nbOff`). -/
theorem C27_chordOn_twice_overflows_pending_off :
    (LoutChordOn platform_example (chord_thirteen_example platform_example)
        (some 5) 100 10 1).1 = 0 ∧
    ((LoutChordOn platform_example (chord_thirteen_example platform_example)
        (some 5) 100 10 1).2.g_chords 0).nbOff = 13 ∧
    (LoutChordOn platform_example
        (LoutChordOn platform_example (chord_thirteen_example platform_example)
          (some 5) 100 10 1).2 (some 5) 100 10 1).1 = 0 ∧
    ((LoutChordOn platform_example
        (LoutChordOn platform_example (chord_thirteen_example platform_example)
          (some 5) 100 10 1).2 (some 5) 100 10 1).2.g_chords 0).nbOff = 26 ∧
    CHORDMAXPITCH < ((LoutChordOn platform_example
        (LoutChordOn platform_example (chord_thirteen_example platform_example)
          (some 5) 100 10 1).2 (some 5) 100 10 1).2.g_chords 0).nbOff ∧
    (((LoutChordOn platform_example
        (LoutChordOn platform_example (chord_thirteen_example platform_example)
          (some 5) 100 10 1).2 (some 5) 100 10 1).2.g_chords 0).msg_off 24).bData1 = 67 ∧
    (((LoutChordOn platform_example
        (LoutChordOn platform_example (chord_thirteen_example platform_example)
          (some 5) 100 10 1).2 (some 5) 100 10 1).2.g_chords 0).msg_off 25).bData1 = 69 ∧
    (((LoutChordOn platform_example (chord_thirteen_example platform_example)
        (some 5) 100 10 1).2.g_chords 0).msg_off 24).bData1 = 0 := by
  decide

/-! ## Reads of the curve arrays -/

/-- On a curve which holds no point (`x[0] < 0`), `apply_curve` interpolates
from the cells of index -1 of the arrays `x` and `y`. -/
theorem apply_curve_no_point (curve : T_curve) (vout : Int) (h : curve.x 0 < 0) :
    apply_curve curve vout =
      curve.y (-1) + ((vout - curve.x (-1)) * (127 - curve.y (-1))).tdiv
        ((if 127 = curve.x (-1) then curve.x (-1) + 1 else 127) - curve.x (-1)) := by
  have hn : curve_scan curve vout 10 0 = 0 := by
    rw [curve_scan_succ, if_neg (by omega)]
  unfold apply_curve
  simp only [hn]
  rw [if_pos (Or.inr h)]
  rfl

/-- C29 : the track 0 with the curve 1, which holds no point, and the track
volume 100 (`LoutSetTrackCurve(1, 1)` then `LoutSetTrackVolume(100, 1)` on the initial state) :
the track is valid and not muted, and `apply_volume` depends on the cells of
index -1 of the arrays of the curve 1.  The states which hold 50 in `x[-1]`, or
120 in `y[-1]`, have the same cells of the indices 0..9 in every curve, and
the raw value 64 gives 99 in the first state, 81 in the second and 125 in the
third : the scan stops at `n = 0` on `curve->x[0] < 0` and the code reads
`curve->x[n - 1]` and `curve->y[n - 1]`. -/
theorem C29_unset_curve_read_before_first_point :
    ((curve_unset_example platform_example).g_tracks 0).nrCurve = 1 ∧
    ((curve_unset_example platform_example).g_tracks 0).mute = false ∧
    ((curve_unset_example platform_example).g_curves 1).x 0 = -1 ∧
    (∀ c i : Int, 0 ≤ i → i < MAXPOINT →
      ((curve_before_first (curve_unset_example platform_example) 1 50 (-1)).g_curves c).x i =
        ((curve_unset_example platform_example).g_curves c).x i ∧
      ((curve_before_first (curve_unset_example platform_example) 1 50 (-1)).g_curves c).y i =
        ((curve_unset_example platform_example).g_curves c).y i ∧
      ((curve_before_first (curve_unset_example platform_example) 1 (-1) 120).g_curves c).x i =
        ((curve_unset_example platform_example).g_curves c).x i ∧
      ((curve_before_first (curve_unset_example platform_example) 1 (-1) 120).g_curves c).y i =
        ((curve_unset_example platform_example).g_curves c).y i) ∧
    apply_volume (curve_unset_example platform_example) 0 64 = 99 ∧
    apply_volume (curve_before_first (curve_unset_example platform_example) 1 50 (-1)) 0 64 = 81 ∧
    apply_volume (curve_before_first (curve_unset_example platform_example) 1 (-1) 120) 0 64
      = 125 := by
  have hcells : ∀ (s : T_state) (xv yv c i : Int), 0 ≤ i →
      ((curve_before_first s 1 xv yv).g_curves c).x i = (s.g_curves c).x i ∧
      ((curve_before_first s 1 xv yv).g_curves c).y i = (s.g_curves c).y i := by
    intro s xv yv c i h0
    unfold curve_before_first
    dsimp only
    by_cases hc : c = 1
    · subst hc
      rw [set1_same]
      dsimp only
      rw [set1_other _ _ _ _ (by omega), set1_other _ _ _ _ (by omega)]
      exact ⟨rfl, rfl⟩
    · rw [set1_other _ _ _ _ hc]
      exact ⟨rfl, rfl⟩
  have h1 : ((curve_unset_example platform_example).g_tracks 0).nrCurve = 1 := by decide
  have h2 : ((curve_unset_example platform_example).g_tracks 0).mute = false := by decide
  have h3 : ((curve_unset_example platform_example).g_curves 1).x 0 = -1 := by decide
  have h5 : apply_volume (curve_unset_example platform_example) 0 64 = 99 := by decide
  have h6 : apply_volume
      (curve_before_first (curve_unset_example platform_example) 1 50 (-1)) 0 64 = 81 := by
    decide
  have h7 : apply_volume
      (curve_before_first (curve_unset_example platform_example) 1 (-1) 120) 0 64 = 125 := by
    decide
  exact ⟨h1, h2, h3, fun c i h0 _ =>
    ⟨(hcells _ 50 (-1) c i h0).1, (hcells _ 50 (-1) c i h0).2,
     (hcells _ (-1) 120 c i h0).1, (hcells _ (-1) 120 c i h0).2⟩, h5, h6, h7⟩

/-! ## Warp of the volumes without curve -/

/-- Without curve on a valid track which is not muted, `apply_volume` is the
fast path, or the two warps (track volume, then main volume) and the final
`cap`. -/
theorem apply_volume_no_curve (s : T_state) (nrTrack v : Int)
    (hlo : 0 ≤ nrTrack) (hhi : nrTrack < MAXTRACK)
    (hmute : (s.g_tracks nrTrack).mute = false)
    (hcurve : (s.g_tracks nrTrack).nrCurve ≤ 0) :
    apply_volume s nrTrack v =
      if (s.g_tracks nrTrack).volume = 64 ∧ s.g_volume = 64 ∧
          ((s.g_tracks nrTrack).nrCurve < 0 ∨
            (s.g_curves (s.g_tracks nrTrack).nrCurve).x 0 = -1) then cap v 0 128 0
      else cap (apply_warp s.g_volume (apply_warp (s.g_tracks nrTrack).volume v)) 1 128 0 := by
  unfold apply_volume
  rw [if_neg (by omega)]
  simp only [hmute, Bool.false_eq_true, if_false]
  rw [if_neg (by omega : ¬ (s.g_tracks nrTrack).nrCurve > 0)]

/-- The warp of a volume below 64 : the line from (1, 1) to (127, 2 * volume). -/
theorem apply_warp_below (volume vout : Int) (h : volume < 64) :
    apply_warp volume vout = cap (1 + ((vout - 1) * (2 * volume - 1)).tdiv 126) 1 128 0 := by
  unfold apply_warp
  rw [if_pos (by omega)]
  simp only [if_pos h]
  norm_num

/-- The warp of a volume above 64 : the line from (1, (volume - 64) * 2) to
(127, 127). -/
theorem apply_warp_above (volume vout : Int) (h : 64 < volume) :
    apply_warp volume vout =
      cap ((volume - 64) * 2 + ((vout - 1) * (127 - (volume - 64) * 2)).tdiv 126) 1 128 0 := by
  unfold apply_warp
  rw [if_pos (by omega)]
  simp only [if_neg (by omega : ¬ volume < 64)]
  norm_num

theorem apply_warp_64 (vout : Int) : apply_warp 64 vout = vout := by
  unfold apply_warp
  rw [if_neg (by omega)]

theorem cap_cap_1_128 (v : Int) : cap (cap v 1 128 0) 1 128 0 = cap v 1 128 0 := by
  unfold cap
  simp only [sub_zero]
  split_ifs <;> omega

/-- C24 (counterexample) : the track volume 65, no curve, main volume 64, track
not muted : the raw value 1 is mapped to 2 = (65 - 64) * 2, not to
2 * 65 - 127 = 3. -/
theorem C24_volume_65_maps_1_to_2 :
    ((track_volume_example platform_example).g_tracks 0).volume = 65 ∧
    ((track_volume_example platform_example).g_tracks 0).nrCurve = 0 ∧
    ((track_volume_example platform_example).g_tracks 0).mute = false ∧
    (track_volume_example platform_example).g_volume = 64 ∧
    apply_volume (track_volume_example platform_example) 0 1 = 2 ∧
    apply_volume (track_volume_example platform_example) 0 1 ≠ 2 * 65 - 127 := by
  decide

/-- C24 (amended) : without curve, with the main volume 64 and the track not
muted, the warp of the track volume `V` is the line between these end points
(truncating division, result kept in 1..127) : for `V` in 1..63 the raw value
1 gives 1 and 127 gives `2 * V`; for `V` in 65..127 the raw value 1 gives
`2 * V - 128` and 127 gives 127. -/
theorem C24_track_volume_warp_end_points (s : T_state) (nrTrack V : Int)
    (hlo : 0 ≤ nrTrack) (hhi : nrTrack < MAXTRACK)
    (hmute : (s.g_tracks nrTrack).mute = false)
    (hcurve : (s.g_tracks nrTrack).nrCurve ≤ 0)
    (hmain : s.g_volume = 64) (hvol : (s.g_tracks nrTrack).volume = V) :
    (1 ≤ V → V ≤ 63 →
      (∀ v, apply_volume s nrTrack v = cap (1 + ((v - 1) * (2 * V - 1)).tdiv 126) 1 128 0) ∧
      apply_volume s nrTrack 1 = 1 ∧ apply_volume s nrTrack 127 = 2 * V) ∧
    (65 ≤ V → V ≤ 127 →
      (∀ v, apply_volume s nrTrack v =
        cap ((2 * V - 128) + ((v - 1) * (127 - (2 * V - 128))).tdiv 126) 1 128 0) ∧
      apply_volume s nrTrack 1 = 2 * V - 128 ∧ apply_volume s nrTrack 127 = 127) := by
  have hgen := fun v => apply_volume_no_curve s nrTrack v hlo hhi hmute hcurve
  rw [hvol, hmain] at hgen
  constructor
  · intro h1 h63
    have hf : ∀ v, apply_volume s nrTrack v =
        cap (1 + ((v - 1) * (2 * V - 1)).tdiv 126) 1 128 0 := by
      intro v
      rw [hgen v, if_neg (by omega), apply_warp_64, apply_warp_below V v (by omega),
        cap_cap_1_128]
    refine ⟨hf, ?_, ?_⟩
    · rw [hf 1]
      norm_num [cap]
    · rw [hf 127]
      have h : ((127 - 1) * (2 * V - 1) : Int).tdiv 126 = 2 * V - 1 := by
        have : ((127 : Int) - 1) = 126 := by norm_num
        rw [this, Int.mul_tdiv_cancel_left _ (by norm_num)]
      rw [h]
      unfold cap
      simp only [sub_zero]
      split_ifs <;> omega
  · intro h65 h127
    have hf : ∀ v, apply_volume s nrTrack v =
        cap ((2 * V - 128) + ((v - 1) * (127 - (2 * V - 128))).tdiv 126) 1 128 0 := by
      intro v
      rw [hgen v, if_neg (by omega), apply_warp_64, apply_warp_above V v (by omega),
        cap_cap_1_128]
      have : (V - 64) * 2 = 2 * V - 128 := by ring
      rw [this]
    refine ⟨hf, ?_, ?_⟩
    · rw [hf 1]
      have h : ((1 - 1) * (127 - (2 * V - 128)) : Int).tdiv 126 = 0 := by norm_num
      rw [h]
      unfold cap
      simp only [sub_zero]
      split_ifs <;> omega
    · rw [hf 127]
      have h : ((127 - 1) * (127 - (2 * V - 128)) : Int).tdiv 126 = 127 - (2 * V - 128) := by
        have : ((127 : Int) - 1) = 126 := by norm_num
        rw [this, Int.mul_tdiv_cancel_left _ (by norm_num)]
      rw [h]
      unfold cap
      simp only [sub_zero]
      split_ifs <;> omega

/-- C24 (witness) : the state `track_volume_example`, track 0 with the volume 65. -/
theorem C24_track_volume_warp_end_points_witness :
    ((track_volume_example platform_example).g_tracks 0).mute = false ∧
    ((track_volume_example platform_example).g_tracks 0).nrCurve ≤ 0 ∧
    (track_volume_example platform_example).g_volume = 64 ∧
    ((track_volume_example platform_example).g_tracks 0).volume = 65 ∧
    apply_volume (track_volume_example platform_example) 0 1 = 2 * 65 - 128 ∧
    apply_volume (track_volume_example platform_example) 0 127 = 127 :=
  ⟨by decide, by decide, by decide, by decide,
    ((C24_track_volume_warp_end_points (track_volume_example platform_example) 0 65
      (by decide) (by decide) (by decide) (by decide) (by decide) (by decide)).2
      (by decide) (by decide)).2⟩

/-! ## Monotony of the volume transform without curve -/

/-- The truncating division by 126 in terms of the floor division. -/
theorem tdiv_126 (x : Int) :
    x.tdiv 126 = if 0 ≤ x then x / 126 else -((-x) / 126) := by
  by_cases h : 0 ≤ x
  · rw [if_pos h, Int.tdiv_eq_ediv h (by decide)]
  · rw [if_neg h]
    have h1 : (0 : Int) ≤ -x := by omega
    have h2 := Int.tdiv_eq_ediv h1 (by decide : (0 : Int) ≤ 126)
    rw [Int.neg_tdiv] at h2
    omega

theorem tdiv_126_mono (x y : Int) (h : x ≤ y) : x.tdiv 126 ≤ y.tdiv 126 := by
  rw [tdiv_126 x, tdiv_126 y]
  split_ifs <;> omega

theorem cap_mono (a b lo hi : Int) (hlh : lo < hi) (h : a ≤ b) :
    cap a lo hi 0 ≤ cap b lo hi 0 := by
  unfold cap
  simp only [sub_zero]
  split_ifs <;> omega

/-- One warp does not decrease when its input grows, for a volume in 0..127
and inputs in 0..127. -/
theorem apply_warp_mono (volume a b : Int) (hV0 : 0 ≤ volume) (hV1 : volume ≤ 127)
    (ha : 0 ≤ a) (hab : a ≤ b) (hb : b ≤ 127) :
    apply_warp volume a ≤ apply_warp volume b := by
  by_cases h64 : volume = 64
  · rw [h64, apply_warp_64, apply_warp_64]
    exact hab
  by_cases hlt : volume < 64
  · rw [apply_warp_below volume a hlt, apply_warp_below volume b hlt]
    by_cases hz : volume = 0
    · subst hz
      have e1 : ∀ v : Int, 0 ≤ v → v ≤ 127 →
          cap (1 + ((v - 1) * (2 * 0 - 1)).tdiv 126) 1 128 0 = 1 := by
        intro v h0 h1
        have hm : (v - 1) * (2 * 0 - 1) = 1 - v := by ring
        rw [hm, tdiv_126]
        unfold cap
        simp only [sub_zero]
        split_ifs <;> omega
      rw [e1 a ha (by omega), e1 b (by omega) hb]
    · apply cap_mono _ _ _ _ (by decide)
      have hm : (a - 1) * (2 * volume - 1) ≤ (b - 1) * (2 * volume - 1) :=
        mul_le_mul_of_nonneg_right (by omega) (by omega)
      have := tdiv_126_mono _ _ hm
      omega
  · rw [apply_warp_above volume a (by omega), apply_warp_above volume b (by omega)]
    apply cap_mono _ _ _ _ (by decide)
    have hm : (a - 1) * (127 - (volume - 64) * 2) ≤ (b - 1) * (127 - (volume - 64) * 2) :=
      mul_le_mul_of_nonneg_right (by omega) (by omega)
    have := tdiv_126_mono _ _ hm
    omega

/-- One warp keeps its result in 0..127 for an input in 0..127. -/
theorem apply_warp_range (volume a : Int) (ha : 0 ≤ a) (hb : a ≤ 127) :
    0 ≤ apply_warp volume a ∧ apply_warp volume a ≤ 127 := by
  by_cases h64 : volume = 64
  · rw [h64, apply_warp_64]
    exact ⟨ha, hb⟩
  by_cases hlt : volume < 64
  · rw [apply_warp_below volume a hlt]
    have := cap_range (1 + ((a - 1) * (2 * volume - 1)).tdiv 126) 1 128 (by decide)
    constructor <;> omega
  · rw [apply_warp_above volume a (by omega)]
    have := cap_range
      ((volume - 64) * 2 + ((a - 1) * (127 - (volume - 64) * 2)).tdiv 126) 1 128 (by decide)
    constructor <;> omega

/-- C30 : on a valid track which is not muted and has no curve applied, with
the track volume and the main volume in 0..127, `apply_volume` does not
decrease when the raw value grows inside 0..127. -/
theorem C30_apply_volume_monotone (s : T_state) (nrTrack v w : Int)
    (hlo : 0 ≤ nrTrack) (hhi : nrTrack < MAXTRACK)
    (hmute : (s.g_tracks nrTrack).mute = false)
    (hcurve : (s.g_tracks nrTrack).nrCurve ≤ 0)
    (hV0 : 0 ≤ (s.g_tracks nrTrack).volume) (hV1 : (s.g_tracks nrTrack).volume ≤ 127)
    (hM0 : 0 ≤ s.g_volume) (hM1 : s.g_volume ≤ 127)
    (hv : 0 ≤ v) (hvw : v ≤ w) (hw : w ≤ 127) :
    apply_volume s nrTrack v ≤ apply_volume s nrTrack w := by
  rw [apply_volume_no_curve s nrTrack v hlo hhi hmute hcurve,
    apply_volume_no_curve s nrTrack w hlo hhi hmute hcurve]
  split_ifs
  · exact cap_mono _ _ _ _ (by decide) hvw
  · apply cap_mono _ _ _ _ (by decide)
    have r1 := apply_warp_range (s.g_tracks nrTrack).volume v hv (by omega)
    have r2 := apply_warp_range (s.g_tracks nrTrack).volume w (by omega) hw
    exact apply_warp_mono _ _ _ hM0 hM1 r1.1
      (apply_warp_mono _ _ _ hV0 hV1 hv hvw hw) r2.2

/-- C30 (witness) : the state `track_volume_example` (track volume 65), raw
values 10 and 11. -/
theorem C30_apply_volume_monotone_witness :
    ((track_volume_example platform_example).g_tracks 0).mute = false ∧
    ((track_volume_example platform_example).g_tracks 0).nrCurve ≤ 0 ∧
    ((track_volume_example platform_example).g_tracks 0).volume = 65 ∧
    (track_volume_example platform_example).g_volume = 64 ∧
    apply_volume (track_volume_example platform_example) 0 10 ≤
      apply_volume (track_volume_example platform_example) 0 11 :=
  ⟨by decide, by decide, by decide, by decide,
    C30_apply_volume_monotone (track_volume_example platform_example) 0 10 11
      (by decide) (by decide) (by decide) (by decide) (by decide) (by decide)
      (by decide) (by decide) (by decide) (by decide) (by decide)⟩

/-! ## Interpolation on a curve -/

/-- The scan of the curve stops at the index `n` when the points before `n`
are below `vout` and the scan cannot pass `n` (end of the array, end mark, or
point at or above `vout`). -/
theorem curve_scan_bracket (curve : T_curve) (vout n : Int) (hn10 : n ≤ 10)
    (hbelow : ∀ i, 0 ≤ i → i < n → 0 ≤ curve.x i ∧ curve.x i < vout)
    (hstop : n < 10 → ¬ (curve.x n ≥ 0 ∧ vout > curve.x n)) :
    ∀ (fuel : Nat) (j : Int), 0 ≤ j → j ≤ n → n - j ≤ fuel →
      curve_scan curve vout fuel j = n := by
  intro fuel
  induction fuel with
  | zero =>
    intro j _ hjn hf
    simp only [Nat.cast_zero] at hf
    have : j = n := by omega
    rw [this]
    rfl
  | succ f ih =>
    intro j hj0 hjn hf
    rw [curve_scan_succ]
    by_cases hjeq : j = n
    · rw [hjeq, if_neg]
      intro hc
      have h10 : n < 10 := hc.1
      exact hstop h10 hc.2
    · have hlt : j < n := by omega
      have hb := hbelow j hj0 hlt
      rw [if_pos ⟨by simp only [MAXPOINT]; omega, hb.1, hb.2⟩]
      exact ih (j + 1) (by omega) (by omega) (by push_cast at hf; omega)

/-- The interpolation of `apply_curve` on a curve of `k` points, for the
index `n` of the first point at or above `vout` (`n = k` when there is
none). -/
theorem apply_curve_bracket (curve : T_curve) (vout k n : Int)
    (hk1 : 1 ≤ k) (hk10 : k ≤ 10)
    (hx : ∀ i, 0 ≤ i → i < k → 0 ≤ curve.x i)
    (hend : k < 10 → curve.x k < 0)
    (hn0 : 0 ≤ n) (hnk : n ≤ k)
    (hbelow : ∀ i, 0 ≤ i → i < n → curve.x i < vout)
    (hat : n < k → vout ≤ curve.x n) :
    apply_curve curve vout =
      (if n = 0 then 1 else curve.y (n - 1)) +
        ((vout - (if n = 0 then 1 else curve.x (n - 1))) *
          ((if n < k then curve.y n else 127) - (if n = 0 then 1 else curve.y (n - 1)))).tdiv
        ((if (if n < k then curve.x n else 127) = (if n = 0 then 1 else curve.x (n - 1))
            then (if n = 0 then 1 else curve.x (n - 1)) + 1
            else (if n < k then curve.x n else 127)) -
          (if n = 0 then 1 else curve.x (n - 1))) := by
  have hscan : curve_scan curve vout 10 0 = n := by
    apply curve_scan_bracket curve vout n (by omega) _ _ 10 0 (le_refl _) hn0
      (by push_cast; omega)
    · intro i h0 h1
      exact ⟨hx i h0 (by omega), hbelow i h0 h1⟩
    · intro h10 hc
      by_cases hlt : n < k
      · have := hat hlt
        omega
      · have hnk2 : n = k := by omega
        have := hend (by omega)
        rw [hnk2] at hc
        omega
  unfold apply_curve
  simp only [hscan]
  by_cases hlt : n < k
  · have hx0 := hx n hn0 hlt
    rw [if_neg (by simp only [MAXPOINT]; omega)]
    simp only [if_pos hlt]
    by_cases hz : n = 0
    · simp only [if_pos hz]
      rw [hz]
    · simp only [if_neg hz]
  · have hnk2 : n = k := by omega
    have hz : ¬ n = 0 := by omega
    have hc : n ≥ MAXPOINT ∨ curve.x n < 0 := by
      by_cases h10 : k < 10
      · right
        rw [hnk2]
        exact hend h10
      · left
        simp only [MAXPOINT]
        omega
    rw [if_pos hc]
    simp only [if_neg hlt, if_neg hz]

/-- C25 (counterexample) : the curve 1 with the points (1, 50) and (127, 127) on the
track 0 (volumes 64, not muted) : the raw value 1, the abscissa of the first
control point, is mapped to 1 and not to clamp(50, 1, 127) = 50 : the segment
starts at (1, 1), and `if (x1 == x0) x1 = x0 + 1` makes of it the segment from
(1, 1) to (2, 50). -/
theorem C25_first_point_at_1_maps_to_1 :
    ((curve_point_example platform_example).g_tracks 0).nrCurve = 1 ∧
    ((curve_point_example platform_example).g_tracks 0).volume = 64 ∧
    ((curve_point_example platform_example).g_tracks 0).mute = false ∧
    (curve_point_example platform_example).g_volume = 64 ∧
    ((curve_point_example platform_example).g_curves 1).x 0 = 1 ∧
    ((curve_point_example platform_example).g_curves 1).y 0 = 50 ∧
    ((curve_point_example platform_example).g_curves 1).x 1 = 127 ∧
    ((curve_point_example platform_example).g_curves 1).y 1 = 127 ∧
    ((curve_point_example platform_example).g_curves 1).x 2 = -1 ∧
    apply_volume (curve_point_example platform_example) 0 1 = 1 ∧
    apply_volume (curve_point_example platform_example) 0 1 ≠ cap 50 1 128 0 := by
  decide

/-- C25 (amended) : a valid track, not muted, with the track and main volumes
64 and a curve (id above 0) of `k` points, 1 ≤ k ≤ 10, with abscissas at or
above 0, ended by the end mark when `k < 10`.  For the raw value `v` and the
index `n` of the first point with `x ≥ v` (`n = k` when `v` is above every
point), `apply_volume` returns the interpolation (truncating division, result
kept in 1..127) between (x0, y0), the point before `n`, or (1, 1) when
`n = 0`, and (x1, y1), the point `n`, or (127, 127) when `n = k`, where `x1` is
replaced by `x0 + 1` when `x1 = x0`.  A control point `x_n` is mapped to
clamp(y_n, 1, 127), except the first one when its abscissa is 1. -/
theorem C25_curve_interpolation (s : T_state) (nrTrack v k n : Int)
    (hlo : 0 ≤ nrTrack) (hhi : nrTrack < MAXTRACK)
    (hmute : (s.g_tracks nrTrack).mute = false)
    (hvol : (s.g_tracks nrTrack).volume = 64) (hmain : s.g_volume = 64)
    (hcurve : 0 < (s.g_tracks nrTrack).nrCurve)
    (hk1 : 1 ≤ k) (hk10 : k ≤ 10)
    (hx : ∀ i, 0 ≤ i → i < k → 0 ≤ (s.g_curves (s.g_tracks nrTrack).nrCurve).x i)
    (hend : k < 10 → (s.g_curves (s.g_tracks nrTrack).nrCurve).x k < 0)
    (hn0 : 0 ≤ n) (hnk : n ≤ k)
    (hbelow : ∀ i, 0 ≤ i → i < n → (s.g_curves (s.g_tracks nrTrack).nrCurve).x i < v)
    (hat : n < k → v ≤ (s.g_curves (s.g_tracks nrTrack).nrCurve).x n) :
    apply_volume s nrTrack v =
      cap ((if n = 0 then 1 else (s.g_curves (s.g_tracks nrTrack).nrCurve).y (n - 1)) +
        ((v - (if n = 0 then 1 else (s.g_curves (s.g_tracks nrTrack).nrCurve).x (n - 1))) *
          ((if n < k then (s.g_curves (s.g_tracks nrTrack).nrCurve).y n else 127) -
            (if n = 0 then 1 else (s.g_curves (s.g_tracks nrTrack).nrCurve).y (n - 1)))).tdiv
        ((if (if n < k then (s.g_curves (s.g_tracks nrTrack).nrCurve).x n else 127) =
              (if n = 0 then 1 else (s.g_curves (s.g_tracks nrTrack).nrCurve).x (n - 1))
            then (if n = 0 then 1 else (s.g_curves (s.g_tracks nrTrack).nrCurve).x (n - 1)) + 1
            else (if n < k then (s.g_curves (s.g_tracks nrTrack).nrCurve).x n else 127)) -
          (if n = 0 then 1 else (s.g_curves (s.g_tracks nrTrack).nrCurve).x (n - 1)))) 1 128 0 ∧
    (n < k → v = (s.g_curves (s.g_tracks nrTrack).nrCurve).x n →
      (n = 0 → (s.g_curves (s.g_tracks nrTrack).nrCurve).x 0 ≠ 1) →
      apply_volume s nrTrack v = cap ((s.g_curves (s.g_tracks nrTrack).nrCurve).y n) 1 128 0) := by
  have hb := apply_curve_bracket (s.g_curves (s.g_tracks nrTrack).nrCurve) v k n hk1 hk10 hx
    hend hn0 hnk hbelow hat
  have hx00 := hx 0 (le_refl _) (by omega)
  have hav : apply_volume s nrTrack v =
      cap (apply_curve (s.g_curves (s.g_tracks nrTrack).nrCurve) v) 1 128 0 := by
    unfold apply_volume
    rw [if_neg (by omega)]
    simp only [hmute, hvol, hmain, Bool.false_eq_true, if_false]
    rw [if_neg (by intro h; rcases h.2.2 with h1 | h1 <;> omega), if_pos hcurve,
      apply_warp_64, apply_warp_64]
  generalize s.g_curves (s.g_tracks nrTrack).nrCurve = curve at *
  refine ⟨by rw [hav, hb], ?_⟩
  intro hlt hv hfirst
  rw [hav, hb]
  congr 1
  simp only [if_pos hlt]
  by_cases hz : n = 0
  · have h1 : curve.x 0 ≠ 1 := hfirst hz
    subst hz
    simp only [if_true]
    rw [if_neg h1, hv]
    have hne : curve.x 0 - 1 ≠ 0 := by omega
    rw [Int.mul_tdiv_cancel_left _ hne]
    omega
  · have hprev := hbelow (n - 1) (by omega) (by omega)
    simp only [if_neg hz]
    rw [if_neg (by omega), hv]
    have hne : curve.x n - curve.x (n - 1) ≠ 0 := by omega
    rw [Int.mul_tdiv_cancel_left _ hne]
    omega

/-- C25 (witness) : the curve 1 with the points (1, 50) and (127, 127) on the track 0,
raw value 64 between the two points (`k = 2`, `n = 1`) : the result is
50 + (63 * 77) / 126 = 88. -/
theorem C25_curve_interpolation_witness :
    ((curve_point_example platform_example).g_tracks 0).nrCurve = 1 ∧
    ((curve_point_example platform_example).g_curves 1).x 0 = 1 ∧
    ((curve_point_example platform_example).g_curves 1).y 0 = 50 ∧
    ((curve_point_example platform_example).g_curves 1).x 1 = 127 ∧
    ((curve_point_example platform_example).g_curves 1).y 1 = 127 ∧
    ((curve_point_example platform_example).g_curves 1).x 2 = -1 ∧
    apply_volume (curve_point_example platform_example) 0 64 =
      cap (50 + ((64 - 1) * (127 - 50) : Int).tdiv (127 - 1)) 1 128 0 ∧
    apply_volume (curve_point_example platform_example) 0 64 = 88 :=
  ⟨by decide, by decide, by decide, by decide, by decide, by decide,
    (C25_curve_interpolation (curve_point_example platform_example) 0 64 2 1
      (by decide) (by decide) (by decide) (by decide) (by decide) (by decide)
      (by decide) (by decide)
      (by
        intro i h0 h1
        have hi : i = 0 ∨ i = 1 := by omega
        rcases hi with hi | hi <;> subst hi <;> decide)
      (by intro _; decide) (by decide) (by decide)
      (by
        intro i h0 h1
        have hi : i = 0 := by omega
        subst hi
        decide)
      (by intro _; decide)).1,
    by decide⟩

/-! ## Scan bound of the queue -/

/-- The scan bound after a cancel : kept, or reset when no slot below it was
occupied. -/
theorem unqueue_noteoff_bound (pf : T_platform) (s : T_state) (m : T_midioutmsg) :
    (unqueue pf s OUT_QUEUE_NOTEOFF m).2.g_end_queue_msg = s.g_end_queue_msg ∨
      ((unqueue pf s OUT_QUEUE_NOTEOFF m).2.g_end_queue_msg = 0 ∧
        ∀ j : Int, 0 ≤ j → j < s.g_end_queue_msg → (s.g_queue_msg j).free = true) := by
  obtain ⟨e1, _, e3, _, _, _, _⟩ := unqueue_loop_noteoff_effect pf m (s.g_current_t + m.dt)
    s.g_end_queue_msg.toNat 0 0 0 s
  have hend : (unqueue_loop pf OUT_QUEUE_NOTEOFF m (s.g_current_t + m.dt)
      s.g_end_queue_msg.toNat 0 (0, 0, s)).2.2.g_end_queue_msg = s.g_end_queue_msg := by
    rw [e1]
  unfold unqueue
  have h10 : ¬ (OUT_QUEUE_NOTEOFF = OUT_QUEUE_FLUSH) := by decide
  simp only [h10, if_false]
  split_ifs with hz
  · right
    refine ⟨rfl, fun j hj0 hj1 => ?_⟩
    cases hfree : (s.g_queue_msg j).free with
    | true => rfl
    | false =>
      have := e3 j hj0 (by omega) hfree
      omega
  · left
    exact hend

/-- The scan bound never decreases in `queue_insert`. -/
theorem queue_insert_bound (s : T_state) (m : T_midioutmsg) :
    s.g_end_queue_msg ≤ (queue_insert s m).g_end_queue_msg := by
  unfold queue_insert
  cases first_index (fun n => (s.g_queue_msg n).free) 1024 0 with
  | none => exact le_refl _
  | some n =>
    dsimp only
    split_ifs <;> omega

/-- C28 : in every state of the queue reachable from `fifo_init` by `queue_insert`
and `unqueue` (flush or cancel), every occupied slot of the array is strictly
below the scan bound `g_end_queue_msg`; so the scan of a flush frees exactly
the occupied slots of the whole array which are due, the scan of a cancel
frees exactly the occupied slots of the whole array which match, and the
bound, which `queue_insert` never decreases, is kept by `unqueue` or reset to
zero when no slot of the array is occupied. -/
theorem C28_occupied_slots_below_scan_bound (pf : T_platform) (s : T_state)
    (h : ReachableQueue pf s) :
    (∀ n : Int, 0 ≤ n → n < OUT_QUEUE_MAX_MSG → (s.g_queue_msg n).free = false →
      n < s.g_end_queue_msg) ∧
    (∀ (m : T_midioutmsg) (j : Int), 0 ≤ j → j < OUT_QUEUE_MAX_MSG →
      (unqueue pf s OUT_QUEUE_FLUSH m).2.g_queue_msg j =
        if (s.g_queue_msg j).free = false ∧ (s.g_queue_msg j).t ≤ s.g_current_t + 20 then
          { s.g_queue_msg j with free := true }
        else s.g_queue_msg j) ∧
    (∀ (m : T_midioutmsg) (j : Int), 0 ≤ j → j < OUT_QUEUE_MAX_MSG →
      (unqueue pf s OUT_QUEUE_NOTEOFF m).2.g_queue_msg j =
        if (s.g_queue_msg j).free = false
            ∧ queue_matches (s.g_queue_msg j) m (s.g_current_t + m.dt) then
          { s.g_queue_msg j with free := true }
        else s.g_queue_msg j) ∧
    (∀ m : T_midioutmsg, s.g_end_queue_msg ≤ (queue_insert s m).g_end_queue_msg) ∧
    (∀ (critere : Int) (m : T_midioutmsg),
      critere = OUT_QUEUE_FLUSH ∨ critere = OUT_QUEUE_NOTEOFF →
      (unqueue pf s critere m).2.g_end_queue_msg = s.g_end_queue_msg ∨
        ((unqueue pf s critere m).2.g_end_queue_msg = 0 ∧
          ∀ j : Int, 0 ≤ j → j < OUT_QUEUE_MAX_MSG →
            (s.g_queue_msg j).free = true ∧
            ((unqueue pf s critere m).2.g_queue_msg j).free = true)) := by
  have hinv := reachableQueue_queueInv pf s h
  have hflush := fun m => unqueue_flush_inv pf s m hinv
  have hcancel := fun m => unqueue_noteoff_inv pf s m hinv
  obtain ⟨h0, h1, h2⟩ := hinv
  have hfree : ∀ j : Int, 0 ≤ j → j < OUT_QUEUE_MAX_MSG →
      (∀ i : Int, 0 ≤ i → i < s.g_end_queue_msg → (s.g_queue_msg i).free = true) →
      (s.g_queue_msg j).free = true := by
    intro j hj0 hj1 hall
    cases hf : (s.g_queue_msg j).free with
    | true => rfl
    | false =>
      have hlt := h2 j hj0 hj1 hf
      have := hall j hj0 hlt
      rw [hf] at this
      exact absurd this (by simp)
  refine ⟨h2, fun m j hj0 hj1 => (hflush m).2.1 j hj0 hj1,
    fun m j hj0 hj1 => (hcancel m).2.1 j hj0 hj1, fun m => queue_insert_bound s m, ?_⟩
  intro critere m hcrit
  rcases hcrit with hc | hc
  · subst hc
    rcases (unqueue_flush_effect pf s m).2.2.2.2 with he | ⟨he, hall⟩
    · exact Or.inl he
    · refine Or.inr ⟨he, fun j hj0 hj1 => ?_⟩
      have hf := hfree j hj0 hj1 hall
      refine ⟨hf, ?_⟩
      rw [(hflush m).2.1 j hj0 hj1, if_neg (by rw [hf]; simp)]
      exact hf
  · subst hc
    rcases unqueue_noteoff_bound pf s m with he | ⟨he, hall⟩
    · exact Or.inl he
    · refine Or.inr ⟨he, fun j hj0 hj1 => ?_⟩
      have hf := hfree j hj0 hj1 hall
      refine ⟨hf, ?_⟩
      rw [(hcancel m).2.1 j hj0 hj1, if_neg (by rw [hf]; simp)]
      exact hf

/-- C28 (witness) : the queue after `fifo_init` and one `queue_insert` : the slot 0 is
occupied and the scan bound is 1. -/
theorem C28_occupied_slots_below_scan_bound_witness :
    ((queue_insert (fifo_init (init_state platform_example))
      (T_midioutmsg.mk 7 0 40 3 144 60 100 0)).g_queue_msg 0).free = false ∧
    (queue_insert (fifo_init (init_state platform_example))
      (T_midioutmsg.mk 7 0 40 3 144 60 100 0)).g_end_queue_msg = 1 ∧
    (0 : Int) < (queue_insert (fifo_init (init_state platform_example))
      (T_midioutmsg.mk 7 0 40 3 144 60 100 0)).g_end_queue_msg :=
  ⟨by decide, by decide,
    (C28_occupied_slots_below_scan_bound platform_example
      (queue_insert (fifo_init (init_state platform_example))
        (T_midioutmsg.mk 7 0 40 3 144 60 100 0))
      (ReachableQueue.enqueue _ _ (ReachableQueue.init _))).1 0 (by decide) (by decide)
      (by decide)⟩

/-! ## Owners kept by an extension -/

/-- C26 (counterexample) : a reachable map where, on the device 0, the logical channel 0
owns the physical channels 0 and 14 and the physical channel 15 is unused.
`channel_extended_set(0, 14, 1, false)` returns 0 and the physical channel 14, owned by the
logical channel 0 before the call, is owned by the logical channel 14 after
it (`g_channels[nr_device][nr_channel].extended = nr_channel` has no test). -/
theorem C26_own_channel_taken_from_owner :
    ReachableChannels (channel_shared_example platform_example).g_channels ∧
    (channel_shared_example platform_example).g_channels 0 0 = 0 ∧
    (channel_shared_example platform_example).g_channels 0 14 = 0 ∧
    (channel_shared_example platform_example).g_channels 0 15 = -1 ∧
    (channel_extended_set (channel_shared_example platform_example) 0 14 1 false).1 = 0 ∧
    (channel_extended_set (channel_shared_example platform_example) 0 14 1 false).2.g_channels
      0 14 = 14 ∧
    (channel_extended_set (channel_shared_example platform_example) 0 14 1 false).2.g_channels
      0 15 = 14 := by
  have hr : ReachableChannels (channel_shared_example platform_example).g_channels :=
    ReachableChannels.extend _ 0 1 0 false
      (ReachableChannels.extend _ 0 0 1 false
        (ReachableChannels.extend (init_state platform_example) 0 1 1 false
          ReachableChannels.reset (by decide) (by decide))
        (by decide) (by decide))
      (by decide) (by decide)
  have h1 : (channel_shared_example platform_example).g_channels 0 0 = 0 := by decide
  have h2 : (channel_shared_example platform_example).g_channels 0 14 = 0 := by decide
  have h3 : (channel_shared_example platform_example).g_channels 0 15 = -1 := by decide
  have h4 : (channel_extended_set (channel_shared_example platform_example) 0 14 1 false).1
      = 0 := by decide
  have h5 : (channel_extended_set (channel_shared_example platform_example) 0 14 1
      false).2.g_channels 0 14 = 14 := by decide
  have h6 : (channel_extended_set (channel_shared_example platform_example) 0 14 1
      false).2.g_channels 0 15 = 14 := by decide
  exact ⟨hr, h1, h2, h3, h4, h5, h6⟩

/-- C26 (amended) : `channel_extended_set(nr_device, nr_channel, nb_additional_channel, except_channel10)`, whatever it
returns : every physical channel other than the channel `nr_channel` of the
device `nr_device` which is owned by a logical channel other than `nr_channel`
before the call is owned by the same logical channel after the call. -/
theorem C26_extend_keeps_other_owners (s : T_state)
    (nr_device nr_channel nb_additional_channel : Int) (except_channel10 : Bool)
    (d j owner : Int)
    (hown : s.g_channels d j = owner) (h0 : 0 ≤ owner) (hother : owner ≠ nr_channel)
    (hj : d ≠ nr_device ∨ j ≠ nr_channel) :
    (channel_extended_set s nr_device nr_channel nb_additional_channel
      except_channel10).2.g_channels d j = owner := by
  unfold channel_extended_set
  dsimp only
  by_cases hd : d = nr_device
  · subst hd
    rw [set1_same]
    have hjc : j ≠ nr_channel := by
      rcases hj with h | h
      · exact absurd rfl h
      · exact h
    rcases channel_extended_row_effect (s.g_channels d) nr_channel nb_additional_channel
      except_channel10 j with h | ⟨h, _⟩ | ⟨h, _⟩ | ⟨h, _⟩
    · rw [h, hown]
    · exact absurd h hjc
    · omega
    · omega
  · rw [set1_other _ _ _ _ hd]
    exact hown

/-- C26 (witness) : in the state `channel_shared_example`, `channel_extended_set(0, 14, 1, false)` leaves
the physical channel 0 of the device 0 to the logical channel 0. -/
theorem C26_extend_keeps_other_owners_witness :
    (channel_shared_example platform_example).g_channels 0 0 = 0 ∧
    (channel_extended_set (channel_shared_example platform_example) 0 14 1 false).2.g_channels
      0 0 = 0 :=
  ⟨by decide,
    C26_extend_keeps_other_owners (channel_shared_example platform_example) 0 14 1 false 0 0 0
      (by decide) (by decide) (by decide) (Or.inr (by decide))⟩

/-! ## Return of chordOff -/

/-- One turn of the loop of `LoutChordOff` : the state does not depend on
`retCode`, and `retCode` is kept when the turn cancels no queued note-on and
its note-off is accepted, and is -1 otherwise. -/
theorem chordoff_step_ret (pf : T_platform) (n c velo dt retCode : Int) (s : T_state) :
    (chordoff_step pf n c velo dt retCode s).2 = (chordoff_step pf n c velo dt 0 s).2 ∧
    (chordoff_step pf n c velo dt retCode s).1 =
      if chordoff_step_sent pf n c velo dt s = true then retCode else -1 := by
  unfold chordoff_step chordoff_step_sent
  dsimp only
  generalize hu : T_midioutmsg.mk ((s.g_chords n).msg_off c).id ((s.g_chords n).msg_off c).track
    (if dt ≠ -1000 then dt else ((s.g_chords n).msg_off c).dt)
    ((s.g_chords n).msg_off c).nbbyte
    (toBYTE (MIDI_NOTEOFF * 16 + ((s.g_chords n).msg_off c).bData0 % 16))
    ((s.g_chords n).msg_off c).bData1 (toBYTE velo) ((s.g_chords n).msg_off c).bData3 = u
  by_cases hq : (unqueue pf s OUT_QUEUE_NOTEOFF u).1 = 0
  · rw [if_pos hq, if_pos hq]
    cases hsend : (sendmsgdt pf (unqueue pf s OUT_QUEUE_NOTEOFF u).2 u).1 <;> simp [hq]
  · rw [if_neg hq, if_neg hq]
    simp [hq]

/-- The loop of `LoutChordOff` entered with `retCode` 0 or -1 : it returns 0 or
-1, and 0 exactly when it is entered with 0 and every turn cancels no queued
note-on and has its note-off accepted. -/
theorem chordoff_loop_ret (pf : T_platform) (n velo dt : Int) :
    ∀ (fuel : Nat) (c retCode : Int) (s : T_state), retCode = 0 ∨ retCode = -1 →
      ((chordoff_loop pf n velo dt fuel c retCode s).1 = 0 ∨
        (chordoff_loop pf n velo dt fuel c retCode s).1 = -1) ∧
      ((chordoff_loop pf n velo dt fuel c retCode s).1 = 0 ↔
        (retCode = 0 ∧ chordoff_all_sent pf n velo dt fuel c s = true)) := by
  intro fuel
  induction fuel with
  | zero =>
    intro c retCode s hrc
    exact ⟨hrc, ⟨fun h => ⟨h, rfl⟩, fun h => h.1⟩⟩
  | succ k ih =>
    intro c retCode s hrc
    rw [chordoff_loop_succ]
    by_cases hc : c < (s.g_chords n).nbOff
    · rw [if_pos hc]
      obtain ⟨hs2, hs1⟩ := chordoff_step_ret pf n c velo dt retCode s
      have hall : chordoff_all_sent pf n velo dt (k + 1) c s =
          (chordoff_step_sent pf n c velo dt s &&
            chordoff_all_sent pf n velo dt k (c + 1) (chordoff_step pf n c velo dt 0 s).2) := by
        simp only [chordoff_all_sent, if_pos hc]
      rw [hall, hs2, hs1]
      by_cases hsent : chordoff_step_sent pf n c velo dt s = true
      · rw [if_pos hsent, hsent]
        have := ih (c + 1) retCode (chordoff_step pf n c velo dt 0 s).2 hrc
        simpa using this
      · rw [if_neg hsent]
        have := ih (c + 1) (-1) (chordoff_step pf n c velo dt 0 s).2 (Or.inr rfl)
        have hf : chordoff_step_sent pf n c velo dt s = false := by
          cases h : chordoff_step_sent pf n c velo dt s
          · rfl
          · exact absurd h hsent
        rw [hf]
        refine ⟨this.1, ?_⟩
        constructor
        · intro h0
          have := this.2.1 h0
          omega
        · intro h0
          simp at h0
    · rw [if_neg hc]
      have hall : chordoff_all_sent pf n velo dt (k + 1) c s = true := by
        simp only [chordoff_all_sent, if_neg hc]
      exact ⟨hrc, ⟨fun h => ⟨h, hall⟩, fun h => h.1⟩⟩

/-- C23 (counterexample) : the chord 5 after `chordOn(5, 100, 0, 1)` : the note-ons of the pitches
60 and 64 are sent, the one of the pitch 67 is queued.  `chordOff(5, 0, 0)` handles
the three pending notes (the two note-offs are sent, the queued note-on is
cancelled), and it returns -1 : a cancel sets
`retCode = -1`. -/
theorem C23_cancelled_note_returns_minus_1 :
    chord_get (chord_on_example platform_example) 5 = some 0 ∧
    ((chord_on_example platform_example).g_chords 0).nbOff = 3 ∧
    (chord_on_example platform_example).transport =
      [T_sent.mk 0 144 60 100, T_sent.mk 0 144 64 100] ∧
    ((chord_on_example platform_example).g_queue_msg 0).free = false ∧
    ((chord_on_example platform_example).g_queue_msg 0).midioutmsg.bData1 = 67 ∧
    (LoutChordOff platform_example (chord_on_example platform_example) (some 5) 0 0).1 = -1 ∧
    (LoutChordOff platform_example (chord_on_example platform_example) (some 5) 0 0).2.transport =
      [T_sent.mk 0 144 60 100, T_sent.mk 0 144 64 100,
       T_sent.mk 0 128 60 0, T_sent.mk 0 128 64 0] ∧
    ((LoutChordOff platform_example (chord_on_example platform_example)
      (some 5) 0 0).2.g_queue_msg 0).free = true := by
  decide

/-- C23 (amended) : `LoutChordOff` on an existing chord returns 0 or -1, and it returns 0
exactly when every turn on a note of the pending-off list cancels no queued
note-on and has its note-off accepted by `sendmsgdt` (sent or queued); so it
returns -1 as soon as one note-on is cancelled while still queued or one send
fails.  It returns -3 when the id is not an integer and -2 when no chord has
the id. -/
theorem C23_chordOff_return (pf : T_platform) (s : T_state) (id n velocity dt : Int)
    (hget : chord_get s id = some n) :
    ((LoutChordOff pf s (some id) velocity dt).1 = 0 ∨
      (LoutChordOff pf s (some id) velocity dt).1 = -1) ∧
    ((LoutChordOff pf s (some id) velocity dt).1 = 0 ↔
      chordoff_all_sent pf n (cap velocity 0 128 0) dt (s.g_chords n).nbOff.toNat 0 s = true) ∧
    (LoutChordOff pf s none velocity dt).1 = -3 ∧
    (∀ id2 : Int, chord_get s id2 = none → (LoutChordOff pf s (some id2) velocity dt).1 = -2) := by
  have hl := chordoff_loop_ret pf n (cap velocity 0 128 0) dt (s.g_chords n).nbOff.toNat 0 0 s
    (Or.inl rfl)
  have e : (LoutChordOff pf s (some id) velocity dt).1 =
      (chordoff_loop pf n (cap velocity 0 128 0) dt (s.g_chords n).nbOff.toNat 0 0 s).1 := by
    unfold LoutChordOff
    simp only [hget]
  refine ⟨by rw [e]; exact hl.1, ?_, rfl, ?_⟩
  · rw [e, hl.2]
    simp
  · intro id2 h2
    unfold LoutChordOff
    simp only [h2]

/-- C23 (witness) : the chord 5 without delay between its notes, after `chordOn(5, 100, 0, 1)` :
the three note-ons are sent, every turn of `chordOff(5, 0, 0)` sends its note-off, and
the return is 0. -/
theorem C23_chordOff_return_witness :
    chord_get (chord_sounding_example platform_example) 5 = some 0 ∧
    chordoff_all_sent platform_example 0 (cap 0 0 128 0) 0
      ((chord_sounding_example platform_example).g_chords 0).nbOff.toNat 0
      (chord_sounding_example platform_example) = true ∧
    (LoutChordOff platform_example (chord_sounding_example platform_example) (some 5) 0 0).1
      = 0 :=
  ⟨by decide, by decide,
    (C23_chordOff_return platform_example (chord_sounding_example platform_example) 5 0 0 0
      (by decide)).2.1.2 (by decide)⟩

end Luabass
